import Mathlib

/-!
PanoSticher: the local-disk panorama task controllers.

A shallow embedding of `source/Task/PanoramaLocalDiskTask.cpp`: the single-thread
controller `CPUPanoramaLocalDiskTask::Impl` and the three-thread controller
`CudaPanoramaLocalDiskTask::Impl`, followed by the properties proved about them.

Conventions of the embedding.

* `int` members are `Int`; every counter of the code stays below the frame cap, so
  no 32-bit wrap-around is involved.
* `double` arithmetic is IEEE-754 binary64 with round-to-nearest, ties-to-even,
  modelled exactly on rationals (`roundDouble`); the operands of the code are
  32-bit integers, far from the subnormal and overflow ranges.
* External collaborators (source readers, the destination writer, reprojection,
  blending, the overlay filter, the render object) are not part of the embedded
  file; a call to one of them is resolved by a scripted outcome: a reader is the
  list of frames it will deliver, every other collaborator is a function from the
  call index to the outcome of that call.
* A stage thread is a program counter stored in the controller; one scheduler
  action executes one loop iteration (or one blocking queue operation) of one
  thread, and `cancel()` is a scheduler action of its own, so that every
  interleaving at that granularity is an action list.
* `clear()` and `init()` are modelled for calls made while no stage thread is
  running (no thread, or a thread that has returned and waits to be joined).
-/

namespace PanoSticher

/-! ## Double arithmetic -/

/-- Nearest integer to `q`, a tie going to the even neighbour. -/
def roundHalfEven (q : ℚ) : ℤ :=
  if q - ⌊q⌋ < 1 / 2 then ⌊q⌋
  else if 1 / 2 < q - ⌊q⌋ then ⌊q⌋ + 1
  else if ⌊q⌋ % 2 = 0 then ⌊q⌋ else ⌊q⌋ + 1

/-- Rounding of a non-negative rational to 53 significant bits: with
`e = ⌊log₂ q⌋` the result is the multiple of `2 ^ (e - 52)` nearest to `q`. -/
def roundMagnitude (q : ℚ) : ℚ :=
  (roundHalfEven (q / 2 ^ (Int.log 2 q - 52)) : ℚ) * 2 ^ (Int.log 2 q - 52)

/-- The binary64 value nearest to the rational `q` (round to nearest, ties to even). -/
def roundDouble (q : ℚ) : ℚ :=
  if q < 0 then -roundMagnitude (-q) else roundMagnitude q

/-- Conversion `double → int`: truncation toward zero. -/
def truncToInt (q : ℚ) : ℤ :=
  if 0 ≤ q then ⌊q⌋ else ⌈q⌉

/-- Lines 203-207 (and 958-962): `int step = 1; if (validFrameCount > 0)
step = validFrameCount / 100.0 + 0.5; if (step < 1) step = 1;`. -/
def progressStep (validFrameCount : Int) : Int :=
  let step : Int :=
    if validFrameCount > 0 then
      truncToInt (roundDouble (roundDouble ((validFrameCount : ℚ) / 100) + 1 / 2))
    else 1
  if step < 1 then 1 else step

/-- The argument of `finishPercent.store` at lines 303 and 992:
`double(count) / (validFrameCount > 0 ? validFrameCount : 100) * 100`, converted to `int`. -/
def progressValue (count validFrameCount : Int) : Int :=
  truncToInt (roundDouble (roundDouble
    ((count : ℚ) / (((if validFrameCount > 0 then validFrameCount else 100 : Int)) : ℚ)) * 100))

/-! ## Frames, readers, writer -/

/-- The media type tag of a frame (`avp::AUDIO`, `avp::VIDEO`, anything else). -/
inductive MediaType where
  | UNKNOWN
  | AUDIO
  | VIDEO
deriving DecidableEq, Repr

/-- What the controllers use of `avp::AudioVideoFrame2`: the tag and the time stamp. -/
structure AudioVideoFrame2 where
  mediaType : MediaType
  timeStamp : Int
deriving DecidableEq, Repr

instance : Inhabited AudioVideoFrame2 := ⟨⟨ MediaType.UNKNOWN, 0⟩⟩

/-- Outcome of a collaborator call that reports success by a `bool`:
it returns `true`, returns `false`, or throws a `std::exception`. -/
inductive CallResult where
  | ok
  | fail
  | throws
deriving DecidableEq, Repr

/-- Modelled from the spec: the source reader `avp::AudioVideoReader3` (§6, Source
Reader: `read(frame) -> bool`, false on exhaustion or error). A reader is the list
of frames its successive reads deliver; once they are used up the next read returns
`false`, or throws when `throwsAtEnd` is set. The loops stop reading at the first
read that does not deliver a frame. -/
structure AudioVideoReader3 where
  frames : List AudioVideoFrame2
  throwsAtEnd : Bool
deriving DecidableEq, Repr

/-- Result of one `read` / `readTo` call. -/
inductive ReadResult where
  | got (f : AudioVideoFrame2) (r : AudioVideoReader3)
  | eof
  | exc

/-- One call of `read` (CPU) or `readTo` (GPU). -/
def AudioVideoReader3.read (r : AudioVideoReader3) : ReadResult :=
  match r.frames with
  | f :: rest => ReadResult.got f { r with frames := rest }
  | [] => if r.throwsAtEnd then ReadResult.exc else ReadResult.eof

/-- Modelled from the spec: the destination writer `avp::AudioVideoWriter3` (§6,
Destination Writer: `open`, `write(frame) -> bool`, `close()`). `written` is the
sequence of frames accepted so far by the open destination, `calls` counts the
`write` calls. -/
structure AudioVideoWriter3 where
  isOpen : Bool
  written : List AudioVideoFrame2
  calls : Nat
deriving DecidableEq, Repr

/-- Effect of `writer.close()`. -/
def AudioVideoWriter3.close (w : AudioVideoWriter3) : AudioVideoWriter3 :=
  { w with isOpen := false }

/-- Effect of a successful `writer.open(...)`: a new, empty destination. -/
def AudioVideoWriter3.opened : AudioVideoWriter3 :=
  { isOpen := true, written := [], calls := 0 }

/-- Effect of a `write` call that returned `true`. -/
def AudioVideoWriter3.accept (w : AudioVideoWriter3) (f : AudioVideoFrame2) : AudioVideoWriter3 :=
  { w with written := w.written ++ [f], calls := w.calls + 1 }

/-- Effect of a `write` call that returned `false` or threw. -/
def AudioVideoWriter3.reject (w : AudioVideoWriter3) : AudioVideoWriter3 :=
  { w with calls := w.calls + 1 }

/-- The parameters of `init`, common to both controllers (lines 72-75, 555-558). -/
structure InitArgs where
  srcVideoFiles : List String
  offsets : List Int
  tryAudioIndex : Int
  cameraParamFile : String
  customMaskFile : String
  dstVideoFile : String
  dstWidth : Int
  dstHeight : Int
  dstVideoBitRate : Int
  dstVideoEncoder : String
  dstVideoPreset : String
  dstVideoMaxFrameCount : Int

/-- Modelled from the spec: the out-parameters of a successful `prepareSrcVideos`
(PanoramaTaskUtil.h; §4.3: init "opens source readers"): one opened reader per source
file, the index of the audio-bearing source and the number of frames available. -/
structure PreparedSrc where
  readers : List AudioVideoReader3
  audioIndex : Int
  validFrameCount : Int

/-- How a call of `start()` ends: it returns a `bool`, or the process is ended by
`std::terminate` (a `std::thread` that is still joinable is destroyed). -/
inductive StartOutcome (σ : Type) where
  | returned (result : Bool) (s : σ)
  | terminated (s : σ)

/-- The value `start()` returned, if it returned. -/
def StartOutcome.result? {σ : Type} : StartOutcome σ → Option Bool
  | StartOutcome.returned r _ => some r
  | StartOutcome.terminated _ => none

/-- The controller after the call. -/
def StartOutcome.state {σ : Type} : StartOutcome σ → σ
  | StartOutcome.returned _ s => s
  | StartOutcome.terminated s => s

/-- Lines 114-115 and 583-584: `if (dstVideoMaxFrameCount > 0 && validFrameCount >
dstVideoMaxFrameCount) validFrameCount = dstVideoMaxFrameCount;`. -/
def capFrameCount (validFrameCount dstVideoMaxFrameCount : Int) : Int :=
  if dstVideoMaxFrameCount > 0 ∧ validFrameCount > dstVideoMaxFrameCount then
    dstVideoMaxFrameCount
  else validFrameCount

end PanoSticher

namespace PanoSticher

/-! ## CPUPanoramaLocalDiskTask::Impl -/

namespace CPUPanoramaLocalDiskTask

/-- The locals of `run()` that live across loop iterations (lines 202-213). -/
structure RunLocals where
  count : Int
  step : Int
  frames : Nat → AudioVideoFrame2

/-- Where the thread created by `start()` stands: created but `run()` not yet
entered, at the head of the `while (true)` loop, or returned from `run()` (and
still joinable). -/
inductive ThreadState where
  | spawned
  | running (l : RunLocals)
  | finished

/-- Which `blend` overload a video sample went through (lines 259-280): the baseline
masks, or override masks, with the list telling, per source, whether its custom mask
(`true`) or its baseline unique mask (`false`) was used. -/
inductive BlendCall where
  | baseline
  | custom (usesCustomMask : List Bool)
deriving DecidableEq, Repr

/-- The members of `CPUPanoramaLocalDiskTask::Impl` (lines 34-59) that carry control
state. `storeLog` (every value passed to `finishPercent.store`, oldest first),
`blendLog` and `spawnCount` (number of `std::thread` objects constructed) are
history variables of the embedding. -/
structure Impl where
  numVideos : Int
  audioIndex : Int
  readers : List AudioVideoReader3
  useCustomMasks : Int
  writer : AudioVideoWriter3
  endFlag : Bool
  finishPercent : Int
  validFrameCount : Int
  thread : Option ThreadState
  syncErrorMessage : String
  asyncErrorMessage : String
  hasAsyncError : Int
  initSuccess : Bool
  finish : Bool
  storeLog : List Int
  blendLog : List BlendCall
  spawnCount : Nat

/-- Outcomes of the collaborator calls made by `init` (lines 72-190). -/
structure InitEnv where
  /-- `loadPhotoParams(cameraParamFile, params)`: `some n` when it succeeds with `n` entries. -/
  loadPhotoParams : Option Nat
  prepareSrcVideos : Option PreparedSrc
  blenderPrepare : Bool
  /-- `loadIntervaledContours(customMaskFile, contours)`: `some n` for `n` contour lists. -/
  loadIntervaledContours : Option Nat
  cvtContoursToMasks : Bool
  logoFilterInit : Bool
  writerOpen : Bool

/-- Outcomes of the collaborator calls made by `run` (lines 192-324), by call index,
and the global switch `addLogo`. For `reprojectParallelTo16S` and `blend`, which
return nothing, `true` means the call returns and `false` that it throws. -/
structure RunEnv where
  addLogo : Bool
  reproject : Nat → Bool
  blend : Nat → Bool
  logoFilterAddLogo : Nat → CallResult
  writerWrite : Nat → CallResult
  /-- `customMasks[i].getMask(timeStamp, mask)` for source `i`. -/
  getMask : Nat → Int → Bool

/-- `finishPercent.store(v)`. -/
def Impl.storePercent (s : Impl) (v : Int) : Impl :=
  { s with finishPercent := v, storeLog := s.storeLog ++ [v] }

/-- Lines 408-413. -/
def Impl.setAsyncErrorMessage (s : Impl) (message : String) : Impl :=
  { s with hasAsyncError := 1, asyncErrorMessage := message }

/-- Lines 415-420. -/
def Impl.clearAsyncErrorMessage (s : Impl) : Impl :=
  { s with hasAsyncError := 0, asyncErrorMessage := "" }

/-- Lines 379-395 of `clear()`: the part before the `join`, in which the progress
counter is stored. -/
def Impl.clearBeforeJoin (s : Impl) : Impl :=
  { (Impl.storePercent
      { s with
        numVideos := 0
        readers := []
        useCustomMasks := 0
        writer := s.writer.close
        endFlag := false } 0) with
    validFrameCount := 0 }

/-- Lines 399-405 of `clear()`: `thread.reset(0)` and the part after it. -/
def Impl.clearAfterJoin (s : Impl) : Impl :=
  Impl.clearAsyncErrorMessage
    { s with
      thread := none
      syncErrorMessage := ""
      initSuccess := false
      finish := true }

/-- Lines 377-406 when there is no thread to wait for: none was started, or the
thread has returned from `run()`, so that the `join` at lines 397-398 returns at
once. For a thread that has not returned yet see `Impl.clearJoining`. -/
def Impl.clear (s : Impl) : Impl :=
  s.clearBeforeJoin.clearAfterJoin

/-- The constructor `Impl()` (lines 62-65): `clear()` on a fresh object. -/
def Impl.new : Impl :=
  Impl.clear
    { numVideos := 0, audioIndex := 0, readers := [], useCustomMasks := 0,
      writer := { isOpen := false, written := [], calls := 0 }, endFlag := false,
      finishPercent := 0, validFrameCount := 0, thread := none, syncErrorMessage := "",
      asyncErrorMessage := "", hasAsyncError := 0, initSuccess := false, finish := true,
      storeLog := [], blendLog := [], spawnCount := 0 }

/-- `syncErrorMessage = m; return false;`. -/
def Impl.failInit (s : Impl) (m : String) : Bool × Impl :=
  (false, { s with syncErrorMessage := m })

/-- Lines 128-153, the custom-mask part of `init`: the value left in `useCustomMasks`,
or the message of the failing path. -/
def initCustomMasks (e : InitEnv) (a : InitArgs) (numVideos : Int) : Except String Int :=
  if a.customMaskFile.length = 0 then Except.ok 0
  else
    match e.loadIntervaledContours with
    | none => Except.error "初始化拼接失败。"
    | some n =>
      if (n : Int) ≠ numVideos then Except.error "初始化拼接失败。"
      else if !e.cvtContoursToMasks then Except.error "初始化拼接失败。"
      else Except.ok 1

/-- Lines 79-190: `init` after its call of `clear()` at line 77, on the controller
`s` that `clear()` has left. -/
def Impl.initAfterClear (e : InitEnv) (a : InitArgs) (s : Impl) : Bool × Impl :=
  if a.srcVideoFiles.isEmpty ∨ a.srcVideoFiles.length ≠ a.offsets.length then
    s.failInit "参数校验失败。"
  else
    let s := { s with numVideos := (a.srcVideoFiles.length : Int) }
    match e.loadPhotoParams with
    | none => s.failInit "初始化拼接失败。"
    | some n =>
      if (n : Int) ≠ s.numVideos then s.failInit "初始化拼接失败。"
      else
        match e.prepareSrcVideos with
        | none => s.failInit "打开视频失败。"
        | some p =>
          let s := { s with
            readers := p.readers
            audioIndex := p.audioIndex
            validFrameCount := capFrameCount p.validFrameCount a.dstVideoMaxFrameCount }
          if !e.blenderPrepare then s.failInit "初始化拼接失败。"
          else
            let s := { s with useCustomMasks := 0 }
            match initCustomMasks e a s.numVideos with
            | Except.error m => s.failInit m
            | Except.ok u =>
              let s := { s with useCustomMasks := u }
              if !e.logoFilterInit then s.failInit "初始化拼接失败。"
              else if !e.writerOpen then s.failInit "无法创建拼接视频。"
              else
                (true, { (Impl.storePercent { s with writer := AudioVideoWriter3.opened } 0) with
                          initSuccess := true
                          finish := false })

/-- Lines 72-190 when there is no thread to wait for (see `Impl.clear`). -/
def Impl.init (e : InitEnv) (a : InitArgs) (s0 : Impl) : Bool × Impl :=
  Impl.initAfterClear e a s0.clear

/-- Lines 326-336. `thread.reset(new std::thread(...))` first constructs the new
thread and then destroys the `std::thread` held before; destroying one that is
still joinable calls `std::terminate`. -/
def Impl.start (s : Impl) : StartOutcome Impl :=
  if !s.initSuccess then StartOutcome.returned false s
  else if s.finish then StartOutcome.returned false s
  else
    match s.thread with
    | none =>
      StartOutcome.returned true
        { s with thread := some ThreadState.spawned, spawnCount := s.spawnCount + 1 }
    | some _ =>
      StartOutcome.terminated { s with spawnCount := s.spawnCount + 1 }

/-- Lines 338-343. `none`: the `join` is still blocked, the thread has not returned. -/
def Impl.waitForCompletion (s : Impl) : Option Impl :=
  match s.thread with
  | none => some s
  | some ThreadState.finished => some { s with thread := none }
  | some _ => none

/-- Lines 345-348. -/
def Impl.getProgress (s : Impl) : Int := s.finishPercent

/-- Lines 350-353. -/
def Impl.cancel (s : Impl) : Impl := { s with endFlag := true }

/-- Lines 355-358. -/
def Impl.getLastSyncErrorMessage (s : Impl) : String := s.syncErrorMessage

/-- Lines 360-363: the `int` flag converted to `bool`. -/
def Impl.hasAsyncErrorMessage (s : Impl) : Bool := s.hasAsyncError ≠ 0

/-- Lines 365-375: the message handed back and the controller afterwards. -/
def Impl.getLastAsyncErrorMessage (s : Impl) : String × Impl :=
  if s.hasAsyncError ≠ 0 then (s.asyncErrorMessage, { s with hasAsyncError := 0 })
  else ("", s)

/-- Lines 319-323, the end of `run()`. -/
def Impl.finishRun (s : Impl) : Impl :=
  { (s.storePercent 100) with finish := true, thread := some ThreadState.finished }

/-- Leaving the loop by `break`: lines 309-311, then the end of `run()`. -/
def Impl.exitLoop (s : Impl) : Impl :=
  Impl.finishRun { s with writer := s.writer.close }

/-- Lines 309-311 alone: `run()` has left the loop, has closed the sources and the
destination and has not yet executed line 319; `Impl.exitLoop` is this followed by
`Impl.finishRun`. -/
def Impl.leaveLoop (s : Impl) : Impl :=
  { s with writer := s.writer.close }

/-- Leaving the `try` block by an exception: the handler at lines 313-317, then the
end of `run()`. -/
def Impl.catchException (s : Impl) : Impl :=
  Impl.finishRun (s.setAsyncErrorMessage "视频拼接发生错误，任务终止。")

/-- Lines 377-406 when `clear()` is called while the thread of an earlier `start()`
has left the `try` block of `run()` (lines 309-311 or the handler at lines 313-317 are
done) and has not yet returned: lines 379-395 come first, the `join` at lines 397-398
waits until the thread has executed lines 319-323, then lines 399-405 follow. From
line 319 on the thread accesses only the atomic `finishPercent` and the member
`finish`, which `clear()` writes after the `join` (line 405). -/
def Impl.clearJoining (s : Impl) : Impl :=
  s.clearBeforeJoin.finishRun.clearAfterJoin

/-- Lines 72-190 when `init` is called in that situation. -/
def Impl.initJoining (e : InitEnv) (a : InitArgs) (s0 : Impl) : Bool × Impl :=
  Impl.initAfterClear e a s0.clearJoining

/-- The `for` loop at lines 241-253 over the readers `i, i+1, ...` (the vector
`readers` holds `numVideos` readers): every source but the audio-bearing one is read
into `frames[i]`; the first read that fails ends the loop with `ok = false`. -/
def readVideoFrames (audioIndex : Int) :
    Nat → List AudioVideoReader3 → (Nat → AudioVideoFrame2) →
      CallResult × List AudioVideoReader3 × (Nat → AudioVideoFrame2)
  | _, [], fs => (CallResult.ok, [], fs)
  | i, r :: rs, fs =>
    if (i : Int) = audioIndex then
      let rest := readVideoFrames audioIndex (i + 1) rs fs
      (rest.1, r :: rest.2.1, rest.2.2)
    else
      match r.read with
      | ReadResult.eof => (CallResult.fail, r :: rs, fs)
      | ReadResult.exc => (CallResult.throws, r :: rs, fs)
      | ReadResult.got f r' =>
        let rest := readVideoFrames audioIndex (i + 1) rs (Function.update fs i f)
        (rest.1, r' :: rest.2.1, rest.2.2)

/-- Lines 259-280: the blend overload chosen for a sample. -/
def chooseBlend (env : RunEnv) (s : Impl) (frames : Nat → AudioVideoFrame2) : BlendCall :=
  if s.useCustomMasks ≠ 0 then
    let uses := (List.range s.numVideos.toNat).map
      (fun i => env.getMask i (frames i).timeStamp)
    if uses.any id then BlendCall.custom uses else BlendCall.baseline
  else BlendCall.baseline

/-- Lines 302-303: `if (count % step == 0) finishPercent.store(...)`. -/
def Impl.updateProgress (s : Impl) (count step : Int) : Impl :=
  if Int.tmod count step = 0 then s.storePercent (progressValue count s.validFrameCount) else s

/-- Lines 301-306, after a video frame has been written. -/
def afterVideoWrite (s : Impl) (l : RunLocals) : Impl :=
  let s := s.updateProgress (l.count + 1) l.step
  if l.count + 1 ≥ s.validFrameCount then s.exitLoop
  else { s with thread := some (ThreadState.running { l with count := l.count + 1 }) }

/-- Lines 257-306: reprojection, blending, overlay and write of one complete sample. -/
def processSample (env : RunEnv) (s : Impl) (l : RunLocals) : Impl :=
  let k := l.count.toNat
  if !env.reproject k then s.catchException
  else
    let s := { s with blendLog := s.blendLog ++ [chooseBlend env s l.frames] }
    if !env.blend k then s.catchException
    else
      match (if env.addLogo then env.logoFilterAddLogo k else CallResult.ok) with
      | CallResult.throws => s.catchException
      | CallResult.fail => Impl.exitLoop (s.setAsyncErrorMessage "写入视频失败，任务终止。")
      | CallResult.ok =>
        match env.writerWrite s.writer.calls with
        | CallResult.throws => Impl.catchException { s with writer := s.writer.reject }
        | CallResult.fail =>
          Impl.exitLoop
            (Impl.setAsyncErrorMessage { s with writer := s.writer.reject }
              "写入视频失败，任务终止。")
        | CallResult.ok =>
          afterVideoWrite
            { s with writer := s.writer.accept ⟨ MediaType.VIDEO, (l.frames 0).timeStamp⟩ } l

/-- Lines 241-306: the remaining sources are read, then the sample is processed. -/
def videoIteration (env : RunEnv) (s : Impl) (l : RunLocals) : Impl :=
  match readVideoFrames s.audioIndex 0 s.readers l.frames with
  | (CallResult.throws, rs, _) => Impl.catchException { s with readers := rs }
  | (CallResult.fail, rs, _) => Impl.exitLoop { s with readers := rs }
  | (CallResult.ok, rs, fs) =>
    let s := { s with readers := rs }
    if s.endFlag then s.exitLoop
    else processSample env s { l with frames := fs }

/-- Lines 216-307: one iteration of the `while (true)` loop. -/
def loopIteration (env : RunEnv) (s : Impl) (l : RunLocals) : Impl :=
  if 0 ≤ s.audioIndex ∧ s.audioIndex < s.numVideos then
    match s.readers[s.audioIndex.toNat]? with
    | none => s.exitLoop
    | some r =>
      match r.read with
      | ReadResult.eof => s.exitLoop
      | ReadResult.exc => s.catchException
      | ReadResult.got f r' =>
        let s := { s with readers := s.readers.set s.audioIndex.toNat r' }
        let l := { l with frames := Function.update l.frames s.audioIndex.toNat f }
        if f.mediaType = MediaType.AUDIO then
          match env.writerWrite s.writer.calls with
          | CallResult.throws => Impl.catchException { s with writer := s.writer.reject }
          | CallResult.fail =>
            Impl.exitLoop
              (Impl.setAsyncErrorMessage { s with writer := s.writer.reject }
                "写入视频失败，任务终止。")
          | CallResult.ok =>
            { s with writer := s.writer.accept f, thread := some (ThreadState.running l) }
        else videoIteration env s l
  else videoIteration env s l

/-- One scheduling step of the thread running `run()` (lines 192-324): the entry
guards and the set-up of the locals, or one loop iteration (with the epilogue when
the iteration leaves the loop). Nothing happens when there is no thread or it has
returned. -/
def Impl.threadStep (env : RunEnv) (s : Impl) : Impl :=
  match s.thread with
  | none => s
  | some ThreadState.finished => s
  | some ThreadState.spawned =>
    if !s.initSuccess then { s with thread := some ThreadState.finished }
    else if s.finish then { s with thread := some ThreadState.finished }
    else
      { s with thread := some (ThreadState.running
          { count := 0, step := progressStep s.validFrameCount, frames := fun _ => default }) }
  | some (ThreadState.running l) => loopIteration env s l

/-- What the scheduler can do during a run: let the thread take a step, or deliver
a `cancel()` call from the caller's thread. -/
inductive Action where
  | step
  | cancel
deriving DecidableEq, Repr

/-- Effect of one scheduler action. -/
def Impl.act (env : RunEnv) (s : Impl) : Action → Impl
  | Action.step => s.threadStep env
  | Action.cancel => s.cancel

/-- Effect of a schedule, first action first. -/
def Impl.exec (env : RunEnv) (s : Impl) (schedule : List Action) : Impl :=
  schedule.foldl (Impl.act env) s

/-- The thread left alone for `n` steps. -/
def Impl.runSteps (env : RunEnv) (s : Impl) (n : Nat) : Impl :=
  s.exec env (List.replicate n Action.step)

/-- Whether the thread has returned from `run()`. -/
def Impl.runReturned (s : Impl) : Bool :=
  match s.thread with
  | some ThreadState.finished => true
  | _ => false

/-- A number of thread steps after which `run()` has returned, whatever the
schedule: one for the entry, one per frame the readers hold, one per frame of the
cap, one to leave. -/
def Impl.stepBound (s : Impl) : Nat :=
  (s.readers.map (fun r => r.frames.length)).sum + s.validFrameCount.toNat + 2

end CPUPanoramaLocalDiskTask

end PanoSticher

namespace PanoSticher

/-! ## CudaPanoramaLocalDiskTask::Impl -/

namespace CudaPanoramaLocalDiskTask

/-- What the stages use of `StampedPinnedMemoryVector` (lines 476-480): the time
stamps, one per source. -/
structure StampedPinnedMemoryVector where
  timeStamps : List Int
deriving DecidableEq, Repr

/-- What the stages use of `MixedAudioVideoFrame`: the frame header. -/
structure MixedAudioVideoFrame where
  frame : AudioVideoFrame2
deriving DecidableEq, Repr

/-- Modelled from the spec: the queue `BoundedCompleteQueue` (ConcurrentQueue.h is not
among the sources; spec §3 and §4.1): a capacity, the buffered items in arrival
order, and the stopped flag. -/
structure BoundedCompleteQueue (α : Type) where
  items : List α
  maxSize : Nat
  stopped : Bool
deriving DecidableEq, Repr

/-- Modelled from the spec: `push` "blocks while size == capacity and not stopped;
returns false immediately if already stopped; otherwise enqueues and returns true".
`none` stands for a call that is still blocked. -/
def BoundedCompleteQueue.push {α : Type} (q : BoundedCompleteQueue α) (x : α) :
    Option (Bool × BoundedCompleteQueue α) :=
  if q.stopped then some (false, q)
  else if q.maxSize ≤ q.items.length then none
  else some (true, { q with items := q.items ++ [x] })

/-- Result of a `pull` call. -/
inductive PullResult (α : Type) where
  | blocked
  | closed
  | item (x : α) (q : BoundedCompleteQueue α)

/-- Modelled from the spec: `pull` "blocks while empty and not stopped; if stopped and
empty, returns false; otherwise dequeues and returns true". -/
def BoundedCompleteQueue.pull {α : Type} (q : BoundedCompleteQueue α) : PullResult α :=
  match q.items with
  | x :: rest => PullResult.item x { q with items := rest }
  | [] => if q.stopped then PullResult.closed else PullResult.blocked

/-- Modelled from the spec: `stop()`, idempotent. -/
def BoundedCompleteQueue.stop {α : Type} (q : BoundedCompleteQueue α) : BoundedCompleteQueue α :=
  { q with stopped := true }

/-- Modelled from the spec: `size()`. -/
def BoundedCompleteQueue.size {α : Type} (q : BoundedCompleteQueue α) : Nat := q.items.length

/-- Modelled from the spec: `clear()` discards the buffered items. -/
def BoundedCompleteQueue.clear {α : Type} (q : BoundedCompleteQueue α) : BoundedCompleteQueue α :=
  { q with items := [] }

/-- Modelled from the spec: `setMaxSize(n)` fixes the capacity. -/
def BoundedCompleteQueue.setMaxSize {α : Type} (q : BoundedCompleteQueue α) (n : Nat) :
    BoundedCompleteQueue α :=
  { q with maxSize := n }

/-- Where the thread running `decode()` stands: created; at the head of the loop; in
`procFrameBuffer.push(audioFrame)` (line 806); in `decodeFramesBuffer.push(videoFrames)`
(line 841); after the loop, before the test at line 849; in the drain wait of lines
851-852; returned. -/
inductive DecodePc where
  | spawned
  | loop
  | pushAudio (f : AudioVideoFrame2)
  | pushVideo (v : StampedPinnedMemoryVector)
  | afterLoop
  | waitDrain
  | done
deriving DecidableEq, Repr

/-- Where the thread running `proc()` stands: created; at the head of the loop; in
`procFrameBuffer.push(videoFrame)` (line 936); after the loop, before the test at
line 941; in the drain wait of lines 943-944; returned. -/
inductive ProcPc where
  | spawned
  | loop
  | push (f : MixedAudioVideoFrame)
  | afterLoop
  | waitDrain
  | done
deriving DecidableEq, Repr

/-- Where the thread running `encode()` stands: created; at the head of the loop,
with the local `step`; returned. -/
inductive EncodePc where
  | spawned
  | loop (step : Int)
  | done
deriving DecidableEq, Repr

/-- The members of `CudaPanoramaLocalDiskTask::Impl` (lines 505-542) that carry
control state. `storeLog` and `spawnCount` are history variables as for the CPU
controller; `aborted` records that the process was ended by `std::terminate` (an
exception left a stage function) or ran into an out-of-range vector access. -/
structure Impl where
  numVideos : Int
  audioIndex : Int
  readers : List AudioVideoReader3
  decodeFramesBuffer : BoundedCompleteQueue StampedPinnedMemoryVector
  procFrameBuffer : BoundedCompleteQueue MixedAudioVideoFrame
  writer : AudioVideoWriter3
  isLibX264 : Int
  decodeCount : Int
  procCount : Int
  encodeCount : Int
  finishPercent : Int
  validFrameCount : Int
  decodeThread : Option DecodePc
  procThread : Option ProcPc
  encodeThread : Option EncodePc
  syncErrorMessage : String
  asyncErrorMessage : String
  hasAsyncError : Int
  initSuccess : Bool
  finish : Bool
  isCanceled : Bool
  storeLog : List Int
  spawnCount : Nat
  aborted : Bool
deriving DecidableEq, Repr

/-- Outcomes of the collaborator calls made by `init` (lines 555-671). -/
structure InitEnv where
  prepareSrcVideos : Option PreparedSrc
  srcFramesMemoryPoolInit : Bool
  audioFramesMemoryPoolInit : Bool
  renderPrepare : Bool
  /-- The value of `render.getNumImages()` after a successful `prepare`. -/
  renderNumImages : Int
  dstFramesMemoryPoolInit : Bool
  logoFilterInit : Bool
  writerOpen : Bool

/-- Outcomes of the collaborator calls made by the stages, by call index, and the
global switch `addLogo`. -/
structure RunEnv where
  addLogo : Bool
  render : Nat → CallResult
  logoFilterAddLogo : Nat → CallResult
  writerWrite : Nat → CallResult

/-- `finishPercent.store(v)`. -/
def Impl.storePercent (s : Impl) (v : Int) : Impl :=
  { s with finishPercent := v, storeLog := s.storeLog ++ [v] }

/-- Lines 1003-1008. -/
def Impl.setAsyncErrorMessage (s : Impl) (message : String) : Impl :=
  { s with hasAsyncError := 1, asyncErrorMessage := message }

/-- Lines 1010-1015. -/
def Impl.clearAsyncErrorMessage (s : Impl) : Impl :=
  { s with hasAsyncError := 0, asyncErrorMessage := "" }

/-- Lines 735-753 of `clear()`: the part before the joins, in which the progress
counter is stored. -/
def Impl.clearBeforeJoin (s : Impl) : Impl :=
  { (Impl.storePercent
      { s with
        numVideos := 0
        readers := []
        writer := s.writer.close
        decodeFramesBuffer := s.decodeFramesBuffer.clear
        procFrameBuffer := s.procFrameBuffer.clear
        decodeCount := 0
        procCount := 0
        encodeCount := 0 } 0) with
    validFrameCount := 0 }

/-- Lines 757-770 of `clear()`: the three `reset(0)` calls and the part after the
joins. -/
def Impl.clearAfterJoin (s : Impl) : Impl :=
  Impl.clearAsyncErrorMessage
    { s with
      decodeThread := none
      procThread := none
      encodeThread := none
      syncErrorMessage := ""
      initSuccess := false
      finish := true
      isCanceled := false }

/-- Lines 733-771 when there is no thread to wait for: none was started, or the three
stage threads have returned, so that the joins at lines 755-763 return at once. For
an `encode()` that has not returned yet see `Impl.clearJoining`. -/
def Impl.clear (s : Impl) : Impl :=
  s.clearBeforeJoin.clearAfterJoin

/-- Lines 733-771 when `clear()` is called while `decode()` and `proc()` have returned
and `encode()` has closed the destination (line 995) and has not yet returned: lines
735-753 come first, the join at lines 761-762 waits until `encode()` has executed
line 997, `finishPercent.store(100)`, then lines 763-770 follow. After line 997
`encode()` only reads `encodeCount` for its log line 999; the value read has no effect
on the controller. -/
def Impl.clearJoining (s : Impl) : Impl :=
  (Impl.storePercent s.clearBeforeJoin 100).clearAfterJoin

/-- The constructor `Impl()` (lines 545-548): `clear()` on a fresh object. -/
def Impl.new : Impl :=
  Impl.clear
    { numVideos := 0, audioIndex := 0, readers := [],
      decodeFramesBuffer := { items := [], maxSize := 0, stopped := false },
      procFrameBuffer := { items := [], maxSize := 0, stopped := false },
      writer := { isOpen := false, written := [], calls := 0 }, isLibX264 := 0,
      decodeCount := 0, procCount := 0, encodeCount := 0, finishPercent := 0,
      validFrameCount := 0, decodeThread := none, procThread := none, encodeThread := none,
      syncErrorMessage := "", asyncErrorMessage := "", hasAsyncError := 0,
      initSuccess := false, finish := true, isCanceled := false, storeLog := [],
      spawnCount := 0, aborted := false }

/-- `syncErrorMessage = m; return false;`. -/
def Impl.failInit (s : Impl) (m : String) : Bool × Impl :=
  (false, { s with syncErrorMessage := m })

/-- Lines 562-671: `init` after its call of `clear()` at line 560, on the controller
`s` that `clear()` has left. -/
def Impl.initAfterClear (e : InitEnv) (a : InitArgs) (s : Impl) : Bool × Impl :=
  if a.srcVideoFiles.isEmpty ∨ a.srcVideoFiles.length ≠ a.offsets.length then
    s.failInit "参数校验失败。"
  else
    let s := { s with numVideos := (a.srcVideoFiles.length : Int) }
    match e.prepareSrcVideos with
    | none => s.failInit "打开视频失败。"
    | some p =>
      let s := { s with
        readers := p.readers
        audioIndex := p.audioIndex
        validFrameCount := capFrameCount p.validFrameCount a.dstVideoMaxFrameCount }
      if !e.srcFramesMemoryPoolInit then s.failInit "初始化拼接失败。"
      else if ((0 : Int) ≤ s.audioIndex ∧ s.audioIndex < s.numVideos) ∧
          e.audioFramesMemoryPoolInit = false then
        s.failInit "初始化拼接失败。"
      else if !e.renderPrepare then s.failInit "初始化拼接失败。"
      else if e.renderNumImages ≠ s.numVideos then s.failInit "初始化拼接失败。"
      else
        let s := { s with isLibX264 := if a.dstVideoEncoder = "h264_qsv" then 0 else 1 }
        if !e.dstFramesMemoryPoolInit then s.failInit "初始化拼接失败。"
        else if !e.logoFilterInit then s.failInit "初始化拼接失败。"
        else if !e.writerOpen then s.failInit "无法创建拼接视频。"
        else
          (true,
            { (Impl.storePercent
                { s with
                  writer := AudioVideoWriter3.opened
                  decodeFramesBuffer := s.decodeFramesBuffer.setMaxSize 4
                  procFrameBuffer := s.procFrameBuffer.setMaxSize 16 } 0) with
              initSuccess := true
              finish := false })

/-- Lines 555-671 when there is no thread to wait for (see `Impl.clear`). -/
def Impl.init (e : InitEnv) (a : InitArgs) (s0 : Impl) : Bool × Impl :=
  Impl.initAfterClear e a s0.clear

/-- Lines 555-671 when `init` is called while `encode()` is about to return (see
`Impl.clearJoining`). -/
def Impl.initJoining (e : InitEnv) (a : InitArgs) (s0 : Impl) : Bool × Impl :=
  Impl.initAfterClear e a s0.clearJoining

/-- Lines 673-686. Each `reset(new std::thread(...))` first constructs the new thread
and then destroys the `std::thread` held before; destroying one that is still
joinable calls `std::terminate`. -/
def Impl.start (s : Impl) : StartOutcome Impl :=
  if !s.initSuccess then StartOutcome.returned false s
  else if s.finish then StartOutcome.returned false s
  else
    match s.decodeThread, s.procThread, s.encodeThread with
    | none, none, none =>
      StartOutcome.returned true
        { s with
          decodeThread := some DecodePc.spawned
          procThread := some ProcPc.spawned
          encodeThread := some EncodePc.spawned
          spawnCount := s.spawnCount + 3 }
    | some _, _, _ =>
      StartOutcome.terminated { s with spawnCount := s.spawnCount + 1, aborted := true }
    | none, some _, _ =>
      StartOutcome.terminated
        { s with
          decodeThread := some DecodePc.spawned
          spawnCount := s.spawnCount + 2, aborted := true }
    | none, none, some _ =>
      StartOutcome.terminated
        { s with
          decodeThread := some DecodePc.spawned
          procThread := some ProcPc.spawned
          spawnCount := s.spawnCount + 3, aborted := true }

/-- Whether a thread handle is empty or its thread has returned, so that the `join`
in `waitForCompletion` does not block. -/
def joinReady {α : Type} (isDone : α → Bool) : Option α → Bool
  | none => true
  | some pc => isDone pc

/-- Lines 688-704. `none`: a `join` is still blocked. -/
def Impl.waitForCompletion (s : Impl) : Option Impl :=
  if joinReady (fun pc => decide (pc = DecodePc.done)) s.decodeThread
      ∧ joinReady (fun pc => decide (pc = ProcPc.done)) s.procThread
      ∧ joinReady (fun pc => decide (pc = EncodePc.done)) s.encodeThread then
    some { s with decodeThread := none, procThread := none, encodeThread := none, finish := true }
  else none

/-- Lines 706-709. -/
def Impl.getProgress (s : Impl) : Int := s.finishPercent

/-- Lines 711-714. -/
def Impl.getLastSyncErrorMessage (s : Impl) : String := s.syncErrorMessage

/-- Lines 716-719: the `int` flag converted to `bool`. -/
def Impl.hasAsyncErrorMessage (s : Impl) : Bool := s.hasAsyncError ≠ 0

/-- Lines 721-731: the message handed back and the controller afterwards. -/
def Impl.getLastAsyncErrorMessage (s : Impl) : String × Impl :=
  if s.hasAsyncError ≠ 0 then (s.asyncErrorMessage, { s with hasAsyncError := 0 })
  else ("", s)

/-- Lines 773-776. -/
def Impl.cancel (s : Impl) : Impl := { s with isCanceled := true }

/-- An exception leaves a stage function, which has no handler: `std::terminate`. -/
def Impl.abort (s : Impl) : Impl := { s with aborted := true }

/-- The `for` loop at lines 816-837 over the readers `i, i+1, ...`: every source but
the audio-bearing one is read; a read that fails or delivers something else than
video ends the loop with `successRead = false`. -/
def readVideoSample (audioIndex : Int) :
    Nat → List AudioVideoReader3 → List Int → CallResult × List AudioVideoReader3 × List Int
  | _, [], ts => (CallResult.ok, [], ts)
  | i, r :: rs, ts =>
    if (i : Int) = audioIndex then
      let rest := readVideoSample audioIndex (i + 1) rs ts
      (rest.1, r :: rest.2.1, rest.2.2)
    else
      match r.read with
      | ReadResult.eof => (CallResult.fail, r :: rs, ts)
      | ReadResult.exc => (CallResult.throws, r :: rs, ts)
      | ReadResult.got f r' =>
        if f.mediaType = MediaType.VIDEO then
          let rest := readVideoSample audioIndex (i + 1) rs (ts.set i f.timeStamp)
          (rest.1, r' :: rest.2.1, rest.2.2)
        else (CallResult.fail, r' :: rs, ts)

/-- Lines 815-846 up to the push: the remaining sources are read and the sample is
handed to `decodeFramesBuffer.push`, unless a read failed or the task is cancelled. -/
def decodeVideoPart (s : Impl) (ts : List Int) : Impl :=
  match readVideoSample s.audioIndex 0 s.readers ts with
  | (CallResult.throws, rs, _) => Impl.abort { s with readers := rs }
  | (CallResult.fail, rs, _) => { s with readers := rs, decodeThread := some DecodePc.afterLoop }
  | (CallResult.ok, rs, ts') =>
    if s.isCanceled then { s with readers := rs, decodeThread := some DecodePc.afterLoop }
    else { s with readers := rs, decodeThread := some (DecodePc.pushVideo ⟨ts'⟩) }

/-- Lines 787-839: one iteration of the decode loop, up to its push. -/
def decodeIteration (s : Impl) : Impl :=
  let ts := List.replicate s.numVideos.toNat (0 : Int)
  if 0 ≤ s.audioIndex ∧ s.audioIndex < s.numVideos then
    match s.readers[s.audioIndex.toNat]? with
    | none => { s with decodeThread := some DecodePc.afterLoop }
    | some r =>
      match r.read with
      | ReadResult.eof => { s with decodeThread := some DecodePc.afterLoop }
      | ReadResult.exc => s.abort
      | ReadResult.got f r' =>
        let s := { s with readers := s.readers.set s.audioIndex.toNat r' }
        if f.mediaType = MediaType.AUDIO then
          { s with decodeThread := some (DecodePc.pushAudio f) }
        else if f.mediaType = MediaType.VIDEO then
          decodeVideoPart s (ts.set s.audioIndex.toNat f.timeStamp)
        else { s with decodeThread := some DecodePc.afterLoop }
  else decodeVideoPart s ts

/-- Lines 854-857, the end of `decode()`. -/
def Impl.finishDecode (s : Impl) : Impl :=
  { s with decodeFramesBuffer := s.decodeFramesBuffer.stop, decodeThread := some DecodePc.done }

/-- One scheduling step of the thread running `decode()` (lines 778-861). -/
def Impl.decodeStep (s : Impl) : Impl :=
  match s.decodeThread with
  | none => s
  | some DecodePc.done => s
  | some DecodePc.spawned => { s with decodeCount := 0, decodeThread := some DecodePc.loop }
  | some DecodePc.loop => decodeIteration s
  | some (DecodePc.pushAudio f) =>
    match s.procFrameBuffer.push ⟨f⟩ with
    | none => s
    | some (_, q) => { s with procFrameBuffer := q, decodeThread := some DecodePc.loop }
  | some (DecodePc.pushVideo v) =>
    match s.decodeFramesBuffer.push v with
    | none => s
    | some (_, q) =>
      let s := { s with decodeFramesBuffer := q, decodeCount := s.decodeCount + 1 }
      if s.decodeCount ≥ s.validFrameCount then { s with decodeThread := some DecodePc.afterLoop }
      else { s with decodeThread := some DecodePc.loop }
  | some DecodePc.afterLoop =>
    if !s.isCanceled then { s with decodeThread := some DecodePc.waitDrain }
    else s.finishDecode
  | some DecodePc.waitDrain =>
    if s.decodeFramesBuffer.size = 0 then s.finishDecode else s

/-- Lines 946-949, the end of `proc()`. -/
def Impl.finishProc (s : Impl) : Impl :=
  { s with procFrameBuffer := s.procFrameBuffer.stop, procThread := some ProcPc.done }

/-- Line 874: `int index = audioIndex >= 0 ? audioIndex : 0;`. -/
def timeStampIndex (audioIndex : Int) : Int :=
  if audioIndex ≥ 0 then audioIndex else 0

/-- Lines 883-934 for a pulled sample: render, overlay, and the output frame with the
time stamp `srcFrames.timeStamps[index]`, handed to the push. The colour conversion
and the downloads have no outcome of their own here. -/
def procSample (env : RunEnv) (s : Impl) (v : StampedPinnedMemoryVector) : Impl :=
  let k := s.procCount.toNat
  match env.render k with
  | CallResult.throws => s.abort
  | CallResult.fail =>
    { (s.setAsyncErrorMessage "视频拼接发生错误，任务终止。") with
      isCanceled := true, procThread := some ProcPc.afterLoop }
  | CallResult.ok =>
    match (if env.addLogo then env.logoFilterAddLogo k else CallResult.ok) with
    | CallResult.throws => s.abort
    | CallResult.fail =>
      { (s.setAsyncErrorMessage "视频拼接发生错误，任务终止。") with
        isCanceled := true, procThread := some ProcPc.afterLoop }
    | CallResult.ok =>
      match v.timeStamps[(timeStampIndex s.audioIndex).toNat]? with
      | none => s.abort
      | some t => { s with procThread := some (ProcPc.push ⟨⟨ MediaType.VIDEO, t⟩⟩) }

/-- One scheduling step of the thread running `proc()` (lines 863-950). -/
def Impl.procStep (env : RunEnv) (s : Impl) : Impl :=
  match s.procThread with
  | none => s
  | some ProcPc.done => s
  | some ProcPc.spawned => { s with procCount := 0, procThread := some ProcPc.loop }
  | some ProcPc.loop =>
    match s.decodeFramesBuffer.pull with
    | PullResult.blocked => s
    | PullResult.closed => { s with procThread := some ProcPc.afterLoop }
    | PullResult.item v q =>
      let s := { s with decodeFramesBuffer := q }
      if s.isCanceled then { s with procThread := some ProcPc.afterLoop }
      else procSample env s v
  | some (ProcPc.push f) =>
    match s.procFrameBuffer.push f with
    | none => s
    | some (_, q) =>
      { s with procFrameBuffer := q, procCount := s.procCount + 1, procThread := some ProcPc.loop }
  | some ProcPc.afterLoop =>
    if !s.isCanceled then { s with procThread := some ProcPc.waitDrain }
    else s.finishProc
  | some ProcPc.waitDrain =>
    if s.procFrameBuffer.size = 0 then s.finishProc else s

/-- Lines 995-1000, the end of `encode()`. -/
def Impl.finishEncode (s : Impl) : Impl :=
  { (Impl.storePercent { s with writer := s.writer.close } 100) with
    encodeThread := some EncodePc.done }

/-- Line 995 alone: `encode()` has left its loop, has closed the destination and has
not yet executed line 997; `Impl.finishEncode` is this followed by the store of 100
and the return. -/
def Impl.leaveEncodeLoop (s : Impl) : Impl :=
  { s with writer := s.writer.close }

/-- Lines 991-992: `if (encodeCount % step == 0) finishPercent.store(...)`. -/
def Impl.updateProgress (s : Impl) (step : Int) : Impl :=
  if Int.tmod s.encodeCount step = 0 then
    s.storePercent (progressValue s.encodeCount s.validFrameCount)
  else s

/-- Lines 987-988: only a video frame advances `encodeCount`. -/
def Impl.countFrame (s : Impl) (f : MixedAudioVideoFrame) : Impl :=
  if f.frame.mediaType = MediaType.VIDEO then { s with encodeCount := s.encodeCount + 1 } else s

/-- Lines 976-992 for a pulled frame. -/
def encodeFrame (env : RunEnv) (s : Impl) (step : Int) (f : MixedAudioVideoFrame) : Impl :=
  match env.writerWrite s.writer.calls with
  | CallResult.throws => Impl.abort { s with writer := s.writer.reject }
  | CallResult.fail =>
    Impl.finishEncode
      { (Impl.setAsyncErrorMessage { s with writer := s.writer.reject }
          "视频拼接发生错误，任务终止。") with isCanceled := true }
  | CallResult.ok =>
    Impl.updateProgress (Impl.countFrame { s with writer := s.writer.accept f.frame } f) step

/-- One scheduling step of the thread running `encode()` (lines 952-1001). -/
def Impl.encodeStep (env : RunEnv) (s : Impl) : Impl :=
  match s.encodeThread with
  | none => s
  | some EncodePc.done => s
  | some EncodePc.spawned =>
    { s with
      encodeCount := 0
      encodeThread := some (EncodePc.loop (progressStep s.validFrameCount)) }
  | some (EncodePc.loop step) =>
    match s.procFrameBuffer.pull with
    | PullResult.blocked => s
    | PullResult.closed => s.finishEncode
    | PullResult.item f q =>
      let s := { s with procFrameBuffer := q }
      if s.isCanceled then s.finishEncode
      else encodeFrame env s step f

/-- What the scheduler can do during a run: let one of the three stage threads take
a step, or deliver a `cancel()` call from the caller's thread. -/
inductive Action where
  | decode
  | proc
  | encode
  | cancel
deriving DecidableEq, Repr

/-- Effect of one scheduler action; nothing runs once the process has been ended. -/
def Impl.act (env : RunEnv) (s : Impl) (a : Action) : Impl :=
  if s.aborted then s
  else
    match a with
    | Action.decode => s.decodeStep
    | Action.proc => s.procStep env
    | Action.encode => s.encodeStep env
    | Action.cancel => s.cancel

/-- Effect of a schedule, first action first. -/
def Impl.exec (env : RunEnv) (s : Impl) (schedule : List Action) : Impl :=
  schedule.foldl (Impl.act env) s

/-- Whether the thread running `encode()` has returned. -/
def Impl.encodeReturned (s : Impl) : Bool :=
  decide (s.encodeThread = some EncodePc.done)

end CudaPanoramaLocalDiskTask

end PanoSticher

namespace PanoSticher

/-! ## Invariants and measures used by the proofs -/

namespace CPUPanoramaLocalDiskTask

/-- The stores of a run so far: the log is `base` followed by a non-decreasing list
of values bounded by `top`, and the counter holds a percentage. -/
def LogInv (v : Int) (base : List Int) (top : Int) (s : Impl) : Prop :=
  s.validFrameCount = v ∧ 0 ≤ s.finishPercent ∧ s.finishPercent ≤ 100 ∧
    ∃ l, s.storeLog = base ++ l ∧ l.Sorted (· ≤ ·) ∧ ∀ x ∈ l, x ≤ top

/-- The invariant of a run with frame cap `v` whose log started as `base`. -/
def RunInv (v : Int) (base : List Int) (s : Impl) : Prop :=
  match s.thread with
  | none => LogInv v base 100 s
  | some ThreadState.spawned =>
    s.initSuccess = true ∧ s.finish = false ∧ LogInv v base 0 s
  | some (ThreadState.running lc) =>
    0 ≤ lc.count ∧ (lc.count = 0 ∨ lc.count < v) ∧ LogInv v base (progressValue lc.count v) s
  | some ThreadState.finished => LogInv v base 100 s ∧ s.finishPercent = 100

/-- Number of frames the readers still hold. -/
def totalFrames (rs : List AudioVideoReader3) : Nat :=
  (rs.map (fun r => r.frames.length)).sum

/-- A bound on the number of thread steps before `run()` has returned. -/
def Impl.remaining (s : Impl) : Nat :=
  match s.thread with
  | none => 0
  | some ThreadState.finished => 0
  | some ThreadState.spawned => totalFrames s.readers + s.validFrameCount.toNat + 2
  | some (ThreadState.running l) =>
    totalFrames s.readers + (s.validFrameCount - l.count).toNat + 1

/-- No reader ends its stream by throwing. -/
def noReaderThrows (rs : List AudioVideoReader3) : Prop :=
  ∀ r ∈ rs, r.throwsAtEnd = false

/-- The frames of source `i` that the loop of `run()` takes as video frames: for the
audio-bearing source those that are not audio (line 224), for any other source all
of them. -/
def videoFramesOf (audioIndex : Int) (i : Nat) (r : AudioVideoReader3) : List AudioVideoFrame2 :=
  if (i : Int) = audioIndex then
    r.frames.filter (fun f => decide (f.mediaType ≠ MediaType.AUDIO))
  else r.frames

/-- Per source `i, i+1, ...`, the number of video frames it can still supply. -/
def videoCounts (audioIndex : Int) : Nat → List AudioVideoReader3 → List Nat
  | _, [] => []
  | i, r :: rs => (videoFramesOf audioIndex i r).length :: videoCounts audioIndex (i + 1) rs

/-- The least element of a list of naturals (0 for the empty list). -/
def minOf : List Nat → Nat
  | [] => 0
  | [x] => x
  | x :: y :: l => min x (minOf (y :: l))

/-- The number of complete video samples the sources can supply: one video frame
from every source per sample. -/
def completeSamples (audioIndex : Int) (rs : List AudioVideoReader3) : Nat :=
  minOf (videoCounts audioIndex 0 rs)

/-- The video frames the destination has accepted, in write order. -/
def writtenVideo (w : AudioVideoWriter3) : List AudioVideoFrame2 :=
  w.written.filter (fun f => decide (f.mediaType = MediaType.VIDEO))

/-- The time stamps of the video frames source 0 supplies, in read order. -/
def sourceTimeStamps (audioIndex : Int) : List AudioVideoReader3 → List Int
  | [] => []
  | r :: _ => (videoFramesOf audioIndex 0 r).map (fun f => f.timeStamp)

/-- The time stamps of the video frames written so far. -/
def Impl.writtenTimeStamps (s : Impl) : List Int :=
  (writtenVideo s.writer).map (fun f => f.timeStamp)

/-- Adds one to the entries of `cs` (standing for the indices `i, i+1, ...`) whose
index satisfies `p`. -/
def bumpIf (p : Nat → Bool) : Nat → List Nat → List Nat
  | _, [] => []
  | i, c :: cs => (if p i then c + 1 else c) :: bumpIf p (i + 1) cs

/-- The invariant behind the order of the written frames: `T` is the time-stamp
sequence of source 0 at the start of the run; while the loop runs, what has been
written followed by what source 0 still holds is `T`. -/
def OrderInv (T : List Int) (s : Impl) : Prop :=
  s.readers ≠ [] ∧ s.numVideos = (s.readers.length : Int) ∧
    match s.thread with
    | some ThreadState.spawned =>
      s.writtenTimeStamps ++ sourceTimeStamps s.audioIndex s.readers = T
    | some (ThreadState.running _) =>
      s.writtenTimeStamps ++ sourceTimeStamps s.audioIndex s.readers = T
    | _ => s.writtenTimeStamps <+: T

/-- The invariant behind the number of written frames in a run without failure or
cancellation: `n` is the number of complete samples the sources held at the start. -/
def CountInv (n : Nat) (s : Impl) : Prop :=
  s.readers ≠ [] ∧ s.numVideos = (s.readers.length : Int) ∧ s.endFlag = false ∧
    1 ≤ s.validFrameCount ∧
    match s.thread with
    | some ThreadState.spawned =>
      s.initSuccess = true ∧ s.finish = false ∧ (writtenVideo s.writer).length = 0 ∧
        completeSamples s.audioIndex s.readers = n
    | some (ThreadState.running l) =>
      ((writtenVideo s.writer).length : Int) = l.count ∧ l.count < s.validFrameCount ∧
        (writtenVideo s.writer).length + completeSamples s.audioIndex s.readers = n
    | _ => (writtenVideo s.writer).length = min n s.validFrameCount.toNat

/-- No collaborator call of the run fails: reprojection and blending return, the
overlay filter (when enabled) and every write return `true`. -/
def RunEnv.noFailure (env : RunEnv) : Prop :=
  (∀ k, env.reproject k = true) ∧ (∀ k, env.blend k = true) ∧
    (env.addLogo = true → ∀ k, env.logoFilterAddLogo k = CallResult.ok) ∧
    (∀ k, env.writerWrite k = CallResult.ok)

/-- No asynchronous error has been recorded, the synchronous message is `m`, and no
reader will throw. -/
def Quiet (m : String) (s : Impl) : Prop :=
  s.hasAsyncError = 0 ∧ s.syncErrorMessage = m ∧ noReaderThrows s.readers

end CPUPanoramaLocalDiskTask

namespace CudaPanoramaLocalDiskTask

/-- No collaborator call of the run fails: render, the overlay filter (when enabled)
and every write return `true`. -/
def RunEnv.noFailure (env : RunEnv) : Prop :=
  (∀ k, env.render k = CallResult.ok) ∧
    (env.addLogo = true → ∀ k, env.logoFilterAddLogo k = CallResult.ok) ∧
    (∀ k, env.writerWrite k = CallResult.ok)

/-- No asynchronous error has been recorded and the synchronous message is `m`. -/
def Quiet (m : String) (s : Impl) : Prop :=
  s.hasAsyncError = 0 ∧ s.syncErrorMessage = m

/-- The stores of a run so far, as for the CPU controller. -/
def LogInv (v : Int) (base : List Int) (top : Int) (s : Impl) : Prop :=
  s.validFrameCount = v ∧ 0 ≤ s.finishPercent ∧ s.finishPercent ≤ 100 ∧
    ∃ l, s.storeLog = base ++ l ∧ l.Sorted (· ≤ ·) ∧ ∀ x ∈ l, x ≤ top

/-- Number of video frames among buffered output frames. -/
def videoCount (l : List MixedAudioVideoFrame) : Int :=
  ((l.filter (fun f => decide (f.frame.mediaType = MediaType.VIDEO))).length : Int)

/-- One when `proc()` holds an output frame it has not pushed yet. -/
def inFlight : Option ProcPc → Int
  | some (ProcPc.push _) => 1
  | _ => 0

/-- What the program counter of `decode()` says about `decodeCount`. -/
def DecodeInv (v : Int) (s : Impl) : Prop :=
  match s.decodeThread with
  | some DecodePc.spawned => s.decodeCount = 0
  | some DecodePc.loop => s.decodeCount = 0 ∨ s.decodeCount < v
  | some (DecodePc.pushAudio f) =>
    (s.decodeCount = 0 ∨ s.decodeCount < v) ∧ f.mediaType = MediaType.AUDIO
  | some (DecodePc.pushVideo _) => s.decodeCount = 0 ∨ s.decodeCount < v
  | _ => s.decodeCount ≤ v ∨ s.decodeCount ≤ 1

/-- The bound on the values `encode()` has stored so far. -/
def encodeTop (v : Int) (s : Impl) : Int :=
  match s.encodeThread with
  | some EncodePc.spawned => 0
  | some (EncodePc.loop _) => progressValue s.encodeCount v
  | _ => 100

/-- The invariant of a run of the three stages with frame cap `v` whose log started
as `base`: the video frames counted by `encode()`, buffered in the two queues or held
by `proc()` never outnumber the samples `decode()` has pushed, and these stay inside
the cap. -/
structure RunInv (v : Int) (base : List Int) (s : Impl) : Prop where
  cap : s.validFrameCount = v
  decodeNonneg : 0 ≤ s.decodeCount
  encodeNonneg : 0 ≤ s.encodeCount
  decode : DecodeInv v s
  flow : s.encodeCount + videoCount s.procFrameBuffer.items + inFlight s.procThread
      + (s.decodeFramesBuffer.items.length : Int) ≤ s.decodeCount
  log : LogInv v base (encodeTop v s) s
  done : s.encodeThread = some EncodePc.done → s.finishPercent = 100

end CudaPanoramaLocalDiskTask

end PanoSticher

namespace PanoSticher

/-! ## Controllers after `init` and `start`, and sample data -/

/-- A video frame with time stamp `t`. -/
def videoFrame (t : Int) : AudioVideoFrame2 := ⟨ MediaType.VIDEO, t⟩

/-- An audio frame with time stamp `t`. -/
def audioFrame (t : Int) : AudioVideoFrame2 := ⟨ MediaType.AUDIO, t⟩

/-- Sample arguments of `init`: two source files, no custom masks, no frame cap. -/
def sampleArgs : InitArgs :=
  { srcVideoFiles := ["left.mp4", "right.mp4"], offsets := [0, 0], tryAudioIndex := 0,
    cameraParamFile := "param.xml", customMaskFile := "", dstVideoFile := "pano.mp4",
    dstWidth := 2048, dstHeight := 1024, dstVideoBitRate := 8000000,
    dstVideoEncoder := "h264", dstVideoPreset := "medium", dstVideoMaxFrameCount := -1 }

/-- Sample arguments of `init` whose offsets do not match the sources. -/
def mismatchedArgs : InitArgs := { sampleArgs with offsets := [0] }

/-- Two sample sources: the first carries audio between its video frames. -/
def sampleReaders : List AudioVideoReader3 :=
  [⟨[videoFrame 10, audioFrame 11, audioFrame 12, videoFrame 20, videoFrame 30], false⟩,
   ⟨[videoFrame 10, videoFrame 20, videoFrame 30, videoFrame 40], false⟩]

/-- Two sample sources of two video frames each. -/
def shortReaders : List AudioVideoReader3 :=
  [⟨[videoFrame 10, videoFrame 20], false⟩, ⟨[videoFrame 10, videoFrame 20], false⟩]

/-- Two sample sources of which the first throws on its first read. -/
def throwingReaders : List AudioVideoReader3 :=
  [⟨[], true⟩, ⟨[videoFrame 10, videoFrame 20], false⟩]

namespace CPUPanoramaLocalDiskTask

/-- The controller after `init(a)` on `s0` followed by `start()`. -/
def started (e : InitEnv) (a : InitArgs) (s0 : Impl) : Impl :=
  (Impl.start (Impl.init e a s0).2).state

/-- Collaborators of `init` that all succeed, for the given opened sources. -/
def sampleInitEnv (p : PreparedSrc) : InitEnv :=
  { loadPhotoParams := some 2, prepareSrcVideos := some p, blenderPrepare := true,
    loadIntervaledContours := none, cvtContoursToMasks := true, logoFilterInit := true,
    writerOpen := true }

/-- Collaborators of `init` where the calibration file cannot be loaded. -/
def failingInitEnv : InitEnv :=
  { loadPhotoParams := none, prepareSrcVideos := none, blenderPrepare := true,
    loadIntervaledContours := none, cvtContoursToMasks := true, logoFilterInit := true,
    writerOpen := true }

/-- Collaborators of `run` that never fail, with the overlay enabled. -/
def sampleRunEnv : RunEnv :=
  { addLogo := true, reproject := fun _ => true, blend := fun _ => true,
    logoFilterAddLogo := fun _ => CallResult.ok, writerWrite := fun _ => CallResult.ok,
    getMask := fun _ _ => false }

/-- Collaborators of `run` where the first reprojection throws. -/
def throwingRunEnv : RunEnv :=
  { sampleRunEnv with reproject := fun k => decide (k ≠ 0) }

end CPUPanoramaLocalDiskTask

namespace CudaPanoramaLocalDiskTask

/-- The controller after `init(a)` on `s0` followed by `start()`. -/
def started (e : InitEnv) (a : InitArgs) (s0 : Impl) : Impl :=
  (Impl.start (Impl.init e a s0).2).state

/-- Collaborators of `init` that all succeed, for the given opened sources. -/
def sampleInitEnv (p : PreparedSrc) : InitEnv :=
  { prepareSrcVideos := some p, srcFramesMemoryPoolInit := true,
    audioFramesMemoryPoolInit := true, renderPrepare := true, renderNumImages := 2,
    dstFramesMemoryPoolInit := true, logoFilterInit := true, writerOpen := true }

/-- Collaborators of `init` where the sources cannot be opened. -/
def failingInitEnv : InitEnv :=
  { prepareSrcVideos := none, srcFramesMemoryPoolInit := true,
    audioFramesMemoryPoolInit := true, renderPrepare := true, renderNumImages := 2,
    dstFramesMemoryPoolInit := true, logoFilterInit := true, writerOpen := true }

/-- Collaborators of the stages that never fail, with the overlay enabled. -/
def sampleRunEnv : RunEnv :=
  { addLogo := true, render := fun _ => CallResult.ok,
    logoFilterAddLogo := fun _ => CallResult.ok, writerWrite := fun _ => CallResult.ok }

/-- A schedule that lets the three stages take turns `n` times. -/
def roundRobin (n : Nat) : List Action :=
  (List.replicate n [Action.decode, Action.proc, Action.encode]).flatten

end CudaPanoramaLocalDiskTask

end PanoSticher

namespace PanoSticher

/-! ## Outcomes of single iterations -/

namespace CPUPanoramaLocalDiskTask

/-- How a step of `run()` that meets a failure leaves the controller `t` when it
started from `s`: `run()` has returned, an asynchronous error is pending, the
destination holds exactly the frames it held before, and the only value stored to the
progress counter is the final 100 of line 319. -/
def EndsWithError (s t : Impl) : Prop :=
  t.runReturned = true ∧ t.hasAsyncErrorMessage = true ∧
    t.writer.written = s.writer.written ∧ t.storeLog = s.storeLog ++ [100] ∧
    t.getProgress = 100

/-- What a step can do about the asynchronous error: leave the flag as it is, or end
the run with an error. -/
def ErrorOutcome (s t : Impl) : Prop :=
  t.hasAsyncError = s.hasAsyncError ∨ EndsWithError s t

/-- Collaborators of `run` where the second `write` call returns `false`. -/
def failingWriteEnv : RunEnv :=
  { sampleRunEnv with
    writerWrite := fun k => if k = 1 then CallResult.fail else CallResult.ok }

end CPUPanoramaLocalDiskTask

namespace CudaPanoramaLocalDiskTask

/-- Collaborators of the stages where every `render` call throws. -/
def throwingRenderEnv : RunEnv :=
  { sampleRunEnv with render := fun _ => CallResult.throws }

/-- Collaborators of the stages where every `write` call throws. -/
def throwingWriteEnv : RunEnv :=
  { sampleRunEnv with writerWrite := fun _ => CallResult.throws }

/-- The destination is closed whenever `encode()` has returned. -/
def WriterClosedAtEnd (s : Impl) : Prop :=
  s.encodeThread = some EncodePc.done → s.writer.isOpen = false

/-- An operation issued on a queue by its producer (`push`), by its consumer (`pull`)
or by either of them (`stop`). -/
inductive QueueOp (α : Type) where
  | push (x : α)
  | pull
  | stop

/-- A queue together with what its two users have observed: the items whose `push`
returned `true` and the items handed out by `pull`, each in call order. -/
structure QueueTrace (α : Type) where
  queue : BoundedCompleteQueue α
  accepted : List α
  pulled : List α

/-- An empty queue of capacity `n` on which nothing has been observed yet. -/
def QueueTrace.start {α : Type} (n : Nat) : QueueTrace α :=
  { queue := { items := [], maxSize := n, stopped := false }, accepted := [], pulled := [] }

/-- One operation on the queue; a call that blocks has no effect yet. -/
def QueueTrace.apply {α : Type} (t : QueueTrace α) : QueueOp α → QueueTrace α
  | QueueOp.push x =>
    match t.queue.push x with
    | some (true, q) => { t with queue := q, accepted := t.accepted ++ [x] }
    | some (false, q) => { t with queue := q }
    | none => t
  | QueueOp.pull =>
    match t.queue.pull with
    | PullResult.item x q => { t with queue := q, pulled := t.pulled ++ [x] }
    | PullResult.closed => t
    | PullResult.blocked => t
  | QueueOp.stop => { t with queue := t.queue.stop }

/-- A sequence of operations, first one first. -/
def QueueTrace.run {α : Type} (t : QueueTrace α) (ops : List (QueueOp α)) : QueueTrace α :=
  ops.foldl QueueTrace.apply t

/-- The change a stage step makes to a queue: none, a `push` that returned, a `pull`
that handed out an item, or `stop`. -/
def QueueMove {α : Type} (q q' : BoundedCompleteQueue α) : Prop :=
  q' = q ∨ (∃ x b, q.push x = some (b, q')) ∨ (∃ x, q.pull = PullResult.item x q')
    ∨ q' = q.stop

/-- The two queues of the controller have the capacities `c1` and `c2` and hold no
more items than that. -/
def QueueInv (c1 c2 : Nat) (s : Impl) : Prop :=
  s.decodeFramesBuffer.maxSize = c1 ∧ s.procFrameBuffer.maxSize = c2 ∧
    s.decodeFramesBuffer.size ≤ c1 ∧ s.procFrameBuffer.size ≤ c2

/-- The started sample controller over the readers `rs` (audio in source 0, cap 3)
after the three stages have taken `n` turns with the collaborators `env`. -/
def sampleRun (rs : List AudioVideoReader3) (env : RunEnv) (n : Nat) : Impl :=
  (started (sampleInitEnv ⟨rs, 0, 3⟩) sampleArgs Impl.new).exec env (roundRobin n)

/-- Collaborators of the stages where the first `render` call returns `false`. -/
def failingRenderEnv : RunEnv :=
  { sampleRunEnv with render := fun _ => CallResult.fail }

end CudaPanoramaLocalDiskTask

end PanoSticher

namespace PanoSticher

/-! ## Sample data with thirty frames -/

/-- Two sample sources of thirty video frames each, 40 apart in time. -/
def longReaders : List AudioVideoReader3 :=
  [⟨(List.range 30).map (fun (i : Nat) => videoFrame (40 * (i : Int))), false⟩,
   ⟨(List.range 30).map (fun (i : Nat) => videoFrame (40 * (i : Int))), false⟩]

/-! ## Sample data with custom masks -/

/-- Sample arguments of `init` that name a custom-mask file. -/
def customMaskArgs : InitArgs := { sampleArgs with customMaskFile := "masks.xml" }

namespace CPUPanoramaLocalDiskTask

/-- Collaborators of `init` that all succeed and load contours for two sources. -/
def customMaskInitEnv (p : PreparedSrc) : InitEnv :=
  { sampleInitEnv p with loadIntervaledContours := some 2 }

/-- Collaborators of `run` that never fail, where source 1 has a custom mask at time
stamp 20 and nowhere else. -/
def customMaskRunEnv : RunEnv :=
  { sampleRunEnv with getMask := fun i t => decide (i = 1 ∧ t = 20) }

end CPUPanoramaLocalDiskTask

namespace CudaPanoramaLocalDiskTask

/-- Collaborators of `init` for two sources of which `prepareSrcVideos` reports the
audio-bearing index 2, one past the last source; the audio frame pool is not set up. -/
def largeAudioIndexEnv : InitEnv :=
  { sampleInitEnv ⟨shortReaders, 2, 2⟩ with audioFramesMemoryPoolInit := false }

end CudaPanoramaLocalDiskTask

/-! ## The frame cap and the number of written video frames -/

namespace CPUPanoramaLocalDiskTask

/-- The cap invariant of a run with frame cap `v`: while the loop runs, the counter
`count` is the number of video frames written and is 0 or below the cap; once the
loop is left at most `max v 1` video frames have been written. -/
def CapInv (v : Int) (s : Impl) : Prop :=
  s.validFrameCount = v ∧
    match s.thread with
    | some ThreadState.spawned => writtenVideo s.writer = []
    | some (ThreadState.running l) =>
      (l.count = 0 ∨ l.count < v) ∧ ((writtenVideo s.writer).length : Int) = l.count
    | _ => ((writtenVideo s.writer).length : Int) ≤ max v 1

end CPUPanoramaLocalDiskTask

/-! ## Exposure correction: `ExposureColorCorrect` -/

/-- What `ExposureColorCorrect` reads of a `cv::Mat`: whether `data` is non-null, the
value of `type()`, and the members `rows` and `cols`. -/
structure Mat where
  hasData : Bool
  type : Int
  rows : Int
  cols : Int
deriving DecidableEq, Repr

/-- OpenCV's type code `CV_8UC1`. -/
def CV_8UC1 : Int := 0

/-- OpenCV's type code `CV_8UC3`. -/
def CV_8UC3 : Int := 16

/-- The members of `ExposureColorCorrect` (`ExposureColorCorrect.cpp`). -/
structure ExposureColorCorrect where
  prepareSuccess : Int
  numImages : Int
  rows : Int
  cols : Int
  origMasks : List Mat
  transImages : List Mat
deriving DecidableEq, Repr

/-- How a call of one of the three correction functions ends: it returns a value, or
it evaluates `images[index]` with `index` beyond the end of the vector. -/
inductive CorrectOutcome where
  | returned (value : Bool)
  | outOfRange (index : Nat)
deriving DecidableEq, Repr

namespace ExposureColorCorrect

/-- The test of lines 16-17 on one mask: `!masks[i].data || masks[i].type() != CV_8UC1
|| masks[i].rows != rows || masks[i].cols != cols`. -/
def rejectsMask (s : ExposureColorCorrect) (m : Mat) : Bool :=
  !m.hasData || m.type != CV_8UC1 || m.rows != s.rows || m.cols != s.cols

/-- Lines 14-19: the loop over `masks[0 .. numImages-1]`, where `numImages` is the
size of the vector. The value is `false` when the loop reaches `return false`. -/
def checkMasks (s : ExposureColorCorrect) : List Mat → Bool
  | [] => true
  | m :: rest => if s.rejectsMask m then false else checkMasks s rest

/-- Lines 5-27: `prepare(masks)`. The members assigned before a `return false` keep
their new values. -/
def prepare (s : ExposureColorCorrect) (masks : List Mat) : Bool × ExposureColorCorrect :=
  let s := { s with prepareSuccess := 0 }
  match masks with
  | [] => (false, s)
  | m0 :: _ =>
    let s := { s with numImages := masks.length, rows := m0.rows, cols := m0.cols }
    if s.checkMasks masks then
      (true, { s with origMasks := masks, prepareSuccess := 1 })
    else (false, s)

/-- Lines 193-201: `clear()`. -/
def clear (_s : ExposureColorCorrect) : ExposureColorCorrect :=
  { prepareSuccess := 0, numImages := 0, rows := 0, cols := 0, origMasks := [],
    transImages := [] }

/-- The test of lines 36-37 on one image: `!images[i].data || images[i].type() !=
CV_8UC3 || images[i].rows != rows || images[i].cols != cols`. -/
def rejectsImage (s : ExposureColorCorrect) (m : Mat) : Bool :=
  !m.hasData || m.type != CV_8UC3 || m.rows != s.rows || m.cols != s.cols

/-- Lines 34-39 (and 75-80, 158-163): the loop `for (int i = 0; i < numImages; i++)`
over the indices still to visit. `images[i]` is evaluated without a test of
`images.size()`; the result `returned true` stands for leaving the loop at its end. -/
def checkImages (s : ExposureColorCorrect) (images : List Mat) : List Nat → CorrectOutcome
  | [] => CorrectOutcome.returned true
  | i :: rest =>
    match images[i]? with
    | none => CorrectOutcome.outOfRange i
    | some m =>
      if s.rejectsImage m then CorrectOutcome.returned false
      else checkImages s images rest

/-- Lines 29-67: `correctExposure(images, exposures)`. After the loop of lines 34-39
every later access `images[i]` has `i < numImages` again, and both ways out of the
function are `return true`. -/
def correctExposure (s : ExposureColorCorrect) (images : List Mat) : CorrectOutcome :=
  if s.prepareSuccess = 0 then CorrectOutcome.returned false
  else s.checkImages images (List.range s.numImages.toNat)

/-- Lines 69-151: `correctExposureAndWhiteBalance(images, exposures, redRatios,
blueRatios)`: the same guard and loop, then `return true` on both ways out. -/
def correctExposureAndWhiteBalance (s : ExposureColorCorrect) (images : List Mat) :
    CorrectOutcome :=
  if s.prepareSuccess = 0 then CorrectOutcome.returned false
  else s.checkImages images (List.range s.numImages.toNat)

/-- Lines 153-191: `correctColorExposure(images, exposures)`: the same guard and loop,
then `return true` on both ways out. -/
def correctColorExposure (s : ExposureColorCorrect) (images : List Mat) : CorrectOutcome :=
  if s.prepareSuccess = 0 then CorrectOutcome.returned false
  else s.checkImages images (List.range s.numImages.toNat)

/-- Lines 133-140: the loop `if (minDiff > diff[i]) { minDiff = diff[i]; anchorIndex
= i; }` from index `i` on, over the remaining entries of `diff`. The state is the pair
`(anchorIndex, minDiff)`; `minDiff` is an `int`, so the assignment truncates and the
comparison converts it back to `double`. -/
def anchorLoop : List ℚ → Int → Int × Int → Int × Int
  | [], _, st => st
  | d :: rest, i, st =>
    if (st.2 : ℚ) > d then anchorLoop rest (i + 1) (i, truncToInt d)
    else anchorLoop rest (i + 1) st

/-- Lines 131-140: `int anchorIndex = 0; int minDiff = diff[0];` followed by the loop.
The result is the final `anchorIndex`. -/
def chooseAnchor (diff : List ℚ) : Int :=
  (anchorLoop diff 0 (0, truncToInt (diff.headD 0))).1

/-- An object in the state that `clear()` leaves. -/
def cleared : ExposureColorCorrect :=
  clear ⟨0, 0, 0, 0, [], []⟩

/-- A mask that passes `prepare`: 8-bit, one channel, 4 rows and 6 columns. -/
def sampleMask : Mat := ⟨true, CV_8UC1, 4, 6⟩

/-- An image that passes the tests of the correction functions for `sampleMask`. -/
def sampleImage : Mat := ⟨true, CV_8UC3, 4, 6⟩

/-- An image without data. -/
def emptyImage : Mat := ⟨false, CV_8UC3, 0, 0⟩

end ExposureColorCorrect

/-! ## Blending configuration: `BlendConfig` -/

/-- The members of `BlendConfig` (`ZBlend.h`, lines 64-72). -/
structure BlendConfig where
  seamMode : Int
  blendMode : Int
  radiusForLinear : Int
  maxLevelsForMultiBand : Int
  minLengthForMultiBand : Int
  padForGraphCut : Int
  scaleForGraphCut : Int
  refineForGraphCut : Int
  ratioForGraphCut : ℚ
deriving DecidableEq, Repr

namespace BlendConfig

/-- Enumerator `SEAM_SKIP` of `SeamMode`. -/
def SEAM_SKIP : Int := 0

/-- Enumerator `SEAM_DISTANCE_TRANSFORM` of `SeamMode`. -/
def SEAM_DISTANCE_TRANSFORM : Int := 1

/-- Enumerator `SEAM_GRAPH_CUT` of `SeamMode`. -/
def SEAM_GRAPH_CUT : Int := 2

/-- Enumerator `BLEND_PASTE` of `BlendMode`. -/
def BLEND_PASTE : Int := 0

/-- Enumerator `BLEND_LINEAR` of `BlendMode`. -/
def BLEND_LINEAR : Int := 1

/-- Enumerator `BLEND_MULTIBAND` of `BlendMode`. -/
def BLEND_MULTIBAND : Int := 2

/-- The constructor with all its default arguments (lines 25-34). -/
def new : BlendConfig :=
  { seamMode := SEAM_GRAPH_CUT, blendMode := BLEND_MULTIBAND, radiusForLinear := 125,
    maxLevelsForMultiBand := 16, minLengthForMultiBand := 2, padForGraphCut := 8,
    scaleForGraphCut := 8, refineForGraphCut := 1, ratioForGraphCut := 3 / 4 }

/-- Lines 35-38: `setSeamSkip()`. -/
def setSeamSkip (c : BlendConfig) : BlendConfig :=
  { c with seamMode := SEAM_SKIP }

/-- Lines 39-42: `setSeamDistanceTransform()`. -/
def setSeamDistanceTransform (c : BlendConfig) : BlendConfig :=
  { c with seamMode := SEAM_DISTANCE_TRANSFORM }

/-- Lines 43-49: `setSeamGraphCut(pad, scale, refine, ratio)`. -/
def setSeamGraphCut (c : BlendConfig) (pad scale refine : Int) (ratio : ℚ) : BlendConfig :=
  { c with padForGraphCut := pad, scaleForGraphCut := scale, refineForGraphCut := refine,
           ratioForGraphCut := ratio }

/-- Lines 50-53: `setBlendPaste()`. -/
def setBlendPaste (c : BlendConfig) : BlendConfig :=
  { c with blendMode := BLEND_PASTE }

/-- Lines 54-58: `setBlendLinear(radius)`. -/
def setBlendLinear (c : BlendConfig) (radius : Int) : BlendConfig :=
  { c with blendMode := BLEND_LINEAR, radiusForLinear := radius }

/-- Lines 59-64: `setBlendMultiBand(maxLevels, minLength)`. -/
def setBlendMultiBand (c : BlendConfig) (maxLevels minLength : Int) : BlendConfig :=
  { c with blendMode := BLEND_MULTIBAND, maxLevelsForMultiBand := maxLevels,
           minLengthForMultiBand := minLength }

end BlendConfig

/-! ## The tiled preview: `ShowTiledImages` -/

/-- The value of a 32-bit `int` that is assigned the integer `x`: `x` reduced modulo
`2 ^ 32` into the range from `-2 ^ 31` to `2 ^ 31 - 1`, the result of two-complement
arithmetic. Inside that range nothing changes. -/
def wrapInt32 (x : Int) : Int :=
  (x + 2147483648) % 4294967296 - 2147483648

/-- The members of `cv::Rect`. -/
structure Rect where
  x : Int
  y : Int
  width : Int
  height : Int
deriving DecidableEq, Repr

/-- The rectangle lies inside an image of `tileWidth` columns and `tileHeight` rows:
the condition under which `tileImage(locations[i])` is a valid region. -/
def Rect.inside (r : Rect) (tileWidth tileHeight : Int) : Prop :=
  0 ≤ r.x ∧ r.x + r.width ≤ tileWidth ∧ 0 ≤ r.y ∧ r.y + r.height ≤ tileHeight

/-- Two rectangles share a pixel. -/
def Rect.overlaps (a b : Rect) : Prop :=
  a.x < b.x + b.width ∧ b.x < a.x + a.width ∧ a.y < b.y + b.height ∧ b.y < a.y + a.height

/-- The members of `ShowTiledImages` that `init` assigns
(`TestLiveStreamSourceLiveStreamTask.cpp`, lines 64-71). -/
structure ShowTiledImages where
  origWidth : Int
  origHeight : Int
  showWidth : Int
  showHeight : Int
  numImages : Int
  tileWidth : Int
  tileHeight : Int
  locations : List Rect
  hasInit : Bool
deriving DecidableEq, Repr

namespace ShowTiledImages

/-- Line 64: `const int screenWidth = 1920`. -/
def screenWidth : Int := 1920

/-- Line 9: the constructor sets `hasInit` to `false`; the other members are shown
as zero. -/
def new : ShowTiledImages :=
  { origWidth := 0, origHeight := 0, showWidth := 0, showHeight := 0, numImages := 0,
    tileWidth := 0, tileHeight := 0, locations := [], hasInit := false }

/-- The right-hand side of line 17 in double arithmetic:
`origHeight * double(showWidth) / double(origWidth) + 0.5`. -/
def showHeightValue (origWidth origHeight showWidth : Int) : ℚ :=
  roundDouble (roundDouble (roundDouble ((origHeight : ℚ) * (showWidth : ℚ)) /
    (origWidth : ℚ)) + 1 / 2)

/-- Lines 10-38: `init(width_, height_, numImages_)`. Every `int` result is reduced
to 32 bits; `/` and `%` on `int` truncate toward zero. -/
def init (s : ShowTiledImages) (width_ height_ numImages_ : Int) : Bool × ShowTiledImages :=
  let showWidth : Int := 480
  let showHeight : Int := wrapInt32 (truncToInt (showHeightValue width_ height_ showWidth))
  let totalWidth : Int := wrapInt32 (numImages_ * showWidth)
  let tileWidth : Int :=
    if totalWidth ≤ screenWidth then wrapInt32 (numImages_ * showWidth) else screenWidth
  let tileHeight : Int :=
    wrapInt32 (Int.tdiv (wrapInt32 (wrapInt32 (totalWidth + screenWidth) - 1)) screenWidth *
      showHeight)
  let horiNumImages : Int := Int.tdiv screenWidth showWidth
  let locations : List Rect :=
    (List.range numImages_.toNat).map fun (i : Nat) =>
      let gridx : Int := Int.tmod (i : Int) horiNumImages
      let gridy : Int := Int.tdiv (i : Int) horiNumImages
      { x := wrapInt32 (gridx * showWidth), y := wrapInt32 (gridy * showHeight),
        width := showWidth, height := showHeight }
  (true, { s with origWidth := width_, origHeight := height_, numImages := numImages_,
                  showWidth := showWidth, showHeight := showHeight, tileWidth := tileWidth,
                  tileHeight := tileHeight, locations := locations, hasInit := true })

end ShowTiledImages

/-! ## The live-stream driver: encoder presets -/

/-- Lines 252-257 of `main` in `TestLiveStreamSourceLiveStreamTask.cpp`: the value of
`streamEncodePreset` passed to `openLiveStream`, for the value `preset` read from the
command line. -/
def streamEncodePreset (preset : String) : String :=
  if preset ≠ "ultrafast" ∨ preset ≠ "superfast" ∨ preset ≠ "veryfast" ∨
      preset ≠ "faster" ∨ preset ≠ "fast" ∨ preset ≠ "medium" ∨ preset ≠ "slow" ∨
      preset ≠ "slower" ∨ preset ≠ "veryslow" then "veryfast"
  else preset

/-- Lines 291-296 of `main`: the value of `fileEncodePreset` passed to
`beginSaveToDisk`, for the value `preset` read from the command line. -/
def fileEncodePreset (preset : String) : String :=
  if preset ≠ "ultrafast" ∨ preset ≠ "superfast" ∨ preset ≠ "veryfast" ∨
      preset ≠ "faster" ∨ preset ≠ "fast" ∨ preset ≠ "medium" ∨ preset ≠ "slow" ∨
      preset ≠ "slower" ∨ preset ≠ "veryslow" then "veryfast"
  else preset

/-- The nine preset names that the driver compares with. -/
def presetNames : List String :=
  ["ultrafast", "superfast", "veryfast", "faster", "fast", "medium", "slow", "slower",
   "veryslow"]

end PanoSticher

namespace PanoSticher

/-! ## Double arithmetic: rounding lemmas -/

theorem roundHalfEven_ge_floor (q : ℚ) : ⌊q⌋ ≤ roundHalfEven q := by
  unfold roundHalfEven
  split_ifs <;> omega

theorem roundHalfEven_le_floor_succ (q : ℚ) : roundHalfEven q ≤ ⌊q⌋ + 1 := by
  unfold roundHalfEven
  split_ifs <;> omega

theorem roundHalfEven_mono {x y : ℚ} (h : x ≤ y) : roundHalfEven x ≤ roundHalfEven y := by
  have hf : ⌊x⌋ ≤ ⌊y⌋ := Int.floor_mono h
  rcases lt_or_eq_of_le hf with hlt | heq
  · calc roundHalfEven x ≤ ⌊x⌋ + 1 := roundHalfEven_le_floor_succ x
      _ ≤ ⌊y⌋ := hlt
      _ ≤ roundHalfEven y := roundHalfEven_ge_floor y
  · unfold roundHalfEven
    rw [heq]
    split_ifs <;> first | omega | (exfalso; linarith)

theorem roundHalfEven_intCast (n : ℤ) : roundHalfEven (n : ℚ) = n := by
  unfold roundHalfEven
  simp

theorem roundMagnitude_zero : roundMagnitude 0 = 0 := by
  unfold roundMagnitude
  simp [roundHalfEven]

theorem two_zpow_pos (e : ℤ) : (0 : ℚ) < 2 ^ e := by positivity

theorem zpow_split52 (e : ℤ) : (2 : ℚ) ^ e = ((2 ^ 52 : ℤ) : ℚ) * 2 ^ (e - 52) := by
  have h : ((2 ^ 52 : ℤ) : ℚ) = (2 : ℚ) ^ (52 : ℤ) := by norm_num
  rw [h, ← zpow_add₀ (by norm_num : (2 : ℚ) ≠ 0)]
  congr 1
  ring

theorem zpow_split53 (e : ℤ) : (2 : ℚ) ^ (e + 1) = ((2 ^ 53 : ℤ) : ℚ) * 2 ^ (e - 52) := by
  have h : ((2 ^ 53 : ℤ) : ℚ) = (2 : ℚ) ^ (53 : ℤ) := by norm_num
  rw [h, ← zpow_add₀ (by norm_num : (2 : ℚ) ≠ 0)]
  congr 1
  ring

theorem roundMagnitude_ge {q : ℚ} (hq : 0 < q) : (2 : ℚ) ^ Int.log 2 q ≤ roundMagnitude q := by
  unfold roundMagnitude
  have hu := two_zpow_pos (Int.log 2 q - 52)
  have h1 : (2 : ℚ) ^ Int.log 2 q ≤ q := by
    have := Int.zpow_log_le_self (b := 2) (r := q) (by norm_num) hq
    simpa using this
  have h2 : ((2 ^ 52 : ℤ) : ℚ) ≤ q / 2 ^ (Int.log 2 q - 52) := by
    rw [le_div_iff₀ hu, ← zpow_split52]
    exact h1
  have h3 := roundHalfEven_mono h2
  rw [roundHalfEven_intCast] at h3
  have h4 : ((2 ^ 52 : ℤ) : ℚ) ≤ (roundHalfEven (q / 2 ^ (Int.log 2 q - 52)) : ℚ) :=
    Int.cast_le.mpr h3
  rw [zpow_split52 (Int.log 2 q)]
  exact mul_le_mul_of_nonneg_right h4 hu.le

theorem roundMagnitude_le {q : ℚ} (_hq : 0 < q) :
    roundMagnitude q ≤ (2 : ℚ) ^ (Int.log 2 q + 1) := by
  unfold roundMagnitude
  have hu := two_zpow_pos (Int.log 2 q - 52)
  have h1 : q < (2 : ℚ) ^ (Int.log 2 q + 1) := by
    have := Int.lt_zpow_succ_log_self (b := 2) (by norm_num) q
    simpa using this
  have h2 : q / 2 ^ (Int.log 2 q - 52) ≤ ((2 ^ 53 : ℤ) : ℚ) := by
    rw [div_le_iff₀ hu, ← zpow_split53]
    exact h1.le
  have h3 := roundHalfEven_mono h2
  rw [roundHalfEven_intCast] at h3
  have h4 : (roundHalfEven (q / 2 ^ (Int.log 2 q - 52)) : ℚ) ≤ ((2 ^ 53 : ℤ) : ℚ) :=
    Int.cast_le.mpr h3
  rw [zpow_split53 (Int.log 2 q)]
  exact mul_le_mul_of_nonneg_right h4 hu.le

theorem roundMagnitude_mono {x y : ℚ} (hx : 0 ≤ x) (h : x ≤ y) :
    roundMagnitude x ≤ roundMagnitude y := by
  rcases eq_or_lt_of_le hx with h0 | hpos
  · subst h0
    rw [roundMagnitude_zero]
    rcases eq_or_lt_of_le h with h0 | hy
    · rw [← h0, roundMagnitude_zero]
    · exact le_trans (two_zpow_pos _).le (roundMagnitude_ge hy)
  · have hy : 0 < y := lt_of_lt_of_le hpos h
    have hlog : Int.log 2 x ≤ Int.log 2 y := Int.log_mono_right hpos h
    rcases eq_or_lt_of_le hlog with heq | hlt
    · unfold roundMagnitude
      rw [heq]
      have hu := two_zpow_pos (Int.log 2 y - 52)
      have : x / 2 ^ (Int.log 2 y - 52) ≤ y / 2 ^ (Int.log 2 y - 52) :=
        div_le_div_of_nonneg_right h hu.le
      have h3 := roundHalfEven_mono this
      have h4 : (roundHalfEven (x / 2 ^ (Int.log 2 y - 52)) : ℚ)
          ≤ (roundHalfEven (y / 2 ^ (Int.log 2 y - 52)) : ℚ) := by exact_mod_cast h3
      exact mul_le_mul_of_nonneg_right h4 hu.le
    · calc roundMagnitude x ≤ (2 : ℚ) ^ (Int.log 2 x + 1) := roundMagnitude_le hpos
        _ ≤ (2 : ℚ) ^ Int.log 2 y := zpow_le_zpow_right₀ (by norm_num) (by omega)
        _ ≤ roundMagnitude y := roundMagnitude_ge hy

theorem roundMagnitude_nonneg {q : ℚ} (hq : 0 ≤ q) : 0 ≤ roundMagnitude q := by
  have := roundMagnitude_mono (le_refl (0 : ℚ)) hq
  rwa [roundMagnitude_zero] at this

theorem roundDouble_of_nonneg {q : ℚ} (hq : 0 ≤ q) : roundDouble q = roundMagnitude q := by
  unfold roundDouble
  rw [if_neg (not_lt.mpr hq)]

theorem roundDouble_mono {x y : ℚ} (hx : 0 ≤ x) (h : x ≤ y) : roundDouble x ≤ roundDouble y := by
  rw [roundDouble_of_nonneg hx, roundDouble_of_nonneg (le_trans hx h)]
  exact roundMagnitude_mono hx h

theorem roundDouble_nonneg {q : ℚ} (hq : 0 ≤ q) : 0 ≤ roundDouble q := by
  rw [roundDouble_of_nonneg hq]
  exact roundMagnitude_nonneg hq

/-- a natural number below 2^53 is a double -/
theorem roundMagnitude_exact (e : ℤ) (m : ℤ) (q : ℚ) (hlog : Int.log 2 q = e)
    (hq : q = (m : ℚ) * 2 ^ (e - 52)) : roundMagnitude q = q := by
  unfold roundMagnitude
  rw [hlog]
  have hu := two_zpow_pos (e - 52)
  have : q / 2 ^ (e - 52) = (m : ℚ) := by
    rw [hq]
    field_simp
  rw [this, roundHalfEven_intCast, ← hq]

theorem roundDouble_one : roundDouble 1 = 1 := by
  rw [roundDouble_of_nonneg (by norm_num)]
  apply roundMagnitude_exact 0 (2 ^ 52)
  · exact Int.log_one_right 2
  · norm_num

theorem roundDouble_hundred : roundDouble 100 = 100 := by
  rw [roundDouble_of_nonneg (by norm_num)]
  apply roundMagnitude_exact 6 (100 * 2 ^ 46)
  · have : Int.log 2 ((100 : ℕ) : ℚ) = 6 := by
      rw [Int.log_natCast]
      norm_num [Nat.log]
    simpa using this
  · norm_num

theorem truncToInt_of_nonneg {q : ℚ} (hq : 0 ≤ q) : truncToInt q = ⌊q⌋ := by
  unfold truncToInt
  rw [if_pos hq]

theorem capDivisor_pos (v : Int) : (0 : ℚ) < (((if v > 0 then v else 100 : Int)) : ℚ) := by
  split_ifs with h
  · exact_mod_cast h
  · norm_num

theorem progressRatio_nonneg {c : Int} (v : Int) (hc : 0 ≤ c) :
    (0 : ℚ) ≤ roundDouble ((c : ℚ) / (((if v > 0 then v else 100 : Int)) : ℚ)) * 100 := by
  have h1 : (0 : ℚ) ≤ (c : ℚ) / (((if v > 0 then v else 100 : Int)) : ℚ) :=
    div_nonneg (by exact_mod_cast hc) (capDivisor_pos v).le
  have h2 := roundDouble_nonneg h1
  positivity

theorem progressValue_eq_floor {c : Int} (v : Int) (hc : 0 ≤ c) :
    progressValue c v =
      ⌊roundDouble (roundDouble
        ((c : ℚ) / (((if v > 0 then v else 100 : Int)) : ℚ)) * 100)⌋ := by
  unfold progressValue
  exact truncToInt_of_nonneg (roundDouble_nonneg (progressRatio_nonneg v hc))

theorem progressValue_nonneg {c : Int} (v : Int) (hc : 0 ≤ c) : 0 ≤ progressValue c v := by
  rw [progressValue_eq_floor v hc]
  exact Int.floor_nonneg.mpr (roundDouble_nonneg (progressRatio_nonneg v hc))

theorem progressValue_mono {c c' : Int} (v : Int) (hc : 0 ≤ c) (h : c ≤ c') :
    progressValue c v ≤ progressValue c' v := by
  rw [progressValue_eq_floor v hc, progressValue_eq_floor v (le_trans hc h)]
  apply Int.floor_mono
  apply roundDouble_mono (progressRatio_nonneg v hc)
  apply mul_le_mul_of_nonneg_right _ (by norm_num)
  apply roundDouble_mono (div_nonneg (by exact_mod_cast hc) (capDivisor_pos v).le)
  exact div_le_div_of_nonneg_right (by exact_mod_cast h) (capDivisor_pos v).le

theorem progressValue_le_hundred {c : Int} (v : Int) (hc : 0 ≤ c)
    (h : c ≤ (if v > 0 then v else 100 : Int)) : progressValue c v ≤ 100 := by
  rw [progressValue_eq_floor v hc]
  have hd := capDivisor_pos v
  have h1 : (c : ℚ) / (((if v > 0 then v else 100 : Int)) : ℚ) ≤ 1 := by
    rw [div_le_one hd]
    exact_mod_cast h
  have h2 : roundDouble ((c : ℚ) / (((if v > 0 then v else 100 : Int)) : ℚ)) ≤ 1 := by
    have := roundDouble_mono (div_nonneg (by exact_mod_cast hc) hd.le) h1
    rwa [roundDouble_one] at this
  have h3 : roundDouble ((c : ℚ) / (((if v > 0 then v else 100 : Int)) : ℚ)) * 100 ≤ 100 := by
    linarith
  have h4 := roundDouble_mono (progressRatio_nonneg v hc) h3
  rw [roundDouble_hundred] at h4
  have h5 := Int.floor_mono h4
  have h6 : ⌊(100 : ℚ)⌋ = 100 := by
    have : ((100 : ℤ) : ℚ) = 100 := by norm_num
    rw [← this, Int.floor_intCast]
  rw [h6] at h5
  exact h5

/-- Inside the frame cap (or for a first frame when the cap is not positive) the
stored percentage lies between 0 and 100. -/
theorem progressValue_range {c : Int} (v : Int) (hc : 0 ≤ c) (h : c ≤ v ∨ c ≤ 1) :
    0 ≤ progressValue c v ∧ progressValue c v ≤ 100 := by
  refine ⟨progressValue_nonneg v hc, progressValue_le_hundred v hc ?_⟩
  split_ifs with hv
  · rcases h with h | h
    · exact h
    · omega
  · rcases h with h | h <;> omega

theorem progressStep_pos (v : Int) : 1 ≤ progressStep v := by
  unfold progressStep
  simp only
  split_ifs <;> omega

theorem paramMessage_ne : "参数校验失败。" ≠ "" := by decide

theorem stitchMessage_ne : "初始化拼接失败。" ≠ "" := by decide

theorem openMessage_ne : "打开视频失败。" ≠ "" := by decide

theorem createMessage_ne : "无法创建拼接视频。" ≠ "" := by decide

namespace CPUPanoramaLocalDiskTask

theorem initCustomMasks_error {e : InitEnv} {a : InitArgs} {n : Int} {m : String}
    (h : initCustomMasks e a n = Except.error m) : m = "初始化拼接失败。" := by
  unfold initCustomMasks at h
  repeat' split at h
  all_goals first
    | (injection h with h; exact h.symm)
    | simp at h

theorem nonempty_of_not_isEmpty {α : Type} {l : List α} {P : Prop}
    (h : ¬(l.isEmpty = true ∨ P)) : 1 ≤ l.length := by
  cases l with
  | nil => simp at h
  | cons x xs => simp

/-- What a failing `init` leaves behind. -/
theorem init_false_state (e : InitEnv) (a : InitArgs) (s : Impl)
    (h : (Impl.init e a s).1 = false) :
    (Impl.init e a s).2.syncErrorMessage ≠ "" ∧ (Impl.init e a s).2.initSuccess = false ∧
      (Impl.init e a s).2.finish = true ∧ (Impl.init e a s).2.thread = none ∧
      (Impl.init e a s).2.finishPercent = 0 ∧
      (Impl.init e a s).2.spawnCount = s.spawnCount := by
  generalize hr : Impl.init e a s = r at h ⊢
  unfold Impl.init Impl.initAfterClear at hr
  simp only [Impl.failInit] at hr
  repeat' split at hr
  all_goals subst hr
  all_goals first
    | (simp at h; done)
    | exact ⟨paramMessage_ne, rfl, rfl, rfl, rfl, rfl⟩
    | exact ⟨stitchMessage_ne, rfl, rfl, rfl, rfl, rfl⟩
    | exact ⟨openMessage_ne, rfl, rfl, rfl, rfl, rfl⟩
    | exact ⟨createMessage_ne, rfl, rfl, rfl, rfl, rfl⟩
    | (rename_i hm; rw [initCustomMasks_error hm]; exact ⟨stitchMessage_ne, rfl, rfl, rfl, rfl, rfl⟩)

/-- The controller a successful `init` leaves behind. -/
theorem init_true_state (e : InitEnv) (a : InitArgs) (s : Impl)
    (h : (Impl.init e a s).1 = true) :
    ∃ p, e.prepareSrcVideos = some p ∧
      (Impl.init e a s).2.numVideos = (a.srcVideoFiles.length : Int) ∧
      1 ≤ a.srcVideoFiles.length ∧
      (Impl.init e a s).2.readers = p.readers ∧
      (Impl.init e a s).2.audioIndex = p.audioIndex ∧
      (Impl.init e a s).2.validFrameCount =
        capFrameCount p.validFrameCount a.dstVideoMaxFrameCount ∧
      (Impl.init e a s).2.endFlag = false ∧
      (Impl.init e a s).2.thread = none ∧
      (Impl.init e a s).2.initSuccess = true ∧
      (Impl.init e a s).2.finish = false ∧
      (Impl.init e a s).2.finishPercent = 0 ∧
      (Impl.init e a s).2.hasAsyncError = 0 ∧
      (Impl.init e a s).2.syncErrorMessage = "" ∧
      (Impl.init e a s).2.writer = AudioVideoWriter3.opened := by
  generalize hr : Impl.init e a s = r at h ⊢
  unfold Impl.init Impl.initAfterClear at hr
  simp only [Impl.failInit] at hr
  repeat' split at hr
  all_goals subst hr
  all_goals first
    | (simp at h; done)
    | skip
  exact ⟨_, by assumption, rfl, nonempty_of_not_isEmpty (by assumption), rfl, rfl, rfl, rfl, rfl, rfl, rfl,
    rfl, rfl, rfl, rfl⟩

/-- A failed `init` is followed by a `start()` that returns `false` and changes nothing. -/
theorem start_after_failed_init (e : InitEnv) (a : InitArgs) (s : Impl)
    (h : (Impl.init e a s).1 = false) :
    Impl.start (Impl.init e a s).2 = StartOutcome.returned false (Impl.init e a s).2 := by
  have h1 := (init_false_state e a s h).2.1
  unfold Impl.start
  simp [h1]

/-- Reading the mailbox while the flag is down returns the empty string and changes
nothing. -/
theorem read_of_clear {t : Impl} (h : t.hasAsyncError = 0) :
    t.getLastAsyncErrorMessage = ("", t) := by
  unfold Impl.getLastAsyncErrorMessage
  rw [if_neg (by rw [h]; simp)]

/-- Reading the mailbox right after an error was set returns that error and lowers
the flag. -/
theorem read_of_set (t : Impl) (m : String) :
    (t.setAsyncErrorMessage m).getLastAsyncErrorMessage
      = (m, { t.setAsyncErrorMessage m with hasAsyncError := 0 }) := by
  unfold Impl.getLastAsyncErrorMessage
  rw [if_pos (by simp [Impl.setAsyncErrorMessage])]
  rfl

theorem iterate_read {t : Impl} (h : t.hasAsyncError = 0) (n : Nat) :
    (fun u : Impl => u.getLastAsyncErrorMessage.2)^[n] t = t := by
  induction n with
  | zero => rfl
  | succ k ih =>
    rw [Function.iterate_succ_apply, read_of_clear h]
    exact ih

/-- A `start()` that returns true found the controller initialised, not finished
and without a thread, and leaves it with the thread created. -/
theorem start_true {s : Impl} (h : s.start.result? = some true) :
    s.initSuccess = true ∧ s.finish = false ∧
      s.start = StartOutcome.returned true
        { s with thread := some ThreadState.spawned, spawnCount := s.spawnCount + 1 } := by
  unfold Impl.start at h ⊢
  split_ifs at h ⊢ with h1 h2
  · simp [StartOutcome.result?] at h
  · simp [StartOutcome.result?] at h
  · cases ht : s.thread with
    | none =>
      simp only [Bool.not_eq_true, Bool.not_eq_true', Bool.not_eq_false] at h1 h2
      exact ⟨h1, h2, rfl⟩
    | some t =>
      rw [ht] at h
      simp [StartOutcome.result?] at h

end CPUPanoramaLocalDiskTask

namespace CudaPanoramaLocalDiskTask

/-- Reading the mailbox while the flag is down returns the empty string and changes
nothing. -/
theorem read_of_clear_gpu {t : Impl} (h : t.hasAsyncError = 0) :
    t.getLastAsyncErrorMessage = ("", t) := by
  unfold Impl.getLastAsyncErrorMessage
  rw [if_neg (by rw [h]; simp)]

/-- Reading the mailbox right after an error was set returns that error and lowers
the flag. -/
theorem read_of_set_gpu (t : Impl) (m : String) :
    (t.setAsyncErrorMessage m).getLastAsyncErrorMessage
      = (m, { t.setAsyncErrorMessage m with hasAsyncError := 0 }) := by
  unfold Impl.getLastAsyncErrorMessage
  rw [if_pos (by simp [Impl.setAsyncErrorMessage])]
  rfl

theorem iterate_read_gpu {t : Impl} (h : t.hasAsyncError = 0) (n : Nat) :
    (fun u : Impl => u.getLastAsyncErrorMessage.2)^[n] t = t := by
  induction n with
  | zero => rfl
  | succ k ih =>
    rw [Function.iterate_succ_apply, read_of_clear_gpu h]
    exact ih

/-- A `start()` that returns true found the controller initialised, not finished
and without threads, and leaves it with the three threads created. -/
theorem start_true_gpu {s : Impl} (h : s.start.result? = some true) :
    s.initSuccess = true ∧ s.finish = false ∧
      s.start = StartOutcome.returned true
        { s with
          decodeThread := some DecodePc.spawned
          procThread := some ProcPc.spawned
          encodeThread := some EncodePc.spawned
          spawnCount := s.spawnCount + 3 } := by
  unfold Impl.start at h ⊢
  split_ifs at h ⊢ with h1 h2
  · simp [StartOutcome.result?] at h
  · simp [StartOutcome.result?] at h
  · simp only [Bool.not_eq_true, Bool.not_eq_true', Bool.not_eq_false] at h1 h2
    split at h
    · exact ⟨h1, h2, rfl⟩
    · simp [StartOutcome.result?] at h
    · simp [StartOutcome.result?] at h
    · simp [StartOutcome.result?] at h

/-- What `init` leaves behind whether it succeeds or not. -/
theorem init_common (e : InitEnv) (a : InitArgs) (s : Impl) :
    (Impl.init e a s).2.decodeCount = 0 ∧ (Impl.init e a s).2.encodeCount = 0 ∧
      (Impl.init e a s).2.procFrameBuffer.items = [] ∧
      (Impl.init e a s).2.decodeFramesBuffer.items = [] ∧
      (Impl.init e a s).2.finishPercent = 0 ∧
      (Impl.init e a s).2.decodeThread = none ∧
      (Impl.init e a s).2.procThread = none ∧
      (Impl.init e a s).2.encodeThread = none := by
  unfold Impl.init Impl.initAfterClear
  simp only [Impl.failInit]
  repeat' split
  all_goals exact ⟨rfl, rfl, rfl, rfl, rfl, rfl, rfl, rfl⟩

/-- What a failing `init` leaves behind. -/
theorem init_false_state_gpu (e : InitEnv) (a : InitArgs) (s : Impl)
    (h : (Impl.init e a s).1 = false) :
    (Impl.init e a s).2.syncErrorMessage ≠ "" ∧ (Impl.init e a s).2.initSuccess = false ∧
      (Impl.init e a s).2.finish = true ∧ (Impl.init e a s).2.decodeThread = none ∧
      (Impl.init e a s).2.procThread = none ∧ (Impl.init e a s).2.encodeThread = none ∧
      (Impl.init e a s).2.finishPercent = 0 ∧
      (Impl.init e a s).2.spawnCount = s.spawnCount := by
  generalize hr : Impl.init e a s = r at h ⊢
  unfold Impl.init Impl.initAfterClear at hr
  simp only [Impl.failInit] at hr
  repeat' split at hr
  all_goals subst hr
  all_goals first
    | (simp at h; done)
    | exact ⟨paramMessage_ne, rfl, rfl, rfl, rfl, rfl, rfl, rfl⟩
    | exact ⟨stitchMessage_ne, rfl, rfl, rfl, rfl, rfl, rfl, rfl⟩
    | exact ⟨openMessage_ne, rfl, rfl, rfl, rfl, rfl, rfl, rfl⟩
    | exact ⟨createMessage_ne, rfl, rfl, rfl, rfl, rfl, rfl, rfl⟩

/-- The controller a successful `init` leaves behind. -/
theorem init_true_state_gpu (e : InitEnv) (a : InitArgs) (s : Impl)
    (h : (Impl.init e a s).1 = true) :
    ∃ p, e.prepareSrcVideos = some p ∧
      (Impl.init e a s).2.numVideos = (a.srcVideoFiles.length : Int) ∧
      1 ≤ a.srcVideoFiles.length ∧
      (Impl.init e a s).2.readers = p.readers ∧
      (Impl.init e a s).2.audioIndex = p.audioIndex ∧
      (Impl.init e a s).2.validFrameCount =
        capFrameCount p.validFrameCount a.dstVideoMaxFrameCount ∧
      (Impl.init e a s).2.isCanceled = false ∧
      (Impl.init e a s).2.decodeThread = none ∧
      (Impl.init e a s).2.procThread = none ∧
      (Impl.init e a s).2.encodeThread = none ∧
      (Impl.init e a s).2.initSuccess = true ∧
      (Impl.init e a s).2.finish = false ∧
      (Impl.init e a s).2.finishPercent = 0 ∧
      (Impl.init e a s).2.hasAsyncError = 0 ∧
      (Impl.init e a s).2.syncErrorMessage = "" ∧
      (Impl.init e a s).2.writer = AudioVideoWriter3.opened ∧
      (Impl.init e a s).2.decodeCount = 0 ∧
      (Impl.init e a s).2.procCount = 0 ∧
      (Impl.init e a s).2.encodeCount = 0 ∧
      (Impl.init e a s).2.decodeFramesBuffer.items = [] ∧
      (Impl.init e a s).2.procFrameBuffer.items = [] ∧
      (Impl.init e a s).2.aborted = s.aborted := by
  generalize hr : Impl.init e a s = r at h ⊢
  unfold Impl.init Impl.initAfterClear at hr
  simp only [Impl.failInit] at hr
  repeat' split at hr
  all_goals subst hr
  all_goals first
    | (simp at h; done)
    | skip
  all_goals exact ⟨_, by assumption, rfl, CPUPanoramaLocalDiskTask.nonempty_of_not_isEmpty (by assumption), rfl, rfl, rfl,
    rfl, rfl, rfl, rfl, rfl, rfl, rfl, rfl, rfl, rfl, rfl, rfl, rfl, rfl, rfl, rfl⟩

/-- A failed `init` is followed by a `start()` that returns `false` and changes nothing. -/
theorem start_after_failed_init_gpu (e : InitEnv) (a : InitArgs) (s : Impl)
    (h : (Impl.init e a s).1 = false) :
    Impl.start (Impl.init e a s).2 = StartOutcome.returned false (Impl.init e a s).2 := by
  have h1 := (init_false_state_gpu e a s h).2.1
  unfold Impl.start
  simp [h1]

end CudaPanoramaLocalDiskTask

namespace CPUPanoramaLocalDiskTask

theorem LogInv.mono {v : Int} {base : List Int} {top top' : Int} {s : Impl}
    (h : LogInv v base top s) (ht : top ≤ top') : LogInv v base top' s := by
  obtain ⟨h1, h2, h3, l, h4, h5, h6⟩ := h
  exact ⟨h1, h2, h3, l, h4, h5, fun x hx => le_trans (h6 x hx) ht⟩

theorem sorted_concat {l : List Int} {y : Int} (hs : l.Sorted (· ≤ ·)) (hy : ∀ x ∈ l, x ≤ y) :
    (l ++ [y]).Sorted (· ≤ ·) := by
  unfold List.Sorted at hs ⊢
  rw [List.pairwise_append]
  refine ⟨hs, List.pairwise_singleton _ _, ?_⟩
  intro a ha b hb
  rw [List.mem_singleton] at hb
  subst hb
  exact hy a ha

theorem LogInv.store {v : Int} {base : List Int} {top x : Int} {s : Impl}
    (h : LogInv v base top s) (ht : top ≤ x) (h0 : 0 ≤ x) (h100 : x ≤ 100) :
    LogInv v base x (s.storePercent x) := by
  obtain ⟨h1, h2, h3, l, h4, h5, h6⟩ := h
  refine ⟨h1, h0, h100, l ++ [x], ?_, sorted_concat h5 (fun a ha => le_trans (h6 a ha) ht), ?_⟩
  · show s.storeLog ++ [x] = base ++ (l ++ [x])
    rw [h4, List.append_assoc]
  · intro a ha
    rcases List.mem_append.mp ha with ha | ha
    · exact le_trans (h6 a ha) ht
    · rw [List.mem_singleton] at ha
      exact le_of_eq ha

theorem finishRun_inv {v : Int} {base : List Int} {top : Int} {s : Impl}
    (h : LogInv v base top s) (ht : top ≤ 100) : RunInv v base s.finishRun := by
  have h1 := h.store ht (by norm_num) (le_refl 100)
  exact ⟨h1, rfl⟩

theorem exitLoop_inv {v : Int} {base : List Int} {top : Int} {s : Impl}
    (h : LogInv v base top s) (ht : top ≤ 100) : RunInv v base s.exitLoop :=
  finishRun_inv (s := { s with writer := s.writer.close }) h ht

theorem catchException_inv {v : Int} {base : List Int} {top : Int} {s : Impl}
    (h : LogInv v base top s) (ht : top ≤ 100) : RunInv v base s.catchException :=
  finishRun_inv (s := s.setAsyncErrorMessage "视频拼接发生错误，任务终止。") h ht

theorem count_top_le {v c : Int} (hc : 0 ≤ c) (hv : c = 0 ∨ c < v) :
    progressValue c v ≤ 100 :=
  (progressValue_range v hc (by omega)).2

theorem updateProgress_inv {v : Int} {base : List Int} {s : Impl} {c : Int} (step : Int)
    (hc : 0 ≤ c) (hv : c = 0 ∨ c < v) (h : LogInv v base (progressValue c v) s) :
    LogInv v base (progressValue (c + 1) v) (s.updateProgress (c + 1) step) := by
  have hc1 : 0 ≤ c + 1 := by omega
  have hr := progressValue_range v hc1 (by omega)
  have hm : progressValue c v ≤ progressValue (c + 1) v := progressValue_mono v hc (by omega)
  unfold Impl.updateProgress
  split_ifs
  · rw [h.1]
    exact h.store hm hr.1 hr.2
  · exact h.mono hm

theorem afterVideoWrite_inv {v : Int} {base : List Int} {s : Impl} {lc : RunLocals}
    (hc : 0 ≤ lc.count) (hv : lc.count = 0 ∨ lc.count < v)
    (h : LogInv v base (progressValue lc.count v) s) :
    RunInv v base (afterVideoWrite s lc) := by
  have hc1 : 0 ≤ lc.count + 1 := by omega
  have hr := progressValue_range v hc1 (by omega)
  have key := updateProgress_inv lc.step hc hv h
  have hv2 : (s.updateProgress (lc.count + 1) lc.step).validFrameCount = v := key.1
  unfold afterVideoWrite
  simp only
  split_ifs with h1
  · exact exitLoop_inv key hr.2
  · rw [hv2] at h1
    exact ⟨hc1, Or.inr (by show lc.count + 1 < v; omega), key⟩

theorem processSample_inv {v : Int} {base : List Int} (env : RunEnv) {s : Impl} {lc : RunLocals}
    (hc : 0 ≤ lc.count) (hv : lc.count = 0 ∨ lc.count < v)
    (h : LogInv v base (progressValue lc.count v) s) :
    RunInv v base (processSample env s lc) := by
  have ht := count_top_le hc hv
  unfold processSample
  simp only
  repeat' split
  all_goals first
    | exact catchException_inv (s := _) h ht
    | exact exitLoop_inv (s := _) h ht
    | exact afterVideoWrite_inv (s := _) hc hv h

theorem videoIteration_inv {v : Int} {base : List Int} (env : RunEnv) {s : Impl} {lc : RunLocals}
    (hc : 0 ≤ lc.count) (hv : lc.count = 0 ∨ lc.count < v)
    (h : LogInv v base (progressValue lc.count v) s) :
    RunInv v base (videoIteration env s lc) := by
  have ht := count_top_le hc hv
  unfold videoIteration
  simp only
  repeat' split
  all_goals first
    | exact catchException_inv (s := _) h ht
    | exact exitLoop_inv (s := _) h ht
    | exact @processSample_inv _ _ env _ { lc with frames := _ } hc hv h

theorem loopIteration_inv {v : Int} {base : List Int} (env : RunEnv) {s : Impl} {lc : RunLocals}
    (hc : 0 ≤ lc.count) (hv : lc.count = 0 ∨ lc.count < v)
    (h : LogInv v base (progressValue lc.count v) s) :
    RunInv v base (loopIteration env s lc) := by
  have ht := count_top_le hc hv
  unfold loopIteration
  simp only
  repeat' split
  all_goals first
    | exact catchException_inv (s := _) h ht
    | exact exitLoop_inv (s := _) h ht
    | exact @videoIteration_inv _ _ env _ { lc with frames := _ } hc hv h
    | exact videoIteration_inv env hc hv h
    | exact ⟨hc, hv, h⟩

theorem progressValue_zero (v : Int) : 0 ≤ progressValue 0 v :=
  progressValue_nonneg v (le_refl 0)

theorem threadStep_inv {v : Int} {base : List Int} (env : RunEnv) {s : Impl}
    (h : RunInv v base s) : RunInv v base (s.threadStep env) := by
  unfold Impl.threadStep
  unfold RunInv at h
  split
  · rename_i h0
    rw [h0] at h
    unfold RunInv
    rw [h0]
    exact h
  · rename_i h0
    rw [h0] at h
    unfold RunInv
    rw [h0]
    exact h
  · rename_i h0
    rw [h0] at h
    obtain ⟨h1, h2, h3⟩ := h
    simp only [h1, h2]
    exact ⟨le_refl 0, Or.inl rfl, h3.mono (progressValue_zero v)⟩
  · rename_i lc h0
    rw [h0] at h
    exact loopIteration_inv env h.1 h.2.1 h.2.2

theorem cancel_inv {v : Int} {base : List Int} {s : Impl}
    (h : RunInv v base s) : RunInv v base s.cancel := h

theorem exec_inv {v : Int} {base : List Int} (env : RunEnv) (schedule : List Action) {s : Impl}
    (h : RunInv v base s) : RunInv v base (s.exec env schedule) := by
  induction schedule generalizing s with
  | nil => exact h
  | cons a rest ih =>
    show RunInv v base (Impl.exec env (Impl.act env s a) rest)
    apply ih
    cases a
    · exact threadStep_inv env h
    · exact cancel_inv h

theorem RunInv.logInv {v : Int} {base : List Int} {s : Impl} (h : RunInv v base s) :
    LogInv v base 100 s := by
  unfold RunInv at h
  split at h
  · exact h
  · exact h.2.2.mono (by norm_num)
  · exact h.2.2.mono (count_top_le h.1 h.2.1)
  · exact h.1

theorem LogInv.initial {s : Impl} (top : Int) (h : s.finishPercent = 0) :
    LogInv s.validFrameCount s.storeLog top s := by
  refine ⟨rfl, by rw [h], by rw [h]; norm_num, [], by simp, List.sorted_nil, ?_⟩
  intro x hx
  simp at hx

/-- The controller as `start()` leaves it after an `init` that succeeded. -/
theorem start_after_init (e : InitEnv) (a : InitArgs) (s0 : Impl)
    (h : (Impl.init e a s0).1 = true) :
    Impl.start (Impl.init e a s0).2 = StartOutcome.returned true
      { (Impl.init e a s0).2 with
        thread := some ThreadState.spawned
        spawnCount := (Impl.init e a s0).2.spawnCount + 1 } := by
  obtain ⟨p, -, -, -, -, -, -, -, h1, h2, h3, -⟩ := init_true_state e a s0 h
  unfold Impl.start
  simp [h1, h2, h3]

/-- A controller that has just come out of `init` and `start` satisfies the invariant
of its run. -/
theorem start_inv (e : InitEnv) (a : InitArgs) (s0 : Impl) :
    RunInv (Impl.init e a s0).2.validFrameCount (Impl.start (Impl.init e a s0).2).state.storeLog
      (Impl.start (Impl.init e a s0).2).state := by
  cases hb : (Impl.init e a s0).1 with
  | false =>
    rw [start_after_failed_init e a s0 hb]
    have h1 := init_false_state e a s0 hb
    show RunInv _ (Impl.init e a s0).2.storeLog (Impl.init e a s0).2
    unfold RunInv
    rw [h1.2.2.2.1]
    exact LogInv.initial 100 h1.2.2.2.2.1
  | true =>
    rw [start_after_init e a s0 hb]
    obtain ⟨p, -, -, -, -, -, -, -, h1, h2, h3, h4, -⟩ := init_true_state e a s0 hb
    exact ⟨h2, h3, LogInv.initial (s := { (Impl.init e a s0).2 with
        thread := some ThreadState.spawned
        spawnCount := (Impl.init e a s0).2.spawnCount + 1 }) 0 h4⟩

end CPUPanoramaLocalDiskTask

namespace CudaPanoramaLocalDiskTask

theorem LogInv.mono_gpu {v : Int} {base : List Int} {top top' : Int} {s : Impl}
    (h : LogInv v base top s) (ht : top ≤ top') : LogInv v base top' s := by
  obtain ⟨h1, h2, h3, l, h4, h5, h6⟩ := h
  exact ⟨h1, h2, h3, l, h4, h5, fun x hx => le_trans (h6 x hx) ht⟩

theorem LogInv.store_gpu {v : Int} {base : List Int} {top x : Int} {s : Impl}
    (h : LogInv v base top s) (ht : top ≤ x) (h0 : 0 ≤ x) (h100 : x ≤ 100) :
    LogInv v base x (s.storePercent x) := by
  obtain ⟨h1, h2, h3, l, h4, h5, h6⟩ := h
  refine ⟨h1, h0, h100, l ++ [x], ?_,
    CPUPanoramaLocalDiskTask.sorted_concat h5 (fun a ha => le_trans (h6 a ha) ht), ?_⟩
  · show s.storeLog ++ [x] = base ++ (l ++ [x])
    rw [h4, List.append_assoc]
  · intro a ha
    rcases List.mem_append.mp ha with ha | ha
    · exact le_trans (h6 a ha) ht
    · rw [List.mem_singleton] at ha
      exact le_of_eq ha

theorem LogInv.initial_gpu {s : Impl} (top : Int) (h : s.finishPercent = 0) :
    LogInv s.validFrameCount s.storeLog top s := by
  refine ⟨rfl, by rw [h], by rw [h]; norm_num, [], by simp, List.sorted_nil, ?_⟩
  intro x hx
  simp at hx

theorem videoCount_nonneg (l : List MixedAudioVideoFrame) : 0 ≤ videoCount l := by
  unfold videoCount
  exact Int.natCast_nonneg _

theorem inFlight_nonneg (p : Option ProcPc) : 0 ≤ inFlight p := by
  unfold inFlight
  split <;> norm_num

theorem videoCount_cons (f : MixedAudioVideoFrame) (l : List MixedAudioVideoFrame) :
    videoCount (f :: l) =
      (if f.frame.mediaType = MediaType.VIDEO then 1 else 0) + videoCount l := by
  unfold videoCount
  by_cases h : f.frame.mediaType = MediaType.VIDEO
  · simp [h]
    ring
  · simp [h]

theorem videoCount_append (l : List MixedAudioVideoFrame) (f : MixedAudioVideoFrame) :
    videoCount (l ++ [f]) =
      videoCount l + (if f.frame.mediaType = MediaType.VIDEO then 1 else 0) := by
  unfold videoCount
  by_cases h : f.frame.mediaType = MediaType.VIDEO
  · simp [h]
  · simp [h]

/-- The encode counter stays inside the cap, so the percentage it yields is at most 100. -/
theorem RunInv.encodeCount_range {v : Int} {base : List Int} {s : Impl} (h : RunInv v base s) :
    s.encodeCount ≤ v ∨ s.encodeCount ≤ 1 := by
  have h1 := h.flow
  have h2 := videoCount_nonneg s.procFrameBuffer.items
  have h3 := inFlight_nonneg s.procThread
  have h4 : s.decodeCount ≤ v ∨ s.decodeCount ≤ 1 := by
    have hd := h.decode
    unfold DecodeInv at hd
    split at hd
    all_goals omega
  omega

theorem RunInv.top_le {v : Int} {base : List Int} {s : Impl} (h : RunInv v base s) :
    encodeTop v s ≤ 100 := by
  unfold encodeTop
  split
  · norm_num
  · exact (progressValue_range v h.encodeNonneg h.encodeCount_range).2
  · norm_num

theorem cancel_inv_gpu {v : Int} {base : List Int} {s : Impl} (h : RunInv v base s) :
    RunInv v base s.cancel :=
  ⟨h.cap, h.decodeNonneg, h.encodeNonneg, h.decode, h.flow, h.log, h.done⟩

theorem abort_inv {v : Int} {base : List Int} {s : Impl} (h : RunInv v base s) :
    RunInv v base s.abort :=
  ⟨h.cap, h.decodeNonneg, h.encodeNonneg, h.decode, h.flow, h.log, h.done⟩

theorem decodeVideoPart_inv {v : Int} {base : List Int} {s : Impl} (ts : List Int)
    (h : RunInv v base s) (hpc : s.decodeThread = some DecodePc.loop) :
    RunInv v base (decodeVideoPart s ts) := by
  have hd := h.decode
  unfold DecodeInv at hd
  rw [hpc] at hd
  simp only at hd
  unfold decodeVideoPart
  repeat' split
  all_goals refine ⟨h.cap, h.decodeNonneg, h.encodeNonneg, ?_, h.flow, h.log, h.done⟩
  all_goals first
    | (show DecodeInv v s; unfold DecodeInv; rw [hpc]; exact hd)
    | (unfold DecodeInv; simp only; omega)

theorem decodeIteration_inv {v : Int} {base : List Int} {s : Impl}
    (h : RunInv v base s) (hpc : s.decodeThread = some DecodePc.loop) :
    RunInv v base (decodeIteration s) := by
  have hd := h.decode
  unfold DecodeInv at hd
  rw [hpc] at hd
  simp only at hd
  unfold decodeIteration
  simp only
  repeat' split
  all_goals first
    | exact decodeVideoPart_inv _ h hpc
    | exact abort_inv h
    | exact decodeVideoPart_inv (s := { s with readers := _ }) _
        ⟨h.cap, h.decodeNonneg, h.encodeNonneg, h.decode, h.flow, h.log, h.done⟩ hpc
    | (refine ⟨h.cap, h.decodeNonneg, h.encodeNonneg, ?_, h.flow, h.log, h.done⟩
       unfold DecodeInv
       simp only
       first
         | omega
         | exact ⟨hd, by assumption⟩)

theorem push_some {α : Type} {q q' : BoundedCompleteQueue α} {x : α} {b : Bool}
    (h : q.push x = some (b, q')) :
    q' = q ∨ q' = { q with items := q.items ++ [x] } := by
  unfold BoundedCompleteQueue.push at h
  split_ifs at h
  · simp only [Option.some.injEq, Prod.mk.injEq] at h
    exact Or.inl h.2.symm
  · simp only [Option.some.injEq, Prod.mk.injEq] at h
    exact Or.inr h.2.symm

theorem pull_item {α : Type} {q q' : BoundedCompleteQueue α} {x : α}
    (h : q.pull = PullResult.item x q') :
    q.items = x :: q'.items ∧ q' = { q with items := q'.items } := by
  unfold BoundedCompleteQueue.pull at h
  split at h
  · rename_i y rest heq
    injection h with h1 h2
    subst h1 h2
    exact ⟨heq, rfl⟩
  · split_ifs at h

theorem decodeStep_inv {v : Int} {base : List Int} {s : Impl} (h : RunInv v base s) :
    RunInv v base s.decodeStep := by
  have hd := h.decode
  have hf := h.flow
  have hn := h.decodeNonneg
  have hcap := h.cap
  unfold DecodeInv at hd
  unfold Impl.decodeStep
  split
  · exact h
  · exact h
  · rename_i hpc
    rw [hpc] at hd
    simp only at hd
    refine ⟨h.cap, le_refl 0, h.encodeNonneg, ?_, ?_, h.log, h.done⟩
    · simp [DecodeInv]
    · show s.encodeCount + videoCount s.procFrameBuffer.items + inFlight s.procThread
        + (s.decodeFramesBuffer.items.length : Int) ≤ 0
      omega
  · rename_i hpc
    exact decodeIteration_inv h hpc
  · rename_i f hpc
    rw [hpc] at hd
    simp only at hd
    cases hq : s.procFrameBuffer.push ⟨f⟩ with
    | none => exact h
    | some r =>
      obtain ⟨b, q'⟩ := r
      simp only
      refine ⟨h.cap, h.decodeNonneg, h.encodeNonneg, ?_, ?_, h.log, h.done⟩
      · simp only [DecodeInv]
        exact hd.1
      · show s.encodeCount + videoCount q'.items + inFlight s.procThread
          + (s.decodeFramesBuffer.items.length : Int) ≤ s.decodeCount
        rcases push_some hq with rfl | rfl
        · exact hf
        · simp only
          rw [videoCount_append]
          simp only [hd.2]
          simpa using hf
  · rename_i w hpc
    rw [hpc] at hd
    simp only at hd
    cases hq : s.decodeFramesBuffer.push w with
    | none => exact h
    | some r =>
      obtain ⟨b, q'⟩ := r
      simp only
      have hlen : (q'.items.length : Int) ≤ s.decodeFramesBuffer.items.length + 1 := by
        rcases push_some hq with rfl | rfl
        · omega
        · simp
      split
      all_goals refine ⟨h.cap, ?_, h.encodeNonneg, ?_, ?_, h.log, h.done⟩
      all_goals first
        | (show 0 ≤ s.decodeCount + 1
           omega)
        | (show s.encodeCount + videoCount s.procFrameBuffer.items + inFlight s.procThread
             + (q'.items.length : Int) ≤ s.decodeCount + 1
           omega)
        | (rename_i hge
           simp only [DecodeInv]
           simp only [ge_iff_le, not_le] at hge
           omega)
  · rename_i hpc
    rw [hpc] at hd
    simp only at hd
    split
    all_goals refine ⟨h.cap, h.decodeNonneg, h.encodeNonneg, ?_, h.flow, h.log, h.done⟩
    all_goals simp only [DecodeInv, Impl.finishDecode]
    all_goals exact hd
  · rename_i hpc
    rw [hpc] at hd
    simp only at hd
    split
    · refine ⟨h.cap, h.decodeNonneg, h.encodeNonneg, ?_, h.flow, h.log, h.done⟩
      simp only [DecodeInv, Impl.finishDecode]
      exact hd
    · exact h

theorem procSample_inv {v : Int} {base : List Int} (env : RunEnv) {s : Impl}
    (w : StampedPinnedMemoryVector) (h : RunInv v base s)
    (hf : s.encodeCount + videoCount s.procFrameBuffer.items + 1
      + (s.decodeFramesBuffer.items.length : Int) ≤ s.decodeCount) :
    RunInv v base (procSample env s w) := by
  have hf0 := h.flow
  have hin := inFlight_nonneg s.procThread
  unfold procSample
  simp only
  repeat' split
  all_goals first
    | exact abort_inv h
    | (refine ⟨h.cap, h.decodeNonneg, h.encodeNonneg, h.decode, ?_, h.log, h.done⟩
       first
         | (show s.encodeCount + videoCount s.procFrameBuffer.items + 0
              + (s.decodeFramesBuffer.items.length : Int) ≤ s.decodeCount
            omega)
         | (show s.encodeCount + videoCount s.procFrameBuffer.items + 1
              + (s.decodeFramesBuffer.items.length : Int) ≤ s.decodeCount
            omega))

theorem procStep_inv {v : Int} {base : List Int} (env : RunEnv) {s : Impl}
    (h : RunInv v base s) : RunInv v base (s.procStep env) := by
  have hf := h.flow
  have hin := inFlight_nonneg s.procThread
  unfold Impl.procStep
  split
  · exact h
  · exact h
  · rename_i hpc
    refine ⟨h.cap, h.decodeNonneg, h.encodeNonneg, h.decode, ?_, h.log, h.done⟩
    show s.encodeCount + videoCount s.procFrameBuffer.items + 0
      + (s.decodeFramesBuffer.items.length : Int) ≤ s.decodeCount
    omega
  · rename_i hpc
    cases hq : s.decodeFramesBuffer.pull with
    | blocked => exact h
    | closed =>
      refine ⟨h.cap, h.decodeNonneg, h.encodeNonneg, h.decode, ?_, h.log, h.done⟩
      show s.encodeCount + videoCount s.procFrameBuffer.items + 0
        + (s.decodeFramesBuffer.items.length : Int) ≤ s.decodeCount
      omega
    | item w q' =>
      have hlen : (s.decodeFramesBuffer.items.length : Int) = q'.items.length + 1 := by
        rw [(pull_item hq).1]
        simp
      simp only
      have hs : RunInv v base { s with decodeFramesBuffer := q' } := by
        refine ⟨h.cap, h.decodeNonneg, h.encodeNonneg, h.decode, ?_, h.log, h.done⟩
        show s.encodeCount + videoCount s.procFrameBuffer.items + inFlight s.procThread
          + (q'.items.length : Int) ≤ s.decodeCount
        omega
      split
      · refine ⟨h.cap, h.decodeNonneg, h.encodeNonneg, h.decode, ?_, h.log, h.done⟩
        show s.encodeCount + videoCount s.procFrameBuffer.items + 0
          + (q'.items.length : Int) ≤ s.decodeCount
        omega
      · apply procSample_inv env w hs
        show s.encodeCount + videoCount s.procFrameBuffer.items + 1
          + (q'.items.length : Int) ≤ s.decodeCount
        rw [hpc] at hin hf
        simp only [inFlight] at hf
        omega
  · rename_i f hpc
    rw [hpc] at hf
    simp only [inFlight] at hf
    cases hq : s.procFrameBuffer.push f with
    | none => exact h
    | some r =>
      obtain ⟨b, q'⟩ := r
      simp only
      refine ⟨h.cap, h.decodeNonneg, h.encodeNonneg, h.decode, ?_, h.log, h.done⟩
      show s.encodeCount + videoCount q'.items + 0
        + (s.decodeFramesBuffer.items.length : Int) ≤ s.decodeCount
      rcases push_some hq with rfl | rfl
      · omega
      · simp only
        rw [videoCount_append]
        split_ifs <;> omega
  · rename_i hpc
    rw [hpc] at hf
    simp only [inFlight] at hf
    split
    all_goals refine ⟨h.cap, h.decodeNonneg, h.encodeNonneg, h.decode, ?_, h.log, h.done⟩
    all_goals first
      | (show s.encodeCount + videoCount s.procFrameBuffer.items + 0
           + (s.decodeFramesBuffer.items.length : Int) ≤ s.decodeCount
         omega)
  · rename_i hpc
    rw [hpc] at hf
    simp only [inFlight] at hf
    split
    · refine ⟨h.cap, h.decodeNonneg, h.encodeNonneg, h.decode, ?_, h.log, h.done⟩
      show s.encodeCount + videoCount s.procFrameBuffer.items + 0
        + (s.decodeFramesBuffer.items.length : Int) ≤ s.decodeCount
      omega
    · exact h

theorem finishEncode_inv {v : Int} {base : List Int} {top : Int} {s : Impl}
    (h : RunInv v base s) (hl : LogInv v base top s) (ht : top ≤ 100) :
    RunInv v base s.finishEncode := by
  refine ⟨h.cap, h.decodeNonneg, h.encodeNonneg, h.decode, h.flow, ?_, fun _ => rfl⟩
  exact LogInv.store_gpu (x := 100) (s := { s with writer := s.writer.close }) hl ht (by norm_num)
    (le_refl 100)

theorem encodeFrame_inv {v : Int} {base : List Int} (env : RunEnv) {s : Impl} (step : Int)
    (f : MixedAudioVideoFrame) (h : RunInv v base s)
    (hpc : s.encodeThread = some (EncodePc.loop step))
    (hf : s.encodeCount + (if f.frame.mediaType = MediaType.VIDEO then 1 else 0)
      + videoCount s.procFrameBuffer.items + inFlight s.procThread
      + (s.decodeFramesBuffer.items.length : Int) ≤ s.decodeCount) :
    RunInv v base (encodeFrame env s step f) := by
  have hlog := h.log
  have htop := h.top_le
  have hen := h.encodeNonneg
  unfold encodeTop at hlog htop
  rw [hpc] at hlog htop
  simp only at hlog htop
  have hf0 := h.flow
  unfold encodeFrame
  split
  · refine ⟨h.cap, h.decodeNonneg, h.encodeNonneg, h.decode, h.flow, ?_, ?_⟩
    · show LogInv v base (encodeTop v s) s
      exact h.log
    · exact h.done
  · exact finishEncode_inv
      (s := { (Impl.setAsyncErrorMessage { s with writer := s.writer.reject }
          "视频拼接发生错误，任务终止。") with isCanceled := true })
      ⟨h.cap, h.decodeNonneg, h.encodeNonneg, h.decode, h.flow, h.log, h.done⟩ hlog htop
  · have hs : RunInv v base (Impl.countFrame { s with writer := s.writer.accept f.frame } f) := by
      unfold Impl.countFrame
      split_ifs with hm
      · rw [if_pos hm] at hf
        refine ⟨h.cap, ?_, ?_, h.decode, hf, ?_, ?_⟩
        · exact h.decodeNonneg
        · show 0 ≤ s.encodeCount + 1
          omega
        · show LogInv v base (encodeTop v { s with encodeCount := s.encodeCount + 1 }) s
          unfold encodeTop
          simp only [hpc]
          exact hlog.mono_gpu (progressValue_mono v hen (by omega))
        · intro hdone
          simp only [hpc] at hdone
          exact absurd hdone (by simp)
      · exact ⟨h.cap, h.decodeNonneg, h.encodeNonneg, h.decode, h.flow, h.log, h.done⟩
    have hpc2 : (Impl.countFrame { s with writer := s.writer.accept f.frame } f).encodeThread
        = some (EncodePc.loop step) := by
      unfold Impl.countFrame
      split_ifs <;> exact hpc
    generalize Impl.countFrame { s with writer := s.writer.accept f.frame } f = t at hs hpc2
    have hlog2 := hs.log
    have hr := progressValue_range v hs.encodeNonneg hs.encodeCount_range
    unfold encodeTop at hlog2
    rw [hpc2] at hlog2
    simp only at hlog2
    unfold Impl.updateProgress
    split_ifs
    · refine ⟨hs.cap, hs.decodeNonneg, hs.encodeNonneg, hs.decode, hs.flow, ?_, ?_⟩
      · show LogInv v base (encodeTop v t) (t.storePercent (progressValue t.encodeCount t.validFrameCount))
        unfold encodeTop
        rw [hpc2, hs.cap]
        simp only
        exact hlog2.store_gpu (le_refl _) hr.1 hr.2
      · intro hdone
        have : t.encodeThread = some EncodePc.done := hdone
        rw [hpc2] at this
        exact absurd this (by simp)
    · exact hs

theorem encodeStep_inv {v : Int} {base : List Int} (env : RunEnv) {s : Impl}
    (h : RunInv v base s) : RunInv v base (s.encodeStep env) := by
  have hf := h.flow
  have hen := h.encodeNonneg
  have hlog := h.log
  have htop := h.top_le
  unfold Impl.encodeStep
  split
  · exact h
  · exact h
  · rename_i hpc
    unfold encodeTop at hlog
    rw [hpc] at hlog
    simp only at hlog
    refine ⟨h.cap, h.decodeNonneg, le_refl 0, h.decode, ?_, ?_, ?_⟩
    · show 0 + videoCount s.procFrameBuffer.items + inFlight s.procThread
        + (s.decodeFramesBuffer.items.length : Int) ≤ s.decodeCount
      omega
    · show LogInv v base (progressValue 0 v) s
      exact hlog.mono_gpu (progressValue_nonneg v (le_refl 0))
    · intro hdone
      exact absurd hdone (by simp)
  · rename_i step hpc
    cases hq : s.procFrameBuffer.pull with
    | blocked => exact h
    | closed => exact finishEncode_inv h hlog htop
    | item f q' =>
      have hitems := (pull_item hq).1
      have hvc : videoCount s.procFrameBuffer.items
          = (if f.frame.mediaType = MediaType.VIDEO then 1 else 0) + videoCount q'.items := by
        rw [hitems, videoCount_cons]
      have hge : (0 : Int) ≤ (if f.frame.mediaType = MediaType.VIDEO then 1 else 0) := by
        split_ifs <;> norm_num
      simp only
      have hs : RunInv v base { s with procFrameBuffer := q' } := by
        refine ⟨h.cap, h.decodeNonneg, h.encodeNonneg, h.decode, ?_, h.log, h.done⟩
        show s.encodeCount + videoCount q'.items + inFlight s.procThread
          + (s.decodeFramesBuffer.items.length : Int) ≤ s.decodeCount
        omega
      split
      · exact finishEncode_inv hs hlog htop
      · apply encodeFrame_inv env step f hs hpc
        show s.encodeCount + (if f.frame.mediaType = MediaType.VIDEO then 1 else 0)
          + videoCount q'.items + inFlight s.procThread
          + (s.decodeFramesBuffer.items.length : Int) ≤ s.decodeCount
        omega

theorem act_inv {v : Int} {base : List Int} (env : RunEnv) {s : Impl} (a : Action)
    (h : RunInv v base s) : RunInv v base (s.act env a) := by
  unfold Impl.act
  split
  · exact h
  · cases a
    · exact decodeStep_inv h
    · exact procStep_inv env h
    · exact encodeStep_inv env h
    · exact cancel_inv_gpu h

theorem exec_inv_gpu {v : Int} {base : List Int} (env : RunEnv) (schedule : List Action) {s : Impl}
    (h : RunInv v base s) : RunInv v base (s.exec env schedule) := by
  induction schedule generalizing s with
  | nil => exact h
  | cons a rest ih =>
    show RunInv v base (Impl.exec env (Impl.act env s a) rest)
    exact ih (act_inv env a h)

/-- The controller as `start()` leaves it after an `init` that succeeded. -/
theorem start_after_init_gpu (e : InitEnv) (a : InitArgs) (s0 : Impl)
    (h : (Impl.init e a s0).1 = true) :
    Impl.start (Impl.init e a s0).2 = StartOutcome.returned true
      { (Impl.init e a s0).2 with
        decodeThread := some DecodePc.spawned
        procThread := some ProcPc.spawned
        encodeThread := some EncodePc.spawned
        spawnCount := (Impl.init e a s0).2.spawnCount + 3 } := by
  obtain ⟨p, -, -, -, -, -, -, -, h1, h2, h3, h4, h5, -⟩ := init_true_state_gpu e a s0 h
  unfold Impl.start
  simp [h1, h2, h3, h4, h5]

/-- A controller that has just come out of `init` and `start` satisfies the invariant
of its run. -/
theorem start_inv_gpu (e : InitEnv) (a : InitArgs) (s0 : Impl) :
    RunInv (Impl.init e a s0).2.validFrameCount (Impl.start (Impl.init e a s0).2).state.storeLog
      (Impl.start (Impl.init e a s0).2).state := by
  obtain ⟨c1, c2, c3, c4, c5, c6, c7, c8⟩ := init_common e a s0
  cases hb : (Impl.init e a s0).1 with
  | false =>
    rw [start_after_failed_init_gpu e a s0 hb]
    show RunInv _ (Impl.init e a s0).2.storeLog (Impl.init e a s0).2
    refine ⟨rfl, by rw [c1], by rw [c2], ?_, ?_, ?_, ?_⟩
    · unfold DecodeInv
      rw [c6, c1]
      exact Or.inr (by norm_num)
    · rw [c1, c2, c3, c4, c7]
      simp [videoCount, inFlight]
    · exact LogInv.initial_gpu _ c5
    · intro hd
      rw [c8] at hd
      exact absurd hd (by simp)
  | true =>
    rw [start_after_init_gpu e a s0 hb]
    refine ⟨rfl, ?_, ?_, ?_, ?_, ?_, ?_⟩
    · show 0 ≤ (Impl.init e a s0).2.decodeCount
      rw [c1]
    · show 0 ≤ (Impl.init e a s0).2.encodeCount
      rw [c2]
    · unfold DecodeInv
      exact c1
    · show (Impl.init e a s0).2.encodeCount + videoCount (Impl.init e a s0).2.procFrameBuffer.items
        + 0 + ((Impl.init e a s0).2.decodeFramesBuffer.items.length : Int)
        ≤ (Impl.init e a s0).2.decodeCount
      rw [c1, c2, c3, c4]
      simp [videoCount]
    · exact LogInv.initial_gpu (s := { (Impl.init e a s0).2 with
        decodeThread := some DecodePc.spawned
        procThread := some ProcPc.spawned
        encodeThread := some EncodePc.spawned
        spawnCount := (Impl.init e a s0).2.spawnCount + 3 }) _ c5
    · intro hd
      have hd2 : some EncodePc.spawned = some EncodePc.done := hd
      exact absurd hd2 (by simp)

end CudaPanoramaLocalDiskTask

namespace CPUPanoramaLocalDiskTask

theorem read_got {r r' : AudioVideoReader3} {f : AudioVideoFrame2}
    (h : r.read = ReadResult.got f r') :
    r.frames = f :: r'.frames ∧ r'.throwsAtEnd = r.throwsAtEnd := by
  unfold AudioVideoReader3.read at h
  split at h
  · rename_i g rest heq
    injection h with h1 h2
    subst h1 h2
    exact ⟨heq, rfl⟩
  · split_ifs at h

theorem totalFrames_cons (r : AudioVideoReader3) (rs : List AudioVideoReader3) :
    totalFrames (r :: rs) = r.frames.length + totalFrames rs := by
  simp [totalFrames]

theorem totalFrames_set {rs : List AudioVideoReader3} {i : Nat} {r r' : AudioVideoReader3}
    (h : rs[i]? = some r) (hl : r.frames.length = r'.frames.length + 1) :
    totalFrames (rs.set i r') + 1 = totalFrames rs := by
  induction rs generalizing i with
  | nil => simp at h
  | cons x xs ih =>
    cases i with
    | zero =>
      simp only [List.getElem?_cons_zero, Option.some.injEq] at h
      subst h
      simp only [List.set_cons_zero, totalFrames_cons]
      omega
    | succ j =>
      simp only [List.getElem?_cons_succ] at h
      simp only [List.set_cons_succ, totalFrames_cons]
      have := ih h
      omega

theorem readVideoFrames_total (audioIndex : Int) (i : Nat) (rs : List AudioVideoReader3)
    (fs : Nat → AudioVideoFrame2) :
    totalFrames (readVideoFrames audioIndex i rs fs).2.1 ≤ totalFrames rs := by
  induction rs generalizing i fs with
  | nil => simp [readVideoFrames]
  | cons r rs ih =>
    unfold readVideoFrames
    split
    · have := ih (i + 1) fs
      simp only [totalFrames_cons]
      omega
    · split
      · exact le_refl _
      · exact le_refl _
      · rename_i f r' hr
        have := ih (i + 1) (Function.update fs i f)
        have hl := (read_got hr).1
        simp only [totalFrames_cons, hl, List.length_cons]
        omega

theorem finishRun_remaining (s : Impl) : s.finishRun.remaining = 0 := rfl

theorem exitLoop_remaining (s : Impl) : s.exitLoop.remaining = 0 := rfl

theorem catchException_remaining (s : Impl) : s.catchException.remaining = 0 := rfl

theorem updateProgress_fields (s : Impl) (c step : Int) :
    (s.updateProgress c step).validFrameCount = s.validFrameCount ∧
      (s.updateProgress c step).readers = s.readers := by
  unfold Impl.updateProgress
  split_ifs <;> exact ⟨rfl, rfl⟩

theorem afterVideoWrite_remaining (s : Impl) (l : RunLocals) :
    (afterVideoWrite s l).remaining ≤ totalFrames s.readers + (s.validFrameCount - l.count).toNat := by
  obtain ⟨h1, h2⟩ := updateProgress_fields s (l.count + 1) l.step
  unfold afterVideoWrite
  simp only
  split_ifs with h
  · rw [exitLoop_remaining]
    exact Nat.zero_le _
  · rw [h1] at h
    show totalFrames (s.updateProgress (l.count + 1) l.step).readers
      + ((s.updateProgress (l.count + 1) l.step).validFrameCount - (l.count + 1)).toNat + 1 ≤ _
    rw [h1, h2]
    omega

theorem processSample_remaining (env : RunEnv) (s : Impl) (l : RunLocals) :
    (processSample env s l).remaining
      ≤ totalFrames s.readers + (s.validFrameCount - l.count).toNat := by
  unfold processSample
  simp only
  repeat' split
  all_goals first
    | exact Nat.zero_le _
    | exact afterVideoWrite_remaining _ l

theorem videoIteration_remaining (env : RunEnv) (s : Impl) (l : RunLocals) :
    (videoIteration env s l).remaining
      ≤ totalFrames s.readers + (s.validFrameCount - l.count).toNat := by
  have ht := readVideoFrames_total s.audioIndex 0 s.readers l.frames
  unfold videoIteration
  split
  · exact Nat.zero_le _
  · exact Nat.zero_le _
  · rename_i rs fs heq
    rw [heq] at ht
    simp only at ht ⊢
    split
    · exact Nat.zero_le _
    · refine le_trans (processSample_remaining env _ _) ?_
      show totalFrames rs + (s.validFrameCount - l.count).toNat ≤ _
      omega

theorem loopIteration_remaining (env : RunEnv) (s : Impl) (l : RunLocals) :
    (loopIteration env s l).remaining
      ≤ totalFrames s.readers + (s.validFrameCount - l.count).toNat := by
  unfold loopIteration
  split
  · split
    · exact Nat.zero_le _
    · rename_i r hr
      split
      · exact Nat.zero_le _
      · exact Nat.zero_le _
      · rename_i f r' hread
        have hl := (read_got hread).1
        have hset := @totalFrames_set _ _ _ r' hr (by rw [hl]; simp)
        simp only
        split
        · split
          · exact Nat.zero_le _
          · exact Nat.zero_le _
          · show totalFrames (s.readers.set s.audioIndex.toNat r')
              + (s.validFrameCount - l.count).toNat + 1 ≤ _
            omega
        · refine le_trans (videoIteration_remaining env _ _) ?_
          show totalFrames (s.readers.set s.audioIndex.toNat r')
            + (s.validFrameCount - l.count).toNat ≤ _
          omega
  · exact videoIteration_remaining env s l

theorem threadStep_remaining (env : RunEnv) (s : Impl) :
    (s.threadStep env).remaining ≤ s.remaining - 1 := by
  unfold Impl.threadStep
  split
  · rename_i h
    simp [Impl.remaining, h]
  · rename_i h
    simp [Impl.remaining, h]
  · rename_i h
    have hr : s.remaining = totalFrames s.readers + s.validFrameCount.toNat + 2 := by
      simp [Impl.remaining, h]
    rw [hr]
    split_ifs
    · exact Nat.zero_le _
    · exact Nat.zero_le _
    · show totalFrames s.readers + (s.validFrameCount - 0).toNat + 1 ≤ _
      simp
  · rename_i l h
    have hr : s.remaining
        = totalFrames s.readers + (s.validFrameCount - l.count).toNat + 1 := by
      simp [Impl.remaining, h]
    rw [hr]
    exact loopIteration_remaining env s l

theorem remaining_zero {s : Impl} (h : s.remaining = 0) :
    s.thread = none ∨ s.thread = some ThreadState.finished := by
  unfold Impl.remaining at h
  split at h
  · rename_i h1
    exact Or.inl h1
  · rename_i h1
    exact Or.inr h1
  · omega
  · omega

theorem exec_remaining (env : RunEnv) (schedule : List Action) (s : Impl) :
    (s.exec env schedule).remaining ≤ s.remaining - schedule.count Action.step := by
  induction schedule generalizing s with
  | nil => exact le_refl _
  | cons a rest ih =>
    have h1 := ih (Impl.act env s a)
    show (Impl.exec env (Impl.act env s a) rest).remaining ≤ _
    cases a with
    | step =>
      have h2 := threadStep_remaining env s
      have h3 : (Impl.act env s Action.step).remaining ≤ s.remaining - 1 := h2
      simp only [List.count_cons_self]
      omega
    | cancel =>
      have h3 : (Impl.act env s Action.cancel).remaining = s.remaining := rfl
      rw [h3] at h1
      simpa using h1

theorem afterVideoWrite_isSome (s : Impl) (l : RunLocals) :
    (afterVideoWrite s l).thread.isSome = true := by
  unfold afterVideoWrite
  simp only
  split_ifs <;> rfl

theorem processSample_isSome (env : RunEnv) (s : Impl) (l : RunLocals) :
    (processSample env s l).thread.isSome = true := by
  unfold processSample
  simp only
  repeat' split
  all_goals first
    | rfl
    | exact afterVideoWrite_isSome _ l

theorem videoIteration_isSome (env : RunEnv) (s : Impl) (l : RunLocals) :
    (videoIteration env s l).thread.isSome = true := by
  unfold videoIteration
  simp only
  repeat' split
  all_goals first
    | rfl
    | exact processSample_isSome env _ _

theorem loopIteration_isSome (env : RunEnv) (s : Impl) (l : RunLocals) :
    (loopIteration env s l).thread.isSome = true := by
  unfold loopIteration
  simp only
  repeat' split
  all_goals first
    | rfl
    | exact videoIteration_isSome env _ _

theorem threadStep_isSome (env : RunEnv) (s : Impl) (h : s.thread.isSome = true) :
    (s.threadStep env).thread.isSome = true := by
  unfold Impl.threadStep
  split
  · exact h
  · exact h
  · split_ifs <;> rfl
  · exact loopIteration_isSome env s _

theorem exec_isSome (env : RunEnv) (schedule : List Action) (s : Impl)
    (h : s.thread.isSome = true) : (s.exec env schedule).thread.isSome = true := by
  induction schedule generalizing s with
  | nil => exact h
  | cons a rest ih =>
    show (Impl.exec env (Impl.act env s a) rest).thread.isSome = true
    apply ih
    cases a with
    | step => exact threadStep_isSome env s h
    | cancel => exact h

/-- Once the schedule has given the thread `stepBound` steps, `run()` has returned. -/
theorem exec_returns (env : RunEnv) (schedule : List Action) (s : Impl)
    (h : s.thread = some ThreadState.spawned)
    (hn : s.stepBound ≤ schedule.count Action.step) :
    (s.exec env schedule).runReturned = true := by
  have h1 := exec_remaining env schedule s
  have h2 : s.remaining = s.stepBound := by
    simp [Impl.remaining, h, Impl.stepBound, totalFrames]
  have h3 : (s.exec env schedule).remaining = 0 := by omega
  have h4 := exec_isSome env schedule s (by rw [h]; rfl)
  rcases remaining_zero h3 with h5 | h5
  · rw [h5] at h4
    exact absurd h4 (by simp)
  · unfold Impl.runReturned
    rw [h5]

end CPUPanoramaLocalDiskTask

namespace CPUPanoramaLocalDiskTask

theorem read_not_exc {r : AudioVideoReader3} (h : r.throwsAtEnd = false) :
    r.read ≠ ReadResult.exc := by
  unfold AudioVideoReader3.read
  split
  · simp
  · simp [h]

theorem noReaderThrows_cons {r : AudioVideoReader3} {rs : List AudioVideoReader3} :
    noReaderThrows (r :: rs) ↔ r.throwsAtEnd = false ∧ noReaderThrows rs := by
  simp [noReaderThrows]

theorem noReaderThrows_set {rs : List AudioVideoReader3} {i : Nat} {r' : AudioVideoReader3}
    (h : noReaderThrows rs) (hr : r'.throwsAtEnd = false) : noReaderThrows (rs.set i r') := by
  intro x hx
  rcases List.mem_or_eq_of_mem_set hx with hx | hx
  · exact h x hx
  · rw [hx]
    exact hr

theorem readVideoFrames_noThrow (audioIndex : Int) (i : Nat) (rs : List AudioVideoReader3)
    (fs : Nat → AudioVideoFrame2) (h : noReaderThrows rs) :
    (readVideoFrames audioIndex i rs fs).1 ≠ CallResult.throws ∧
      noReaderThrows (readVideoFrames audioIndex i rs fs).2.1 := by
  induction rs generalizing i fs with
  | nil => simp [readVideoFrames, noReaderThrows]
  | cons r rs ih =>
    rw [noReaderThrows_cons] at h
    unfold readVideoFrames
    split
    · have := ih (i + 1) fs h.2
      exact ⟨this.1, noReaderThrows_cons.mpr ⟨h.1, this.2⟩⟩
    · split
      · exact ⟨by simp, noReaderThrows_cons.mpr h⟩
      · rename_i hr
        exact absurd hr (read_not_exc h.1)
      · rename_i f r' hr
        have := ih (i + 1) (Function.update fs i f) h.2
        have hr' := (read_got hr).2
        exact ⟨this.1, noReaderThrows_cons.mpr ⟨by rw [hr', h.1], this.2⟩⟩

theorem updateProgress_quiet {m : String} {s : Impl} (c step : Int) (h : Quiet m s) :
    Quiet m (s.updateProgress c step) := by
  unfold Impl.updateProgress
  split_ifs
  · exact h
  · exact h

theorem afterVideoWrite_quiet {m : String} {s : Impl} (l : RunLocals) (h : Quiet m s) :
    Quiet m (afterVideoWrite s l) := by
  have := updateProgress_quiet (l.count + 1) l.step h
  unfold afterVideoWrite
  simp only
  split_ifs
  · exact this
  · exact this

theorem processSample_quiet {m : String} (env : RunEnv) (henv : env.noFailure) {s : Impl}
    (l : RunLocals) (h : Quiet m s) : Quiet m (processSample env s l) := by
  obtain ⟨e1, e2, e3, e4⟩ := henv
  unfold processSample
  simp only [e1, e2, e4, Bool.not_true, Bool.false_eq_true, if_false]
  have hlogo : (if env.addLogo = true then env.logoFilterAddLogo l.count.toNat else CallResult.ok)
      = CallResult.ok := by
    split_ifs with ha
    · exact e3 ha _
    · rfl
  rw [hlogo]
  exact afterVideoWrite_quiet l h

theorem videoIteration_quiet {m : String} (env : RunEnv) (henv : env.noFailure) {s : Impl}
    (l : RunLocals) (h : Quiet m s) : Quiet m (videoIteration env s l) := by
  have hr := readVideoFrames_noThrow s.audioIndex 0 s.readers l.frames h.2.2
  unfold videoIteration
  split
  · rename_i heq
    rw [heq] at hr
    exact absurd rfl hr.1
  · rename_i heq
    rw [heq] at hr
    exact ⟨h.1, h.2.1, hr.2⟩
  · rename_i heq
    rw [heq] at hr
    simp only
    split
    · exact ⟨h.1, h.2.1, hr.2⟩
    · exact processSample_quiet env henv _ ⟨h.1, h.2.1, hr.2⟩

theorem loopIteration_quiet {m : String} (env : RunEnv) (henv : env.noFailure) {s : Impl}
    (l : RunLocals) (h : Quiet m s) : Quiet m (loopIteration env s l) := by
  unfold loopIteration
  split
  · split
    · exact h
    · rename_i r hr
      have hrt : r.throwsAtEnd = false := h.2.2 r (List.getElem?_mem hr)
      split
      · exact h
      · rename_i hread
        exact absurd hread (read_not_exc hrt)
      · rename_i f r' hread
        have hr' : r'.throwsAtEnd = false := by rw [(read_got hread).2, hrt]
        have hq : Quiet m { s with readers := s.readers.set s.audioIndex.toNat r' } :=
          ⟨h.1, h.2.1, noReaderThrows_set h.2.2 hr'⟩
        simp only [henv.2.2.2]
        split
        · exact hq
        · exact videoIteration_quiet env henv _ hq
  · exact videoIteration_quiet env henv l h

theorem threadStep_quiet {m : String} (env : RunEnv) (henv : env.noFailure) {s : Impl}
    (h : Quiet m s) : Quiet m (s.threadStep env) := by
  unfold Impl.threadStep
  split
  · exact h
  · exact h
  · split_ifs <;> exact h
  · exact loopIteration_quiet env henv _ h

theorem exec_quiet {m : String} (env : RunEnv) (henv : env.noFailure) (schedule : List Action)
    {s : Impl} (h : Quiet m s) : Quiet m (s.exec env schedule) := by
  induction schedule generalizing s with
  | nil => exact h
  | cons a rest ih =>
    show Quiet m (Impl.exec env (Impl.act env s a) rest)
    apply ih
    cases a with
    | step => exact threadStep_quiet env henv h
    | cancel => exact h

end CPUPanoramaLocalDiskTask

namespace CudaPanoramaLocalDiskTask

theorem decodeVideoPart_quiet {m : String} {s : Impl} (ts : List Int) (h : Quiet m s) :
    Quiet m (decodeVideoPart s ts) := by
  unfold decodeVideoPart
  repeat' split
  all_goals exact h

theorem decodeStep_quiet {m : String} {s : Impl} (h : Quiet m s) : Quiet m s.decodeStep := by
  unfold Impl.decodeStep decodeIteration
  simp only
  repeat' split
  all_goals first
    | exact h
    | exact decodeVideoPart_quiet _ h

theorem procStep_quiet {m : String} (env : RunEnv) (henv : env.noFailure) {s : Impl}
    (h : Quiet m s) : Quiet m (s.procStep env) := by
  obtain ⟨e1, e2, e3⟩ := henv
  have hlogo : ∀ k, (if env.addLogo = true then env.logoFilterAddLogo k else CallResult.ok)
      = CallResult.ok := by
    intro k
    split_ifs with ha
    · exact e2 ha _
    · rfl
  unfold Impl.procStep procSample
  simp only [e1, hlogo]
  repeat' split
  all_goals exact h

theorem encodeStep_quiet {m : String} (env : RunEnv) (henv : env.noFailure) {s : Impl}
    (h : Quiet m s) : Quiet m (s.encodeStep env) := by
  obtain ⟨e1, e2, e3⟩ := henv
  unfold Impl.encodeStep encodeFrame Impl.updateProgress Impl.countFrame
  simp only [e3]
  repeat' split
  all_goals exact h

theorem exec_quiet_gpu {m : String} (env : RunEnv) (henv : env.noFailure) (schedule : List Action)
    {s : Impl} (h : Quiet m s) : Quiet m (s.exec env schedule) := by
  induction schedule generalizing s with
  | nil => exact h
  | cons a rest ih =>
    show Quiet m (Impl.exec env (Impl.act env s a) rest)
    apply ih
    unfold Impl.act
    split
    · exact h
    · cases a
      · exact decodeStep_quiet h
      · exact procStep_quiet env henv h
      · exact encodeStep_quiet env henv h
      · exact h

end CudaPanoramaLocalDiskTask

namespace CPUPanoramaLocalDiskTask

theorem readVideoFrames_length (audioIndex : Int) (i : Nat) (rs : List AudioVideoReader3)
    (fs : Nat → AudioVideoFrame2) :
    (readVideoFrames audioIndex i rs fs).2.1.length = rs.length := by
  induction rs generalizing i fs with
  | nil => simp [readVideoFrames]
  | cons r rs ih =>
    unfold readVideoFrames
    split
    · simp [ih]
    · split
      · rfl
      · rfl
      · simp [ih]

/-- Reading the sources from index `i ≥ 1` on leaves `frames[0]` alone. -/
theorem readVideoFrames_frame_zero (audioIndex : Int) (i : Nat) (rs : List AudioVideoReader3)
    (fs : Nat → AudioVideoFrame2) (hi : 1 ≤ i) :
    (readVideoFrames audioIndex i rs fs).2.2 0 = fs 0 := by
  induction rs generalizing i fs with
  | nil => simp [readVideoFrames]
  | cons r rs ih =>
    unfold readVideoFrames
    split
    · exact ih (i + 1) fs (by omega)
    · split
      · rfl
      · rfl
      · rename_i f r' _
        simp only
        rw [ih (i + 1) _ (by omega)]
        exact Function.update_noteq (by omega) _ _

/-- A complete read of the sources, seen from source 0: when source 0 is the
audio-bearing one it is skipped, otherwise its first frame lands in `frames[0]`. -/
theorem readVideoFrames_head {audioIndex : Int} {r : AudioVideoReader3}
    {rs : List AudioVideoReader3} {fs : Nat → AudioVideoFrame2}
    (h : (readVideoFrames audioIndex 0 (r :: rs) fs).1 = CallResult.ok) :
    ((0 : Int) = audioIndex →
      ((readVideoFrames audioIndex 0 (r :: rs) fs).2.2 0 = fs 0 ∧
        sourceTimeStamps audioIndex (readVideoFrames audioIndex 0 (r :: rs) fs).2.1
          = sourceTimeStamps audioIndex (r :: rs))) ∧
    (¬ (0 : Int) = audioIndex →
      ((readVideoFrames audioIndex 0 (r :: rs) fs).2.2 0).timeStamp
          :: sourceTimeStamps audioIndex (readVideoFrames audioIndex 0 (r :: rs) fs).2.1
        = sourceTimeStamps audioIndex (r :: rs)) := by
  unfold readVideoFrames at h ⊢
  by_cases ha : ((0 : Nat) : Int) = audioIndex
  · simp only [ha, if_true]
    refine ⟨fun _ => ⟨readVideoFrames_frame_zero _ _ _ _ (le_refl 1), rfl⟩, fun hn => ?_⟩
    exact absurd (by simpa using ha) hn
  · simp only [ha, if_false] at h ⊢
    refine ⟨fun h0 => absurd (by simpa using h0) ha, fun _ => ?_⟩
    split at h
    · simp at h
    · simp at h
    · rename_i f r' hr
      rename_i heq
      simp only
      rw [readVideoFrames_frame_zero _ _ _ _ (le_refl 1)]
      simp only [Function.update_same, sourceTimeStamps, videoFramesOf, ha, if_false,
        (read_got hr).1, List.map_cons]

theorem sourceTimeStamps_set_audio {audioIndex : Int} {rs : List AudioVideoReader3}
    {r r' : AudioVideoReader3} {f : AudioVideoFrame2} (h0 : 0 ≤ audioIndex)
    (hr : rs[audioIndex.toNat]? = some r) (hf : r.frames = f :: r'.frames)
    (hm : f.mediaType = MediaType.AUDIO) :
    sourceTimeStamps audioIndex (rs.set audioIndex.toNat r') = sourceTimeStamps audioIndex rs := by
  cases rs with
  | nil => rfl
  | cons x xs =>
    cases hn : audioIndex.toNat with
    | zero =>
      rw [hn] at hr
      simp only [List.getElem?_cons_zero, Option.some.injEq] at hr
      subst hr
      have ha : audioIndex = 0 := by omega
      subst ha
      simp [sourceTimeStamps, videoFramesOf, hf, hm]
    | succ k => rfl

theorem sourceTimeStamps_set_video {audioIndex : Int} {rs : List AudioVideoReader3}
    {r r' : AudioVideoReader3} {f : AudioVideoFrame2} (h0 : 0 ≤ audioIndex)
    (hr : rs[audioIndex.toNat]? = some r) (hf : r.frames = f :: r'.frames)
    (hm : f.mediaType ≠ MediaType.AUDIO) :
    ((0 : Int) = audioIndex →
      f.timeStamp :: sourceTimeStamps audioIndex (rs.set audioIndex.toNat r')
        = sourceTimeStamps audioIndex rs) ∧
    (¬ (0 : Int) = audioIndex →
      sourceTimeStamps audioIndex (rs.set audioIndex.toNat r') = sourceTimeStamps audioIndex rs) := by
  cases rs with
  | nil => simp at hr
  | cons x xs =>
    cases hn : audioIndex.toNat with
    | zero =>
      rw [hn] at hr
      simp only [List.getElem?_cons_zero, Option.some.injEq] at hr
      subst hr
      have ha : audioIndex = 0 := by omega
      subst ha
      refine ⟨fun _ => ?_, fun hne => absurd rfl hne⟩
      simp [sourceTimeStamps, videoFramesOf, hf, hm]
    | succ k =>
      refine ⟨fun h => ?_, fun _ => rfl⟩
      omega

theorem writtenVideo_accept_audio {w : AudioVideoWriter3} {f : AudioVideoFrame2}
    (hm : f.mediaType = MediaType.AUDIO) : writtenVideo (w.accept f) = writtenVideo w := by
  simp [writtenVideo, AudioVideoWriter3.accept, hm]

theorem writtenVideo_accept_video (w : AudioVideoWriter3) (t : Int) :
    writtenVideo (w.accept ⟨ MediaType.VIDEO, t⟩) = writtenVideo w ++ [⟨ MediaType.VIDEO, t⟩] := by
  simp [writtenVideo, AudioVideoWriter3.accept]

theorem set_ne_nil {α : Type} {l : List α} (i : Nat) (a : α) (h : l ≠ []) : l.set i a ≠ [] := by
  intro hn
  have := congrArg List.length hn
  simp at this
  exact h this

/-- The controller has left the loop with nothing new written. -/
theorem OrderInv.of_finished {T : List Int} {s : Impl} (h1 : s.readers ≠ [])
    (h2 : s.numVideos = (s.readers.length : Int)) (h3 : s.writtenTimeStamps <+: T)
    (h4 : s.thread = some ThreadState.finished) : OrderInv T s := by
  refine ⟨h1, h2, ?_⟩
  rw [h4]
  exact h3

theorem updateProgress_order_fields (s : Impl) (c step : Int) :
    (s.updateProgress c step).readers = s.readers ∧
      (s.updateProgress c step).numVideos = s.numVideos ∧
      (s.updateProgress c step).writer = s.writer ∧
      (s.updateProgress c step).audioIndex = s.audioIndex := by
  unfold Impl.updateProgress
  split_ifs <;> exact ⟨rfl, rfl, rfl, rfl⟩

theorem afterVideoWrite_order {T : List Int} {s : Impl} (l : RunLocals) (h1 : s.readers ≠ [])
    (h2 : s.numVideos = (s.readers.length : Int))
    (h3 : s.writtenTimeStamps ++ sourceTimeStamps s.audioIndex s.readers = T) :
    OrderInv T (afterVideoWrite s l) := by
  obtain ⟨u1, u2, u3, u4⟩ := updateProgress_order_fields s (l.count + 1) l.step
  have hp : s.writtenTimeStamps <+: T := ⟨_, h3⟩
  unfold afterVideoWrite
  simp only
  split_ifs
  · refine ⟨?_, ?_, ?_⟩
    · show (s.updateProgress (l.count + 1) l.step).readers ≠ []
      rw [u1]
      exact h1
    · show (s.updateProgress (l.count + 1) l.step).numVideos
        = ((s.updateProgress (l.count + 1) l.step).readers.length : Int)
      rw [u1, u2]
      exact h2
    · show (writtenVideo (s.updateProgress (l.count + 1) l.step).writer.close).map
        (fun f => f.timeStamp) <+: T
      rw [u3]
      exact hp
  · refine ⟨?_, ?_, ?_⟩
    · show (s.updateProgress (l.count + 1) l.step).readers ≠ []
      rw [u1]
      exact h1
    · show (s.updateProgress (l.count + 1) l.step).numVideos
        = ((s.updateProgress (l.count + 1) l.step).readers.length : Int)
      rw [u1, u2]
      exact h2
    · show (writtenVideo (s.updateProgress (l.count + 1) l.step).writer).map
          (fun f => f.timeStamp)
          ++ sourceTimeStamps (s.updateProgress (l.count + 1) l.step).audioIndex
            (s.updateProgress (l.count + 1) l.step).readers = T
      rw [u1, u3, u4]
      exact h3

theorem processSample_order {T : List Int} (env : RunEnv) {s : Impl} (l : RunLocals)
    (h1 : s.readers ≠ []) (h2 : s.numVideos = (s.readers.length : Int))
    (h3 : s.writtenTimeStamps
      ++ ((l.frames 0).timeStamp :: sourceTimeStamps s.audioIndex s.readers) = T) :
    OrderInv T (processSample env s l) := by
  have hp : s.writtenTimeStamps <+: T := ⟨_, h3⟩
  unfold processSample
  simp only
  repeat' split
  all_goals first
    | exact OrderInv.of_finished h1 h2 hp rfl
    | (refine afterVideoWrite_order (s := _) l h1 h2 ?_
       show (writtenVideo (s.writer.accept ⟨ MediaType.VIDEO, (l.frames 0).timeStamp⟩)).map
         (fun f => f.timeStamp) ++ sourceTimeStamps s.audioIndex s.readers = T
       rw [writtenVideo_accept_video, List.map_append, List.append_assoc]
       exact h3)

theorem videoIteration_order {T : List Int} (env : RunEnv) {s : Impl} (l : RunLocals)
    (h1 : s.readers ≠ []) (h2 : s.numVideos = (s.readers.length : Int))
    (h3 : (0 : Int) = s.audioIndex → s.writtenTimeStamps
      ++ ((l.frames 0).timeStamp :: sourceTimeStamps s.audioIndex s.readers) = T)
    (h4 : ¬ (0 : Int) = s.audioIndex →
      s.writtenTimeStamps ++ sourceTimeStamps s.audioIndex s.readers = T) :
    OrderInv T (videoIteration env s l) := by
  have hp : s.writtenTimeStamps <+: T := by
    by_cases ha : (0 : Int) = s.audioIndex
    · exact ⟨_, h3 ha⟩
    · exact ⟨_, h4 ha⟩
  have hlen := readVideoFrames_length s.audioIndex 0 s.readers l.frames
  have hne : (readVideoFrames s.audioIndex 0 s.readers l.frames).2.1 ≠ [] := by
    intro hn
    rw [hn] at hlen
    exact h1 (List.length_eq_zero.mp hlen.symm)
  have hnum : s.numVideos
      = ((readVideoFrames s.audioIndex 0 s.readers l.frames).2.1.length : Int) := by
    rw [hlen]
    exact h2
  unfold videoIteration
  split
  · rename_i rs fs heq
    rw [heq] at hne hnum
    exact OrderInv.of_finished hne hnum hp rfl
  · rename_i rs fs heq
    rw [heq] at hne hnum
    exact OrderInv.of_finished hne hnum hp rfl
  · rename_i rs fs heq
    have hok : (readVideoFrames s.audioIndex 0 s.readers l.frames).1 = CallResult.ok := by
      rw [heq]
    rw [heq] at hne hnum
    simp only
    split
    · exact OrderInv.of_finished hne hnum hp rfl
    · refine processSample_order env (s := _) _ hne hnum ?_
      show s.writtenTimeStamps ++ ((fs 0).timeStamp :: sourceTimeStamps s.audioIndex rs) = T
      obtain ⟨r, rest, hcons⟩ := List.exists_cons_of_ne_nil h1
      rw [hcons] at hok heq h3 h4
      have hh := readVideoFrames_head hok
      rw [heq] at hh
      by_cases ha : (0 : Int) = s.audioIndex
      · obtain ⟨e1, e2⟩ := hh.1 ha
        simp only at e1 e2
        rw [e1, e2]
        exact h3 ha
      · have e := hh.2 ha
        simp only at e
        rw [e]
        exact h4 ha

theorem loopIteration_order {T : List Int} (env : RunEnv) {s : Impl} (l : RunLocals)
    (h1 : s.readers ≠ []) (h2 : s.numVideos = (s.readers.length : Int))
    (h3 : s.writtenTimeStamps ++ sourceTimeStamps s.audioIndex s.readers = T) :
    OrderInv T (loopIteration env s l) := by
  have hp : s.writtenTimeStamps <+: T := ⟨_, h3⟩
  unfold loopIteration
  split
  · rename_i hrange
    split
    · exact OrderInv.of_finished h1 h2 hp rfl
    · rename_i r hr
      split
      · exact OrderInv.of_finished h1 h2 hp rfl
      · exact OrderInv.of_finished h1 h2 hp rfl
      · rename_i f r' hread
        have hf := (read_got hread).1
        have hne := set_ne_nil s.audioIndex.toNat r' h1
        have hnum : s.numVideos = ((s.readers.set s.audioIndex.toNat r').length : Int) := by
          rw [List.length_set]
          exact h2
        simp only
        split
        · rename_i hm
          have hsrc := sourceTimeStamps_set_audio hrange.1 hr hf hm
          split
          · exact OrderInv.of_finished hne hnum hp rfl
          · exact OrderInv.of_finished hne hnum hp rfl
          · refine ⟨hne, hnum, ?_⟩
            show (writtenVideo (s.writer.accept f)).map (fun f => f.timeStamp)
              ++ sourceTimeStamps s.audioIndex (s.readers.set s.audioIndex.toNat r') = T
            rw [writtenVideo_accept_audio hm, hsrc]
            exact h3
        · rename_i hm
          have hsrc := sourceTimeStamps_set_video hrange.1 hr hf hm
          refine videoIteration_order env (s := _) _ hne hnum ?_ ?_
          · intro ha
            show s.writtenTimeStamps
              ++ ((Function.update l.frames s.audioIndex.toNat f 0).timeStamp
                :: sourceTimeStamps s.audioIndex (s.readers.set s.audioIndex.toNat r')) = T
            have hz : s.audioIndex.toNat = 0 := by
              rw [← ha]
              rfl
            rw [hz, Function.update_same, ← hz, hsrc.1 ha]
            exact h3
          · intro ha
            show s.writtenTimeStamps
              ++ sourceTimeStamps s.audioIndex (s.readers.set s.audioIndex.toNat r') = T
            rw [hsrc.2 ha]
            exact h3
  · rename_i hrange
    apply videoIteration_order env l h1 h2
    · intro ha
      exfalso
      apply hrange
      have hpos : 0 < s.readers.length := List.length_pos.mpr h1
      omega
    · intro _
      exact h3

theorem threadStep_order {T : List Int} (env : RunEnv) {s : Impl} (h : OrderInv T s) :
    OrderInv T (s.threadStep env) := by
  obtain ⟨h1, h2, h3⟩ := h
  unfold Impl.threadStep
  split
  · rename_i h0
    exact ⟨h1, h2, h3⟩
  · rename_i h0
    exact ⟨h1, h2, h3⟩
  · rename_i h0
    rw [h0] at h3
    simp only at h3
    split_ifs
    · exact OrderInv.of_finished h1 h2 ⟨_, h3⟩ rfl
    · exact OrderInv.of_finished h1 h2 ⟨_, h3⟩ rfl
    · exact ⟨h1, h2, h3⟩
  · rename_i l h0
    rw [h0] at h3
    exact loopIteration_order env l h1 h2 h3

theorem exec_order {T : List Int} (env : RunEnv) (schedule : List Action) {s : Impl}
    (h : OrderInv T s) : OrderInv T (s.exec env schedule) := by
  induction schedule generalizing s with
  | nil => exact h
  | cons a rest ih =>
    show OrderInv T (Impl.exec env (Impl.act env s a) rest)
    apply ih
    cases a with
    | step => exact threadStep_order env h
    | cancel => exact h

theorem OrderInv.isPrefix {T : List Int} {s : Impl} (h : OrderInv T s) :
    s.writtenTimeStamps <+: T := by
  obtain ⟨-, -, h3⟩ := h
  split at h3
  · exact ⟨_, h3⟩
  · exact ⟨_, h3⟩
  · exact h3

end CPUPanoramaLocalDiskTask

namespace CPUPanoramaLocalDiskTask

theorem minOf_cons_cons (x y : Nat) (l : List Nat) :
    minOf (x :: y :: l) = min x (minOf (y :: l)) := rfl

theorem minOf_zero_of_mem {l : List Nat} (h : 0 ∈ l) : minOf l = 0 := by
  induction l with
  | nil => simp at h
  | cons x xs ih =>
    cases xs with
    | nil =>
      simp only [List.mem_singleton] at h
      simp [minOf, ← h]
    | cons y ys =>
      rw [minOf_cons_cons]
      rcases List.mem_cons.mp h with h0 | h0
      · rw [← h0]
        exact Nat.zero_min _
      · rw [ih h0]
        exact Nat.min_zero _

theorem minOf_map_succ {l : List Nat} (h : l ≠ []) :
    minOf (l.map (fun c => c + 1)) = minOf l + 1 := by
  induction l with
  | nil => exact absurd rfl h
  | cons x xs ih =>
    cases xs with
    | nil => simp [minOf]
    | cons y ys =>
      have := ih (by simp)
      simp only [List.map_cons] at this ⊢
      rw [minOf_cons_cons, minOf_cons_cons, this]
      omega

theorem bumpIf_all (p : Nat → Bool) (i : Nat) (cs : List Nat)
    (h : ∀ j, i ≤ j → j < i + cs.length → p j = true) :
    bumpIf p i cs = cs.map (fun c => c + 1) := by
  induction cs generalizing i with
  | nil => rfl
  | cons c cs ih =>
    simp only [bumpIf, List.map_cons]
    rw [h i (le_refl i) (by simp), ih (i + 1) (fun j h1 h2 => h j (by omega) (by simp; omega))]
    simp

theorem bumpIf_none (p : Nat → Bool) (i : Nat) (cs : List Nat)
    (h : ∀ j, i ≤ j → j < i + cs.length → p j = false) : bumpIf p i cs = cs := by
  induction cs generalizing i with
  | nil => rfl
  | cons c cs ih =>
    simp only [bumpIf]
    rw [h i (le_refl i) (by simp), ih (i + 1) (fun j h1 h2 => h j (by omega) (by simp; omega))]
    simp

theorem bumpIf_compose (a : Int) (i : Nat) (cs : List Nat) :
    bumpIf (fun j => decide ((j : Int) = a)) i (bumpIf (fun j => decide ((j : Int) ≠ a)) i cs)
      = cs.map (fun c => c + 1) := by
  induction cs generalizing i with
  | nil => rfl
  | cons c cs ih =>
    simp only [bumpIf, List.map_cons, ih]
    by_cases h : (i : Int) = a <;> simp [h]

theorem videoCounts_length (a : Int) (i : Nat) (rs : List AudioVideoReader3) :
    (videoCounts a i rs).length = rs.length := by
  induction rs generalizing i with
  | nil => rfl
  | cons r rs ih => simp [videoCounts, ih]

theorem bumpIf_length (p : Nat → Bool) (i : Nat) (cs : List Nat) :
    (bumpIf p i cs).length = cs.length := by
  induction cs generalizing i with
  | nil => rfl
  | cons c cs ih => simp [bumpIf, ih]

/-- After a complete read every source but the audio-bearing one has given one frame. -/
theorem readVideoFrames_ok_counts (a : Int) (i : Nat) (rs : List AudioVideoReader3)
    (fs : Nat → AudioVideoFrame2) (h : (readVideoFrames a i rs fs).1 = CallResult.ok) :
    videoCounts a i rs
      = bumpIf (fun j => decide ((j : Int) ≠ a)) i
          (videoCounts a i (readVideoFrames a i rs fs).2.1) := by
  induction rs generalizing i fs with
  | nil => simp [readVideoFrames, videoCounts, bumpIf]
  | cons r rs ih =>
    unfold readVideoFrames at h ⊢
    split at h
    · rename_i ha
      simp only [ha, if_true, videoCounts, bumpIf]
      rw [← ih (i + 1) fs h]
      simp
    · rename_i ha
      split at h
      · simp at h
      · simp at h
      · rename_i f r' hr
        simp only [ha, if_false, hr, videoCounts, bumpIf]
        rw [← ih (i + 1) _ h]
        simp [videoFramesOf, ha, (read_got hr).1]

theorem read_empty {r : AudioVideoReader3}
    (h : r.read = ReadResult.eof ∨ r.read = ReadResult.exc) : r.frames = [] := by
  unfold AudioVideoReader3.read at h
  split at h
  · simp at h
  · assumption

/-- A read that returns `false` or throws met a source, other than the audio-bearing
one, without frames. -/
theorem readVideoFrames_fail_zero (a : Int) (i : Nat) (rs : List AudioVideoReader3)
    (fs : Nat → AudioVideoFrame2)
    (h : (readVideoFrames a i rs fs).1 = CallResult.fail
      ∨ (readVideoFrames a i rs fs).1 = CallResult.throws) :
    0 ∈ bumpIf (fun j => decide ((j : Int) = a)) i (videoCounts a i rs) := by
  induction rs generalizing i fs with
  | nil => simp [readVideoFrames] at h
  | cons r rs ih =>
    unfold readVideoFrames at h
    simp only [videoCounts, bumpIf]
    split at h
    · exact List.mem_cons_of_mem _ (ih (i + 1) fs h)
    · rename_i ha
      split at h
      · rename_i hr
        simp [videoFramesOf, ha, read_empty (Or.inl hr)]
      · rename_i hr
        simp [videoFramesOf, ha, read_empty (Or.inr hr)]
      · rename_i f r' hr
        exact List.mem_cons_of_mem _ (ih (i + 1) _ h)

theorem videoCounts_set_audio {a : Int} {i k : Nat} {rs : List AudioVideoReader3}
    {r r' : AudioVideoReader3} {f : AudioVideoFrame2} (hr : rs[k]? = some r)
    (hk : ((i + k : Nat) : Int) = a) (hf : r.frames = f :: r'.frames)
    (hm : f.mediaType = MediaType.AUDIO) :
    videoCounts a i (rs.set k r') = videoCounts a i rs := by
  induction rs generalizing i k with
  | nil => simp at hr
  | cons x xs ih =>
    cases k with
    | zero =>
      simp only [List.getElem?_cons_zero, Option.some.injEq] at hr
      subst hr
      have hi : (i : Int) = a := by simpa using hk
      simp [videoCounts, videoFramesOf, hi, hf, hm]
    | succ j =>
      simp only [List.getElem?_cons_succ] at hr
      simp only [List.set_cons_succ, videoCounts]
      rw [ih hr (by rw [← hk]; push_cast; ring)]

theorem videoCounts_set_video {a : Int} {i k : Nat} {rs : List AudioVideoReader3}
    {r r' : AudioVideoReader3} {f : AudioVideoFrame2} (hr : rs[k]? = some r)
    (hk : ((i + k : Nat) : Int) = a) (hf : r.frames = f :: r'.frames)
    (hm : f.mediaType ≠ MediaType.AUDIO) :
    videoCounts a i rs
      = bumpIf (fun j => decide ((j : Int) = a)) i (videoCounts a i (rs.set k r')) := by
  induction rs generalizing i k with
  | nil => simp at hr
  | cons x xs ih =>
    cases k with
    | zero =>
      simp only [List.getElem?_cons_zero, Option.some.injEq] at hr
      subst hr
      have hi : (i : Int) = a := by simpa using hk
      simp only [List.set_cons_zero, videoCounts, bumpIf]
      rw [bumpIf_none]
      · simp [videoFramesOf, hi, hf, hm]
      · intro j h1 h2
        simp only [decide_eq_false_iff_not]
        omega
    | succ j =>
      simp only [List.getElem?_cons_succ] at hr
      simp only [List.set_cons_succ, videoCounts, bumpIf]
      rw [← ih hr (by rw [← hk]; push_cast; ring)]
      have hi : ¬ (i : Int) = a := by
        rw [← hk]
        push_cast
        omega
      simp [hi]

theorem videoCounts_empty_zero {a : Int} {i k : Nat} {rs : List AudioVideoReader3}
    {r : AudioVideoReader3} (hr : rs[k]? = some r) (hf : r.frames = []) :
    0 ∈ videoCounts a i rs := by
  induction rs generalizing i k with
  | nil => simp at hr
  | cons x xs ih =>
    cases k with
    | zero =>
      simp only [List.getElem?_cons_zero, Option.some.injEq] at hr
      subst hr
      simp [videoCounts, videoFramesOf, hf]
    | succ j =>
      simp only [List.getElem?_cons_succ] at hr
      simp only [videoCounts]
      exact List.mem_cons_of_mem _ (ih hr)

theorem read_eof {r : AudioVideoReader3} (h : r.read = ReadResult.eof) : r.frames = [] := by
  unfold AudioVideoReader3.read at h
  split at h
  · simp at h
  · assumption

/-- The controller has left the loop with the right number of frames written. -/
theorem CountInv.of_finished_count {n : Nat} {s : Impl} (h1 : s.readers ≠ [])
    (h2 : s.numVideos = (s.readers.length : Int)) (h3 : s.endFlag = false)
    (h5 : 1 ≤ s.validFrameCount)
    (h6 : (writtenVideo s.writer).length = min n s.validFrameCount.toNat)
    (h7 : s.thread = some ThreadState.finished) : CountInv n s := by
  refine ⟨h1, h2, h3, h5, ?_⟩
  rw [h7]
  exact h6

theorem updateProgress_count_fields (s : Impl) (c step : Int) :
    (s.updateProgress c step).readers = s.readers ∧
      (s.updateProgress c step).numVideos = s.numVideos ∧
      (s.updateProgress c step).writer = s.writer ∧
      (s.updateProgress c step).audioIndex = s.audioIndex ∧
      (s.updateProgress c step).endFlag = s.endFlag ∧
      (s.updateProgress c step).validFrameCount = s.validFrameCount := by
  unfold Impl.updateProgress
  split_ifs <;> exact ⟨rfl, rfl, rfl, rfl, rfl, rfl⟩

theorem afterVideoWrite_count {n : Nat} {s : Impl} (l : RunLocals) (h1 : s.readers ≠ [])
    (h2 : s.numVideos = (s.readers.length : Int)) (h3 : s.endFlag = false)
    (h5 : 1 ≤ s.validFrameCount)
    (hw : ((writtenVideo s.writer).length : Int) = l.count + 1)
    (hc : l.count < s.validFrameCount)
    (hn : (writtenVideo s.writer).length + completeSamples s.audioIndex s.readers = n) :
    CountInv n (afterVideoWrite s l) := by
  obtain ⟨u1, u2, u3, u4, u5, u6⟩ := updateProgress_count_fields s (l.count + 1) l.step
  unfold afterVideoWrite
  simp only
  split_ifs with hge
  · rw [u6] at hge
    refine ⟨?_, ?_, ?_, ?_, ?_⟩
    · show (s.updateProgress (l.count + 1) l.step).readers ≠ []
      rw [u1]
      exact h1
    · show (s.updateProgress (l.count + 1) l.step).numVideos
        = ((s.updateProgress (l.count + 1) l.step).readers.length : Int)
      rw [u1, u2]
      exact h2
    · show (s.updateProgress (l.count + 1) l.step).endFlag = false
      rw [u5]
      exact h3
    · show 1 ≤ (s.updateProgress (l.count + 1) l.step).validFrameCount
      rw [u6]
      exact h5
    · show (writtenVideo (s.updateProgress (l.count + 1) l.step).writer.close).length
        = min n (s.updateProgress (l.count + 1) l.step).validFrameCount.toNat
      rw [u3, u6]
      show (writtenVideo s.writer).length = min n s.validFrameCount.toNat
      omega
  · rw [u6] at hge
    refine ⟨?_, ?_, ?_, ?_, ?_⟩
    · show (s.updateProgress (l.count + 1) l.step).readers ≠ []
      rw [u1]
      exact h1
    · show (s.updateProgress (l.count + 1) l.step).numVideos
        = ((s.updateProgress (l.count + 1) l.step).readers.length : Int)
      rw [u1, u2]
      exact h2
    · show (s.updateProgress (l.count + 1) l.step).endFlag = false
      rw [u5]
      exact h3
    · show 1 ≤ (s.updateProgress (l.count + 1) l.step).validFrameCount
      rw [u6]
      exact h5
    · show ((writtenVideo (s.updateProgress (l.count + 1) l.step).writer).length : Int)
          = l.count + 1 ∧
        l.count + 1 < (s.updateProgress (l.count + 1) l.step).validFrameCount ∧
        (writtenVideo (s.updateProgress (l.count + 1) l.step).writer).length
          + completeSamples (s.updateProgress (l.count + 1) l.step).audioIndex
            (s.updateProgress (l.count + 1) l.step).readers = n
      rw [u1, u3, u4, u6]
      exact ⟨hw, by omega, hn⟩

theorem processSample_count {n : Nat} (env : RunEnv) (henv : env.noFailure) {s : Impl}
    (l : RunLocals) (h1 : s.readers ≠ [])
    (h2 : s.numVideos = (s.readers.length : Int)) (h3 : s.endFlag = false)
    (h5 : 1 ≤ s.validFrameCount)
    (hw : ((writtenVideo s.writer).length : Int) = l.count)
    (hc : l.count < s.validFrameCount)
    (hn : (writtenVideo s.writer).length + 1 + completeSamples s.audioIndex s.readers = n) :
    CountInv n (processSample env s l) := by
  obtain ⟨e1, e2, e3, e4⟩ := henv
  unfold processSample
  simp only [e1, e2, e4, Bool.not_true, Bool.false_eq_true, if_false]
  have hlogo : (if env.addLogo = true then env.logoFilterAddLogo l.count.toNat else CallResult.ok)
      = CallResult.ok := by
    split_ifs with ha
    · exact e3 ha _
    · rfl
  rw [hlogo]
  refine afterVideoWrite_count (s := _) l h1 h2 h3 h5 ?_ hc ?_
  · show ((writtenVideo (s.writer.accept ⟨ MediaType.VIDEO, (l.frames 0).timeStamp⟩)).length : Int)
      = l.count + 1
    rw [writtenVideo_accept_video]
    simp [hw]
  · show (writtenVideo (s.writer.accept ⟨ MediaType.VIDEO, (l.frames 0).timeStamp⟩)).length
      + completeSamples s.audioIndex s.readers = n
    rw [writtenVideo_accept_video]
    simp only [List.length_append, List.length_singleton]
    exact hn

theorem videoIteration_count {n : Nat} (env : RunEnv) (henv : env.noFailure) {s : Impl}
    (l : RunLocals) (h1 : s.readers ≠ [])
    (h2 : s.numVideos = (s.readers.length : Int)) (h3 : s.endFlag = false)
    (h5 : 1 ≤ s.validFrameCount)
    (hw : ((writtenVideo s.writer).length : Int) = l.count)
    (hc : l.count < s.validFrameCount)
    (hn : (writtenVideo s.writer).length
      + minOf (bumpIf (fun j => decide ((j : Int) = s.audioIndex)) 0
          (videoCounts s.audioIndex 0 s.readers)) = n) :
    CountInv n (videoIteration env s l) := by
  have hlen := readVideoFrames_length s.audioIndex 0 s.readers l.frames
  have hne : (readVideoFrames s.audioIndex 0 s.readers l.frames).2.1 ≠ [] := by
    intro hnil
    rw [hnil] at hlen
    exact h1 (List.length_eq_zero.mp hlen.symm)
  have hnum : s.numVideos
      = ((readVideoFrames s.audioIndex 0 s.readers l.frames).2.1.length : Int) := by
    rw [hlen]
    exact h2
  have hokc := readVideoFrames_ok_counts s.audioIndex 0 s.readers l.frames
  have hfail := readVideoFrames_fail_zero s.audioIndex 0 s.readers l.frames
  unfold videoIteration
  split
  · rename_i rs fs heq
    rw [heq] at hne hnum hfail
    have hz := minOf_zero_of_mem (hfail (Or.inr rfl))
    rw [hz] at hn
    refine CountInv.of_finished_count (s := _) hne hnum h3 h5 ?_ rfl
    show (writtenVideo s.writer).length = min n s.validFrameCount.toNat
    omega
  · rename_i rs fs heq
    rw [heq] at hne hnum hfail
    have hz := minOf_zero_of_mem (hfail (Or.inl rfl))
    rw [hz] at hn
    refine CountInv.of_finished_count (s := _) hne hnum h3 h5 ?_ rfl
    show (writtenVideo s.writer).length = min n s.validFrameCount.toNat
    omega
  · rename_i rs fs heq
    rw [heq] at hne hnum hokc
    have hcs := hokc rfl
    simp only at hcs
    have hvc : videoCounts s.audioIndex 0 rs ≠ [] := by
      intro hnil
      have := congrArg List.length hnil
      rw [videoCounts_length] at this
      exact hne (List.length_eq_zero.mp this)
    rw [hcs, bumpIf_compose, minOf_map_succ hvc] at hn
    simp only
    split
    · rename_i he
      rw [h3] at he
      exact absurd he (by simp)
    · refine processSample_count env henv (s := _) _ hne hnum h3 h5 hw hc ?_
      show (writtenVideo s.writer).length + 1 + completeSamples s.audioIndex rs = n
      unfold completeSamples
      omega

theorem loopIteration_count {n : Nat} (env : RunEnv) (henv : env.noFailure) {s : Impl}
    (l : RunLocals) (h1 : s.readers ≠ [])
    (h2 : s.numVideos = (s.readers.length : Int)) (h3 : s.endFlag = false)
    (h5 : 1 ≤ s.validFrameCount)
    (hw : ((writtenVideo s.writer).length : Int) = l.count)
    (hc : l.count < s.validFrameCount)
    (hn : (writtenVideo s.writer).length + completeSamples s.audioIndex s.readers = n) :
    CountInv n (loopIteration env s l) := by
  unfold loopIteration
  split
  · rename_i hrange
    have hk : ((0 + s.audioIndex.toNat : Nat) : Int) = s.audioIndex := by
      rw [Nat.zero_add]
      exact Int.toNat_of_nonneg hrange.1
    split
    · rename_i hr
      exfalso
      rw [List.getElem?_eq_none_iff] at hr
      omega
    · rename_i r hr
      split
      · rename_i hread
        have hz := minOf_zero_of_mem
          (videoCounts_empty_zero (a := s.audioIndex) (i := 0) hr (read_eof hread))
        unfold completeSamples at hn
        rw [hz] at hn
        refine CountInv.of_finished_count h1 h2 h3 h5 ?_ rfl
        show (writtenVideo s.writer).length = min n s.validFrameCount.toNat
        omega
      · rename_i hread
        have hz := minOf_zero_of_mem
          (videoCounts_empty_zero (a := s.audioIndex) (i := 0) hr (read_empty (Or.inr hread)))
        unfold completeSamples at hn
        rw [hz] at hn
        refine CountInv.of_finished_count h1 h2 h3 h5 ?_ rfl
        show (writtenVideo s.writer).length = min n s.validFrameCount.toNat
        omega
      · rename_i f r' hread
        have hf := (read_got hread).1
        have hne := set_ne_nil s.audioIndex.toNat r' h1
        have hnum : s.numVideos = ((s.readers.set s.audioIndex.toNat r').length : Int) := by
          rw [List.length_set]
          exact h2
        simp only [henv.2.2.2]
        split
        · rename_i hm
          refine ⟨hne, hnum, h3, h5, ?_⟩
          show ((writtenVideo (s.writer.accept f)).length : Int) = l.count ∧
            l.count < s.validFrameCount ∧
            (writtenVideo (s.writer.accept f)).length
              + completeSamples s.audioIndex (s.readers.set s.audioIndex.toNat r') = n
          rw [writtenVideo_accept_audio hm]
          unfold completeSamples
          rw [videoCounts_set_audio hr hk hf hm]
          exact ⟨hw, hc, hn⟩
        · rename_i hm
          refine videoIteration_count env henv (s := _) _ hne hnum h3 h5 hw hc ?_
          show (writtenVideo s.writer).length
            + minOf (bumpIf (fun j => decide ((j : Int) = s.audioIndex)) 0
                (videoCounts s.audioIndex 0 (s.readers.set s.audioIndex.toNat r'))) = n
          rw [← videoCounts_set_video hr hk hf hm]
          exact hn
  · rename_i hrange
    refine videoIteration_count env henv l h1 h2 h3 h5 hw hc ?_
    rw [bumpIf_none]
    · exact hn
    · intro j _ hj
      rw [videoCounts_length] at hj
      simp only [decide_eq_false_iff_not]
      intro hja
      apply hrange
      omega

theorem threadStep_count {n : Nat} (env : RunEnv) (henv : env.noFailure) {s : Impl}
    (h : CountInv n s) : CountInv n (s.threadStep env) := by
  obtain ⟨h1, h2, h3, h5, h6⟩ := h
  unfold Impl.threadStep
  split
  · rename_i h0
    exact ⟨h1, h2, h3, h5, h6⟩
  · rename_i h0
    exact ⟨h1, h2, h3, h5, h6⟩
  · rename_i h0
    rw [h0] at h6
    simp only at h6
    obtain ⟨g1, g2, g3, g4⟩ := h6
    simp only [g1, g2, Bool.not_true, Bool.false_eq_true, if_false]
    refine ⟨h1, h2, h3, h5, ?_⟩
    show ((writtenVideo s.writer).length : Int) = 0 ∧ 0 < s.validFrameCount ∧
      (writtenVideo s.writer).length + completeSamples s.audioIndex s.readers = n
    rw [g3, g4]
    exact ⟨rfl, by omega, by omega⟩
  · rename_i l h0
    rw [h0] at h6
    exact loopIteration_count env henv l h1 h2 h3 h5 h6.1 h6.2.1 h6.2.2

theorem runSteps_succ (env : RunEnv) (s : Impl) (k : Nat) :
    s.runSteps env (k + 1) = (s.threadStep env).runSteps env k := by
  unfold Impl.runSteps Impl.exec
  rw [List.replicate_succ, List.foldl_cons]
  rfl

theorem runSteps_count {n : Nat} (env : RunEnv) (henv : env.noFailure) (k : Nat) {s : Impl}
    (h : CountInv n s) : CountInv n (s.runSteps env k) := by
  induction k generalizing s with
  | zero => exact h
  | succ k ih =>
    rw [runSteps_succ]
    exact ih (threadStep_count env henv h)

end CPUPanoramaLocalDiskTask

/-! ## The started controller -/

namespace CPUPanoramaLocalDiskTask

/-- The fields of the controller after a successful `init` followed by `start()`. -/
theorem started_fields (e : InitEnv) (a : InitArgs) (s0 : Impl)
    (h : (Impl.init e a s0).1 = true) :
    ∃ p, e.prepareSrcVideos = some p ∧
      (started e a s0).thread = some ThreadState.spawned ∧
      (started e a s0).numVideos = (a.srcVideoFiles.length : Int) ∧
      1 ≤ a.srcVideoFiles.length ∧
      (started e a s0).readers = p.readers ∧
      (started e a s0).audioIndex = p.audioIndex ∧
      (started e a s0).validFrameCount = (Impl.init e a s0).2.validFrameCount ∧
      (Impl.init e a s0).2.validFrameCount
        = capFrameCount p.validFrameCount a.dstVideoMaxFrameCount ∧
      (started e a s0).endFlag = false ∧
      (started e a s0).initSuccess = true ∧
      (started e a s0).finish = false ∧
      (started e a s0).hasAsyncError = 0 ∧
      (started e a s0).syncErrorMessage = "" ∧
      (started e a s0).writer = AudioVideoWriter3.opened := by
  obtain ⟨p, h1, h2, h3, h4, h5, h6, h7, -, h9, h10, -, h12, h13, h14⟩ :=
    init_true_state e a s0 h
  refine ⟨p, h1, ?_⟩
  unfold started
  rw [start_after_init e a s0 h]
  exact ⟨rfl, h2, h3, h4, h5, rfl, h6, h7, h9, h10, h12, h13, h14⟩

/-- The order invariant holds when the thread is spawned. -/
theorem started_order (e : InitEnv) (a : InitArgs) (s0 : Impl) (p : PreparedSrc)
    (hp : e.prepareSrcVideos = some p) (hlen : p.readers.length = a.srcVideoFiles.length)
    (h : (Impl.init e a s0).1 = true) :
    OrderInv (sourceTimeStamps p.audioIndex p.readers) (started e a s0) := by
  obtain ⟨q, h1, h2, h3, h4, h5, h6, -, -, -, -, -, -, -, h14⟩ := started_fields e a s0 h
  rw [hp] at h1
  cases h1
  refine ⟨?_, ?_, ?_⟩
  · rw [h5]
    intro hnil
    rw [hnil] at hlen
    simp at hlen
    omega
  · rw [h3, h5, hlen]
  · rw [h2]
    show (started e a s0).writtenTimeStamps
      ++ sourceTimeStamps (started e a s0).audioIndex (started e a s0).readers = _
    rw [h5, h6]
    unfold Impl.writtenTimeStamps
    rw [h14]
    rfl

/-- The count invariant holds when the thread is spawned. -/
theorem started_count (e : InitEnv) (a : InitArgs) (s0 : Impl) (p : PreparedSrc)
    (hp : e.prepareSrcVideos = some p) (hlen : p.readers.length = a.srcVideoFiles.length)
    (h : (Impl.init e a s0).1 = true)
    (hv : 1 ≤ (Impl.init e a s0).2.validFrameCount) :
    CountInv (completeSamples p.audioIndex p.readers) (started e a s0) := by
  obtain ⟨q, h1, h2, h3, h4, h5, h6, h7, -, h9, h10, h11, -, -, h14⟩ :=
    started_fields e a s0 h
  rw [hp] at h1
  cases h1
  refine ⟨?_, ?_, h9, ?_, ?_⟩
  · rw [h5]
    intro hnil
    rw [hnil] at hlen
    simp at hlen
    omega
  · rw [h3, h5, hlen]
  · rw [h7]
    exact hv
  · rw [h2]
    refine ⟨h10, h11, ?_, ?_⟩
    · rw [h14]
      rfl
    · rw [h5, h6]

/-- No error is pending when the thread is spawned. -/
theorem started_quiet (e : InitEnv) (a : InitArgs) (s0 : Impl) (p : PreparedSrc)
    (hp : e.prepareSrcVideos = some p) (h : (Impl.init e a s0).1 = true)
    (hthrow : noReaderThrows p.readers) : Quiet "" (started e a s0) := by
  obtain ⟨q, h1, -, -, -, h5, -, -, -, -, -, -, h12, h13, -⟩ := started_fields e a s0 h
  rw [hp] at h1
  cases h1
  refine ⟨h12, h13, ?_⟩
  rw [h5]
  exact hthrow

/-- The time stamps a source supplies as video frames are a sublist of its frames'. -/
theorem sourceTimeStamps_sorted (audioIndex : Int) (rs : List AudioVideoReader3)
    (h : ∀ r ∈ rs, (r.frames.map (fun f => f.timeStamp)).Sorted (· < ·)) :
    (sourceTimeStamps audioIndex rs).Sorted (· < ·) := by
  cases rs with
  | nil => exact List.sorted_nil
  | cons r rest =>
    have hr := h r (List.mem_cons_self _ _)
    have hsub : List.Sublist ((videoFramesOf audioIndex 0 r).map (fun f => f.timeStamp))
        (r.frames.map (fun f => f.timeStamp)) := by
      apply List.Sublist.map
      unfold videoFramesOf
      split
      · exact List.filter_sublist _
      · exact List.Sublist.refl _
    exact List.Pairwise.sublist hsub hr

end CPUPanoramaLocalDiskTask

namespace CudaPanoramaLocalDiskTask

/-- No error is pending after a successful `init` followed by `start()`. -/
theorem started_quiet_gpu (e : InitEnv) (a : InitArgs) (s0 : Impl)
    (h : (Impl.init e a s0).1 = true) : Quiet "" (started e a s0) := by
  obtain ⟨p, -, -, -, -, -, -, -, -, -, -, -, -, -, h12, h13, -⟩ := init_true_state_gpu e a s0 h
  unfold started
  rw [start_after_init_gpu e a s0 h]
  exact ⟨h12, h13⟩

end CudaPanoramaLocalDiskTask

/-! ## Failures inside the CPU loop -/

namespace CPUPanoramaLocalDiskTask

theorem catchException_ends (s : Impl) : EndsWithError s s.catchException :=
  ⟨rfl, rfl, rfl, rfl, rfl⟩

theorem exitLoop_error_ends (s : Impl) (m : String) :
    EndsWithError s (Impl.exitLoop (s.setAsyncErrorMessage m)) :=
  ⟨rfl, rfl, rfl, rfl, rfl⟩

theorem updateProgress_error (s : Impl) (c step : Int) :
    (s.updateProgress c step).hasAsyncError = s.hasAsyncError := by
  unfold Impl.updateProgress
  split_ifs <;> rfl

theorem afterVideoWrite_error (s : Impl) (l : RunLocals) :
    (afterVideoWrite s l).hasAsyncError = s.hasAsyncError := by
  have h := updateProgress_error s (l.count + 1) l.step
  unfold afterVideoWrite
  simp only
  split_ifs
  · exact h
  · exact h

theorem processSample_reproject_throws (env : RunEnv) (s : Impl) (l : RunLocals)
    (h : env.reproject l.count.toNat = false) : EndsWithError s (processSample env s l) := by
  unfold processSample
  simp only [h, Bool.not_false, if_true]
  exact catchException_ends s

theorem processSample_blend_throws (env : RunEnv) (s : Impl) (l : RunLocals)
    (h1 : env.reproject l.count.toNat = true) (h2 : env.blend l.count.toNat = false) :
    EndsWithError s (processSample env s l) := by
  unfold processSample
  simp only [h1, h2, Bool.not_true, Bool.not_false, Bool.false_eq_true, if_false, if_true]
  exact ⟨rfl, rfl, rfl, rfl, rfl⟩

theorem processSample_overlay_fails (env : RunEnv) (s : Impl) (l : RunLocals)
    (h1 : env.reproject l.count.toNat = true) (h2 : env.blend l.count.toNat = true)
    (h3 : env.addLogo = true) (h4 : env.logoFilterAddLogo l.count.toNat ≠ CallResult.ok) :
    EndsWithError s (processSample env s l)
      ∧ (processSample env s l).writer.calls = s.writer.calls := by
  unfold processSample
  simp only [h1, h2, h3, Bool.not_true, Bool.false_eq_true, if_false, if_true]
  cases hl : env.logoFilterAddLogo l.count.toNat with
  | ok => exact absurd hl h4
  | fail => exact ⟨⟨rfl, rfl, rfl, rfl, rfl⟩, rfl⟩
  | throws => exact ⟨⟨rfl, rfl, rfl, rfl, rfl⟩, rfl⟩

theorem processSample_write_fails (env : RunEnv) (s : Impl) (l : RunLocals)
    (h1 : env.reproject l.count.toNat = true) (h2 : env.blend l.count.toNat = true)
    (h3 : env.addLogo = true → env.logoFilterAddLogo l.count.toNat = CallResult.ok)
    (h4 : env.writerWrite s.writer.calls ≠ CallResult.ok) :
    EndsWithError s (processSample env s l)
      ∧ (processSample env s l).writer.calls = s.writer.calls + 1 := by
  have hlogo : (if env.addLogo = true then env.logoFilterAddLogo l.count.toNat else CallResult.ok)
      = CallResult.ok := by
    split_ifs with ha
    · exact h3 ha
    · rfl
  unfold processSample
  simp only [h1, h2, Bool.not_true, Bool.false_eq_true, if_false]
  rw [hlogo]
  simp only
  cases hw : env.writerWrite s.writer.calls with
  | ok => exact absurd hw h4
  | fail => exact ⟨⟨rfl, rfl, rfl, rfl, rfl⟩, rfl⟩
  | throws => exact ⟨⟨rfl, rfl, rfl, rfl, rfl⟩, rfl⟩

theorem processSample_outcome (env : RunEnv) (s : Impl) (l : RunLocals) :
    ErrorOutcome s (processSample env s l) := by
  unfold processSample
  simp only
  repeat' split
  all_goals first
    | exact Or.inr ⟨rfl, rfl, rfl, rfl, rfl⟩
    | exact Or.inl (afterVideoWrite_error _ l)

theorem videoIteration_throws (env : RunEnv) (s : Impl) (l : RunLocals)
    (h : (readVideoFrames s.audioIndex 0 s.readers l.frames).1 = CallResult.throws) :
    EndsWithError s (videoIteration env s l) := by
  unfold videoIteration
  split
  · exact ⟨rfl, rfl, rfl, rfl, rfl⟩
  · rename_i heq
    rw [heq] at h
    exact absurd h (by simp)
  · rename_i heq
    rw [heq] at h
    exact absurd h (by simp)

theorem videoIteration_outcome (env : RunEnv) (s : Impl) (l : RunLocals) :
    ErrorOutcome s (videoIteration env s l) := by
  unfold videoIteration
  split
  · exact Or.inr ⟨rfl, rfl, rfl, rfl, rfl⟩
  · exact Or.inl rfl
  · simp only
    split
    · exact Or.inl rfl
    · exact processSample_outcome env _ _

theorem loopIteration_outcome (env : RunEnv) (s : Impl) (l : RunLocals) :
    ErrorOutcome s (loopIteration env s l) := by
  unfold loopIteration
  split
  · split
    · exact Or.inl rfl
    · split
      · exact Or.inl rfl
      · exact Or.inr ⟨rfl, rfl, rfl, rfl, rfl⟩
      · simp only
        split
        · split
          · exact Or.inr ⟨rfl, rfl, rfl, rfl, rfl⟩
          · exact Or.inr ⟨rfl, rfl, rfl, rfl, rfl⟩
          · exact Or.inl rfl
        · exact videoIteration_outcome env _ _
  · exact videoIteration_outcome env s l

theorem threadStep_outcome (env : RunEnv) (s : Impl) : ErrorOutcome s (s.threadStep env) := by
  unfold Impl.threadStep
  split
  · exact Or.inl rfl
  · exact Or.inl rfl
  · split_ifs <;> exact Or.inl rfl
  · exact loopIteration_outcome env s _

/-- Once `run()` has returned, no scheduler action touches the destination or the
progress counter. -/
theorem exec_after_return (env : RunEnv) (schedule : List Action) (s : Impl)
    (h : s.runReturned = true) :
    (s.exec env schedule).writer = s.writer ∧ (s.exec env schedule).runReturned = true ∧
      (s.exec env schedule).storeLog = s.storeLog ∧
      (s.exec env schedule).hasAsyncError = s.hasAsyncError := by
  induction schedule generalizing s with
  | nil => exact ⟨rfl, h, rfl, rfl⟩
  | cons a rest ih =>
    have ht : s.thread = some ThreadState.finished := by
      unfold Impl.runReturned at h
      split at h
      · assumption
      · exact absurd h (by simp)
    have hstep : (Impl.act env s a).writer = s.writer ∧ (Impl.act env s a).runReturned = true ∧
        (Impl.act env s a).storeLog = s.storeLog ∧
        (Impl.act env s a).hasAsyncError = s.hasAsyncError := by
      cases a with
      | step =>
        have : s.threadStep env = s := by
          unfold Impl.threadStep
          rw [ht]
        show (s.threadStep env).writer = s.writer ∧ (s.threadStep env).runReturned = true ∧
          (s.threadStep env).storeLog = s.storeLog ∧
          (s.threadStep env).hasAsyncError = s.hasAsyncError
        rw [this]
        exact ⟨rfl, h, rfl, rfl⟩
      | cancel => exact ⟨rfl, h, rfl, rfl⟩
    have hrest := ih (Impl.act env s a) hstep.2.1
    have hexec : s.exec env (a :: rest) = Impl.exec env (Impl.act env s a) rest := rfl
    rw [hexec]
    exact ⟨hrest.1.trans hstep.1, hrest.2.1, hrest.2.2.1.trans hstep.2.2.1,
      hrest.2.2.2.trans hstep.2.2.2⟩

end CPUPanoramaLocalDiskTask

/-! ## `init` as a reset -/

namespace CPUPanoramaLocalDiskTask

/-- What `init` leaves of the error latch, the cancellation flag and the progress
counter, whether it succeeds or fails. -/
theorem init_reset (e : InitEnv) (a : InitArgs) (s : Impl) :
    (Impl.init e a s).2.hasAsyncError = 0 ∧ (Impl.init e a s).2.asyncErrorMessage = "" ∧
      (Impl.init e a s).2.endFlag = false ∧ (Impl.init e a s).2.finishPercent = 0 := by
  generalize hr : Impl.init e a s = r
  unfold Impl.init Impl.initAfterClear at hr
  simp only [Impl.failInit] at hr
  repeat' split at hr
  all_goals subst hr
  all_goals exact ⟨rfl, rfl, rfl, rfl⟩

/-- The result of `init` and the message it leaves do not depend on the controller
it is called on. -/
theorem init_indep (e : InitEnv) (a : InitArgs) (s t : Impl) :
    (Impl.init e a s).1 = (Impl.init e a t).1 ∧
      (Impl.init e a s).2.syncErrorMessage = (Impl.init e a t).2.syncErrorMessage := by
  unfold Impl.init Impl.initAfterClear
  simp only [Impl.failInit]
  repeat' split
  all_goals exact ⟨rfl, rfl⟩

end CPUPanoramaLocalDiskTask

namespace CudaPanoramaLocalDiskTask

/-- What `init` leaves of the error latch, the cancellation flag and the progress
counter, whether it succeeds or fails. -/
theorem init_reset_gpu (e : InitEnv) (a : InitArgs) (s : Impl) :
    (Impl.init e a s).2.hasAsyncError = 0 ∧ (Impl.init e a s).2.asyncErrorMessage = "" ∧
      (Impl.init e a s).2.isCanceled = false ∧ (Impl.init e a s).2.finishPercent = 0 := by
  generalize hr : Impl.init e a s = r
  unfold Impl.init Impl.initAfterClear at hr
  simp only [Impl.failInit] at hr
  repeat' split at hr
  all_goals subst hr
  all_goals exact ⟨rfl, rfl, rfl, rfl⟩

/-- The result of `init` and the message it leaves do not depend on the controller
it is called on. -/
theorem init_indep_gpu (e : InitEnv) (a : InitArgs) (s t : Impl) :
    (Impl.init e a s).1 = (Impl.init e a t).1 ∧
      (Impl.init e a s).2.syncErrorMessage = (Impl.init e a t).2.syncErrorMessage := by
  generalize hr : Impl.init e a s = r
  unfold Impl.init Impl.initAfterClear at hr
  simp only [Impl.failInit] at hr
  repeat' split at hr
  all_goals subst hr
  all_goals unfold Impl.init Impl.initAfterClear
  all_goals simp only [Impl.failInit, *, if_true, if_false, not_true_eq_false, not_false_eq_true]
  all_goals first
    | exact ⟨rfl, rfl⟩
    | exact ⟨trivial, trivial⟩
    | (simp only [Bool.false_eq_true, if_false, ne_eq, not_false_eq_true, if_true, *]
       constructor <;> first | rfl | trivial)

end CudaPanoramaLocalDiskTask

/-! ## `init` while a thread is joined -/

namespace CPUPanoramaLocalDiskTask

/-- What `init` leaves of the error latch, the cancellation flag and the progress
counter after `clear()`: a failing `init` stores no progress value. -/
theorem initAfterClear_fields (e : InitEnv) (a : InitArgs) (s : Impl) :
    (Impl.initAfterClear e a s).2.hasAsyncError = s.hasAsyncError ∧
      (Impl.initAfterClear e a s).2.endFlag = s.endFlag ∧
      (Impl.initAfterClear e a s).2.finishPercent
        = (if (Impl.initAfterClear e a s).1 then 0 else s.finishPercent) := by
  generalize hr : Impl.initAfterClear e a s = r
  unfold Impl.initAfterClear at hr
  simp only [Impl.failInit] at hr
  repeat' split at hr
  all_goals subst hr
  all_goals exact ⟨rfl, rfl, rfl⟩

/-- The result of `init` does not depend on what `clear()` has left. -/
theorem initAfterClear_indep (e : InitEnv) (a : InitArgs) (s t : Impl) :
    (Impl.initAfterClear e a s).1 = (Impl.initAfterClear e a t).1 := by
  generalize hr : Impl.initAfterClear e a s = r
  unfold Impl.initAfterClear at hr
  simp only [Impl.failInit] at hr
  repeat' split at hr
  all_goals subst hr
  all_goals unfold Impl.initAfterClear
  all_goals simp only [Impl.failInit, *, if_true, if_false, not_true_eq_false, not_false_eq_true]
  all_goals first
    | rfl
    | trivial
    | simp only [Bool.false_eq_true, if_false, ne_eq, not_false_eq_true, if_true, *]

end CPUPanoramaLocalDiskTask

namespace CudaPanoramaLocalDiskTask

/-- What `init` leaves of the error latch, the cancellation flag and the progress
counter after `clear()`: a failing `init` stores no progress value. -/
theorem initAfterClear_fields_gpu (e : InitEnv) (a : InitArgs) (s : Impl) :
    (Impl.initAfterClear e a s).2.hasAsyncError = s.hasAsyncError ∧
      (Impl.initAfterClear e a s).2.isCanceled = s.isCanceled ∧
      (Impl.initAfterClear e a s).2.finishPercent
        = (if (Impl.initAfterClear e a s).1 then 0 else s.finishPercent) := by
  generalize hr : Impl.initAfterClear e a s = r
  unfold Impl.initAfterClear at hr
  simp only [Impl.failInit] at hr
  repeat' split at hr
  all_goals subst hr
  all_goals exact ⟨rfl, rfl, rfl⟩

/-- The result of `init` does not depend on what `clear()` has left. -/
theorem initAfterClear_indep_gpu (e : InitEnv) (a : InitArgs) (s t : Impl) :
    (Impl.initAfterClear e a s).1 = (Impl.initAfterClear e a t).1 := by
  generalize hr : Impl.initAfterClear e a s = r
  unfold Impl.initAfterClear at hr
  simp only [Impl.failInit] at hr
  repeat' split at hr
  all_goals subst hr
  all_goals unfold Impl.initAfterClear
  all_goals simp only [Impl.failInit, *, if_true, if_false, not_true_eq_false, not_false_eq_true]
  all_goals first
    | rfl
    | trivial
    | simp only [Bool.false_eq_true, if_false, ne_eq, not_false_eq_true, if_true, *]

end CudaPanoramaLocalDiskTask

/-! ## The GPU stages one at a time -/

namespace CudaPanoramaLocalDiskTask

end CudaPanoramaLocalDiskTask

namespace CudaPanoramaLocalDiskTask

/-- What a step of `decode()` leaves alone. -/
theorem decodeStep_frame (s : Impl) :
    s.decodeStep.isCanceled = s.isCanceled ∧ s.decodeStep.procThread = s.procThread ∧
      s.decodeStep.procCount = s.procCount ∧ s.decodeStep.encodeThread = s.encodeThread ∧
      s.decodeStep.writer = s.writer ∧ s.decodeStep.encodeCount = s.encodeCount ∧
      s.decodeStep.hasAsyncError = s.hasAsyncError := by
  unfold Impl.decodeStep decodeIteration decodeVideoPart
  simp only
  repeat' split
  all_goals exact ⟨rfl, rfl, rfl, rfl, rfl, rfl, rfl⟩

/-- What a step of `proc()` leaves alone; it never lowers the cancellation flag. -/
theorem procStep_frame (env : RunEnv) (s : Impl) :
    (s.isCanceled = true → (s.procStep env).isCanceled = true) ∧
      (s.procStep env).encodeThread = s.encodeThread ∧
      (s.procStep env).writer = s.writer ∧ (s.procStep env).encodeCount = s.encodeCount := by
  unfold Impl.procStep procSample
  simp only
  repeat' split
  all_goals first
    | exact ⟨fun h => h, rfl, rfl, rfl⟩
    | exact ⟨fun _ => rfl, rfl, rfl, rfl⟩

/-- What a step of `encode()` leaves alone; it never lowers the cancellation flag. -/
theorem encodeStep_frame (env : RunEnv) (s : Impl) :
    (s.isCanceled = true → (s.encodeStep env).isCanceled = true) ∧
      (s.encodeStep env).procThread = s.procThread ∧
      (s.encodeStep env).procCount = s.procCount := by
  unfold Impl.encodeStep encodeFrame Impl.updateProgress Impl.countFrame
  simp only
  repeat' split
  all_goals first
    | exact ⟨fun h => h, rfl, rfl⟩
    | exact ⟨fun _ => rfl, rfl, rfl⟩

/-- After a failure in `proc()` the stage is past its loop for good: it pulls no
further sample, whatever the schedule. -/
theorem exec_proc_stopped (env : RunEnv) (schedule : List Action) (s : Impl)
    (hcan : s.isCanceled = true)
    (hpc : s.procThread = some ProcPc.afterLoop ∨ s.procThread = some ProcPc.done) :
    (s.exec env schedule).isCanceled = true ∧
      ((s.exec env schedule).procThread = some ProcPc.afterLoop
        ∨ (s.exec env schedule).procThread = some ProcPc.done) ∧
      (s.exec env schedule).procCount = s.procCount := by
  induction schedule generalizing s with
  | nil => exact ⟨hcan, hpc, rfl⟩
  | cons a rest ih =>
    have hstep : (Impl.act env s a).isCanceled = true ∧
        ((Impl.act env s a).procThread = some ProcPc.afterLoop
          ∨ (Impl.act env s a).procThread = some ProcPc.done) ∧
        (Impl.act env s a).procCount = s.procCount := by
      unfold Impl.act
      split
      · exact ⟨hcan, hpc, rfl⟩
      · cases a with
        | decode =>
          obtain ⟨d1, d2, d3, -⟩ := decodeStep_frame s
          exact ⟨d1.trans hcan, by rw [d2]; exact hpc, d3⟩
        | proc =>
          show (s.procStep env).isCanceled = true ∧ _
          unfold Impl.procStep
          rcases hpc with h | h
          · rw [h]
            simp only [hcan, Bool.not_true, Bool.false_eq_true, if_false]
            exact ⟨hcan, Or.inr rfl, rfl⟩
          · rw [h]
            exact ⟨hcan, Or.inr h, rfl⟩
        | encode =>
          obtain ⟨e1, e2, e3⟩ := encodeStep_frame env s
          exact ⟨e1 hcan, by rw [e2]; exact hpc, e3⟩
        | cancel => exact ⟨rfl, hpc, rfl⟩
    obtain ⟨i1, i2, i3⟩ := ih (Impl.act env s a) hstep.1 hstep.2.1
    have hexec : s.exec env (a :: rest) = Impl.exec env (Impl.act env s a) rest := rfl
    rw [hexec]
    exact ⟨i1, i2, i3.trans hstep.2.2⟩

/-- Once `encode()` has returned the destination stays as `encode()` left it. -/
theorem exec_encode_returned (env : RunEnv) (schedule : List Action) (s : Impl)
    (h : s.encodeThread = some EncodePc.done) :
    (s.exec env schedule).encodeThread = some EncodePc.done ∧
      (s.exec env schedule).writer = s.writer ∧
      (s.exec env schedule).encodeCount = s.encodeCount := by
  induction schedule generalizing s with
  | nil => exact ⟨h, rfl, rfl⟩
  | cons a rest ih =>
    have hstep : (Impl.act env s a).encodeThread = some EncodePc.done ∧
        (Impl.act env s a).writer = s.writer ∧
        (Impl.act env s a).encodeCount = s.encodeCount := by
      unfold Impl.act
      split
      · exact ⟨h, rfl, rfl⟩
      · cases a with
        | decode =>
          obtain ⟨-, -, -, d4, d5, d6, -⟩ := decodeStep_frame s
          exact ⟨d4.trans h, d5, d6⟩
        | proc =>
          obtain ⟨-, p2, p3, p4⟩ := procStep_frame env s
          exact ⟨p2.trans h, p3, p4⟩
        | encode =>
          show (s.encodeStep env).encodeThread = some EncodePc.done ∧ _
          unfold Impl.encodeStep
          rw [h]
          exact ⟨h, rfl, rfl⟩
        | cancel => exact ⟨h, rfl, rfl⟩
    obtain ⟨i1, i2, i3⟩ := ih (Impl.act env s a) hstep.1
    have hexec : s.exec env (a :: rest) = Impl.exec env (Impl.act env s a) rest := rfl
    rw [hexec]
    exact ⟨i1, i2.trans hstep.2.1, i3.trans hstep.2.2⟩

theorem exec_writer_closed (env : RunEnv) (schedule : List Action) (s : Impl)
    (h : WriterClosedAtEnd s) : WriterClosedAtEnd (s.exec env schedule) := by
  induction schedule generalizing s with
  | nil => exact h
  | cons a rest ih =>
    have hexec : s.exec env (a :: rest) = Impl.exec env (Impl.act env s a) rest := rfl
    rw [hexec]
    apply ih
    unfold Impl.act
    split
    · exact h
    · cases a with
      | decode =>
        obtain ⟨-, -, -, d4, d5, -, -⟩ := decodeStep_frame s
        intro hd
        show s.decodeStep.writer.isOpen = false
        rw [d5]
        exact h (d4 ▸ hd)
      | proc =>
        obtain ⟨-, p2, p3, -⟩ := procStep_frame env s
        intro hd
        show (s.procStep env).writer.isOpen = false
        rw [p3]
        exact h (p2 ▸ hd)
      | encode =>
        show WriterClosedAtEnd (s.encodeStep env)
        unfold Impl.encodeStep encodeFrame Impl.updateProgress Impl.countFrame
        simp only
        repeat' split
        all_goals first
          | exact h
          | (intro _; rfl)
          | (intro hd; simp_all)
      | cancel => exact h

end CudaPanoramaLocalDiskTask

/-! ## The bounded queue -/

namespace CudaPanoramaLocalDiskTask

theorem push_bound {α : Type} {q q' : BoundedCompleteQueue α} {x : α} {b : Bool}
    (hq : q.items.length ≤ q.maxSize) (h : q.push x = some (b, q')) :
    q'.maxSize = q.maxSize ∧ q'.items.length ≤ q.maxSize := by
  unfold BoundedCompleteQueue.push at h
  split_ifs at h with h1 h2
  · simp only [Option.some.injEq, Prod.mk.injEq] at h
    rw [← h.2]
    exact ⟨rfl, hq⟩
  · simp only [Option.some.injEq, Prod.mk.injEq] at h
    rw [← h.2]
    refine ⟨rfl, ?_⟩
    show (q.items ++ [x]).length ≤ q.maxSize
    rw [List.length_append, List.length_singleton]
    omega

theorem pull_bound {α : Type} {q q' : BoundedCompleteQueue α} {x : α}
    (h : q.pull = PullResult.item x q') :
    q'.maxSize = q.maxSize ∧ q'.items.length ≤ q.items.length := by
  obtain ⟨h1, h2⟩ := pull_item h
  rw [h1]
  refine ⟨?_, by simp⟩
  rw [h2]

theorem QueueMove.bound {α : Type} {q q' : BoundedCompleteQueue α} {c : Nat}
    (hm : QueueMove q q') (h1 : q.maxSize = c) (h2 : q.size ≤ c) :
    q'.maxSize = c ∧ q'.size ≤ c := by
  unfold BoundedCompleteQueue.size at h2 ⊢
  rcases hm with h | ⟨x, b, h⟩ | ⟨x, h⟩ | h
  · rw [h]
    exact ⟨h1, h2⟩
  · obtain ⟨p1, p2⟩ := push_bound (by rw [h1]; exact h2) h
    exact ⟨p1.trans h1, by rw [← h1]; exact p2⟩
  · obtain ⟨p1, p2⟩ := pull_bound h
    exact ⟨p1.trans h1, le_trans p2 h2⟩
  · rw [h]
    exact ⟨h1, h2⟩

theorem QueueInv.of_moves {c1 c2 : Nat} {s t : Impl} (h : QueueInv c1 c2 s)
    (hd : QueueMove s.decodeFramesBuffer t.decodeFramesBuffer)
    (hp : QueueMove s.procFrameBuffer t.procFrameBuffer) : QueueInv c1 c2 t := by
  obtain ⟨h1, h2, h3, h4⟩ := h
  obtain ⟨d1, d2⟩ := hd.bound h1 h3
  obtain ⟨p1, p2⟩ := hp.bound h2 h4
  exact ⟨d1, p1, d2, p2⟩

theorem decodeStep_queues (s : Impl) :
    QueueMove s.decodeFramesBuffer s.decodeStep.decodeFramesBuffer ∧
      QueueMove s.procFrameBuffer s.decodeStep.procFrameBuffer := by
  unfold Impl.decodeStep decodeIteration decodeVideoPart Impl.finishDecode
  simp only
  repeat' split
  all_goals constructor
  all_goals first
    | exact Or.inl rfl
    | exact Or.inr (Or.inr (Or.inr rfl))
    | exact Or.inr (Or.inl ⟨_, _, by assumption⟩)

theorem procStep_queues (env : RunEnv) (s : Impl) :
    QueueMove s.decodeFramesBuffer (s.procStep env).decodeFramesBuffer ∧
      QueueMove s.procFrameBuffer (s.procStep env).procFrameBuffer := by
  unfold Impl.procStep procSample Impl.finishProc
  simp only
  repeat' split
  all_goals constructor
  all_goals first
    | exact Or.inl rfl
    | exact Or.inr (Or.inr (Or.inr rfl))
    | exact Or.inr (Or.inl ⟨_, _, by assumption⟩)
    | exact Or.inr (Or.inr (Or.inl ⟨_, by assumption⟩))

theorem encodeStep_queues (env : RunEnv) (s : Impl) :
    QueueMove s.decodeFramesBuffer (s.encodeStep env).decodeFramesBuffer ∧
      QueueMove s.procFrameBuffer (s.encodeStep env).procFrameBuffer := by
  unfold Impl.encodeStep encodeFrame Impl.updateProgress Impl.countFrame Impl.finishEncode
  simp only
  repeat' split
  all_goals constructor
  all_goals first
    | exact Or.inl rfl
    | exact Or.inr (Or.inr (Or.inl ⟨_, by assumption⟩))

theorem exec_queues {c1 c2 : Nat} (env : RunEnv) (schedule : List Action) (s : Impl)
    (h : QueueInv c1 c2 s) : QueueInv c1 c2 (s.exec env schedule) := by
  induction schedule generalizing s with
  | nil => exact h
  | cons a rest ih =>
    have hexec : s.exec env (a :: rest) = Impl.exec env (Impl.act env s a) rest := rfl
    rw [hexec]
    apply ih
    unfold Impl.act
    split
    · exact h
    · cases a with
      | decode => exact h.of_moves (decodeStep_queues s).1 (decodeStep_queues s).2
      | proc => exact h.of_moves (procStep_queues env s).1 (procStep_queues env s).2
      | encode => exact h.of_moves (encodeStep_queues env s).1 (encodeStep_queues env s).2
      | cancel => exact h

/-- The capacities `init` leaves in the queues when it succeeds. -/
theorem init_capacities (e : InitEnv) (a : InitArgs) (s : Impl)
    (h : (Impl.init e a s).1 = true) :
    (Impl.init e a s).2.decodeFramesBuffer.maxSize = 4 ∧
      (Impl.init e a s).2.procFrameBuffer.maxSize = 16 := by
  generalize hr : Impl.init e a s = r at h ⊢
  unfold Impl.init Impl.initAfterClear at hr
  simp only [Impl.failInit] at hr
  repeat' split at hr
  all_goals subst hr
  all_goals first
    | (simp at h; done)
    | exact ⟨rfl, rfl⟩

/-- The queue invariant in a trace: the size stays within the capacity, which does
not change, and what has been pulled followed by what is buffered is what has been
accepted. -/
theorem QueueTrace.apply_inv {α : Type} {c : Nat} (t : QueueTrace α) (op : QueueOp α)
    (h1 : t.queue.maxSize = c) (h2 : t.queue.size ≤ c)
    (h3 : t.pulled ++ t.queue.items = t.accepted) :
    (t.apply op).queue.maxSize = c ∧ (t.apply op).queue.size ≤ c ∧
      (t.apply op).pulled ++ (t.apply op).queue.items = (t.apply op).accepted := by
  unfold BoundedCompleteQueue.size at h2 ⊢
  cases op with
  | push x =>
    simp only [QueueTrace.apply]
    cases hp : t.queue.push x with
    | none => exact ⟨h1, h2, h3⟩
    | some r =>
      obtain ⟨b, q⟩ := r
      unfold BoundedCompleteQueue.push at hp
      split_ifs at hp with hs hf
      · simp only [Option.some.injEq, Prod.mk.injEq] at hp
        obtain ⟨hb, hq⟩ := hp
        subst hb
        subst hq
        exact ⟨h1, h2, h3⟩
      · simp only [Option.some.injEq, Prod.mk.injEq] at hp
        obtain ⟨hb, hq⟩ := hp
        subst hb
        subst hq
        refine ⟨h1, ?_, ?_⟩
        · show (t.queue.items ++ [x]).length ≤ c
          rw [List.length_append, List.length_singleton]
          omega
        · show t.pulled ++ (t.queue.items ++ [x]) = t.accepted ++ [x]
          rw [← List.append_assoc, h3]
  | pull =>
    simp only [QueueTrace.apply]
    cases hp : t.queue.pull with
    | blocked => exact ⟨h1, h2, h3⟩
    | closed => exact ⟨h1, h2, h3⟩
    | item y q =>
      obtain ⟨p1, -⟩ := pull_item hp
      obtain ⟨b1, b2⟩ := pull_bound hp
      refine ⟨b1.trans h1, le_trans b2 h2, ?_⟩
      show (t.pulled ++ [y]) ++ q.items = t.accepted
      rw [← h3, p1]
      simp
  | stop => exact ⟨h1, h2, h3⟩

theorem QueueTrace.run_inv {α : Type} {c : Nat} (ops : List (QueueOp α)) (t : QueueTrace α)
    (h1 : t.queue.maxSize = c) (h2 : t.queue.size ≤ c)
    (h3 : t.pulled ++ t.queue.items = t.accepted) :
    (t.run ops).queue.maxSize = c ∧ (t.run ops).queue.size ≤ c ∧
      (t.run ops).pulled ++ (t.run ops).queue.items = (t.run ops).accepted := by
  induction ops generalizing t with
  | nil => exact ⟨h1, h2, h3⟩
  | cons op rest ih =>
    obtain ⟨a1, a2, a3⟩ := t.apply_inv op h1 h2 h3
    exact ih (t.apply op) a1 a2 a3

/-- After `stop()`, `k` pulls hand out the first `k` buffered items, in order. -/
theorem QueueTrace.drain {α : Type} (k : Nat) (t : QueueTrace α)
    (hs : t.queue.stopped = true) :
    (t.run (List.replicate k QueueOp.pull)).pulled = t.pulled ++ t.queue.items.take k ∧
      (t.run (List.replicate k QueueOp.pull)).queue.items = t.queue.items.drop k ∧
      (t.run (List.replicate k QueueOp.pull)).queue.stopped = true := by
  induction k generalizing t with
  | zero => exact ⟨by simp [QueueTrace.run], rfl, hs⟩
  | succ k ih =>
    have hrun : t.run (List.replicate (k + 1) QueueOp.pull)
        = (t.apply QueueOp.pull).run (List.replicate k QueueOp.pull) := by
      unfold QueueTrace.run
      rw [List.replicate_succ, List.foldl_cons]
    rw [hrun]
    cases hi : t.queue.items with
    | nil =>
      have hap : t.apply QueueOp.pull = t := by
        unfold QueueTrace.apply BoundedCompleteQueue.pull
        rw [hi]
        simp [hs]
      rw [hap]
      obtain ⟨i1, i2, i3⟩ := ih t hs
      rw [i1, i2, hi]
      exact ⟨by simp, by simp, i3⟩
    | cons x rest =>
      have hap : t.apply QueueOp.pull
          = { t with queue := { t.queue with items := rest }, pulled := t.pulled ++ [x] } := by
        unfold QueueTrace.apply BoundedCompleteQueue.pull
        rw [hi]
      rw [hap]
      obtain ⟨i1, i2, i3⟩ := ih
        { t with queue := { t.queue with items := rest }, pulled := t.pulled ++ [x] } hs
      rw [i1, i2]
      exact ⟨by simp, by simp, i3⟩

end CudaPanoramaLocalDiskTask

/-! ## The claims -/

/-- C1: for both the CPU and the GPU controller, a call of `init()` that returns
false leaves a non-empty synchronous error message, leaves the controller
uninitialised (`initSuccess = false`, `finish = true`) with no stage thread (none
held, none constructed), and a following `start()` returns false and changes
nothing. -/
theorem C1_failed_init_leaves_uninitialised
    (ec : CPUPanoramaLocalDiskTask.InitEnv) (eg : CudaPanoramaLocalDiskTask.InitEnv)
    (a : InitArgs) (sc : CPUPanoramaLocalDiskTask.Impl) (sg : CudaPanoramaLocalDiskTask.Impl) :
    ((CPUPanoramaLocalDiskTask.Impl.init ec a sc).1 = false →
      (CPUPanoramaLocalDiskTask.Impl.init ec a sc).2.getLastSyncErrorMessage ≠ "" ∧
      (CPUPanoramaLocalDiskTask.Impl.init ec a sc).2.initSuccess = false ∧
      (CPUPanoramaLocalDiskTask.Impl.init ec a sc).2.finish = true ∧
      (CPUPanoramaLocalDiskTask.Impl.init ec a sc).2.thread = none ∧
      (CPUPanoramaLocalDiskTask.Impl.init ec a sc).2.spawnCount = sc.spawnCount ∧
      CPUPanoramaLocalDiskTask.Impl.start (CPUPanoramaLocalDiskTask.Impl.init ec a sc).2
        = StartOutcome.returned false (CPUPanoramaLocalDiskTask.Impl.init ec a sc).2) ∧
    ((CudaPanoramaLocalDiskTask.Impl.init eg a sg).1 = false →
      (CudaPanoramaLocalDiskTask.Impl.init eg a sg).2.getLastSyncErrorMessage ≠ "" ∧
      (CudaPanoramaLocalDiskTask.Impl.init eg a sg).2.initSuccess = false ∧
      (CudaPanoramaLocalDiskTask.Impl.init eg a sg).2.finish = true ∧
      (CudaPanoramaLocalDiskTask.Impl.init eg a sg).2.decodeThread = none ∧
      (CudaPanoramaLocalDiskTask.Impl.init eg a sg).2.procThread = none ∧
      (CudaPanoramaLocalDiskTask.Impl.init eg a sg).2.encodeThread = none ∧
      (CudaPanoramaLocalDiskTask.Impl.init eg a sg).2.spawnCount = sg.spawnCount ∧
      CudaPanoramaLocalDiskTask.Impl.start (CudaPanoramaLocalDiskTask.Impl.init eg a sg).2
        = StartOutcome.returned false (CudaPanoramaLocalDiskTask.Impl.init eg a sg).2) := by
  constructor
  · intro h
    obtain ⟨h1, h2, h3, h4, -, h6⟩ := CPUPanoramaLocalDiskTask.init_false_state ec a sc h
    exact ⟨h1, h2, h3, h4, h6, CPUPanoramaLocalDiskTask.start_after_failed_init ec a sc h⟩
  · intro h
    obtain ⟨h1, h2, h3, h4, h5, h6, -, h8⟩ := CudaPanoramaLocalDiskTask.init_false_state_gpu eg a sg h
    exact ⟨h1, h2, h3, h4, h5, h6, h8,
      CudaPanoramaLocalDiskTask.start_after_failed_init_gpu eg a sg h⟩

/-- C1 at a concrete input: the calibration file cannot be loaded (CPU), the sources
cannot be opened (GPU). -/
theorem C1_failed_init_witness :
    ((CPUPanoramaLocalDiskTask.Impl.init CPUPanoramaLocalDiskTask.failingInitEnv sampleArgs
        CPUPanoramaLocalDiskTask.Impl.new).1 = false ∧
      (CPUPanoramaLocalDiskTask.Impl.init CPUPanoramaLocalDiskTask.failingInitEnv sampleArgs
        CPUPanoramaLocalDiskTask.Impl.new).2.getLastSyncErrorMessage ≠ "") ∧
    ((CudaPanoramaLocalDiskTask.Impl.init CudaPanoramaLocalDiskTask.failingInitEnv sampleArgs
        CudaPanoramaLocalDiskTask.Impl.new).1 = false ∧
      (CudaPanoramaLocalDiskTask.Impl.init CudaPanoramaLocalDiskTask.failingInitEnv sampleArgs
        CudaPanoramaLocalDiskTask.Impl.new).2.getLastSyncErrorMessage ≠ "") :=
  ⟨⟨by decide,
      ((C1_failed_init_leaves_uninitialised CPUPanoramaLocalDiskTask.failingInitEnv
        CudaPanoramaLocalDiskTask.failingInitEnv sampleArgs CPUPanoramaLocalDiskTask.Impl.new
        CudaPanoramaLocalDiskTask.Impl.new).1 (by decide)).1⟩,
    ⟨by decide,
      ((C1_failed_init_leaves_uninitialised CPUPanoramaLocalDiskTask.failingInitEnv
        CudaPanoramaLocalDiskTask.failingInitEnv sampleArgs CPUPanoramaLocalDiskTask.Impl.new
        CudaPanoramaLocalDiskTask.Impl.new).2 (by decide)).1⟩⟩

/-- C2: `init()` validates cardinalities. When the source list is empty or its
length differs from that of the offsets, `init()` returns false, no source reader is
opened and the synchronous message is the parameter-validation message (both
controllers); when the number of calibration entries (CPU: the `PhotoParam` entries
loaded; GPU: `render.getNumImages()`) differs from the number of sources, `init()`
returns false. -/
theorem C2_init_validates_cardinalities
    (ec : CPUPanoramaLocalDiskTask.InitEnv) (eg : CudaPanoramaLocalDiskTask.InitEnv)
    (a : InitArgs) (sc : CPUPanoramaLocalDiskTask.Impl) (sg : CudaPanoramaLocalDiskTask.Impl) :
    ((a.srcVideoFiles = [] ∨ a.srcVideoFiles.length ≠ a.offsets.length) →
      ((CPUPanoramaLocalDiskTask.Impl.init ec a sc).1 = false ∧
        (CPUPanoramaLocalDiskTask.Impl.init ec a sc).2.readers = [] ∧
        (CPUPanoramaLocalDiskTask.Impl.init ec a sc).2.getLastSyncErrorMessage
          = "参数校验失败。") ∧
      ((CudaPanoramaLocalDiskTask.Impl.init eg a sg).1 = false ∧
        (CudaPanoramaLocalDiskTask.Impl.init eg a sg).2.readers = [] ∧
        (CudaPanoramaLocalDiskTask.Impl.init eg a sg).2.getLastSyncErrorMessage
          = "参数校验失败。")) ∧
    (∀ n : Nat, ec.loadPhotoParams = some n → n ≠ a.srcVideoFiles.length →
      (CPUPanoramaLocalDiskTask.Impl.init ec a sc).1 = false) ∧
    (eg.renderNumImages ≠ (a.srcVideoFiles.length : Int) →
      (CudaPanoramaLocalDiskTask.Impl.init eg a sg).1 = false) := by
  refine ⟨?_, ?_, ?_⟩
  · intro h
    have h' : a.srcVideoFiles.isEmpty = true ∨ a.srcVideoFiles.length ≠ a.offsets.length := by
      rcases h with h | h
      · exact Or.inl (by rw [h]; rfl)
      · exact Or.inr h
    have hcpu : CPUPanoramaLocalDiskTask.Impl.init ec a sc
        = sc.clear.failInit "参数校验失败。" := by
      unfold CPUPanoramaLocalDiskTask.Impl.init CPUPanoramaLocalDiskTask.Impl.initAfterClear
      exact if_pos h'
    have hgpu : CudaPanoramaLocalDiskTask.Impl.init eg a sg
        = sg.clear.failInit "参数校验失败。" := by
      unfold CudaPanoramaLocalDiskTask.Impl.init CudaPanoramaLocalDiskTask.Impl.initAfterClear
      exact if_pos h'
    rw [hcpu, hgpu]
    exact ⟨⟨rfl, rfl, rfl⟩, ⟨rfl, rfl, rfl⟩⟩
  · intro n hn hne
    generalize hr : CPUPanoramaLocalDiskTask.Impl.init ec a sc = r
    unfold CPUPanoramaLocalDiskTask.Impl.init CPUPanoramaLocalDiskTask.Impl.initAfterClear at hr
    simp only [CPUPanoramaLocalDiskTask.Impl.failInit] at hr
    repeat' split at hr
    all_goals subst hr
    all_goals first
      | rfl
      | simp_all
  · intro hne
    generalize hr : CudaPanoramaLocalDiskTask.Impl.init eg a sg = r
    unfold CudaPanoramaLocalDiskTask.Impl.init CudaPanoramaLocalDiskTask.Impl.initAfterClear at hr
    simp only [CudaPanoramaLocalDiskTask.Impl.failInit] at hr
    repeat' split at hr
    all_goals subst hr
    all_goals rfl

/-- C2 at concrete inputs: offsets that do not match the sources; three calibration
entries for two sources. -/
theorem C2_init_validates_cardinalities_witness :
    (mismatchedArgs.srcVideoFiles.length ≠ mismatchedArgs.offsets.length ∧
      (CPUPanoramaLocalDiskTask.Impl.init (CPUPanoramaLocalDiskTask.sampleInitEnv
        ⟨sampleReaders, 0, 3⟩) mismatchedArgs CPUPanoramaLocalDiskTask.Impl.new).1 = false) ∧
    (CudaPanoramaLocalDiskTask.Impl.init
      { CudaPanoramaLocalDiskTask.sampleInitEnv ⟨sampleReaders, 0, 3⟩ with renderNumImages := 3 }
      sampleArgs CudaPanoramaLocalDiskTask.Impl.new).1 = false :=
  ⟨⟨by decide,
      ((C2_init_validates_cardinalities
        (CPUPanoramaLocalDiskTask.sampleInitEnv ⟨sampleReaders, 0, 3⟩)
        (CudaPanoramaLocalDiskTask.sampleInitEnv ⟨sampleReaders, 0, 3⟩) mismatchedArgs
        CPUPanoramaLocalDiskTask.Impl.new CudaPanoramaLocalDiskTask.Impl.new).1
          (Or.inr (by decide))).1.1⟩,
    (C2_init_validates_cardinalities
      (CPUPanoramaLocalDiskTask.sampleInitEnv ⟨sampleReaders, 0, 3⟩)
      { CudaPanoramaLocalDiskTask.sampleInitEnv ⟨sampleReaders, 0, 3⟩ with renderNumImages := 3 }
      sampleArgs CPUPanoramaLocalDiskTask.Impl.new CudaPanoramaLocalDiskTask.Impl.new).2.2
        (by decide)⟩

/-- C3, the code at the failing input: whenever a first `start()` has returned true,
a second `start()` issued right after it (the first run has not ended) passes both
guards: it does not return false, it constructs one more thread, and the process is
ended by `std::terminate` when the handle of the running thread is overwritten. -/
theorem C3_second_start_passes_the_guards
    (sc : CPUPanoramaLocalDiskTask.Impl) (sg : CudaPanoramaLocalDiskTask.Impl) :
    (sc.start.result? = some true →
      sc.start.state.start.result? = none ∧
      sc.start.state.start.state.spawnCount = sc.spawnCount + 2) ∧
    (sg.start.result? = some true →
      sg.start.state.start.result? = none ∧
      sg.start.state.start.state.spawnCount = sg.spawnCount + 4) := by
  constructor
  · intro h
    obtain ⟨h1, h2, h3⟩ := CPUPanoramaLocalDiskTask.start_true h
    rw [h3]
    exact ⟨by simp [CPUPanoramaLocalDiskTask.Impl.start, StartOutcome.state,
      StartOutcome.result?, h1, h2], by simp [CPUPanoramaLocalDiskTask.Impl.start,
      StartOutcome.state, h1, h2]⟩
  · intro h
    obtain ⟨h1, h2, h3⟩ := CudaPanoramaLocalDiskTask.start_true_gpu h
    rw [h3]
    exact ⟨by simp [CudaPanoramaLocalDiskTask.Impl.start, StartOutcome.state,
      StartOutcome.result?, h1, h2], by simp [CudaPanoramaLocalDiskTask.Impl.start,
      StartOutcome.state, h1, h2]⟩

/-- C3 at a concrete input: `init` succeeds on a fresh controller, `start()` returns
true, and the `start()` that follows does not return. -/
theorem C3_second_start_witness :
    ((CPUPanoramaLocalDiskTask.Impl.init
        (CPUPanoramaLocalDiskTask.sampleInitEnv ⟨sampleReaders, 0, 3⟩) sampleArgs
        CPUPanoramaLocalDiskTask.Impl.new).2.start.result? = some true ∧
      (CPUPanoramaLocalDiskTask.Impl.init
        (CPUPanoramaLocalDiskTask.sampleInitEnv ⟨sampleReaders, 0, 3⟩) sampleArgs
        CPUPanoramaLocalDiskTask.Impl.new).2.start.state.start.result? = none) ∧
    ((CudaPanoramaLocalDiskTask.Impl.init
        (CudaPanoramaLocalDiskTask.sampleInitEnv ⟨sampleReaders, 0, 3⟩) sampleArgs
        CudaPanoramaLocalDiskTask.Impl.new).2.start.result? = some true ∧
      (CudaPanoramaLocalDiskTask.Impl.init
        (CudaPanoramaLocalDiskTask.sampleInitEnv ⟨sampleReaders, 0, 3⟩) sampleArgs
        CudaPanoramaLocalDiskTask.Impl.new).2.start.state.start.result? = none) :=
  ⟨⟨by decide,
      ((C3_second_start_passes_the_guards _ CudaPanoramaLocalDiskTask.Impl.new).1
        (by decide)).1⟩,
    ⟨by decide,
      ((C3_second_start_passes_the_guards CPUPanoramaLocalDiskTask.Impl.new _).2
        (by decide)).1⟩⟩

/-- C4: the asynchronous error mailbox is a single-slot latch (both controllers).
After `setAsyncErrorMessage(m)` the flag is up and the next
`getLastAsyncErrorMessage()` returns `m` and clears it; after that read, any number
`n` of further reads leave the flag down and the next read returns the empty string;
and when two errors are set without a read in between, the read returns the second
one only and the read after it returns the empty string. -/
theorem C4_async_mailbox_is_a_latch
    (sc : CPUPanoramaLocalDiskTask.Impl) (sg : CudaPanoramaLocalDiskTask.Impl)
    (m m1 m2 : String) (n : Nat) :
    ((sc.setAsyncErrorMessage m).hasAsyncErrorMessage = true ∧
      (sc.setAsyncErrorMessage m).getLastAsyncErrorMessage.1 = m ∧
      (sc.setAsyncErrorMessage m).getLastAsyncErrorMessage.2.hasAsyncErrorMessage = false ∧
      ((fun t : CPUPanoramaLocalDiskTask.Impl => t.getLastAsyncErrorMessage.2)^[n]
        (sc.setAsyncErrorMessage m).getLastAsyncErrorMessage.2).hasAsyncErrorMessage = false ∧
      ((fun t : CPUPanoramaLocalDiskTask.Impl => t.getLastAsyncErrorMessage.2)^[n]
        (sc.setAsyncErrorMessage m).getLastAsyncErrorMessage.2).getLastAsyncErrorMessage.1 = "" ∧
      ((sc.setAsyncErrorMessage m1).setAsyncErrorMessage m2).getLastAsyncErrorMessage.1 = m2 ∧
      ((sc.setAsyncErrorMessage m1).setAsyncErrorMessage
        m2).getLastAsyncErrorMessage.2.getLastAsyncErrorMessage.1 = "") ∧
    ((sg.setAsyncErrorMessage m).hasAsyncErrorMessage = true ∧
      (sg.setAsyncErrorMessage m).getLastAsyncErrorMessage.1 = m ∧
      (sg.setAsyncErrorMessage m).getLastAsyncErrorMessage.2.hasAsyncErrorMessage = false ∧
      ((fun t : CudaPanoramaLocalDiskTask.Impl => t.getLastAsyncErrorMessage.2)^[n]
        (sg.setAsyncErrorMessage m).getLastAsyncErrorMessage.2).hasAsyncErrorMessage = false ∧
      ((fun t : CudaPanoramaLocalDiskTask.Impl => t.getLastAsyncErrorMessage.2)^[n]
        (sg.setAsyncErrorMessage m).getLastAsyncErrorMessage.2).getLastAsyncErrorMessage.1 = "" ∧
      ((sg.setAsyncErrorMessage m1).setAsyncErrorMessage m2).getLastAsyncErrorMessage.1 = m2 ∧
      ((sg.setAsyncErrorMessage m1).setAsyncErrorMessage
        m2).getLastAsyncErrorMessage.2.getLastAsyncErrorMessage.1 = "") := by
  have c1 := CPUPanoramaLocalDiskTask.read_of_set sc m
  have c2 := CPUPanoramaLocalDiskTask.read_of_set (sc.setAsyncErrorMessage m1) m2
  have g1 := CudaPanoramaLocalDiskTask.read_of_set_gpu sg m
  have g2 := CudaPanoramaLocalDiskTask.read_of_set_gpu (sg.setAsyncErrorMessage m1) m2
  refine ⟨⟨rfl, ?_, ?_, ?_, ?_, ?_, ?_⟩, ⟨rfl, ?_, ?_, ?_, ?_, ?_, ?_⟩⟩
  · rw [c1]
  · rw [c1]
    rfl
  · rw [c1, CPUPanoramaLocalDiskTask.iterate_read rfl]
    rfl
  · rw [c1, CPUPanoramaLocalDiskTask.iterate_read rfl, CPUPanoramaLocalDiskTask.read_of_clear rfl]
  · rw [c2]
  · rw [c2, CPUPanoramaLocalDiskTask.read_of_clear rfl]
  · rw [g1]
  · rw [g1]
    rfl
  · rw [g1, CudaPanoramaLocalDiskTask.iterate_read_gpu rfl]
    rfl
  · rw [g1, CudaPanoramaLocalDiskTask.iterate_read_gpu rfl, CudaPanoramaLocalDiskTask.read_of_clear_gpu rfl]
  · rw [g2]
  · rw [g2, CudaPanoramaLocalDiskTask.read_of_clear_gpu rfl]

/-- C5: in every state reachable through init/start/run (CPU) or
init/start/decode/proc/encode (GPU), whatever the prior state of the controller, the
outcome of `init`, the frame cap it computes (positive, zero or negative), the frames
the sources deliver, the outcomes of the collaborators and the schedule of thread
steps and `cancel()` calls, `getProgress()` is between 0 and 100 inclusive; it is 0
on a fresh controller and right after `init`. -/
theorem C5_progress_between_0_and_100
    (ec : CPUPanoramaLocalDiskTask.InitEnv) (eg : CudaPanoramaLocalDiskTask.InitEnv)
    (a : InitArgs) (sc : CPUPanoramaLocalDiskTask.Impl) (sg : CudaPanoramaLocalDiskTask.Impl)
    (envc : CPUPanoramaLocalDiskTask.RunEnv) (envg : CudaPanoramaLocalDiskTask.RunEnv)
    (schedc : List CPUPanoramaLocalDiskTask.Action)
    (schedg : List CudaPanoramaLocalDiskTask.Action) :
    (CPUPanoramaLocalDiskTask.Impl.new.getProgress = 0 ∧
      (CPUPanoramaLocalDiskTask.Impl.init ec a sc).2.getProgress = 0 ∧
      0 ≤ ((CPUPanoramaLocalDiskTask.started ec a sc).exec envc schedc).getProgress ∧
      ((CPUPanoramaLocalDiskTask.started ec a sc).exec envc schedc).getProgress ≤ 100) ∧
    (CudaPanoramaLocalDiskTask.Impl.new.getProgress = 0 ∧
      (CudaPanoramaLocalDiskTask.Impl.init eg a sg).2.getProgress = 0 ∧
      0 ≤ ((CudaPanoramaLocalDiskTask.started eg a sg).exec envg schedg).getProgress ∧
      ((CudaPanoramaLocalDiskTask.started eg a sg).exec envg schedg).getProgress ≤ 100) := by
  have hc := (CPUPanoramaLocalDiskTask.exec_inv envc schedc
    (CPUPanoramaLocalDiskTask.start_inv ec a sc)).logInv
  have hg := (CudaPanoramaLocalDiskTask.exec_inv_gpu envg schedg
    (CudaPanoramaLocalDiskTask.start_inv_gpu eg a sg)).log
  refine ⟨⟨rfl, ?_, hc.2.1, hc.2.2.1⟩, ⟨rfl, ?_, hg.2.1, hg.2.2.1⟩⟩
  · cases hb : (CPUPanoramaLocalDiskTask.Impl.init ec a sc).1 with
    | false => exact (CPUPanoramaLocalDiskTask.init_false_state ec a sc hb).2.2.2.2.1
    | true =>
      obtain ⟨p, -, -, -, -, -, -, -, -, -, -, h, -⟩ :=
        CPUPanoramaLocalDiskTask.init_true_state ec a sc hb
      exact h
  · exact (CudaPanoramaLocalDiskTask.init_common eg a sg).2.2.2.2.1

/-- C6: during one run the values stored to the progress counter form a
non-decreasing sequence, for the CPU loop and for the GPU encode stage (where the
store is repeated for audio frames without the video counter having advanced): the
store log of any state reached from the started controller is the log at `start()`
followed by a sorted list. -/
theorem C6_progress_stores_non_decreasing
    (ec : CPUPanoramaLocalDiskTask.InitEnv) (eg : CudaPanoramaLocalDiskTask.InitEnv)
    (a : InitArgs) (sc : CPUPanoramaLocalDiskTask.Impl) (sg : CudaPanoramaLocalDiskTask.Impl)
    (envc : CPUPanoramaLocalDiskTask.RunEnv) (envg : CudaPanoramaLocalDiskTask.RunEnv)
    (schedc : List CPUPanoramaLocalDiskTask.Action)
    (schedg : List CudaPanoramaLocalDiskTask.Action) :
    (∃ l, ((CPUPanoramaLocalDiskTask.started ec a sc).exec envc schedc).storeLog
        = (CPUPanoramaLocalDiskTask.started ec a sc).storeLog ++ l ∧ l.Sorted (· ≤ ·)) ∧
    (∃ l, ((CudaPanoramaLocalDiskTask.started eg a sg).exec envg schedg).storeLog
        = (CudaPanoramaLocalDiskTask.started eg a sg).storeLog ++ l ∧ l.Sorted (· ≤ ·)) := by
  have hc := (CPUPanoramaLocalDiskTask.exec_inv envc schedc
    (CPUPanoramaLocalDiskTask.start_inv ec a sc)).logInv
  have hg := (CudaPanoramaLocalDiskTask.exec_inv_gpu envg schedg
    (CudaPanoramaLocalDiskTask.start_inv_gpu eg a sg)).log
  obtain ⟨-, -, -, lc, hc1, hc2, -⟩ := hc
  obtain ⟨-, -, -, lg, hg1, hg2, -⟩ := hg
  exact ⟨⟨lc, hc1, hc2⟩, ⟨lg, hg1, hg2⟩⟩

/-- C7: progress is forced to 100 on every termination path of a started run. In any
state reached from the started CPU controller in which `run()` has returned
(exhaustion, frame cap, cancellation, a failed read, overlay or write, a caught
exception) `getProgress()` is 100, and `run()` has returned as soon as the schedule
has given the thread `stepBound` steps; in any state reached from the started GPU
controller in which `encode()` has returned `getProgress()` is 100. -/
theorem C7_progress_forced_to_100
    (ec : CPUPanoramaLocalDiskTask.InitEnv) (eg : CudaPanoramaLocalDiskTask.InitEnv)
    (a : InitArgs) (sc : CPUPanoramaLocalDiskTask.Impl) (sg : CudaPanoramaLocalDiskTask.Impl)
    (envc : CPUPanoramaLocalDiskTask.RunEnv) (envg : CudaPanoramaLocalDiskTask.RunEnv)
    (schedc : List CPUPanoramaLocalDiskTask.Action)
    (schedg : List CudaPanoramaLocalDiskTask.Action) :
    (((CPUPanoramaLocalDiskTask.started ec a sc).exec envc schedc).runReturned = true →
      ((CPUPanoramaLocalDiskTask.started ec a sc).exec envc schedc).getProgress = 100) ∧
    ((CPUPanoramaLocalDiskTask.Impl.init ec a sc).1 = true →
      (CPUPanoramaLocalDiskTask.started ec a sc).stepBound
        ≤ schedc.count CPUPanoramaLocalDiskTask.Action.step →
      ((CPUPanoramaLocalDiskTask.started ec a sc).exec envc schedc).runReturned = true) ∧
    (((CudaPanoramaLocalDiskTask.started eg a sg).exec envg schedg).encodeReturned = true →
      ((CudaPanoramaLocalDiskTask.started eg a sg).exec envg schedg).getProgress = 100) := by
  have hc := CPUPanoramaLocalDiskTask.exec_inv envc schedc
    (CPUPanoramaLocalDiskTask.start_inv ec a sc)
  have hg := CudaPanoramaLocalDiskTask.exec_inv_gpu envg schedg
    (CudaPanoramaLocalDiskTask.start_inv_gpu eg a sg)
  refine ⟨?_, ?_, ?_⟩
  · intro hr
    unfold CPUPanoramaLocalDiskTask.Impl.runReturned at hr
    unfold CPUPanoramaLocalDiskTask.RunInv at hc
    split at hr
    · rename_i ht
      unfold CPUPanoramaLocalDiskTask.started at ht ⊢
      rw [ht] at hc
      exact hc.2
    · exact absurd hr (by simp)
  · intro hinit hn
    apply CPUPanoramaLocalDiskTask.exec_returns envc schedc _ _ hn
    unfold CPUPanoramaLocalDiskTask.started
    rw [CPUPanoramaLocalDiskTask.start_after_init ec a sc hinit]
    rfl
  · intro hr
    unfold CudaPanoramaLocalDiskTask.Impl.encodeReturned at hr
    exact hg.done (of_decide_eq_true hr)

/-- C7 at a concrete input: two sources, a cap of 3 frames; the CPU thread is given
14 steps, the three GPU stages take 30 turns. -/
theorem C7_progress_forced_to_100_witness :
    (((CPUPanoramaLocalDiskTask.started
        (CPUPanoramaLocalDiskTask.sampleInitEnv ⟨sampleReaders, 0, 3⟩) sampleArgs
        CPUPanoramaLocalDiskTask.Impl.new).exec CPUPanoramaLocalDiskTask.sampleRunEnv
        (List.replicate 14 CPUPanoramaLocalDiskTask.Action.step)).runReturned = true ∧
      ((CPUPanoramaLocalDiskTask.started
        (CPUPanoramaLocalDiskTask.sampleInitEnv ⟨sampleReaders, 0, 3⟩) sampleArgs
        CPUPanoramaLocalDiskTask.Impl.new).exec CPUPanoramaLocalDiskTask.sampleRunEnv
        (List.replicate 14 CPUPanoramaLocalDiskTask.Action.step)).getProgress = 100) ∧
    (((CudaPanoramaLocalDiskTask.started
        (CudaPanoramaLocalDiskTask.sampleInitEnv ⟨sampleReaders, 0, 3⟩) sampleArgs
        CudaPanoramaLocalDiskTask.Impl.new).exec CudaPanoramaLocalDiskTask.sampleRunEnv
        (CudaPanoramaLocalDiskTask.roundRobin 30)).encodeReturned = true ∧
      ((CudaPanoramaLocalDiskTask.started
        (CudaPanoramaLocalDiskTask.sampleInitEnv ⟨sampleReaders, 0, 3⟩) sampleArgs
        CudaPanoramaLocalDiskTask.Impl.new).exec CudaPanoramaLocalDiskTask.sampleRunEnv
        (CudaPanoramaLocalDiskTask.roundRobin 30)).getProgress = 100) :=
  have h := C7_progress_forced_to_100
    (CPUPanoramaLocalDiskTask.sampleInitEnv ⟨sampleReaders, 0, 3⟩)
    (CudaPanoramaLocalDiskTask.sampleInitEnv ⟨sampleReaders, 0, 3⟩) sampleArgs
    CPUPanoramaLocalDiskTask.Impl.new CudaPanoramaLocalDiskTask.Impl.new
    CPUPanoramaLocalDiskTask.sampleRunEnv CudaPanoramaLocalDiskTask.sampleRunEnv
    (List.replicate 14 CPUPanoramaLocalDiskTask.Action.step)
    (CudaPanoramaLocalDiskTask.roundRobin 30)
  ⟨⟨h.2.1 (by decide) (by decide), h.1 (h.2.1 (by decide) (by decide))⟩,
    ⟨by decide!, h.2.2 (by decide!)⟩⟩

/-- C8, counterexample: two runs in which no overlay or write call fails and nobody
cancels. (a) The frame cap is 0 (`prepareSrcVideos` reports 0 valid frames, no
maximum is configured) and two sources hold two video frames each: `run()` returns
after writing one video frame, which is not `min(2, 0)`, because the cap is tested
only after a frame has been written. (b) The cap is 3, the sources supply 3 complete
samples and the first reprojection throws: `run()` catches the exception and returns
with no video frame written, which is not `min(3, 3)`. -/
theorem C8_frame_count_counterexample :
    ((CPUPanoramaLocalDiskTask.Impl.init
        (CPUPanoramaLocalDiskTask.sampleInitEnv ⟨shortReaders, -1, 0⟩) sampleArgs
        CPUPanoramaLocalDiskTask.Impl.new).1 = true ∧
      (CPUPanoramaLocalDiskTask.started
        (CPUPanoramaLocalDiskTask.sampleInitEnv ⟨shortReaders, -1, 0⟩) sampleArgs
        CPUPanoramaLocalDiskTask.Impl.new).validFrameCount = 0 ∧
      CPUPanoramaLocalDiskTask.completeSamples (-1) shortReaders = 2 ∧
      ((CPUPanoramaLocalDiskTask.started
        (CPUPanoramaLocalDiskTask.sampleInitEnv ⟨shortReaders, -1, 0⟩) sampleArgs
        CPUPanoramaLocalDiskTask.Impl.new).runSteps
          CPUPanoramaLocalDiskTask.sampleRunEnv 2).runReturned = true ∧
      (CPUPanoramaLocalDiskTask.writtenVideo
        ((CPUPanoramaLocalDiskTask.started
          (CPUPanoramaLocalDiskTask.sampleInitEnv ⟨shortReaders, -1, 0⟩) sampleArgs
          CPUPanoramaLocalDiskTask.Impl.new).runSteps
            CPUPanoramaLocalDiskTask.sampleRunEnv 2).writer).length = 1 ∧
      ((CPUPanoramaLocalDiskTask.writtenVideo
        ((CPUPanoramaLocalDiskTask.started
          (CPUPanoramaLocalDiskTask.sampleInitEnv ⟨shortReaders, -1, 0⟩) sampleArgs
          CPUPanoramaLocalDiskTask.Impl.new).runSteps
            CPUPanoramaLocalDiskTask.sampleRunEnv 2).writer).length : Int)
        ≠ min ((CPUPanoramaLocalDiskTask.completeSamples (-1) shortReaders : Nat) : Int)
            (CPUPanoramaLocalDiskTask.started
              (CPUPanoramaLocalDiskTask.sampleInitEnv ⟨shortReaders, -1, 0⟩) sampleArgs
              CPUPanoramaLocalDiskTask.Impl.new).validFrameCount) ∧
    ((CPUPanoramaLocalDiskTask.started
        (CPUPanoramaLocalDiskTask.sampleInitEnv ⟨sampleReaders, 0, 3⟩) sampleArgs
        CPUPanoramaLocalDiskTask.Impl.new).validFrameCount = 3 ∧
      CPUPanoramaLocalDiskTask.completeSamples 0 sampleReaders = 3 ∧
      ((CPUPanoramaLocalDiskTask.started
        (CPUPanoramaLocalDiskTask.sampleInitEnv ⟨sampleReaders, 0, 3⟩) sampleArgs
        CPUPanoramaLocalDiskTask.Impl.new).runSteps
          CPUPanoramaLocalDiskTask.throwingRunEnv 2).runReturned = true ∧
      ((CPUPanoramaLocalDiskTask.started
        (CPUPanoramaLocalDiskTask.sampleInitEnv ⟨sampleReaders, 0, 3⟩) sampleArgs
        CPUPanoramaLocalDiskTask.Impl.new).runSteps
          CPUPanoramaLocalDiskTask.throwingRunEnv 2).writer.calls = 0 ∧
      (CPUPanoramaLocalDiskTask.writtenVideo
        ((CPUPanoramaLocalDiskTask.started
          (CPUPanoramaLocalDiskTask.sampleInitEnv ⟨sampleReaders, 0, 3⟩) sampleArgs
          CPUPanoramaLocalDiskTask.Impl.new).runSteps
            CPUPanoramaLocalDiskTask.throwingRunEnv 2).writer).length = 0 ∧
      ((CPUPanoramaLocalDiskTask.writtenVideo
        ((CPUPanoramaLocalDiskTask.started
          (CPUPanoramaLocalDiskTask.sampleInitEnv ⟨sampleReaders, 0, 3⟩) sampleArgs
          CPUPanoramaLocalDiskTask.Impl.new).runSteps
            CPUPanoramaLocalDiskTask.throwingRunEnv 2).writer).length : Int)
        ≠ min ((CPUPanoramaLocalDiskTask.completeSamples 0 sampleReaders : Nat) : Int)
            (CPUPanoramaLocalDiskTask.started
              (CPUPanoramaLocalDiskTask.sampleInitEnv ⟨sampleReaders, 0, 3⟩) sampleArgs
              CPUPanoramaLocalDiskTask.Impl.new).validFrameCount) := by
  decide

/-- C8, amended: a successful `init()` sets the frame cap `validFrameCount` to
`min(available, maxFrameCount)` when `maxFrameCount > 0` and to `available` otherwise;
and when that cap is at least 1, one reader was opened per source, no reprojection
or blending call throws, no overlay or write call fails and nobody cancels, `run()`
returns (within `stepBound` steps) and the number of video frames written to the
destination is `min(s, validFrameCount)`, where `s` is the number of complete video
samples the sources can supply, however many audio frames are interleaved and
whether an exhausted source ends by returning `false` or by throwing. -/
theorem C8_frame_count_is_min_of_samples_and_cap
    (e : CPUPanoramaLocalDiskTask.InitEnv) (a : InitArgs) (s0 : CPUPanoramaLocalDiskTask.Impl)
    (p : PreparedSrc) (env : CPUPanoramaLocalDiskTask.RunEnv) (n : Nat)
    (hp : e.prepareSrcVideos = some p)
    (hinit : (CPUPanoramaLocalDiskTask.Impl.init e a s0).1 = true) :
    ((0 < a.dstVideoMaxFrameCount →
        (CPUPanoramaLocalDiskTask.Impl.init e a s0).2.validFrameCount
          = min p.validFrameCount a.dstVideoMaxFrameCount) ∧
      (a.dstVideoMaxFrameCount ≤ 0 →
        (CPUPanoramaLocalDiskTask.Impl.init e a s0).2.validFrameCount = p.validFrameCount)) ∧
    (p.readers.length = a.srcVideoFiles.length →
      env.noFailure →
      1 ≤ (CPUPanoramaLocalDiskTask.Impl.init e a s0).2.validFrameCount →
      (CPUPanoramaLocalDiskTask.started e a s0).stepBound ≤ n →
      ((CPUPanoramaLocalDiskTask.started e a s0).runSteps env n).runReturned = true ∧
      ((CPUPanoramaLocalDiskTask.writtenVideo
          ((CPUPanoramaLocalDiskTask.started e a s0).runSteps env n).writer).length : Int)
        = min ((CPUPanoramaLocalDiskTask.completeSamples p.audioIndex p.readers : Nat) : Int)
            (CPUPanoramaLocalDiskTask.Impl.init e a s0).2.validFrameCount) := by
  obtain ⟨q, h1, h2, -, -, -, -, h7, h8, -⟩ :=
    CPUPanoramaLocalDiskTask.started_fields e a s0 hinit
  rw [hp] at h1
  cases h1
  refine ⟨⟨?_, ?_⟩, ?_⟩
  · intro hm
    rw [h8]
    unfold capFrameCount
    split
    · omega
    · omega
  · intro hm
    rw [h8]
    unfold capFrameCount
    split
    · omega
    · rfl
  · intro hlen henv hv hn
    have hret : ((CPUPanoramaLocalDiskTask.started e a s0).runSteps env n).runReturned = true := by
      unfold CPUPanoramaLocalDiskTask.Impl.runSteps
      apply CPUPanoramaLocalDiskTask.exec_returns env _ _ h2
      rw [List.count_replicate_self]
      exact hn
    refine ⟨hret, ?_⟩
    have hc := CPUPanoramaLocalDiskTask.runSteps_count env henv n
      (CPUPanoramaLocalDiskTask.started_count e a s0 p hp hlen hinit hv)
    obtain ⟨-, -, -, h5, h6⟩ := hc
    have hcap : ((CPUPanoramaLocalDiskTask.started e a s0).runSteps env n).validFrameCount
        = (CPUPanoramaLocalDiskTask.Impl.init e a s0).2.validFrameCount := by
      have hi := (CPUPanoramaLocalDiskTask.exec_inv env (List.replicate n
        CPUPanoramaLocalDiskTask.Action.step)
        (CPUPanoramaLocalDiskTask.start_inv e a s0)).logInv
      exact hi.1
    unfold CPUPanoramaLocalDiskTask.Impl.runReturned at hret
    split at hret
    · rename_i ht
      rw [ht] at h6
      simp only at h6
      rw [h6, ← hcap]
      omega
    · exact absurd hret (by simp)

/-- C8 (amended) at a concrete input: the sample sources supply 3 complete samples
(the first one with two audio frames interleaved), the cap is 2, the thread is given
13 steps: `run()` has returned and 2 video frames are written. -/
theorem C8_frame_count_witness :
    ((CPUPanoramaLocalDiskTask.started
        (CPUPanoramaLocalDiskTask.sampleInitEnv ⟨sampleReaders, 0, 2⟩) sampleArgs
        CPUPanoramaLocalDiskTask.Impl.new).runSteps
          CPUPanoramaLocalDiskTask.sampleRunEnv 13).runReturned = true ∧
      ((CPUPanoramaLocalDiskTask.writtenVideo
          ((CPUPanoramaLocalDiskTask.started
            (CPUPanoramaLocalDiskTask.sampleInitEnv ⟨sampleReaders, 0, 2⟩) sampleArgs
            CPUPanoramaLocalDiskTask.Impl.new).runSteps
              CPUPanoramaLocalDiskTask.sampleRunEnv 13).writer).length : Int)
        = min ((CPUPanoramaLocalDiskTask.completeSamples 0 sampleReaders : Nat) : Int)
            (CPUPanoramaLocalDiskTask.Impl.init
              (CPUPanoramaLocalDiskTask.sampleInitEnv ⟨sampleReaders, 0, 2⟩) sampleArgs
              CPUPanoramaLocalDiskTask.Impl.new).2.validFrameCount :=
  (C8_frame_count_is_min_of_samples_and_cap
    (CPUPanoramaLocalDiskTask.sampleInitEnv ⟨sampleReaders, 0, 2⟩) sampleArgs
    CPUPanoramaLocalDiskTask.Impl.new ⟨sampleReaders, 0, 2⟩
    CPUPanoramaLocalDiskTask.sampleRunEnv 13 rfl (by decide)).2
    (by decide) ⟨fun _ => rfl, fun _ => rfl, fun _ _ => rfl, fun _ => rfl⟩ (by decide)
    (by decide)

/-- C9: output temporal order equals input temporal order in the CPU loop. After a
successful `init` that opened one reader per source, in every state reached from the
started controller (any collaborator outcomes, any schedule of steps and cancels) the
time stamps of the video frames written so far are a prefix of the time stamps of
the video frames of source 0 in read order, so the k-th written video frame carries
the time stamp of the k-th video sample; and when every source emits strictly
increasing time stamps the written sequence is non-decreasing. -/
theorem C9_written_order_is_source_order
    (e : CPUPanoramaLocalDiskTask.InitEnv) (a : InitArgs) (s0 : CPUPanoramaLocalDiskTask.Impl)
    (p : PreparedSrc) (env : CPUPanoramaLocalDiskTask.RunEnv)
    (schedule : List CPUPanoramaLocalDiskTask.Action)
    (hp : e.prepareSrcVideos = some p)
    (hlen : p.readers.length = a.srcVideoFiles.length)
    (hinit : (CPUPanoramaLocalDiskTask.Impl.init e a s0).1 = true) :
    ((CPUPanoramaLocalDiskTask.started e a s0).exec env schedule).writtenTimeStamps
        <+: CPUPanoramaLocalDiskTask.sourceTimeStamps p.audioIndex p.readers ∧
    (∀ k (h : k < ((CPUPanoramaLocalDiskTask.started e a s0).exec env
          schedule).writtenTimeStamps.length),
      (CPUPanoramaLocalDiskTask.sourceTimeStamps p.audioIndex p.readers)[k]?
        = some (((CPUPanoramaLocalDiskTask.started e a s0).exec env
            schedule).writtenTimeStamps.get ⟨k, h⟩)) ∧
    ((∀ r ∈ p.readers, (r.frames.map (fun f => f.timeStamp)).Sorted (· < ·)) →
      (((CPUPanoramaLocalDiskTask.started e a s0).exec env schedule).writtenTimeStamps).Sorted
        (· ≤ ·)) := by
  have hpre := (CPUPanoramaLocalDiskTask.exec_order env schedule
    (CPUPanoramaLocalDiskTask.started_order e a s0 p hp hlen hinit)).isPrefix
  refine ⟨hpre, ?_, ?_⟩
  · intro k hk
    obtain ⟨t, ht⟩ := hpre
    rw [← ht, List.getElem?_append_left hk, List.getElem?_eq_getElem hk]
    rfl
  · intro hs
    have h1 := CPUPanoramaLocalDiskTask.sourceTimeStamps_sorted p.audioIndex p.readers hs
    have h2 := List.Pairwise.sublist hpre.sublist h1
    exact List.Pairwise.imp (fun h => le_of_lt h) h2

/-- C9 at a concrete input: the sample sources (audio interleaved in source 0), four
steps of the thread with a cancel in between; the written time stamps are `[10]`. -/
theorem C9_written_order_witness :
    ((CPUPanoramaLocalDiskTask.started
        (CPUPanoramaLocalDiskTask.sampleInitEnv ⟨sampleReaders, 0, 3⟩) sampleArgs
        CPUPanoramaLocalDiskTask.Impl.new).exec CPUPanoramaLocalDiskTask.sampleRunEnv
        [CPUPanoramaLocalDiskTask.Action.step, CPUPanoramaLocalDiskTask.Action.step,
          CPUPanoramaLocalDiskTask.Action.step, CPUPanoramaLocalDiskTask.Action.cancel,
          CPUPanoramaLocalDiskTask.Action.step]).writtenTimeStamps
        <+: CPUPanoramaLocalDiskTask.sourceTimeStamps 0 sampleReaders ∧
      ((CPUPanoramaLocalDiskTask.started
        (CPUPanoramaLocalDiskTask.sampleInitEnv ⟨sampleReaders, 0, 3⟩) sampleArgs
        CPUPanoramaLocalDiskTask.Impl.new).exec CPUPanoramaLocalDiskTask.sampleRunEnv
        [CPUPanoramaLocalDiskTask.Action.step, CPUPanoramaLocalDiskTask.Action.step,
          CPUPanoramaLocalDiskTask.Action.step, CPUPanoramaLocalDiskTask.Action.cancel,
          CPUPanoramaLocalDiskTask.Action.step]).writtenTimeStamps.Sorted (· ≤ ·) :=
  have h := C9_written_order_is_source_order
    (CPUPanoramaLocalDiskTask.sampleInitEnv ⟨sampleReaders, 0, 3⟩) sampleArgs
    CPUPanoramaLocalDiskTask.Impl.new ⟨sampleReaders, 0, 3⟩
    CPUPanoramaLocalDiskTask.sampleRunEnv
    [CPUPanoramaLocalDiskTask.Action.step, CPUPanoramaLocalDiskTask.Action.step,
      CPUPanoramaLocalDiskTask.Action.step, CPUPanoramaLocalDiskTask.Action.cancel,
      CPUPanoramaLocalDiskTask.Action.step] rfl (by decide) (by decide)
  ⟨h.1, h.2.2 (by decide)⟩

/-- C10, counterexample: a CPU run in which no overlay, reprojection, blending or
write call fails (none is even made) and `cancel()` is called; the read of the first
source throws, `run()` catches the exception and returns, and an asynchronous error
is pending. -/
theorem C10_cancellation_counterexample :
    CPUPanoramaLocalDiskTask.sampleRunEnv.noFailure ∧
      (CPUPanoramaLocalDiskTask.Impl.init
        (CPUPanoramaLocalDiskTask.sampleInitEnv ⟨throwingReaders, 0, 5⟩) sampleArgs
        CPUPanoramaLocalDiskTask.Impl.new).1 = true ∧
      ((CPUPanoramaLocalDiskTask.started
        (CPUPanoramaLocalDiskTask.sampleInitEnv ⟨throwingReaders, 0, 5⟩) sampleArgs
        CPUPanoramaLocalDiskTask.Impl.new).exec CPUPanoramaLocalDiskTask.sampleRunEnv
        [CPUPanoramaLocalDiskTask.Action.step, CPUPanoramaLocalDiskTask.Action.cancel,
          CPUPanoramaLocalDiskTask.Action.step]).runReturned = true ∧
      ((CPUPanoramaLocalDiskTask.started
        (CPUPanoramaLocalDiskTask.sampleInitEnv ⟨throwingReaders, 0, 5⟩) sampleArgs
        CPUPanoramaLocalDiskTask.Impl.new).exec CPUPanoramaLocalDiskTask.sampleRunEnv
        [CPUPanoramaLocalDiskTask.Action.step, CPUPanoramaLocalDiskTask.Action.cancel,
          CPUPanoramaLocalDiskTask.Action.step]).writer.calls = 0 ∧
      ((CPUPanoramaLocalDiskTask.started
        (CPUPanoramaLocalDiskTask.sampleInitEnv ⟨throwingReaders, 0, 5⟩) sampleArgs
        CPUPanoramaLocalDiskTask.Impl.new).exec CPUPanoramaLocalDiskTask.sampleRunEnv
        [CPUPanoramaLocalDiskTask.Action.step, CPUPanoramaLocalDiskTask.Action.cancel,
          CPUPanoramaLocalDiskTask.Action.step]).hasAsyncErrorMessage = true :=
  ⟨⟨fun _ => rfl, fun _ => rfl, fun _ _ => rfl, fun _ => rfl⟩, by decide, by decide!,
    by decide!, by decide!⟩

/-- C10, amended: cancellation is not an error. After a successful `init()`, in a
run in which no call throws (no source read, no reprojection, no blending) and no
overlay, render or write call fails, whatever the schedule of thread steps and
`cancel()` calls: the asynchronous error latch stays clear and the synchronous
message stays empty in every state reached, and once `run()` (CPU) or `encode()`
(GPU) has returned `getProgress()` is 100. -/
theorem C10_cancellation_is_not_an_error
    (ec : CPUPanoramaLocalDiskTask.InitEnv) (eg : CudaPanoramaLocalDiskTask.InitEnv)
    (a : InitArgs) (sc : CPUPanoramaLocalDiskTask.Impl) (sg : CudaPanoramaLocalDiskTask.Impl)
    (p : PreparedSrc)
    (envc : CPUPanoramaLocalDiskTask.RunEnv) (envg : CudaPanoramaLocalDiskTask.RunEnv)
    (schedc : List CPUPanoramaLocalDiskTask.Action)
    (schedg : List CudaPanoramaLocalDiskTask.Action) :
    ((CPUPanoramaLocalDiskTask.Impl.init ec a sc).1 = true →
      ec.prepareSrcVideos = some p →
      CPUPanoramaLocalDiskTask.noReaderThrows p.readers →
      envc.noFailure →
      (((CPUPanoramaLocalDiskTask.started ec a sc).exec envc schedc).runReturned = true →
        ((CPUPanoramaLocalDiskTask.started ec a sc).exec envc schedc).getProgress = 100) ∧
      ((CPUPanoramaLocalDiskTask.started ec a sc).exec envc schedc).hasAsyncErrorMessage = false ∧
      ((CPUPanoramaLocalDiskTask.started ec a sc).exec envc schedc).getLastSyncErrorMessage = "") ∧
    ((CudaPanoramaLocalDiskTask.Impl.init eg a sg).1 = true →
      envg.noFailure →
      (((CudaPanoramaLocalDiskTask.started eg a sg).exec envg schedg).encodeReturned = true →
        ((CudaPanoramaLocalDiskTask.started eg a sg).exec envg schedg).getProgress = 100) ∧
      ((CudaPanoramaLocalDiskTask.started eg a sg).exec envg schedg).hasAsyncErrorMessage = false ∧
      ((CudaPanoramaLocalDiskTask.started eg a sg).exec envg schedg).getLastSyncErrorMessage = "") := by
  refine ⟨?_, ?_⟩
  · intro hinit hp hthrow henv
    have hq := CPUPanoramaLocalDiskTask.exec_quiet envc henv schedc
      (CPUPanoramaLocalDiskTask.started_quiet ec a sc p hp hinit hthrow)
    have hc := CPUPanoramaLocalDiskTask.exec_inv envc schedc
      (CPUPanoramaLocalDiskTask.start_inv ec a sc)
    refine ⟨?_, ?_, hq.2.1⟩
    · intro hr
      unfold CPUPanoramaLocalDiskTask.Impl.runReturned at hr
      unfold CPUPanoramaLocalDiskTask.RunInv at hc
      split at hr
      · rename_i ht
        unfold CPUPanoramaLocalDiskTask.started at ht ⊢
        rw [ht] at hc
        exact hc.2
      · exact absurd hr (by simp)
    · unfold CPUPanoramaLocalDiskTask.Impl.hasAsyncErrorMessage
      rw [hq.1]
      rfl
  · intro hinit henv
    have hq := CudaPanoramaLocalDiskTask.exec_quiet_gpu envg henv schedg
      (CudaPanoramaLocalDiskTask.started_quiet_gpu eg a sg hinit)
    have hg := CudaPanoramaLocalDiskTask.exec_inv_gpu envg schedg
      (CudaPanoramaLocalDiskTask.start_inv_gpu eg a sg)
    refine ⟨?_, ?_, hq.2⟩
    · intro hr
      unfold CudaPanoramaLocalDiskTask.Impl.encodeReturned at hr
      exact hg.done (of_decide_eq_true hr)
    · unfold CudaPanoramaLocalDiskTask.Impl.hasAsyncErrorMessage
      rw [hq.1]
      rfl

/-- C10 (amended) at a concrete input: the sample sources with a cap of 3 frames;
`cancel()` arrives after the CPU thread has taken three steps and after the GPU
stages have taken two turns each. The runs end with progress 100 and no error. -/
theorem C10_cancellation_witness :
    (((CPUPanoramaLocalDiskTask.started
        (CPUPanoramaLocalDiskTask.sampleInitEnv ⟨sampleReaders, 0, 3⟩) sampleArgs
        CPUPanoramaLocalDiskTask.Impl.new).exec CPUPanoramaLocalDiskTask.sampleRunEnv
        [CPUPanoramaLocalDiskTask.Action.step, CPUPanoramaLocalDiskTask.Action.step,
          CPUPanoramaLocalDiskTask.Action.step, CPUPanoramaLocalDiskTask.Action.cancel,
          CPUPanoramaLocalDiskTask.Action.step, CPUPanoramaLocalDiskTask.Action.step]).getProgress = 100 ∧
      ((CPUPanoramaLocalDiskTask.started
        (CPUPanoramaLocalDiskTask.sampleInitEnv ⟨sampleReaders, 0, 3⟩) sampleArgs
        CPUPanoramaLocalDiskTask.Impl.new).exec CPUPanoramaLocalDiskTask.sampleRunEnv
        [CPUPanoramaLocalDiskTask.Action.step, CPUPanoramaLocalDiskTask.Action.step,
          CPUPanoramaLocalDiskTask.Action.step, CPUPanoramaLocalDiskTask.Action.cancel,
          CPUPanoramaLocalDiskTask.Action.step, CPUPanoramaLocalDiskTask.Action.step]).hasAsyncErrorMessage = false) ∧
    (((CudaPanoramaLocalDiskTask.started
        (CudaPanoramaLocalDiskTask.sampleInitEnv ⟨sampleReaders, 0, 3⟩) sampleArgs
        CudaPanoramaLocalDiskTask.Impl.new).exec CudaPanoramaLocalDiskTask.sampleRunEnv
        (CudaPanoramaLocalDiskTask.roundRobin 2 ++ [CudaPanoramaLocalDiskTask.Action.cancel]
          ++ CudaPanoramaLocalDiskTask.roundRobin 3)).getProgress = 100 ∧
      ((CudaPanoramaLocalDiskTask.started
        (CudaPanoramaLocalDiskTask.sampleInitEnv ⟨sampleReaders, 0, 3⟩) sampleArgs
        CudaPanoramaLocalDiskTask.Impl.new).exec CudaPanoramaLocalDiskTask.sampleRunEnv
        (CudaPanoramaLocalDiskTask.roundRobin 2 ++ [CudaPanoramaLocalDiskTask.Action.cancel]
          ++ CudaPanoramaLocalDiskTask.roundRobin 3)).hasAsyncErrorMessage = false) :=
  have h := C10_cancellation_is_not_an_error
    (CPUPanoramaLocalDiskTask.sampleInitEnv ⟨sampleReaders, 0, 3⟩)
    (CudaPanoramaLocalDiskTask.sampleInitEnv ⟨sampleReaders, 0, 3⟩) sampleArgs
    CPUPanoramaLocalDiskTask.Impl.new CudaPanoramaLocalDiskTask.Impl.new
    ⟨sampleReaders, 0, 3⟩
    CPUPanoramaLocalDiskTask.sampleRunEnv CudaPanoramaLocalDiskTask.sampleRunEnv
    [CPUPanoramaLocalDiskTask.Action.step, CPUPanoramaLocalDiskTask.Action.step,
      CPUPanoramaLocalDiskTask.Action.step, CPUPanoramaLocalDiskTask.Action.cancel,
      CPUPanoramaLocalDiskTask.Action.step, CPUPanoramaLocalDiskTask.Action.step]
    (CudaPanoramaLocalDiskTask.roundRobin 2 ++ [CudaPanoramaLocalDiskTask.Action.cancel]
      ++ CudaPanoramaLocalDiskTask.roundRobin 3)
  have hc := h.1 (by decide) rfl (by unfold CPUPanoramaLocalDiskTask.noReaderThrows; decide)
    ⟨fun _ => rfl, fun _ => rfl, fun _ _ => rfl, fun _ => rfl⟩
  have hg := h.2 (by decide) ⟨fun _ => rfl, fun _ _ => rfl, fun _ => rfl⟩
  ⟨⟨hc.1 (by decide!), hc.2.1⟩, ⟨hg.1 (by decide!), hg.2.1⟩⟩

/-- C11: any collaborator failure inside the CPU loop ends the run cleanly with an
asynchronous error. For every controller state `s`, locals `l` and collaborator
outcomes: a source read that throws (the audio-bearing source, or another source in
the `for` loop), a `write` of an audio frame that returns `false` or throws, a
reprojection or blending that throws, an overlay call or a `write` of the video frame
that returns `false` or throws each leave the controller with `run()` returned, an
asynchronous error pending, the destination holding exactly the frames it held (so
after the failing `write` of video frame `k` the destination still holds `k-1` video
frames) and no value stored to the progress counter but the final 100; a step of the
thread sets the error only in that way; and once `run()` has returned no action
writes a frame or stores a progress value. -/
theorem C11_cpu_failure_ends_run_with_error
    (env : CPUPanoramaLocalDiskTask.RunEnv) (s : CPUPanoramaLocalDiskTask.Impl)
    (l : CPUPanoramaLocalDiskTask.RunLocals) :
    (∀ r, (0 ≤ s.audioIndex ∧ s.audioIndex < s.numVideos) →
      s.readers[s.audioIndex.toNat]? = some r → r.read = ReadResult.exc →
      CPUPanoramaLocalDiskTask.EndsWithError s (CPUPanoramaLocalDiskTask.loopIteration env s l)) ∧
    ((CPUPanoramaLocalDiskTask.readVideoFrames s.audioIndex 0 s.readers l.frames).1
        = CallResult.throws →
      CPUPanoramaLocalDiskTask.EndsWithError s (CPUPanoramaLocalDiskTask.videoIteration env s l)) ∧
    (∀ r f r', (0 ≤ s.audioIndex ∧ s.audioIndex < s.numVideos) →
      s.readers[s.audioIndex.toNat]? = some r → r.read = ReadResult.got f r' →
      f.mediaType = MediaType.AUDIO → env.writerWrite s.writer.calls ≠ CallResult.ok →
      CPUPanoramaLocalDiskTask.EndsWithError s (CPUPanoramaLocalDiskTask.loopIteration env s l) ∧
      (CPUPanoramaLocalDiskTask.loopIteration env s l).writer.calls = s.writer.calls + 1) ∧
    (env.reproject l.count.toNat = false →
      CPUPanoramaLocalDiskTask.EndsWithError s (CPUPanoramaLocalDiskTask.processSample env s l)) ∧
    (env.reproject l.count.toNat = true → env.blend l.count.toNat = false →
      CPUPanoramaLocalDiskTask.EndsWithError s (CPUPanoramaLocalDiskTask.processSample env s l)) ∧
    (env.reproject l.count.toNat = true → env.blend l.count.toNat = true →
      env.addLogo = true → env.logoFilterAddLogo l.count.toNat ≠ CallResult.ok →
      CPUPanoramaLocalDiskTask.EndsWithError s (CPUPanoramaLocalDiskTask.processSample env s l) ∧
      (CPUPanoramaLocalDiskTask.processSample env s l).writer.calls = s.writer.calls) ∧
    (env.reproject l.count.toNat = true → env.blend l.count.toNat = true →
      (env.addLogo = true → env.logoFilterAddLogo l.count.toNat = CallResult.ok) →
      env.writerWrite s.writer.calls ≠ CallResult.ok →
      CPUPanoramaLocalDiskTask.EndsWithError s (CPUPanoramaLocalDiskTask.processSample env s l) ∧
      (CPUPanoramaLocalDiskTask.processSample env s l).writer.calls = s.writer.calls + 1) ∧
    (s.hasAsyncErrorMessage = false → (s.threadStep env).hasAsyncErrorMessage = true →
      CPUPanoramaLocalDiskTask.EndsWithError s (s.threadStep env)) ∧
    (∀ schedule, s.runReturned = true →
      (s.exec env schedule).writer = s.writer ∧ (s.exec env schedule).runReturned = true ∧
      (s.exec env schedule).storeLog = s.storeLog) := by
  refine ⟨?_, CPUPanoramaLocalDiskTask.videoIteration_throws env s l, ?_,
    CPUPanoramaLocalDiskTask.processSample_reproject_throws env s l,
    CPUPanoramaLocalDiskTask.processSample_blend_throws env s l,
    CPUPanoramaLocalDiskTask.processSample_overlay_fails env s l,
    CPUPanoramaLocalDiskTask.processSample_write_fails env s l, ?_, ?_⟩
  · intro r hrange hr hread
    unfold CPUPanoramaLocalDiskTask.loopIteration
    rw [if_pos hrange, hr]
    simp only [hread]
    exact CPUPanoramaLocalDiskTask.catchException_ends s
  · intro r f r' hrange hr hread hf hw
    unfold CPUPanoramaLocalDiskTask.loopIteration
    rw [if_pos hrange, hr]
    simp only [hread, hf, if_true]
    cases hc : env.writerWrite s.writer.calls with
    | ok => exact absurd hc hw
    | fail => exact ⟨⟨rfl, rfl, rfl, rfl, rfl⟩, rfl⟩
    | throws => exact ⟨⟨rfl, rfl, rfl, rfl, rfl⟩, rfl⟩
  · intro h0 h1
    have h0' : s.hasAsyncError = 0 := by
      unfold CPUPanoramaLocalDiskTask.Impl.hasAsyncErrorMessage at h0
      simpa using h0
    rcases CPUPanoramaLocalDiskTask.threadStep_outcome env s with h | h
    · unfold CPUPanoramaLocalDiskTask.Impl.hasAsyncErrorMessage at h1
      rw [h, h0'] at h1
      simp at h1
    · exact h
  · intro schedule h
    have := CPUPanoramaLocalDiskTask.exec_after_return env schedule s h
    exact ⟨this.1, this.2.1, this.2.2.1⟩

/-- C11 at a concrete input: two sources of two video frames, the `write` of the
second video frame returns `false`. After the entry and the first sample, the next
step of the thread ends the run with an error; the destination keeps its one frame. -/
theorem C11_cpu_failure_witness :
    CPUPanoramaLocalDiskTask.EndsWithError
        ((CPUPanoramaLocalDiskTask.started
          (CPUPanoramaLocalDiskTask.sampleInitEnv ⟨shortReaders, -1, 5⟩) sampleArgs
          CPUPanoramaLocalDiskTask.Impl.new).runSteps
            CPUPanoramaLocalDiskTask.failingWriteEnv 2)
        (((CPUPanoramaLocalDiskTask.started
          (CPUPanoramaLocalDiskTask.sampleInitEnv ⟨shortReaders, -1, 5⟩) sampleArgs
          CPUPanoramaLocalDiskTask.Impl.new).runSteps
            CPUPanoramaLocalDiskTask.failingWriteEnv 2).threadStep
              CPUPanoramaLocalDiskTask.failingWriteEnv) ∧
      (CPUPanoramaLocalDiskTask.writtenVideo
        (((CPUPanoramaLocalDiskTask.started
          (CPUPanoramaLocalDiskTask.sampleInitEnv ⟨shortReaders, -1, 5⟩) sampleArgs
          CPUPanoramaLocalDiskTask.Impl.new).runSteps
            CPUPanoramaLocalDiskTask.failingWriteEnv 2).threadStep
              CPUPanoramaLocalDiskTask.failingWriteEnv).writer).length = 1 :=
  ⟨(C11_cpu_failure_ends_run_with_error CPUPanoramaLocalDiskTask.failingWriteEnv
      ((CPUPanoramaLocalDiskTask.started
        (CPUPanoramaLocalDiskTask.sampleInitEnv ⟨shortReaders, -1, 5⟩) sampleArgs
        CPUPanoramaLocalDiskTask.Impl.new).runSteps
          CPUPanoramaLocalDiskTask.failingWriteEnv 2)
      ⟨0, 1, fun _ => default⟩).2.2.2.2.2.2.2.1 (by decide!) (by decide!),
    by decide!⟩

/-- The full reset of `init()` when there is no thread to wait for (`Impl.init`: no
thread was started, or the thread has returned). Whatever the state of such a
controller (a pending asynchronous error, a raised cancellation flag, progress at
100, a finished run that was or was not joined), after `init()` has returned, with
`true` or with `false`, no asynchronous error is pending, the cancellation flag is
clear and `getProgress()` is 0; and an `init()` that fails fails in the same way on a
freshly constructed controller, with the same progress, the same synchronous and
asynchronous messages and the same result of a following `start()`. -/
theorem init_is_a_full_reset
    (ec : CPUPanoramaLocalDiskTask.InitEnv) (eg : CudaPanoramaLocalDiskTask.InitEnv)
    (a : InitArgs) (sc : CPUPanoramaLocalDiskTask.Impl) (sg : CudaPanoramaLocalDiskTask.Impl) :
    ((CPUPanoramaLocalDiskTask.Impl.init ec a sc).2.hasAsyncErrorMessage = false ∧
      (CPUPanoramaLocalDiskTask.Impl.init ec a sc).2.getLastAsyncErrorMessage.1 = "" ∧
      (CPUPanoramaLocalDiskTask.Impl.init ec a sc).2.endFlag = false ∧
      (CPUPanoramaLocalDiskTask.Impl.init ec a sc).2.getProgress = 0 ∧
      ((CPUPanoramaLocalDiskTask.Impl.init ec a sc).1 = false →
        (CPUPanoramaLocalDiskTask.Impl.init ec a CPUPanoramaLocalDiskTask.Impl.new).1 = false ∧
        (CPUPanoramaLocalDiskTask.Impl.init ec a sc).2.getProgress
          = (CPUPanoramaLocalDiskTask.Impl.init ec a
              CPUPanoramaLocalDiskTask.Impl.new).2.getProgress ∧
        (CPUPanoramaLocalDiskTask.Impl.init ec a sc).2.getLastSyncErrorMessage
          = (CPUPanoramaLocalDiskTask.Impl.init ec a
              CPUPanoramaLocalDiskTask.Impl.new).2.getLastSyncErrorMessage ∧
        (CPUPanoramaLocalDiskTask.Impl.init ec a sc).2.hasAsyncErrorMessage
          = (CPUPanoramaLocalDiskTask.Impl.init ec a
              CPUPanoramaLocalDiskTask.Impl.new).2.hasAsyncErrorMessage ∧
        (CPUPanoramaLocalDiskTask.Impl.init ec a sc).2.getLastAsyncErrorMessage.1
          = (CPUPanoramaLocalDiskTask.Impl.init ec a
              CPUPanoramaLocalDiskTask.Impl.new).2.getLastAsyncErrorMessage.1 ∧
        (CPUPanoramaLocalDiskTask.Impl.init ec a sc).2.start.result? = some false ∧
        (CPUPanoramaLocalDiskTask.Impl.init ec a
          CPUPanoramaLocalDiskTask.Impl.new).2.start.result? = some false)) ∧
    ((CudaPanoramaLocalDiskTask.Impl.init eg a sg).2.hasAsyncErrorMessage = false ∧
      (CudaPanoramaLocalDiskTask.Impl.init eg a sg).2.getLastAsyncErrorMessage.1 = "" ∧
      (CudaPanoramaLocalDiskTask.Impl.init eg a sg).2.isCanceled = false ∧
      (CudaPanoramaLocalDiskTask.Impl.init eg a sg).2.getProgress = 0 ∧
      ((CudaPanoramaLocalDiskTask.Impl.init eg a sg).1 = false →
        (CudaPanoramaLocalDiskTask.Impl.init eg a CudaPanoramaLocalDiskTask.Impl.new).1 = false ∧
        (CudaPanoramaLocalDiskTask.Impl.init eg a sg).2.getProgress
          = (CudaPanoramaLocalDiskTask.Impl.init eg a
              CudaPanoramaLocalDiskTask.Impl.new).2.getProgress ∧
        (CudaPanoramaLocalDiskTask.Impl.init eg a sg).2.getLastSyncErrorMessage
          = (CudaPanoramaLocalDiskTask.Impl.init eg a
              CudaPanoramaLocalDiskTask.Impl.new).2.getLastSyncErrorMessage ∧
        (CudaPanoramaLocalDiskTask.Impl.init eg a sg).2.hasAsyncErrorMessage
          = (CudaPanoramaLocalDiskTask.Impl.init eg a
              CudaPanoramaLocalDiskTask.Impl.new).2.hasAsyncErrorMessage ∧
        (CudaPanoramaLocalDiskTask.Impl.init eg a sg).2.getLastAsyncErrorMessage.1
          = (CudaPanoramaLocalDiskTask.Impl.init eg a
              CudaPanoramaLocalDiskTask.Impl.new).2.getLastAsyncErrorMessage.1 ∧
        (CudaPanoramaLocalDiskTask.Impl.init eg a sg).2.start.result? = some false ∧
        (CudaPanoramaLocalDiskTask.Impl.init eg a
          CudaPanoramaLocalDiskTask.Impl.new).2.start.result? = some false)) := by
  have key_c : ∀ s : CPUPanoramaLocalDiskTask.Impl,
      (CPUPanoramaLocalDiskTask.Impl.init ec a s).2.hasAsyncErrorMessage = false ∧
      (CPUPanoramaLocalDiskTask.Impl.init ec a s).2.getLastAsyncErrorMessage.1 = "" ∧
      (CPUPanoramaLocalDiskTask.Impl.init ec a s).2.endFlag = false ∧
      (CPUPanoramaLocalDiskTask.Impl.init ec a s).2.getProgress = 0 := by
    intro s
    obtain ⟨h1, -, h3, h4⟩ := CPUPanoramaLocalDiskTask.init_reset ec a s
    refine ⟨?_, ?_, h3, h4⟩
    · unfold CPUPanoramaLocalDiskTask.Impl.hasAsyncErrorMessage
      rw [h1]
      rfl
    · unfold CPUPanoramaLocalDiskTask.Impl.getLastAsyncErrorMessage
      rw [h1]
      rfl
  have key_g : ∀ s : CudaPanoramaLocalDiskTask.Impl,
      (CudaPanoramaLocalDiskTask.Impl.init eg a s).2.hasAsyncErrorMessage = false ∧
      (CudaPanoramaLocalDiskTask.Impl.init eg a s).2.getLastAsyncErrorMessage.1 = "" ∧
      (CudaPanoramaLocalDiskTask.Impl.init eg a s).2.isCanceled = false ∧
      (CudaPanoramaLocalDiskTask.Impl.init eg a s).2.getProgress = 0 := by
    intro s
    obtain ⟨h1, -, h3, h4⟩ := CudaPanoramaLocalDiskTask.init_reset_gpu eg a s
    refine ⟨?_, ?_, h3, h4⟩
    · unfold CudaPanoramaLocalDiskTask.Impl.hasAsyncErrorMessage
      rw [h1]
      rfl
    · unfold CudaPanoramaLocalDiskTask.Impl.getLastAsyncErrorMessage
      rw [h1]
      rfl
  refine ⟨⟨(key_c sc).1, (key_c sc).2.1, (key_c sc).2.2.1, (key_c sc).2.2.2, ?_⟩,
    ⟨(key_g sg).1, (key_g sg).2.1, (key_g sg).2.2.1, (key_g sg).2.2.2, ?_⟩⟩
  · intro hf
    have hi := CPUPanoramaLocalDiskTask.init_indep ec a sc CPUPanoramaLocalDiskTask.Impl.new
    have hn : (CPUPanoramaLocalDiskTask.Impl.init ec a CPUPanoramaLocalDiskTask.Impl.new).1
        = false := by rw [← hi.1]; exact hf
    have k := key_c CPUPanoramaLocalDiskTask.Impl.new
    refine ⟨hn, ?_, hi.2, ?_, ?_, ?_, ?_⟩
    · rw [(key_c sc).2.2.2, k.2.2.2]
    · rw [(key_c sc).1, k.1]
    · rw [(key_c sc).2.1, k.2.1]
    · rw [(CPUPanoramaLocalDiskTask.start_after_failed_init ec a sc hf)]
      rfl
    · rw [(CPUPanoramaLocalDiskTask.start_after_failed_init ec a _ hn)]
      rfl
  · intro hf
    have hi := CudaPanoramaLocalDiskTask.init_indep_gpu eg a sg CudaPanoramaLocalDiskTask.Impl.new
    have hn : (CudaPanoramaLocalDiskTask.Impl.init eg a CudaPanoramaLocalDiskTask.Impl.new).1
        = false := by rw [← hi.1]; exact hf
    have k := key_g CudaPanoramaLocalDiskTask.Impl.new
    refine ⟨hn, ?_, hi.2, ?_, ?_, ?_, ?_⟩
    · rw [(key_g sg).2.2.2, k.2.2.2]
    · rw [(key_g sg).1, k.1]
    · rw [(key_g sg).2.1, k.2.1]
    · rw [(CudaPanoramaLocalDiskTask.start_after_failed_init_gpu eg a sg hf)]
      rfl
    · rw [(CudaPanoramaLocalDiskTask.start_after_failed_init_gpu eg a _ hn)]
      rfl

/-- The full reset at a concrete input. The CPU controller has a finished run behind
it whose second write failed and which was cancelled afterwards (error pending, flag
raised, progress 100); the GPU controller has a cancelled run behind it whose stages
have returned. An `init()` that fails on its arguments leaves both without error,
with the flag clear and progress 0. -/
theorem init_is_a_full_reset_witness :
    ((CPUPanoramaLocalDiskTask.started
        (CPUPanoramaLocalDiskTask.sampleInitEnv ⟨shortReaders, -1, 5⟩) sampleArgs
        CPUPanoramaLocalDiskTask.Impl.new).exec CPUPanoramaLocalDiskTask.failingWriteEnv
        [CPUPanoramaLocalDiskTask.Action.step, CPUPanoramaLocalDiskTask.Action.step,
          CPUPanoramaLocalDiskTask.Action.step,
          CPUPanoramaLocalDiskTask.Action.cancel]).hasAsyncErrorMessage = true ∧
    ((CPUPanoramaLocalDiskTask.Impl.init CPUPanoramaLocalDiskTask.failingInitEnv mismatchedArgs
        ((CPUPanoramaLocalDiskTask.started
          (CPUPanoramaLocalDiskTask.sampleInitEnv ⟨shortReaders, -1, 5⟩) sampleArgs
          CPUPanoramaLocalDiskTask.Impl.new).exec CPUPanoramaLocalDiskTask.failingWriteEnv
          [CPUPanoramaLocalDiskTask.Action.step, CPUPanoramaLocalDiskTask.Action.step,
            CPUPanoramaLocalDiskTask.Action.step,
            CPUPanoramaLocalDiskTask.Action.cancel])).2.hasAsyncErrorMessage = false ∧
      (CPUPanoramaLocalDiskTask.Impl.init CPUPanoramaLocalDiskTask.failingInitEnv mismatchedArgs
        ((CPUPanoramaLocalDiskTask.started
          (CPUPanoramaLocalDiskTask.sampleInitEnv ⟨shortReaders, -1, 5⟩) sampleArgs
          CPUPanoramaLocalDiskTask.Impl.new).exec CPUPanoramaLocalDiskTask.failingWriteEnv
          [CPUPanoramaLocalDiskTask.Action.step, CPUPanoramaLocalDiskTask.Action.step,
            CPUPanoramaLocalDiskTask.Action.step,
            CPUPanoramaLocalDiskTask.Action.cancel])).2.getProgress = 0) ∧
    ((CudaPanoramaLocalDiskTask.Impl.init CudaPanoramaLocalDiskTask.failingInitEnv mismatchedArgs
        ((CudaPanoramaLocalDiskTask.started
          (CudaPanoramaLocalDiskTask.sampleInitEnv ⟨sampleReaders, 0, 3⟩) sampleArgs
          CudaPanoramaLocalDiskTask.Impl.new).exec CudaPanoramaLocalDiskTask.sampleRunEnv
          (CudaPanoramaLocalDiskTask.roundRobin 2 ++ [CudaPanoramaLocalDiskTask.Action.cancel]
            ++ CudaPanoramaLocalDiskTask.roundRobin 10))).2.isCanceled = false ∧
      (CudaPanoramaLocalDiskTask.Impl.init CudaPanoramaLocalDiskTask.failingInitEnv mismatchedArgs
        ((CudaPanoramaLocalDiskTask.started
          (CudaPanoramaLocalDiskTask.sampleInitEnv ⟨sampleReaders, 0, 3⟩) sampleArgs
          CudaPanoramaLocalDiskTask.Impl.new).exec CudaPanoramaLocalDiskTask.sampleRunEnv
          (CudaPanoramaLocalDiskTask.roundRobin 2 ++ [CudaPanoramaLocalDiskTask.Action.cancel]
            ++ CudaPanoramaLocalDiskTask.roundRobin 10))).2.getProgress = 0) :=
  have h := init_is_a_full_reset CPUPanoramaLocalDiskTask.failingInitEnv
    CudaPanoramaLocalDiskTask.failingInitEnv mismatchedArgs
    ((CPUPanoramaLocalDiskTask.started
      (CPUPanoramaLocalDiskTask.sampleInitEnv ⟨shortReaders, -1, 5⟩) sampleArgs
      CPUPanoramaLocalDiskTask.Impl.new).exec CPUPanoramaLocalDiskTask.failingWriteEnv
      [CPUPanoramaLocalDiskTask.Action.step, CPUPanoramaLocalDiskTask.Action.step,
        CPUPanoramaLocalDiskTask.Action.step, CPUPanoramaLocalDiskTask.Action.cancel])
    ((CudaPanoramaLocalDiskTask.started
      (CudaPanoramaLocalDiskTask.sampleInitEnv ⟨sampleReaders, 0, 3⟩) sampleArgs
      CudaPanoramaLocalDiskTask.Impl.new).exec CudaPanoramaLocalDiskTask.sampleRunEnv
      (CudaPanoramaLocalDiskTask.roundRobin 2 ++ [CudaPanoramaLocalDiskTask.Action.cancel]
        ++ CudaPanoramaLocalDiskTask.roundRobin 10))
  ⟨by decide!, ⟨h.1.1, h.1.2.2.2.1⟩, ⟨h.2.2.2.1, h.2.2.2.2.1⟩⟩

/-- C12, the code at the failing input. `init()` is called while the thread of an
earlier run is about to return (CPU: `run()` has left its `try` block and has not yet
executed line 319; GPU: `encode()` has closed the destination and has not yet
executed line 997). `clear()` stores 0, joins the thread, which stores 100, and goes
on. The `init()` returns what it returns on a freshly constructed controller, no
asynchronous error is pending and the cancellation flag is clear, but `getProgress()`
is 0 only when `init()` succeeds: after a failing `init()` it is 100, while the same
failing `init()` on a freshly constructed controller leaves 0. -/
theorem C12_failed_init_keeps_joined_progress
    (ec : CPUPanoramaLocalDiskTask.InitEnv) (eg : CudaPanoramaLocalDiskTask.InitEnv)
    (a : InitArgs) (sc : CPUPanoramaLocalDiskTask.Impl) (sg : CudaPanoramaLocalDiskTask.Impl) :
    ((CPUPanoramaLocalDiskTask.Impl.initJoining ec a sc).1
        = (CPUPanoramaLocalDiskTask.Impl.init ec a CPUPanoramaLocalDiskTask.Impl.new).1 ∧
      (CPUPanoramaLocalDiskTask.Impl.initJoining ec a sc).2.hasAsyncErrorMessage = false ∧
      (CPUPanoramaLocalDiskTask.Impl.initJoining ec a sc).2.endFlag = false ∧
      (CPUPanoramaLocalDiskTask.Impl.initJoining ec a sc).2.getProgress
        = (if (CPUPanoramaLocalDiskTask.Impl.initJoining ec a sc).1 then 0 else 100) ∧
      (CPUPanoramaLocalDiskTask.Impl.init ec a
        CPUPanoramaLocalDiskTask.Impl.new).2.getProgress = 0) ∧
    ((CudaPanoramaLocalDiskTask.Impl.initJoining eg a sg).1
        = (CudaPanoramaLocalDiskTask.Impl.init eg a CudaPanoramaLocalDiskTask.Impl.new).1 ∧
      (CudaPanoramaLocalDiskTask.Impl.initJoining eg a sg).2.hasAsyncErrorMessage = false ∧
      (CudaPanoramaLocalDiskTask.Impl.initJoining eg a sg).2.isCanceled = false ∧
      (CudaPanoramaLocalDiskTask.Impl.initJoining eg a sg).2.getProgress
        = (if (CudaPanoramaLocalDiskTask.Impl.initJoining eg a sg).1 then 0 else 100) ∧
      (CudaPanoramaLocalDiskTask.Impl.init eg a
        CudaPanoramaLocalDiskTask.Impl.new).2.getProgress = 0) := by
  constructor
  · obtain ⟨f1, f2, f3⟩ :=
      CPUPanoramaLocalDiskTask.initAfterClear_fields ec a sc.clearJoining
    refine ⟨CPUPanoramaLocalDiskTask.initAfterClear_indep ec a _ _, ?_, ?_, ?_,
      (CPUPanoramaLocalDiskTask.init_reset ec a _).2.2.2⟩
    · unfold CPUPanoramaLocalDiskTask.Impl.hasAsyncErrorMessage
        CPUPanoramaLocalDiskTask.Impl.initJoining
      rw [f1]
      rfl
    · unfold CPUPanoramaLocalDiskTask.Impl.initJoining
      rw [f2]
      rfl
    · unfold CPUPanoramaLocalDiskTask.Impl.getProgress
        CPUPanoramaLocalDiskTask.Impl.initJoining
      rw [f3]
      rfl
  · obtain ⟨f1, f2, f3⟩ :=
      CudaPanoramaLocalDiskTask.initAfterClear_fields_gpu eg a sg.clearJoining
    refine ⟨CudaPanoramaLocalDiskTask.initAfterClear_indep_gpu eg a _ _, ?_, ?_, ?_,
      (CudaPanoramaLocalDiskTask.init_reset_gpu eg a _).2.2.2⟩
    · unfold CudaPanoramaLocalDiskTask.Impl.hasAsyncErrorMessage
        CudaPanoramaLocalDiskTask.Impl.initJoining
      rw [f1]
      rfl
    · unfold CudaPanoramaLocalDiskTask.Impl.initJoining
      rw [f2]
      rfl
    · unfold CudaPanoramaLocalDiskTask.Impl.getProgress
        CudaPanoramaLocalDiskTask.Impl.initJoining
      rw [f3]
      rfl

/-- C12 at a concrete failing input. CPU: after `init()` and `start()` the thread has
written both samples of its sources (three steps) and its next step leaves the loop
and returns; `init()` is called when the thread has executed lines 309-311 of that
step. GPU: `decode()` and `proc()` have returned, the next step of `encode()` leaves
its loop and returns; `init()` is called when `encode()` has executed line 995. An
`init()` whose offsets do not match the sources fails on both with progress 100, and
on freshly constructed controllers with progress 0. -/
theorem C12_failed_init_witness :
    (((CPUPanoramaLocalDiskTask.started
          (CPUPanoramaLocalDiskTask.sampleInitEnv ⟨shortReaders, -1, 5⟩) sampleArgs
          CPUPanoramaLocalDiskTask.Impl.new).runSteps
          CPUPanoramaLocalDiskTask.sampleRunEnv 3).runReturned = false ∧
      ((CPUPanoramaLocalDiskTask.started
          (CPUPanoramaLocalDiskTask.sampleInitEnv ⟨shortReaders, -1, 5⟩) sampleArgs
          CPUPanoramaLocalDiskTask.Impl.new).runSteps
          CPUPanoramaLocalDiskTask.sampleRunEnv 4).runReturned = true ∧
      (CPUPanoramaLocalDiskTask.Impl.initJoining CPUPanoramaLocalDiskTask.failingInitEnv
        mismatchedArgs
        ((CPUPanoramaLocalDiskTask.started
          (CPUPanoramaLocalDiskTask.sampleInitEnv ⟨shortReaders, -1, 5⟩) sampleArgs
          CPUPanoramaLocalDiskTask.Impl.new).runSteps
          CPUPanoramaLocalDiskTask.sampleRunEnv 3).leaveLoop).1 = false ∧
      (CPUPanoramaLocalDiskTask.Impl.initJoining CPUPanoramaLocalDiskTask.failingInitEnv
        mismatchedArgs
        ((CPUPanoramaLocalDiskTask.started
          (CPUPanoramaLocalDiskTask.sampleInitEnv ⟨shortReaders, -1, 5⟩) sampleArgs
          CPUPanoramaLocalDiskTask.Impl.new).runSteps
          CPUPanoramaLocalDiskTask.sampleRunEnv 3).leaveLoop).2.getProgress = 100 ∧
      (CPUPanoramaLocalDiskTask.Impl.init CPUPanoramaLocalDiskTask.failingInitEnv
        mismatchedArgs CPUPanoramaLocalDiskTask.Impl.new).2.getProgress = 0) ∧
    (((CudaPanoramaLocalDiskTask.started
          (CudaPanoramaLocalDiskTask.sampleInitEnv ⟨shortReaders, -1, 5⟩) sampleArgs
          CudaPanoramaLocalDiskTask.Impl.new).exec CudaPanoramaLocalDiskTask.sampleRunEnv
          (CudaPanoramaLocalDiskTask.roundRobin 9 ++
            [CudaPanoramaLocalDiskTask.Action.decode,
             CudaPanoramaLocalDiskTask.Action.proc])).decodeThread
          = some CudaPanoramaLocalDiskTask.DecodePc.done ∧
      ((CudaPanoramaLocalDiskTask.started
          (CudaPanoramaLocalDiskTask.sampleInitEnv ⟨shortReaders, -1, 5⟩) sampleArgs
          CudaPanoramaLocalDiskTask.Impl.new).exec CudaPanoramaLocalDiskTask.sampleRunEnv
          (CudaPanoramaLocalDiskTask.roundRobin 9 ++
            [CudaPanoramaLocalDiskTask.Action.decode,
             CudaPanoramaLocalDiskTask.Action.proc])).procThread
          = some CudaPanoramaLocalDiskTask.ProcPc.done ∧
      ((CudaPanoramaLocalDiskTask.started
          (CudaPanoramaLocalDiskTask.sampleInitEnv ⟨shortReaders, -1, 5⟩) sampleArgs
          CudaPanoramaLocalDiskTask.Impl.new).exec CudaPanoramaLocalDiskTask.sampleRunEnv
          (CudaPanoramaLocalDiskTask.roundRobin 9 ++
            [CudaPanoramaLocalDiskTask.Action.decode,
             CudaPanoramaLocalDiskTask.Action.proc])).encodeReturned = false ∧
      ((CudaPanoramaLocalDiskTask.started
          (CudaPanoramaLocalDiskTask.sampleInitEnv ⟨shortReaders, -1, 5⟩) sampleArgs
          CudaPanoramaLocalDiskTask.Impl.new).exec CudaPanoramaLocalDiskTask.sampleRunEnv
          (CudaPanoramaLocalDiskTask.roundRobin 9 ++
            [CudaPanoramaLocalDiskTask.Action.decode,
             CudaPanoramaLocalDiskTask.Action.proc,
             CudaPanoramaLocalDiskTask.Action.encode])).encodeReturned = true ∧
      (CudaPanoramaLocalDiskTask.Impl.initJoining CudaPanoramaLocalDiskTask.failingInitEnv
        mismatchedArgs
        ((CudaPanoramaLocalDiskTask.started
          (CudaPanoramaLocalDiskTask.sampleInitEnv ⟨shortReaders, -1, 5⟩) sampleArgs
          CudaPanoramaLocalDiskTask.Impl.new).exec CudaPanoramaLocalDiskTask.sampleRunEnv
          (CudaPanoramaLocalDiskTask.roundRobin 9 ++
            [CudaPanoramaLocalDiskTask.Action.decode,
             CudaPanoramaLocalDiskTask.Action.proc])).leaveEncodeLoop).1 = false ∧
      (CudaPanoramaLocalDiskTask.Impl.initJoining CudaPanoramaLocalDiskTask.failingInitEnv
        mismatchedArgs
        ((CudaPanoramaLocalDiskTask.started
          (CudaPanoramaLocalDiskTask.sampleInitEnv ⟨shortReaders, -1, 5⟩) sampleArgs
          CudaPanoramaLocalDiskTask.Impl.new).exec CudaPanoramaLocalDiskTask.sampleRunEnv
          (CudaPanoramaLocalDiskTask.roundRobin 9 ++
            [CudaPanoramaLocalDiskTask.Action.decode,
             CudaPanoramaLocalDiskTask.Action.proc])).leaveEncodeLoop).2.getProgress = 100 ∧
      (CudaPanoramaLocalDiskTask.Impl.init CudaPanoramaLocalDiskTask.failingInitEnv
        mismatchedArgs CudaPanoramaLocalDiskTask.Impl.new).2.getProgress = 0) :=
  have h := C12_failed_init_keeps_joined_progress CPUPanoramaLocalDiskTask.failingInitEnv
    CudaPanoramaLocalDiskTask.failingInitEnv mismatchedArgs
    ((CPUPanoramaLocalDiskTask.started
          (CPUPanoramaLocalDiskTask.sampleInitEnv ⟨shortReaders, -1, 5⟩) sampleArgs
          CPUPanoramaLocalDiskTask.Impl.new).runSteps
          CPUPanoramaLocalDiskTask.sampleRunEnv 3).leaveLoop
    ((CudaPanoramaLocalDiskTask.started
          (CudaPanoramaLocalDiskTask.sampleInitEnv ⟨shortReaders, -1, 5⟩) sampleArgs
          CudaPanoramaLocalDiskTask.Impl.new).exec CudaPanoramaLocalDiskTask.sampleRunEnv
          (CudaPanoramaLocalDiskTask.roundRobin 9 ++
            [CudaPanoramaLocalDiskTask.Action.decode,
             CudaPanoramaLocalDiskTask.Action.proc])).leaveEncodeLoop
  ⟨⟨by decide!, by decide!, by decide!, h.1.2.2.2.1.trans (by decide!), h.1.2.2.2.2⟩,
   ⟨by decide!, by decide!, by decide!, by decide!, by decide!,
    h.2.2.2.2.1.trans (by decide!), h.2.2.2.2.2⟩⟩

/-- C13, the code at the failing input and around it. CPU: on a controller that
`init()` has just made Ready, `waitForCompletion()` returns and changes nothing, and
`start()` still returns true. GPU: on such a controller `waitForCompletion()`
returns too, but it sets `finish` (line 703), and the `start()` that follows returns
false, while without the wait it returns true. For both controllers a second
`waitForCompletion()` in a row changes nothing. -/
theorem C13_wait_without_start
    (ec : CPUPanoramaLocalDiskTask.InitEnv) (eg : CudaPanoramaLocalDiskTask.InitEnv)
    (a : InitArgs) (sc : CPUPanoramaLocalDiskTask.Impl) (sg : CudaPanoramaLocalDiskTask.Impl)
    (hc : (CPUPanoramaLocalDiskTask.Impl.init ec a sc).1 = true)
    (hg : (CudaPanoramaLocalDiskTask.Impl.init eg a sg).1 = true) :
    ((CPUPanoramaLocalDiskTask.Impl.init ec a sc).2.waitForCompletion
        = some (CPUPanoramaLocalDiskTask.Impl.init ec a sc).2 ∧
      (CPUPanoramaLocalDiskTask.Impl.init ec a sc).2.start.result? = some true) ∧
    (∃ t, (CudaPanoramaLocalDiskTask.Impl.init eg a sg).2.waitForCompletion = some t ∧
      t.finish = true ∧ t.start.result? = some false ∧
      (CudaPanoramaLocalDiskTask.Impl.init eg a sg).2.start.result? = some true) ∧
    (∀ s t : CPUPanoramaLocalDiskTask.Impl,
      s.waitForCompletion = some t → t.waitForCompletion = some t) ∧
    (∀ s t : CudaPanoramaLocalDiskTask.Impl,
      s.waitForCompletion = some t → t.waitForCompletion = some t) := by
  refine ⟨⟨?_, ?_⟩, ?_, ?_, ?_⟩
  · obtain ⟨p, -, -, -, -, -, -, -, h8, -⟩ :=
      CPUPanoramaLocalDiskTask.init_true_state ec a sc hc
    unfold CPUPanoramaLocalDiskTask.Impl.waitForCompletion
    rw [h8]
  · rw [CPUPanoramaLocalDiskTask.start_after_init ec a sc hc]
    rfl
  · obtain ⟨p, -, -, -, -, -, -, -, h8, h9, h10, h11, -⟩ :=
      CudaPanoramaLocalDiskTask.init_true_state_gpu eg a sg hg
    refine ⟨{ (CudaPanoramaLocalDiskTask.Impl.init eg a sg).2 with
      decodeThread := none, procThread := none, encodeThread := none, finish := true },
      ?_, rfl, ?_, ?_⟩
    · unfold CudaPanoramaLocalDiskTask.Impl.waitForCompletion
      rw [h8, h9, h10]
      rfl
    · unfold CudaPanoramaLocalDiskTask.Impl.start
      simp only [h11, Bool.not_true, Bool.false_eq_true, if_false, if_true]
      rfl
    · rw [CudaPanoramaLocalDiskTask.start_after_init_gpu eg a sg hg]
      rfl
  · intro s t h
    unfold CPUPanoramaLocalDiskTask.Impl.waitForCompletion at h
    split at h
    · rename_i ht
      cases h
      unfold CPUPanoramaLocalDiskTask.Impl.waitForCompletion
      rw [ht]
    · cases h
      rfl
    · exact absurd h (by simp)
  · intro s t h
    unfold CudaPanoramaLocalDiskTask.Impl.waitForCompletion at h
    split at h
    · cases h
      rfl
    · exact absurd h (by simp)

/-- C13 at a concrete input: the sample `init` on fresh controllers. -/
theorem C13_wait_without_start_witness :
    (CPUPanoramaLocalDiskTask.Impl.init
        (CPUPanoramaLocalDiskTask.sampleInitEnv ⟨sampleReaders, 0, 3⟩) sampleArgs
        CPUPanoramaLocalDiskTask.Impl.new).2.start.result? = some true ∧
    (∃ t, (CudaPanoramaLocalDiskTask.Impl.init
        (CudaPanoramaLocalDiskTask.sampleInitEnv ⟨sampleReaders, 0, 3⟩) sampleArgs
        CudaPanoramaLocalDiskTask.Impl.new).2.waitForCompletion = some t ∧
      t.finish = true ∧ t.start.result? = some false ∧
      (CudaPanoramaLocalDiskTask.Impl.init
        (CudaPanoramaLocalDiskTask.sampleInitEnv ⟨sampleReaders, 0, 3⟩) sampleArgs
        CudaPanoramaLocalDiskTask.Impl.new).2.start.result? = some true) :=
  have h := C13_wait_without_start
    (CPUPanoramaLocalDiskTask.sampleInitEnv ⟨sampleReaders, 0, 3⟩)
    (CudaPanoramaLocalDiskTask.sampleInitEnv ⟨sampleReaders, 0, 3⟩) sampleArgs
    CPUPanoramaLocalDiskTask.Impl.new CudaPanoramaLocalDiskTask.Impl.new
    (by decide) (by decide)
  ⟨h.1.2, h.2.1⟩

/-- C14: audio passthrough in the CPU loop. Whenever the read from the audio-bearing
source returns an AUDIO frame `f`, the iteration reads no other source (the readers
are the old ones with only the audio-bearing one advanced), hands `f` to the
destination with exactly one `write` call and makes no blend call; when that `write`
returns `true` the destination holds the old frames followed by `f`, the loop
continues with the same video frame counter and step, and the progress value and the
list of stored values are unchanged; when it does not, nothing is written and the
iteration itself stores no progress value: the run ends as in C11. -/
theorem C14_audio_passthrough
    (env : CPUPanoramaLocalDiskTask.RunEnv) (s : CPUPanoramaLocalDiskTask.Impl)
    (l : CPUPanoramaLocalDiskTask.RunLocals) (r r' : AudioVideoReader3) (f : AudioVideoFrame2)
    (hrange : 0 ≤ s.audioIndex ∧ s.audioIndex < s.numVideos)
    (hr : s.readers[s.audioIndex.toNat]? = some r)
    (hread : r.read = ReadResult.got f r')
    (hf : f.mediaType = MediaType.AUDIO) :
    (CPUPanoramaLocalDiskTask.loopIteration env s l).readers
        = s.readers.set s.audioIndex.toNat r' ∧
      r.frames = f :: r'.frames ∧
      (CPUPanoramaLocalDiskTask.loopIteration env s l).writer.calls = s.writer.calls + 1 ∧
      (CPUPanoramaLocalDiskTask.loopIteration env s l).blendLog = s.blendLog ∧
      (env.writerWrite s.writer.calls = CallResult.ok →
        (CPUPanoramaLocalDiskTask.loopIteration env s l).writer.written
            = s.writer.written ++ [f] ∧
          (∃ l', (CPUPanoramaLocalDiskTask.loopIteration env s l).thread
              = some (CPUPanoramaLocalDiskTask.ThreadState.running l') ∧
            l'.count = l.count ∧ l'.step = l.step) ∧
          (CPUPanoramaLocalDiskTask.loopIteration env s l).getProgress = s.getProgress ∧
          (CPUPanoramaLocalDiskTask.loopIteration env s l).storeLog = s.storeLog) ∧
      (env.writerWrite s.writer.calls ≠ CallResult.ok →
        CPUPanoramaLocalDiskTask.EndsWithError s
          (CPUPanoramaLocalDiskTask.loopIteration env s l)) := by
  have hfr := (CPUPanoramaLocalDiskTask.read_got hread).1
  unfold CPUPanoramaLocalDiskTask.loopIteration
  rw [if_pos hrange, hr]
  simp only [hread, hf, if_true]
  cases hc : env.writerWrite s.writer.calls with
  | ok =>
    exact ⟨rfl, hfr, rfl, rfl, fun _ => ⟨rfl, ⟨_, rfl, rfl, rfl⟩, rfl, rfl⟩,
      fun h => absurd rfl h⟩
  | fail =>
    exact ⟨rfl, hfr, rfl, rfl, fun h => absurd h (by simp), fun _ => ⟨rfl, rfl, rfl, rfl, rfl⟩⟩
  | throws =>
    exact ⟨rfl, hfr, rfl, rfl, fun h => absurd h (by simp), fun _ => ⟨rfl, rfl, rfl, rfl, rfl⟩⟩

/-- C14 at a concrete input: the sample sources after the entry and the first video
sample; the next frame of the audio-bearing source 0 is the audio frame 11, it is
written through and the progress value stays as it was. -/
theorem C14_audio_passthrough_witness :
    (CPUPanoramaLocalDiskTask.loopIteration CPUPanoramaLocalDiskTask.sampleRunEnv
        ((CPUPanoramaLocalDiskTask.started
          (CPUPanoramaLocalDiskTask.sampleInitEnv ⟨sampleReaders, 0, 3⟩) sampleArgs
          CPUPanoramaLocalDiskTask.Impl.new).runSteps
            CPUPanoramaLocalDiskTask.sampleRunEnv 2)
        ⟨1, 1, fun _ => default⟩).writer.written
      = ((CPUPanoramaLocalDiskTask.started
          (CPUPanoramaLocalDiskTask.sampleInitEnv ⟨sampleReaders, 0, 3⟩) sampleArgs
          CPUPanoramaLocalDiskTask.Impl.new).runSteps
            CPUPanoramaLocalDiskTask.sampleRunEnv 2).writer.written ++ [audioFrame 11] ∧
    (CPUPanoramaLocalDiskTask.loopIteration CPUPanoramaLocalDiskTask.sampleRunEnv
        ((CPUPanoramaLocalDiskTask.started
          (CPUPanoramaLocalDiskTask.sampleInitEnv ⟨sampleReaders, 0, 3⟩) sampleArgs
          CPUPanoramaLocalDiskTask.Impl.new).runSteps
            CPUPanoramaLocalDiskTask.sampleRunEnv 2)
        ⟨1, 1, fun _ => default⟩).getProgress
      = ((CPUPanoramaLocalDiskTask.started
          (CPUPanoramaLocalDiskTask.sampleInitEnv ⟨sampleReaders, 0, 3⟩) sampleArgs
          CPUPanoramaLocalDiskTask.Impl.new).runSteps
            CPUPanoramaLocalDiskTask.sampleRunEnv 2).getProgress :=
  have h := (C14_audio_passthrough CPUPanoramaLocalDiskTask.sampleRunEnv
    ((CPUPanoramaLocalDiskTask.started
      (CPUPanoramaLocalDiskTask.sampleInitEnv ⟨sampleReaders, 0, 3⟩) sampleArgs
      CPUPanoramaLocalDiskTask.Impl.new).runSteps CPUPanoramaLocalDiskTask.sampleRunEnv 2)
    ⟨1, 1, fun _ => default⟩
    ⟨[audioFrame 11, audioFrame 12, videoFrame 20, videoFrame 30], false⟩
    ⟨[audioFrame 12, videoFrame 20, videoFrame 30], false⟩ (audioFrame 11)
    (by decide!) (by decide!) rfl rfl).2.2.2.2.1 rfl
  ⟨h.1, h.2.2.1⟩

/-- C15, the code at the failing inputs: three GPU runs in which a collaborator call
throws: the first `render` call in `proc()`, the first `write` call in `encode()`,
the first read of source 0 in `decode()`. None of the stage functions has a handler,
so each time the exception leaves the stage function and the process is ended
(`aborted`); no asynchronous error has been set and `encode()` has not returned. -/
theorem C15_gpu_exception_leaves_the_stage :
    ((CudaPanoramaLocalDiskTask.sampleRun sampleReaders
        CudaPanoramaLocalDiskTask.throwingRenderEnv 3).aborted = true ∧
      (CudaPanoramaLocalDiskTask.sampleRun sampleReaders
        CudaPanoramaLocalDiskTask.throwingRenderEnv 3).hasAsyncErrorMessage = false ∧
      (CudaPanoramaLocalDiskTask.sampleRun sampleReaders
        CudaPanoramaLocalDiskTask.throwingRenderEnv 30).hasAsyncErrorMessage = false ∧
      (CudaPanoramaLocalDiskTask.sampleRun sampleReaders
        CudaPanoramaLocalDiskTask.throwingRenderEnv 30).encodeReturned = false) ∧
    ((CudaPanoramaLocalDiskTask.sampleRun sampleReaders
        CudaPanoramaLocalDiskTask.throwingWriteEnv 5).aborted = true ∧
      (CudaPanoramaLocalDiskTask.sampleRun sampleReaders
        CudaPanoramaLocalDiskTask.throwingWriteEnv 5).hasAsyncErrorMessage = false ∧
      (CudaPanoramaLocalDiskTask.sampleRun sampleReaders
        CudaPanoramaLocalDiskTask.throwingWriteEnv 30).hasAsyncErrorMessage = false ∧
      (CudaPanoramaLocalDiskTask.sampleRun sampleReaders
        CudaPanoramaLocalDiskTask.throwingWriteEnv 30).encodeReturned = false) ∧
    ((CudaPanoramaLocalDiskTask.sampleRun throwingReaders
        CudaPanoramaLocalDiskTask.sampleRunEnv 2).aborted = true ∧
      (CudaPanoramaLocalDiskTask.sampleRun throwingReaders
        CudaPanoramaLocalDiskTask.sampleRunEnv 2).hasAsyncErrorMessage = false ∧
      (CudaPanoramaLocalDiskTask.sampleRun throwingReaders
        CudaPanoramaLocalDiskTask.sampleRunEnv 30).hasAsyncErrorMessage = false ∧
      (CudaPanoramaLocalDiskTask.sampleRun throwingReaders
        CudaPanoramaLocalDiskTask.sampleRunEnv 30).encodeReturned = false) := by
  decide!

/-- C16, counterexample: two sources of two video frames each and a cap of 5. After
two samples have been processed the next read returns `false`. The CPU `run()`
returns and the three GPU stages return, and in both controllers no asynchronous
error is pending and the cancellation flag is not raised. -/
theorem C16_read_failure_counterexample :
    (((CPUPanoramaLocalDiskTask.started
        (CPUPanoramaLocalDiskTask.sampleInitEnv ⟨shortReaders, -1, 5⟩) sampleArgs
        CPUPanoramaLocalDiskTask.Impl.new).runSteps
          CPUPanoramaLocalDiskTask.sampleRunEnv 4).runReturned = true ∧
      (CPUPanoramaLocalDiskTask.writtenVideo
        ((CPUPanoramaLocalDiskTask.started
          (CPUPanoramaLocalDiskTask.sampleInitEnv ⟨shortReaders, -1, 5⟩) sampleArgs
          CPUPanoramaLocalDiskTask.Impl.new).runSteps
            CPUPanoramaLocalDiskTask.sampleRunEnv 4).writer).length = 2 ∧
      ((CPUPanoramaLocalDiskTask.started
        (CPUPanoramaLocalDiskTask.sampleInitEnv ⟨shortReaders, -1, 5⟩) sampleArgs
        CPUPanoramaLocalDiskTask.Impl.new).runSteps
          CPUPanoramaLocalDiskTask.sampleRunEnv 4).hasAsyncErrorMessage = false ∧
      ((CPUPanoramaLocalDiskTask.started
        (CPUPanoramaLocalDiskTask.sampleInitEnv ⟨shortReaders, -1, 5⟩) sampleArgs
        CPUPanoramaLocalDiskTask.Impl.new).runSteps
          CPUPanoramaLocalDiskTask.sampleRunEnv 4).endFlag = false) ∧
    (((CudaPanoramaLocalDiskTask.started
        (CudaPanoramaLocalDiskTask.sampleInitEnv ⟨shortReaders, -1, 5⟩) sampleArgs
        CudaPanoramaLocalDiskTask.Impl.new).exec CudaPanoramaLocalDiskTask.sampleRunEnv
          (CudaPanoramaLocalDiskTask.roundRobin 12)).waitForCompletion.isSome = true ∧
      ((CudaPanoramaLocalDiskTask.started
        (CudaPanoramaLocalDiskTask.sampleInitEnv ⟨shortReaders, -1, 5⟩) sampleArgs
        CudaPanoramaLocalDiskTask.Impl.new).exec CudaPanoramaLocalDiskTask.sampleRunEnv
          (CudaPanoramaLocalDiskTask.roundRobin 12)).decodeCount = 2 ∧
      ((CudaPanoramaLocalDiskTask.started
        (CudaPanoramaLocalDiskTask.sampleInitEnv ⟨shortReaders, -1, 5⟩) sampleArgs
        CudaPanoramaLocalDiskTask.Impl.new).exec CudaPanoramaLocalDiskTask.sampleRunEnv
          (CudaPanoramaLocalDiskTask.roundRobin 12)).hasAsyncErrorMessage = false ∧
      ((CudaPanoramaLocalDiskTask.started
        (CudaPanoramaLocalDiskTask.sampleInitEnv ⟨shortReaders, -1, 5⟩) sampleArgs
        CudaPanoramaLocalDiskTask.Impl.new).exec CudaPanoramaLocalDiskTask.sampleRunEnv
          (CudaPanoramaLocalDiskTask.roundRobin 12)).isCanceled = false) := by
  decide!

/-- C16, amended: a read that returns `false`, at the start or in the middle of a
run, is the end of the stream and not an error. In the CPU loop (the read of the
audio-bearing source, or a read in the `for` loop over the other sources) the
iteration leaves the loop, `run()` returns with progress 100, and the asynchronous
error flag and the cancellation flag keep the values they had; in the GPU decode
stage the iteration leaves the loop with the asynchronous error flag and the
cancellation flag unchanged and nothing handed to a queue. -/
theorem C16_read_failure_is_end_of_stream
    (envc : CPUPanoramaLocalDiskTask.RunEnv) (sc : CPUPanoramaLocalDiskTask.Impl)
    (l : CPUPanoramaLocalDiskTask.RunLocals) (sg : CudaPanoramaLocalDiskTask.Impl)
    (ts : List Int) :
    (∀ r, (0 ≤ sc.audioIndex ∧ sc.audioIndex < sc.numVideos) →
      sc.readers[sc.audioIndex.toNat]? = some r → r.read = ReadResult.eof →
      (CPUPanoramaLocalDiskTask.loopIteration envc sc l).hasAsyncErrorMessage
          = sc.hasAsyncErrorMessage ∧
        (CPUPanoramaLocalDiskTask.loopIteration envc sc l).endFlag = sc.endFlag ∧
        (CPUPanoramaLocalDiskTask.loopIteration envc sc l).runReturned = true ∧
        (CPUPanoramaLocalDiskTask.loopIteration envc sc l).getProgress = 100) ∧
    ((CPUPanoramaLocalDiskTask.readVideoFrames sc.audioIndex 0 sc.readers l.frames).1
        = CallResult.fail →
      (CPUPanoramaLocalDiskTask.videoIteration envc sc l).hasAsyncErrorMessage
          = sc.hasAsyncErrorMessage ∧
        (CPUPanoramaLocalDiskTask.videoIteration envc sc l).endFlag = sc.endFlag ∧
        (CPUPanoramaLocalDiskTask.videoIteration envc sc l).runReturned = true ∧
        (CPUPanoramaLocalDiskTask.videoIteration envc sc l).getProgress = 100) ∧
    (∀ r, (0 ≤ sg.audioIndex ∧ sg.audioIndex < sg.numVideos) →
      sg.readers[sg.audioIndex.toNat]? = some r → r.read = ReadResult.eof →
      (CudaPanoramaLocalDiskTask.decodeIteration sg).hasAsyncErrorMessage
          = sg.hasAsyncErrorMessage ∧
        (CudaPanoramaLocalDiskTask.decodeIteration sg).isCanceled = sg.isCanceled ∧
        (CudaPanoramaLocalDiskTask.decodeIteration sg).decodeThread
          = some CudaPanoramaLocalDiskTask.DecodePc.afterLoop) ∧
    ((CudaPanoramaLocalDiskTask.readVideoSample sg.audioIndex 0 sg.readers ts).1
        = CallResult.fail →
      (CudaPanoramaLocalDiskTask.decodeVideoPart sg ts).hasAsyncErrorMessage
          = sg.hasAsyncErrorMessage ∧
        (CudaPanoramaLocalDiskTask.decodeVideoPart sg ts).isCanceled = sg.isCanceled ∧
        (CudaPanoramaLocalDiskTask.decodeVideoPart sg ts).decodeThread
          = some CudaPanoramaLocalDiskTask.DecodePc.afterLoop) := by
  refine ⟨?_, ?_, ?_, ?_⟩
  · intro r hrange hr hread
    unfold CPUPanoramaLocalDiskTask.loopIteration
    rw [if_pos hrange, hr]
    simp only [hread]
    exact ⟨rfl, rfl, rfl, rfl⟩
  · intro h
    unfold CPUPanoramaLocalDiskTask.videoIteration
    split
    · rename_i heq
      rw [heq] at h
      exact absurd h (by simp)
    · exact ⟨rfl, rfl, rfl, rfl⟩
    · rename_i heq
      rw [heq] at h
      exact absurd h (by simp)
  · intro r hrange hr hread
    unfold CudaPanoramaLocalDiskTask.decodeIteration
    simp only
    rw [if_pos hrange, hr]
    simp only [hread]
    refine ⟨?_, ?_, ?_⟩ <;> first | rfl | trivial
  · intro h
    unfold CudaPanoramaLocalDiskTask.decodeVideoPart
    split
    · rename_i heq
      rw [heq] at h
      exact absurd h (by simp)
    · exact ⟨rfl, rfl, rfl⟩
    · rename_i heq
      rw [heq] at h
      exact absurd h (by simp)

/-- C16 (amended) at a concrete input: the CPU controller over two sources of two
video frames after the entry and two samples; the next read returns `false`. -/
theorem C16_read_failure_witness :
    (CPUPanoramaLocalDiskTask.videoIteration CPUPanoramaLocalDiskTask.sampleRunEnv
        ((CPUPanoramaLocalDiskTask.started
          (CPUPanoramaLocalDiskTask.sampleInitEnv ⟨shortReaders, -1, 5⟩) sampleArgs
          CPUPanoramaLocalDiskTask.Impl.new).runSteps
            CPUPanoramaLocalDiskTask.sampleRunEnv 3)
        ⟨2, 1, fun _ => default⟩).hasAsyncErrorMessage
      = ((CPUPanoramaLocalDiskTask.started
          (CPUPanoramaLocalDiskTask.sampleInitEnv ⟨shortReaders, -1, 5⟩) sampleArgs
          CPUPanoramaLocalDiskTask.Impl.new).runSteps
            CPUPanoramaLocalDiskTask.sampleRunEnv 3).hasAsyncErrorMessage ∧
    (CPUPanoramaLocalDiskTask.videoIteration CPUPanoramaLocalDiskTask.sampleRunEnv
        ((CPUPanoramaLocalDiskTask.started
          (CPUPanoramaLocalDiskTask.sampleInitEnv ⟨shortReaders, -1, 5⟩) sampleArgs
          CPUPanoramaLocalDiskTask.Impl.new).runSteps
            CPUPanoramaLocalDiskTask.sampleRunEnv 3)
        ⟨2, 1, fun _ => default⟩).endFlag
      = ((CPUPanoramaLocalDiskTask.started
          (CPUPanoramaLocalDiskTask.sampleInitEnv ⟨shortReaders, -1, 5⟩) sampleArgs
          CPUPanoramaLocalDiskTask.Impl.new).runSteps
            CPUPanoramaLocalDiskTask.sampleRunEnv 3).endFlag :=
  have h := (C16_read_failure_is_end_of_stream CPUPanoramaLocalDiskTask.sampleRunEnv
    ((CPUPanoramaLocalDiskTask.started
      (CPUPanoramaLocalDiskTask.sampleInitEnv ⟨shortReaders, -1, 5⟩) sampleArgs
      CPUPanoramaLocalDiskTask.Impl.new).runSteps CPUPanoramaLocalDiskTask.sampleRunEnv 3)
    ⟨2, 1, fun _ => default⟩ CudaPanoramaLocalDiskTask.Impl.new []).2.1 (by decide!)
  ⟨h.1, h.2.1⟩

/-- C18: in the GPU topology a runtime failure sets the asynchronous error, raises the
cancellation flag and stops the stage. When `proc()` has pulled a sample and `render`
returns `false`, or `render` succeeds and the enabled overlay filter returns `false`,
the step leaves `hasAsyncError` set and `isCanceled` true, pushes nothing, and
`proc()` is past its loop: whatever happens afterwards it pulls and counts no further
sample. When `encode()` has pulled a frame and `writer.write` returns `false`, the
step leaves `hasAsyncError` set and `isCanceled` true, `encode()` has returned with
the destination closed, and nothing is written or counted afterwards. And on every
path on which `encode()` returns the destination is closed. -/
theorem C18_gpu_failure_cancels_and_stops
    (env : CudaPanoramaLocalDiskTask.RunEnv) (s : CudaPanoramaLocalDiskTask.Impl) :
    (∀ v rest, s.procThread = some CudaPanoramaLocalDiskTask.ProcPc.loop →
      s.decodeFramesBuffer.items = v :: rest → s.isCanceled = false →
      (env.render s.procCount.toNat = CallResult.fail ∨
        (env.render s.procCount.toNat = CallResult.ok ∧ env.addLogo = true ∧
          env.logoFilterAddLogo s.procCount.toNat = CallResult.fail)) →
      (s.procStep env).hasAsyncErrorMessage = true ∧ (s.procStep env).isCanceled = true ∧
        (s.procStep env).procThread = some CudaPanoramaLocalDiskTask.ProcPc.afterLoop ∧
        (s.procStep env).procFrameBuffer = s.procFrameBuffer ∧
        (s.procStep env).decodeFramesBuffer.items = rest ∧
        ∀ schedule,
          (((s.procStep env).exec env schedule).procThread
              = some CudaPanoramaLocalDiskTask.ProcPc.afterLoop ∨
            ((s.procStep env).exec env schedule).procThread
              = some CudaPanoramaLocalDiskTask.ProcPc.done) ∧
          ((s.procStep env).exec env schedule).procCount = s.procCount) ∧
    (∀ step f rest, s.encodeThread = some (CudaPanoramaLocalDiskTask.EncodePc.loop step) →
      s.procFrameBuffer.items = f :: rest → s.isCanceled = false →
      env.writerWrite s.writer.calls = CallResult.fail →
      (s.encodeStep env).hasAsyncErrorMessage = true ∧ (s.encodeStep env).isCanceled = true ∧
        (s.encodeStep env).encodeReturned = true ∧
        (s.encodeStep env).writer.isOpen = false ∧
        (s.encodeStep env).writer.written = s.writer.written ∧
        (s.encodeStep env).encodeCount = s.encodeCount ∧
        ∀ schedule,
          ((s.encodeStep env).exec env schedule).writer = (s.encodeStep env).writer ∧
          ((s.encodeStep env).exec env schedule).encodeCount = s.encodeCount) ∧
    (∀ schedule, s.encodeReturned = false → (s.exec env schedule).encodeReturned = true →
      (s.exec env schedule).writer.isOpen = false) := by
  refine ⟨?_, ?_, ?_⟩
  · intro v rest hpc hq hcan hfail
    have hpull : s.decodeFramesBuffer.pull
        = CudaPanoramaLocalDiskTask.PullResult.item v
          { s.decodeFramesBuffer with items := rest } := by
      unfold CudaPanoramaLocalDiskTask.BoundedCompleteQueue.pull
      rw [hq]
    have hstep : (s.procStep env).hasAsyncErrorMessage = true ∧
        (s.procStep env).isCanceled = true ∧
        (s.procStep env).procThread = some CudaPanoramaLocalDiskTask.ProcPc.afterLoop ∧
        (s.procStep env).procFrameBuffer = s.procFrameBuffer ∧
        (s.procStep env).decodeFramesBuffer.items = rest ∧
        (s.procStep env).procCount = s.procCount := by
      unfold CudaPanoramaLocalDiskTask.Impl.procStep
      rw [hpc]
      simp only [hpull, hcan, Bool.false_eq_true, if_false]
      unfold CudaPanoramaLocalDiskTask.procSample
      rcases hfail with hr | ⟨hr, ha, hl⟩
      · simp only [hr]
        refine ⟨?_, ?_, ?_, ?_, ?_, ?_⟩ <;> first | rfl | trivial
      · simp only [hr, ha, hl, if_true]
        refine ⟨?_, ?_, ?_, ?_, ?_, ?_⟩ <;> first | rfl | trivial
    refine ⟨hstep.1, hstep.2.1, hstep.2.2.1, hstep.2.2.2.1, hstep.2.2.2.2.1, ?_⟩
    intro schedule
    obtain ⟨-, i2, i3⟩ := CudaPanoramaLocalDiskTask.exec_proc_stopped env schedule
      (s.procStep env) hstep.2.1 (Or.inl hstep.2.2.1)
    exact ⟨i2, i3.trans hstep.2.2.2.2.2⟩
  · intro step f rest hpc hq hcan hfail
    have hpull : s.procFrameBuffer.pull
        = CudaPanoramaLocalDiskTask.PullResult.item f
          { s.procFrameBuffer with items := rest } := by
      unfold CudaPanoramaLocalDiskTask.BoundedCompleteQueue.pull
      rw [hq]
    have hstep : (s.encodeStep env).hasAsyncErrorMessage = true ∧
        (s.encodeStep env).isCanceled = true ∧
        (s.encodeStep env).encodeThread = some CudaPanoramaLocalDiskTask.EncodePc.done ∧
        (s.encodeStep env).writer.isOpen = false ∧
        (s.encodeStep env).writer.written = s.writer.written ∧
        (s.encodeStep env).encodeCount = s.encodeCount := by
      unfold CudaPanoramaLocalDiskTask.Impl.encodeStep
      rw [hpc]
      simp only [hpull, hcan, Bool.false_eq_true, if_false]
      unfold CudaPanoramaLocalDiskTask.encodeFrame
      simp only [hfail]
      exact ⟨rfl, rfl, rfl, rfl, rfl, rfl⟩
    refine ⟨hstep.1, hstep.2.1, ?_, hstep.2.2.2.1, hstep.2.2.2.2.1, hstep.2.2.2.2.2, ?_⟩
    · unfold CudaPanoramaLocalDiskTask.Impl.encodeReturned
      rw [hstep.2.2.1]
      rfl
    · intro schedule
      obtain ⟨-, i2, i3⟩ := CudaPanoramaLocalDiskTask.exec_encode_returned env schedule
        (s.encodeStep env) hstep.2.2.1
      exact ⟨i2, i3.trans hstep.2.2.2.2.2⟩
  · intro schedule h0 h1
    have hinv : CudaPanoramaLocalDiskTask.WriterClosedAtEnd s := by
      intro hd
      unfold CudaPanoramaLocalDiskTask.Impl.encodeReturned at h0
      rw [hd] at h0
      simp at h0
    have := CudaPanoramaLocalDiskTask.exec_writer_closed env schedule s hinv
    unfold CudaPanoramaLocalDiskTask.Impl.encodeReturned at h1
    exact this (of_decide_eq_true h1)

/-- C18 at a concrete input: the sample run in which the first `render` call returns
`false`. After the stages have taken 10 turns each, the asynchronous error is set,
the task is cancelled, `encode()` has returned and the destination is closed. -/
theorem C18_gpu_failure_witness :
    (CudaPanoramaLocalDiskTask.sampleRun sampleReaders
        CudaPanoramaLocalDiskTask.failingRenderEnv 10).hasAsyncErrorMessage = true ∧
      (CudaPanoramaLocalDiskTask.sampleRun sampleReaders
        CudaPanoramaLocalDiskTask.failingRenderEnv 10).isCanceled = true ∧
      (CudaPanoramaLocalDiskTask.sampleRun sampleReaders
        CudaPanoramaLocalDiskTask.failingRenderEnv 10).writer.isOpen = false :=
  ⟨by decide!, by decide!,
    (C18_gpu_failure_cancels_and_stops CudaPanoramaLocalDiskTask.failingRenderEnv
      (CudaPanoramaLocalDiskTask.started
        (CudaPanoramaLocalDiskTask.sampleInitEnv ⟨sampleReaders, 0, 3⟩) sampleArgs
        CudaPanoramaLocalDiskTask.Impl.new)).2.2
      (CudaPanoramaLocalDiskTask.roundRobin 10) (by decide) (by decide!)⟩

/-- C19: the bounded queue between the GPU stages satisfies the stated contract. For
a queue of any capacity `c`, starting empty, and any sequence of `push`, `pull` and
`stop` calls: its size never exceeds `c`, the capacity does not change, and the items
pulled so far followed by the items still buffered are the accepted items in push
order (strict FIFO). For any queue `q`: after `stop()`, `k` pulls return the first
`k` buffered items in order, as many pulls as there are buffered items return them
all, and the next pull returns `false`; a push after `stop()` returns `false` and
leaves the queue as it is. In the controller a successful `init()` gives the decode
queue the capacity 4 and the process-output queue the capacity 16, and in every
state a run reaches the two queues hold at most 4 and 16 items. -/
theorem C19_bounded_queue_contract {α : Type}
    (c : Nat) (ops : List (CudaPanoramaLocalDiskTask.QueueOp α))
    (q : CudaPanoramaLocalDiskTask.BoundedCompleteQueue α) (x : α) (k : Nat)
    (e : CudaPanoramaLocalDiskTask.InitEnv) (a : InitArgs)
    (s0 : CudaPanoramaLocalDiskTask.Impl) (env : CudaPanoramaLocalDiskTask.RunEnv)
    (schedule : List CudaPanoramaLocalDiskTask.Action) :
    (((CudaPanoramaLocalDiskTask.QueueTrace.start c).run ops).queue.size ≤ c ∧
      ((CudaPanoramaLocalDiskTask.QueueTrace.start c).run ops).queue.maxSize = c ∧
      ((CudaPanoramaLocalDiskTask.QueueTrace.start c).run ops).pulled
          ++ ((CudaPanoramaLocalDiskTask.QueueTrace.start c).run ops).queue.items
        = ((CudaPanoramaLocalDiskTask.QueueTrace.start c).run ops).accepted) ∧
    (((⟨q.stop, [], []⟩ : CudaPanoramaLocalDiskTask.QueueTrace α).run
        (List.replicate k CudaPanoramaLocalDiskTask.QueueOp.pull)).pulled = q.items.take k ∧
      ((⟨q.stop, [], []⟩ : CudaPanoramaLocalDiskTask.QueueTrace α).run
        (List.replicate q.items.length CudaPanoramaLocalDiskTask.QueueOp.pull)).pulled
        = q.items ∧
      ((⟨q.stop, [], []⟩ : CudaPanoramaLocalDiskTask.QueueTrace α).run
        (List.replicate q.items.length CudaPanoramaLocalDiskTask.QueueOp.pull)).queue.pull
        = CudaPanoramaLocalDiskTask.PullResult.closed) ∧
    q.stop.push x = some (false, q.stop) ∧
    ((CudaPanoramaLocalDiskTask.Impl.init e a s0).1 = true →
      (CudaPanoramaLocalDiskTask.Impl.init e a s0).2.decodeFramesBuffer.maxSize = 4 ∧
      (CudaPanoramaLocalDiskTask.Impl.init e a s0).2.procFrameBuffer.maxSize = 16 ∧
      ((CudaPanoramaLocalDiskTask.started e a s0).exec env schedule).decodeFramesBuffer.size
        ≤ 4 ∧
      ((CudaPanoramaLocalDiskTask.started e a s0).exec env schedule).procFrameBuffer.size
        ≤ 16) := by
  refine ⟨?_, ?_, rfl, ?_⟩
  · obtain ⟨h1, h2, h3⟩ := CudaPanoramaLocalDiskTask.QueueTrace.run_inv ops
      (CudaPanoramaLocalDiskTask.QueueTrace.start c) (c := c) rfl (Nat.zero_le _) rfl
    exact ⟨h2, h1, h3⟩
  · have hd := fun n => CudaPanoramaLocalDiskTask.QueueTrace.drain n
      (⟨q.stop, [], []⟩ : CudaPanoramaLocalDiskTask.QueueTrace α) rfl
    refine ⟨?_, ?_, ?_⟩
    · rw [(hd k).1]
      rfl
    · rw [(hd q.items.length).1]
      show [] ++ List.take q.items.length q.items = q.items
      simp
    · unfold CudaPanoramaLocalDiskTask.BoundedCompleteQueue.pull
      rw [(hd q.items.length).2.1, (hd q.items.length).2.2]
      show (match List.drop q.items.length q.items with
        | x :: rest => _
        | [] => _) = _
      rw [List.drop_length]
      rfl
  · intro hinit
    obtain ⟨c1, c2⟩ := CudaPanoramaLocalDiskTask.init_capacities e a s0 hinit
    obtain ⟨p, -, -, -, -, -, -, -, -, -, -, -, -, -, -, -, -, -, -, -, i1, i2, -⟩ :=
      CudaPanoramaLocalDiskTask.init_true_state_gpu e a s0 hinit
    have hs : CudaPanoramaLocalDiskTask.QueueInv 4 16
        (CudaPanoramaLocalDiskTask.started e a s0) := by
      unfold CudaPanoramaLocalDiskTask.started
      rw [CudaPanoramaLocalDiskTask.start_after_init_gpu e a s0 hinit]
      refine ⟨c1, c2, ?_, ?_⟩
      · show (CudaPanoramaLocalDiskTask.Impl.init e a s0).2.decodeFramesBuffer.items.length ≤ 4
        rw [i1]
        exact Nat.zero_le _
      · show (CudaPanoramaLocalDiskTask.Impl.init e a s0).2.procFrameBuffer.items.length ≤ 16
        rw [i2]
        exact Nat.zero_le _
    obtain ⟨-, -, q1, q2⟩ := CudaPanoramaLocalDiskTask.exec_queues env schedule _ hs
    exact ⟨c1, c2, q1, q2⟩

/-- C19 at a concrete input: a queue of capacity 2 on which a third push blocks, and
the sample controller after its stages have taken 7 turns each. -/
theorem C19_bounded_queue_witness :
    (((CudaPanoramaLocalDiskTask.QueueTrace.start 2).run
        [CudaPanoramaLocalDiskTask.QueueOp.push 1, CudaPanoramaLocalDiskTask.QueueOp.push 2,
          CudaPanoramaLocalDiskTask.QueueOp.push 3, CudaPanoramaLocalDiskTask.QueueOp.pull,
          CudaPanoramaLocalDiskTask.QueueOp.stop, CudaPanoramaLocalDiskTask.QueueOp.push 4,
          CudaPanoramaLocalDiskTask.QueueOp.pull,
          CudaPanoramaLocalDiskTask.QueueOp.pull]).queue.size ≤ 2 ∧
      ((CudaPanoramaLocalDiskTask.QueueTrace.start 2).run
        [CudaPanoramaLocalDiskTask.QueueOp.push 1, CudaPanoramaLocalDiskTask.QueueOp.push 2,
          CudaPanoramaLocalDiskTask.QueueOp.push 3, CudaPanoramaLocalDiskTask.QueueOp.pull,
          CudaPanoramaLocalDiskTask.QueueOp.stop, CudaPanoramaLocalDiskTask.QueueOp.push 4,
          CudaPanoramaLocalDiskTask.QueueOp.pull,
          CudaPanoramaLocalDiskTask.QueueOp.pull]).pulled = [1, 2]) ∧
    (CudaPanoramaLocalDiskTask.sampleRun sampleReaders
        CudaPanoramaLocalDiskTask.sampleRunEnv 7).decodeFramesBuffer.size ≤ 4 ∧
    (CudaPanoramaLocalDiskTask.sampleRun sampleReaders
        CudaPanoramaLocalDiskTask.sampleRunEnv 7).procFrameBuffer.size ≤ 16 :=
  have h := C19_bounded_queue_contract 2
    [CudaPanoramaLocalDiskTask.QueueOp.push 1, CudaPanoramaLocalDiskTask.QueueOp.push 2,
      CudaPanoramaLocalDiskTask.QueueOp.push 3, CudaPanoramaLocalDiskTask.QueueOp.pull,
      CudaPanoramaLocalDiskTask.QueueOp.stop, CudaPanoramaLocalDiskTask.QueueOp.push 4,
      CudaPanoramaLocalDiskTask.QueueOp.pull, CudaPanoramaLocalDiskTask.QueueOp.pull]
    (⟨[], 2, false⟩ : CudaPanoramaLocalDiskTask.BoundedCompleteQueue Nat) 0 0
    (CudaPanoramaLocalDiskTask.sampleInitEnv ⟨sampleReaders, 0, 3⟩) sampleArgs
    CudaPanoramaLocalDiskTask.Impl.new CudaPanoramaLocalDiskTask.sampleRunEnv
    (CudaPanoramaLocalDiskTask.roundRobin 7)
  ⟨⟨h.1.1, by decide⟩, (h.2.2.2 (by decide)).2.2.1, (h.2.2.2 (by decide)).2.2.2⟩

/-- C20, the code at the failing inputs. CPU: the sample run is cancelled after its
first video sample; the two iterations that start after that each write an audio
frame to the destination (the audio branch `continue`s before the test of `endFlag`
at line 254), and only the third one, which reads a video sample, leaves the loop.
GPU: `decode()` is cancelled after it has pushed its first sample; the iteration that
starts after that reads an audio frame and pushes it to the process-output queue
(line 806, before the test of `isCanceled` at line 838). -/
theorem C20_audio_passes_after_cancel :
    (((CPUPanoramaLocalDiskTask.started
        (CPUPanoramaLocalDiskTask.sampleInitEnv ⟨sampleReaders, 0, 3⟩) sampleArgs
        CPUPanoramaLocalDiskTask.Impl.new).exec CPUPanoramaLocalDiskTask.sampleRunEnv
        [CPUPanoramaLocalDiskTask.Action.step, CPUPanoramaLocalDiskTask.Action.step,
          CPUPanoramaLocalDiskTask.Action.cancel]).endFlag = true ∧
      ((CPUPanoramaLocalDiskTask.started
        (CPUPanoramaLocalDiskTask.sampleInitEnv ⟨sampleReaders, 0, 3⟩) sampleArgs
        CPUPanoramaLocalDiskTask.Impl.new).exec CPUPanoramaLocalDiskTask.sampleRunEnv
        [CPUPanoramaLocalDiskTask.Action.step, CPUPanoramaLocalDiskTask.Action.step,
          CPUPanoramaLocalDiskTask.Action.cancel]).writer.written = [videoFrame 10] ∧
      ((CPUPanoramaLocalDiskTask.started
        (CPUPanoramaLocalDiskTask.sampleInitEnv ⟨sampleReaders, 0, 3⟩) sampleArgs
        CPUPanoramaLocalDiskTask.Impl.new).exec CPUPanoramaLocalDiskTask.sampleRunEnv
        [CPUPanoramaLocalDiskTask.Action.step, CPUPanoramaLocalDiskTask.Action.step,
          CPUPanoramaLocalDiskTask.Action.cancel,
          CPUPanoramaLocalDiskTask.Action.step]).writer.written
        = [videoFrame 10, audioFrame 11] ∧
      ((CPUPanoramaLocalDiskTask.started
        (CPUPanoramaLocalDiskTask.sampleInitEnv ⟨sampleReaders, 0, 3⟩) sampleArgs
        CPUPanoramaLocalDiskTask.Impl.new).exec CPUPanoramaLocalDiskTask.sampleRunEnv
        [CPUPanoramaLocalDiskTask.Action.step, CPUPanoramaLocalDiskTask.Action.step,
          CPUPanoramaLocalDiskTask.Action.cancel, CPUPanoramaLocalDiskTask.Action.step,
          CPUPanoramaLocalDiskTask.Action.step]).writer.written
        = [videoFrame 10, audioFrame 11, audioFrame 12] ∧
      ((CPUPanoramaLocalDiskTask.started
        (CPUPanoramaLocalDiskTask.sampleInitEnv ⟨sampleReaders, 0, 3⟩) sampleArgs
        CPUPanoramaLocalDiskTask.Impl.new).exec CPUPanoramaLocalDiskTask.sampleRunEnv
        [CPUPanoramaLocalDiskTask.Action.step, CPUPanoramaLocalDiskTask.Action.step,
          CPUPanoramaLocalDiskTask.Action.cancel, CPUPanoramaLocalDiskTask.Action.step,
          CPUPanoramaLocalDiskTask.Action.step]).runReturned = false ∧
      ((CPUPanoramaLocalDiskTask.started
        (CPUPanoramaLocalDiskTask.sampleInitEnv ⟨sampleReaders, 0, 3⟩) sampleArgs
        CPUPanoramaLocalDiskTask.Impl.new).exec CPUPanoramaLocalDiskTask.sampleRunEnv
        [CPUPanoramaLocalDiskTask.Action.step, CPUPanoramaLocalDiskTask.Action.step,
          CPUPanoramaLocalDiskTask.Action.cancel, CPUPanoramaLocalDiskTask.Action.step,
          CPUPanoramaLocalDiskTask.Action.step,
          CPUPanoramaLocalDiskTask.Action.step]).runReturned = true) ∧
    (((CudaPanoramaLocalDiskTask.started
        (CudaPanoramaLocalDiskTask.sampleInitEnv ⟨sampleReaders, 0, 3⟩) sampleArgs
        CudaPanoramaLocalDiskTask.Impl.new).exec CudaPanoramaLocalDiskTask.sampleRunEnv
        [CudaPanoramaLocalDiskTask.Action.decode, CudaPanoramaLocalDiskTask.Action.decode,
          CudaPanoramaLocalDiskTask.Action.decode,
          CudaPanoramaLocalDiskTask.Action.cancel]).isCanceled = true ∧
      ((CudaPanoramaLocalDiskTask.started
        (CudaPanoramaLocalDiskTask.sampleInitEnv ⟨sampleReaders, 0, 3⟩) sampleArgs
        CudaPanoramaLocalDiskTask.Impl.new).exec CudaPanoramaLocalDiskTask.sampleRunEnv
        [CudaPanoramaLocalDiskTask.Action.decode, CudaPanoramaLocalDiskTask.Action.decode,
          CudaPanoramaLocalDiskTask.Action.decode,
          CudaPanoramaLocalDiskTask.Action.cancel]).decodeThread
        = some CudaPanoramaLocalDiskTask.DecodePc.loop ∧
      ((CudaPanoramaLocalDiskTask.started
        (CudaPanoramaLocalDiskTask.sampleInitEnv ⟨sampleReaders, 0, 3⟩) sampleArgs
        CudaPanoramaLocalDiskTask.Impl.new).exec CudaPanoramaLocalDiskTask.sampleRunEnv
        [CudaPanoramaLocalDiskTask.Action.decode, CudaPanoramaLocalDiskTask.Action.decode,
          CudaPanoramaLocalDiskTask.Action.decode,
          CudaPanoramaLocalDiskTask.Action.cancel]).procFrameBuffer.items = [] ∧
      ((CudaPanoramaLocalDiskTask.started
        (CudaPanoramaLocalDiskTask.sampleInitEnv ⟨sampleReaders, 0, 3⟩) sampleArgs
        CudaPanoramaLocalDiskTask.Impl.new).exec CudaPanoramaLocalDiskTask.sampleRunEnv
        [CudaPanoramaLocalDiskTask.Action.decode, CudaPanoramaLocalDiskTask.Action.decode,
          CudaPanoramaLocalDiskTask.Action.decode, CudaPanoramaLocalDiskTask.Action.cancel,
          CudaPanoramaLocalDiskTask.Action.decode,
          CudaPanoramaLocalDiskTask.Action.decode]).procFrameBuffer.items
        = [⟨audioFrame 11⟩]) := by
  decide!

/-! ## Exposure correction: the two validation loops -/

theorem checkMasks_iff (s : ExposureColorCorrect) (masks : List Mat) :
    s.checkMasks masks = true ↔ ∀ m ∈ masks, s.rejectsMask m = false := by
  induction masks with
  | nil => simp [ExposureColorCorrect.checkMasks]
  | cons m rest ih =>
    unfold ExposureColorCorrect.checkMasks
    cases hm : s.rejectsMask m
    · simp [ih, hm]
    · simp [hm]

theorem rejectsMask_false_iff (s : ExposureColorCorrect) (m : Mat) :
    s.rejectsMask m = false ↔
      m.hasData = true ∧ m.type = CV_8UC1 ∧ m.rows = s.rows ∧ m.cols = s.cols := by
  unfold ExposureColorCorrect.rejectsMask
  cases m.hasData <;> simp [and_assoc]

theorem rejectsImage_false_iff (s : ExposureColorCorrect) (m : Mat) :
    s.rejectsImage m = false ↔
      m.hasData = true ∧ m.type = CV_8UC3 ∧ m.rows = s.rows ∧ m.cols = s.cols := by
  unfold ExposureColorCorrect.rejectsImage
  cases m.hasData <;> simp [and_assoc]

/-- A failed `prepare` leaves `prepareSuccess` at 0. -/
theorem prepare_false_flag (s : ExposureColorCorrect) (masks : List Mat)
    (h : (s.prepare masks).1 = false) : (s.prepare masks).2.prepareSuccess = 0 := by
  unfold ExposureColorCorrect.prepare at h ⊢
  cases masks with
  | nil => rfl
  | cons m0 rest =>
    simp only at h ⊢
    split
    · rename_i hc
      rw [if_pos hc] at h
      exact absurd h (by simp)
    · rfl

/-- A successful `prepare` sets the flag and records the number of masks and the size
of the first one. -/
theorem prepare_true_state (s : ExposureColorCorrect) (masks : List Mat)
    (h : (s.prepare masks).1 = true) :
    (s.prepare masks).2.prepareSuccess = 1 ∧
      (s.prepare masks).2.numImages = masks.length ∧
      (s.prepare masks).2.origMasks = masks ∧
      ∃ m0 rest, masks = m0 :: rest ∧ (s.prepare masks).2.rows = m0.rows ∧
        (s.prepare masks).2.cols = m0.cols := by
  unfold ExposureColorCorrect.prepare at h ⊢
  cases masks with
  | nil => exact absurd h (by simp)
  | cons m0 rest =>
    simp only at h ⊢
    split
    · exact ⟨rfl, rfl, rfl, m0, rest, rfl, rfl, rfl⟩
    · rename_i hc
      rw [if_neg hc] at h
      exact absurd h (by simp)

/-- The loop over the indices `k .. k+m-1` stays in bounds when the list is long
enough. -/
theorem checkImages_in_bounds (s : ExposureColorCorrect) (images : List Mat) (m : Nat) :
    ∀ k : Nat, k + m ≤ images.length →
      ∃ b, s.checkImages images (List.range' k m) = CorrectOutcome.returned b := by
  induction m with
  | zero => intro k _; exact ⟨true, rfl⟩
  | succ m ih =>
    intro k hk
    rw [List.range'_succ]
    unfold ExposureColorCorrect.checkImages
    have hlt : k < images.length := by omega
    rw [List.getElem?_eq_getElem hlt]
    simp only
    split
    · exact ⟨false, rfl⟩
    · exact ih (k + 1) (by omega)

/-- The loop returns `false` as soon as an image of the list is rejected. -/
theorem checkImages_rejected (s : ExposureColorCorrect) (images : List Mat) (m : Nat) :
    ∀ k : Nat, (∃ j im, k ≤ j ∧ j < k + m ∧ images[j]? = some im ∧ s.rejectsImage im = true) →
      s.checkImages images (List.range' k m) = CorrectOutcome.returned false := by
  induction m with
  | zero =>
    rintro k ⟨j, im, h1, h2, _, _⟩
    omega
  | succ m ih =>
    rintro k ⟨j, im, h1, h2, h3, h4⟩
    rw [List.range'_succ]
    unfold ExposureColorCorrect.checkImages
    have hj : j < images.length := by
      by_contra hge
      rw [List.getElem?_eq_none (by omega)] at h3
      exact absurd h3 (by simp)
    have hlt : k < images.length := by omega
    rw [List.getElem?_eq_getElem hlt]
    simp only
    split
    · rfl
    · rename_i hrej
      apply ih (k + 1)
      refine ⟨j, im, ?_, by omega, h3, h4⟩
      by_contra hlt2
      have hjk : j = k := by omega
      subst hjk
      rw [List.getElem?_eq_getElem hlt] at h3
      injection h3 with h3
      rw [h3] at hrej
      exact hrej h4

/-- The loop runs past the end of a list whose images all pass the test. -/
theorem checkImages_out_of_range (s : ExposureColorCorrect) (images : List Mat)
    (hpass : ∀ im ∈ images, s.rejectsImage im = false) (m : Nat) :
    ∀ k : Nat, k ≤ images.length → images.length < k + m →
      s.checkImages images (List.range' k m) = CorrectOutcome.outOfRange images.length := by
  induction m with
  | zero => intro k h1 h2; omega
  | succ m ih =>
    intro k h1 h2
    rw [List.range'_succ]
    unfold ExposureColorCorrect.checkImages
    rcases Nat.lt_or_ge k images.length with hlt | hge
    · rw [List.getElem?_eq_getElem hlt]
      simp only
      rw [if_neg]
      · exact ih (k + 1) (by omega) (by omega)
      · rw [hpass _ (List.getElem_mem hlt)]
        simp
    · have hk : k = images.length := by omega
      rw [List.getElem?_eq_none hge]
      simp only [hk]

/-- The loop reaches its end when the first `m` images from `k` on all pass. -/
theorem checkImages_pass (s : ExposureColorCorrect) (images : List Mat) (m : Nat) :
    ∀ k : Nat, (∀ j, k ≤ j → j < k + m → ∃ im, images[j]? = some im ∧ s.rejectsImage im = false) →
      s.checkImages images (List.range' k m) = CorrectOutcome.returned true := by
  induction m with
  | zero => intro k _; rfl
  | succ m ih =>
    intro k h
    rw [List.range'_succ]
    unfold ExposureColorCorrect.checkImages
    obtain ⟨im, him, hok⟩ := h k (le_refl k) (by omega)
    rw [him]
    simp only [hok]
    exact ih (k + 1) (fun j h1 h2 => h j (by omega) (by omega))

/-- With all entries non-negative a truncated minimum of 0 is never replaced. -/
theorem anchorLoop_zero (diff : List ℚ) (h : ∀ d ∈ diff, 0 ≤ d) :
    ∀ (i a : Int), ExposureColorCorrect.anchorLoop diff i (a, 0) = (a, 0) := by
  induction diff with
  | nil => intro i a; rfl
  | cons d rest ih =>
    intro i a
    unfold ExposureColorCorrect.anchorLoop
    have hd : 0 ≤ d := h d (List.mem_cons_self d rest)
    have hn : ¬ (((0 : Int) : ℚ) > d) := by
      simp only [Int.cast_zero, gt_iff_lt, not_lt]
      exact hd
    simp only [hn, if_false]
    exact ih (fun x hx => h x (List.mem_cons_of_mem d hx)) (i + 1) a

/-! ## The anchor loop -/

theorem truncToInt_le_of_lt {d : ℚ} {m : Int} (h : d < (m : ℚ)) : truncToInt d ≤ m := by
  unfold truncToInt
  split
  · have h1 : ((⌊d⌋ : Int) : ℚ) ≤ d := Int.floor_le d
    have h2 : ((⌊d⌋ : Int) : ℚ) < (m : ℚ) := lt_of_le_of_lt h1 h
    exact le_of_lt (by exact_mod_cast h2)
  · exact Int.ceil_le.mpr h.le

/-- What the loop of lines 133-140 leaves in `(anchorIndex, minDiff)`: either no entry
is below the minimum it started with and the pair is unchanged, or the pair is the
position of some entry `x` and its truncation, `x` is below the minimum the loop
started with, and no later entry is below the truncation of `x`. -/
theorem anchorLoop_spec (l : List ℚ) : ∀ (i a m : Int),
    (ExposureColorCorrect.anchorLoop l i (a, m) = (a, m) ∧ ∀ d ∈ l, ¬ d < (m : ℚ)) ∨
    (∃ (j : Nat) (x : ℚ), l[j]? = some x ∧
      ExposureColorCorrect.anchorLoop l i (a, m) = (i + (j : Int), truncToInt x) ∧
      x < (m : ℚ) ∧
      ∀ (k : Nat) (y : ℚ), j < k → l[k]? = some y → ¬ y < ((truncToInt x : Int) : ℚ)) := by
  induction l with
  | nil =>
    intro i a m
    left
    exact ⟨rfl, fun d hd => absurd hd (List.not_mem_nil d)⟩
  | cons d rest ih =>
    intro i a m
    unfold ExposureColorCorrect.anchorLoop
    by_cases hlt : ((m : Int) : ℚ) > d
    · simp only [hlt, if_true]
      right
      rcases ih (i + 1) i (truncToInt d) with ⟨heq, hno⟩ | ⟨j, x, hx, heq, hxlt, hlater⟩
      · refine ⟨0, d, List.getElem?_cons_zero, ?_, hlt, ?_⟩
        · rw [heq]
          simp
        · intro k y hk hy
          obtain ⟨k', rfl⟩ : ∃ k', k = k' + 1 := ⟨k - 1, by omega⟩
          rw [List.getElem?_cons_succ] at hy
          exact hno y (List.getElem?_mem hy)
      · refine ⟨j + 1, x, ?_, ?_, ?_, ?_⟩
        · rw [List.getElem?_cons_succ]
          exact hx
        · rw [heq]
          push_cast
          congr 1
          ring
        · have h1 : ((truncToInt d : Int) : ℚ) ≤ (m : ℚ) := by
            exact_mod_cast truncToInt_le_of_lt hlt
          exact lt_of_lt_of_le hxlt h1
        · intro k y hk hy
          obtain ⟨k', rfl⟩ : ∃ k', k = k' + 1 := ⟨k - 1, by omega⟩
          rw [List.getElem?_cons_succ] at hy
          exact hlater k' y (by omega) hy
    · simp only [hlt, if_false]
      rcases ih (i + 1) a m with ⟨heq, hno⟩ | ⟨j, x, hx, heq, hxlt, hlater⟩
      · left
        refine ⟨heq, ?_⟩
        intro y hy
        rcases List.mem_cons.mp hy with rfl | hmem
        · exact hlt
        · exact hno y hmem
      · right
        refine ⟨j + 1, x, ?_, ?_, hxlt, ?_⟩
        · rw [List.getElem?_cons_succ]
          exact hx
        · rw [heq]
          push_cast
          congr 1
          ring
        · intro k y hk hy
          obtain ⟨k', rfl⟩ : ∃ k', k = k' + 1 := ⟨k - 1, by omega⟩
          rw [List.getElem?_cons_succ] at hy
          exact hlater k' y (by omega) hy

/-- The first pass of the loop, over `diff[0]` itself, leaves the pair as it is. -/
theorem chooseAnchor_cons (d0 : ℚ) (rest : List ℚ) :
    ExposureColorCorrect.chooseAnchor (d0 :: rest)
      = (ExposureColorCorrect.anchorLoop rest 1 (0, truncToInt d0)).1 := by
  unfold ExposureColorCorrect.chooseAnchor
  conv_lhs => unfold ExposureColorCorrect.anchorLoop
  simp only [List.headD_cons, zero_add]
  split <;> rfl

/-! ## The blend call of a sample -/

namespace CPUPanoramaLocalDiskTask

theorem afterVideoWrite_blendLog (s : Impl) (l : RunLocals) :
    (afterVideoWrite s l).blendLog = s.blendLog ∧
      (afterVideoWrite s l).useCustomMasks = s.useCustomMasks := by
  unfold afterVideoWrite Impl.updateProgress
  simp only
  split <;> split <;> exact ⟨rfl, rfl⟩

/-- The blender is called only after the reprojection has returned, once, with the
overload that `chooseBlend` names. -/
theorem processSample_blendLog (env : RunEnv) (s : Impl) (l : RunLocals) :
    (processSample env s l).blendLog =
      if env.reproject l.count.toNat then s.blendLog ++ [chooseBlend env s l.frames]
      else s.blendLog := by
  unfold processSample
  simp only
  cases hr : env.reproject l.count.toNat
  · rfl
  · simp only [Bool.not_true, Bool.false_eq_true, if_false, if_true]
    split
    · rfl
    · split
      · rfl
      · rfl
      · split
        · rfl
        · rfl
        · exact (afterVideoWrite_blendLog _ l).1

theorem init_customMasks_ok (e : InitEnv) (a : InitArgs) (s : Impl)
    (h : (Impl.init e a s).1 = true) :
    ∃ u, initCustomMasks e a (a.srcVideoFiles.length : Int) = Except.ok u ∧
      (Impl.init e a s).2.useCustomMasks = u := by
  generalize hr : Impl.init e a s = r at h ⊢
  unfold Impl.init Impl.initAfterClear at hr
  simp only [Impl.failInit] at hr
  repeat' split at hr
  all_goals subst hr
  all_goals first
    | (simp at h; done)
    | skip
  exact ⟨_, by assumption, rfl⟩

theorem initCustomMasks_ok (e : InitEnv) (a : InitArgs) (n u : Int)
    (h : initCustomMasks e a n = Except.ok u) :
    (u ≠ 0 ↔ a.customMaskFile.length ≠ 0) ∧
      (a.customMaskFile.length ≠ 0 →
        (∃ k : Nat, e.loadIntervaledContours = some k ∧ (k : Int) = n) ∧
          e.cvtContoursToMasks = true) := by
  unfold initCustomMasks at h
  split at h
  · rename_i h0
    injection h with h
    subst h
    simp [h0]
  · rename_i h0
    split at h
    · exact absurd h (by simp)
    · rename_i k hk
      split at h
      · exact absurd h (by simp)
      · rename_i hn
        split at h
        · exact absurd h (by simp)
        · rename_i hc
          injection h with h
          subst h
          refine ⟨by simp [h0], fun _ => ⟨⟨k, hk, ?_⟩, ?_⟩⟩
          · simpa using hn
          · simpa using hc

/-- The value that `init` leaves in `useCustomMasks`. -/
theorem init_useCustomMasks (e : InitEnv) (a : InitArgs) (s : Impl)
    (h : (Impl.init e a s).1 = true) :
    ((Impl.init e a s).2.useCustomMasks ≠ 0 ↔ a.customMaskFile.length ≠ 0) ∧
      (a.customMaskFile.length ≠ 0 →
        e.loadIntervaledContours = some a.srcVideoFiles.length ∧
          e.cvtContoursToMasks = true) := by
  obtain ⟨u, hu, hval⟩ := init_customMasks_ok e a s h
  obtain ⟨h1, h2⟩ := initCustomMasks_ok e a _ u hu
  rw [hval]
  refine ⟨h1, fun h0 => ?_⟩
  obtain ⟨⟨k, hk, hkn⟩, hc⟩ := h2 h0
  refine ⟨?_, hc⟩
  rw [hk]
  congr 1
  exact_mod_cast hkn

theorem chooseBlend_custom_iff (env : RunEnv) (s : Impl) (frames : Nat → AudioVideoFrame2) :
    (∃ uses, chooseBlend env s frames = BlendCall.custom uses) ↔
      s.useCustomMasks ≠ 0 ∧
        ∃ i : Nat, i < s.numVideos.toNat ∧ env.getMask i (frames i).timeStamp = true := by
  unfold chooseBlend
  simp only
  split
  · rename_i hu
    split
    · rename_i hany
      simp only [List.any_eq_true, List.mem_map, List.mem_range, id_eq, exists_exists_and_eq_and]
        at hany
      constructor
      · intro _
        exact ⟨hu, hany⟩
      · intro _
        exact ⟨_, rfl⟩
    · rename_i hany
      simp only [List.any_eq_true, List.mem_map, List.mem_range, id_eq, exists_exists_and_eq_and]
        at hany
      constructor
      · rintro ⟨_, h⟩
        exact absurd h (by simp)
      · rintro ⟨_, h⟩
        exact absurd h hany
  · rename_i hu
    constructor
    · rintro ⟨_, h⟩
      exact absurd h (by simp)
    · rintro ⟨h, _⟩
      exact absurd h hu

theorem chooseBlend_custom_masks (env : RunEnv) (s : Impl) (frames : Nat → AudioVideoFrame2)
    (uses : List Bool) (h : chooseBlend env s frames = BlendCall.custom uses) :
    uses.length = s.numVideos.toNat ∧
      ∀ i : Nat, i < s.numVideos.toNat →
        uses[i]? = some (env.getMask i (frames i).timeStamp) := by
  unfold chooseBlend at h
  simp only at h
  split at h
  · split at h
    · injection h with h
      subst h
      refine ⟨by simp, fun i hi => ?_⟩
      simp [List.getElem?_map, List.getElem?_range hi]
    · exact absurd h (by simp)
  · exact absurd h (by simp)

theorem chooseBlend_cases (env : RunEnv) (s : Impl) (frames : Nat → AudioVideoFrame2) :
    chooseBlend env s frames = BlendCall.baseline ∨
      ∃ uses, chooseBlend env s frames = BlendCall.custom uses := by
  cases h : chooseBlend env s frames with
  | baseline => exact Or.inl rfl
  | custom uses => exact Or.inr ⟨uses, rfl⟩

end CPUPanoramaLocalDiskTask

/-! ## The time stamps of a decoded sample -/

namespace CudaPanoramaLocalDiskTask

theorem readVideoSample_length (audioIndex : Int) (rs : List AudioVideoReader3) :
    ∀ (i : Nat) (ts : List Int),
      (readVideoSample audioIndex i rs ts).2.2.length = ts.length := by
  induction rs with
  | nil => intro i ts; rfl
  | cons r rs ih =>
    intro i ts
    unfold readVideoSample
    split
    · exact ih (i + 1) ts
    · split
      · rfl
      · rfl
      · split
        · simp only
          rw [ih (i + 1), List.length_set]
        · rfl

theorem decodeVideoPart_length (s : Impl) (ts : List Int) (v : StampedPinnedMemoryVector)
    (hloop : s.decodeThread = some DecodePc.loop)
    (h : (decodeVideoPart s ts).decodeThread = some (DecodePc.pushVideo v)) :
    v.timeStamps.length = ts.length := by
  have hl := readVideoSample_length s.audioIndex s.readers 0 ts
  unfold decodeVideoPart at h
  split at h
  · rename_i rs x heq
    have hd : (Impl.abort { s with readers := rs }).decodeThread = s.decodeThread := rfl
    rw [hd, hloop] at h
    exact absurd h (by simp)
  · simp at h
  · rename_i rs ts2 heq
    split at h
    · simp at h
    · simp only [Option.some.injEq, DecodePc.pushVideo.injEq] at h
      subst h
      rw [heq] at hl
      exact hl

/-- Every sample that `decode()` hands to its push carries one time stamp per
source (line 792: `videoFrames.timeStamps.resize(numVideos)`). -/
theorem decodeStep_sample_length (s : Impl) (v : StampedPinnedMemoryVector)
    (hloop : s.decodeThread = some DecodePc.loop)
    (h : s.decodeStep.decodeThread = some (DecodePc.pushVideo v)) :
    v.timeStamps.length = s.numVideos.toNat := by
  unfold Impl.decodeStep at h
  rw [hloop] at h
  simp only at h
  unfold decodeIteration at h
  simp only at h
  split at h
  · split at h
    · simp at h
    · split at h
      · simp at h
      · have hd : s.abort.decodeThread = s.decodeThread := rfl
        rw [hd, hloop] at h
        exact absurd h (by simp)
      · split at h
        · simp at h
        · split at h
          · refine (decodeVideoPart_length _ _ v ?_ h).trans ?_
            · exact hloop
            · rw [List.length_set, List.length_replicate]
          · simp at h
  · have := decodeVideoPart_length _ _ v hloop h
    rw [this, List.length_replicate]

/-- The access `timeStamps[index]` of line 916 on a vector with one entry per source
is in bounds exactly when `audioIndex < numVideos`. -/
theorem timeStamp_in_bounds (numVideos audioIndex : Int) (ts : List Int)
    (hn : 1 ≤ numVideos) (hlen : ts.length = numVideos.toNat) :
    (ts[(timeStampIndex audioIndex).toNat]?).isSome = true ↔ audioIndex < numVideos := by
  have hidx : (timeStampIndex audioIndex).toNat < ts.length ↔ audioIndex < numVideos := by
    rw [hlen]
    unfold timeStampIndex
    split <;> omega
  rw [← hidx]
  rcases Nat.lt_or_ge (timeStampIndex audioIndex).toNat ts.length with hlt | hge
  · rw [List.getElem?_eq_getElem hlt]
    simp [hlt]
  · rw [List.getElem?_eq_none hge]
    simp only [Option.isSome_none, Bool.false_eq_true, false_iff, not_lt]
    exact hge

/-- With the audio index out of range `init` does not look at the audio frame pool:
it succeeds when its other collaborators do, and stores the index as it is. -/
theorem init_accepts_audioIndex (e : InitEnv) (a : InitArgs) (s0 : Impl) (p : PreparedSrc)
    (hargs : ¬ (a.srcVideoFiles.isEmpty ∨ a.srcVideoFiles.length ≠ a.offsets.length))
    (hp : e.prepareSrcVideos = some p)
    (hk : (a.srcVideoFiles.length : Int) ≤ p.audioIndex)
    (hsrc : e.srcFramesMemoryPoolInit = true) (hren : e.renderPrepare = true)
    (hnum : e.renderNumImages = (a.srcVideoFiles.length : Int))
    (hdst : e.dstFramesMemoryPoolInit = true) (hlogo : e.logoFilterInit = true)
    (hopen : e.writerOpen = true) :
    (Impl.init e a s0).1 = true ∧ (Impl.init e a s0).2.audioIndex = p.audioIndex ∧
      (Impl.init e a s0).2.numVideos = (a.srcVideoFiles.length : Int) := by
  have hout : ¬ ((0 : Int) ≤ p.audioIndex ∧ p.audioIndex < (a.srcVideoFiles.length : Int)) := by
    omega
  unfold Impl.init Impl.initAfterClear
  simp only [hargs, hp, hsrc, hren, hnum, hdst, hlogo, hopen, hout, if_false, false_and,
    Bool.not_true, Bool.false_eq_true, ne_eq, not_true_eq_false]
  refine ⟨?_, ?_, ?_⟩ <;> first | rfl | trivial

/-- With the audio index out of range the access of line 916 has no entry to read. -/
theorem procSample_out_of_range (env : RunEnv) (s : Impl) (v : StampedPinnedMemoryVector)
    (hn : 1 ≤ s.numVideos) (hlen : v.timeStamps.length = s.numVideos.toNat)
    (hk : s.numVideos ≤ s.audioIndex)
    (hrender : env.render s.procCount.toNat = CallResult.ok)
    (hlogo : env.addLogo = true → env.logoFilterAddLogo s.procCount.toNat = CallResult.ok) :
    v.timeStamps[(timeStampIndex s.audioIndex).toNat]? = none ∧
      procSample env s v = s.abort := by
  have hnone : v.timeStamps[(timeStampIndex s.audioIndex).toNat]? = none := by
    have h := timeStamp_in_bounds s.numVideos s.audioIndex v.timeStamps hn hlen
    cases hget : v.timeStamps[(timeStampIndex s.audioIndex).toNat]? with
    | none => rfl
    | some t =>
      rw [hget] at h
      have := h.mp rfl
      omega
  refine ⟨hnone, ?_⟩
  unfold procSample
  simp only [hrender, hnone]
  cases hl : env.addLogo
  · simp
  · simp [hlogo hl]

end CudaPanoramaLocalDiskTask

/-! ## The frame cap bounds the written video frames -/

namespace CPUPanoramaLocalDiskTask

theorem CapInv.of_left {v : Int} {s : Impl} (hv : s.validFrameCount = v)
    (ht : s.thread = some ThreadState.finished)
    (hw : ((writtenVideo s.writer).length : Int) ≤ max v 1) : CapInv v s := by
  refine ⟨hv, ?_⟩
  rw [ht]
  exact hw

theorem exitLoop_cap {v : Int} (s : Impl) (hv : s.validFrameCount = v)
    (hw : ((writtenVideo s.writer).length : Int) ≤ max v 1) : CapInv v s.exitLoop :=
  CapInv.of_left hv rfl hw

theorem catchException_cap {v : Int} (s : Impl) (hv : s.validFrameCount = v)
    (hw : ((writtenVideo s.writer).length : Int) ≤ max v 1) : CapInv v s.catchException :=
  CapInv.of_left hv rfl hw

theorem count_le_cap {v c : Int} (hc : c = 0 ∨ c < v) : c ≤ max v 1 := by
  rcases hc with h | h
  · rw [h]
    exact le_trans (by norm_num) (le_max_right v 1)
  · exact le_trans h.le (le_max_left v 1)

theorem afterVideoWrite_cap {v : Int} (s : Impl) (l : RunLocals) (hv : s.validFrameCount = v)
    (hc : l.count = 0 ∨ l.count < v)
    (hw : ((writtenVideo s.writer).length : Int) = l.count + 1) :
    CapInv v (afterVideoWrite s l) := by
  obtain ⟨-, -, u3, -, -, u6⟩ := updateProgress_count_fields s (l.count + 1) l.step
  unfold afterVideoWrite
  simp only
  split_ifs with hge
  · apply exitLoop_cap
    · rw [u6]
      exact hv
    · rw [u3, hw]
      rcases hc with h | h
      · rw [h]
        exact le_max_right v 1
      · exact le_trans (by omega) (le_max_left v 1)
  · rw [u6, hv] at hge
    refine ⟨?_, ?_, ?_⟩
    · show (s.updateProgress (l.count + 1) l.step).validFrameCount = v
      rw [u6]
      exact hv
    · right
      show l.count + 1 < v
      omega
    · show ((writtenVideo (s.updateProgress (l.count + 1) l.step).writer).length : Int)
        = l.count + 1
      rw [u3]
      exact hw

theorem processSample_cap {v : Int} (env : RunEnv) (s : Impl) (l : RunLocals)
    (hv : s.validFrameCount = v) (hc : l.count = 0 ∨ l.count < v)
    (hw : ((writtenVideo s.writer).length : Int) = l.count) :
    CapInv v (processSample env s l) := by
  have hle : ((writtenVideo s.writer).length : Int) ≤ max v 1 := by
    rw [hw]
    exact count_le_cap hc
  unfold processSample
  simp only
  split
  · exact catchException_cap _ hv hle
  · split
    · exact catchException_cap _ hv hle
    · split
      · exact catchException_cap _ hv hle
      · exact exitLoop_cap _ hv hle
      · split
        · exact catchException_cap _ hv hle
        · exact exitLoop_cap _ hv hle
        · refine afterVideoWrite_cap _ l ?_ hc ?_
          · exact hv
          show ((writtenVideo (s.writer.accept ⟨ MediaType.VIDEO, (l.frames 0).timeStamp⟩)).length
            : Int) = l.count + 1
          rw [writtenVideo_accept_video]
          simp [hw]

theorem videoIteration_cap {v : Int} (env : RunEnv) (s : Impl) (l : RunLocals)
    (hv : s.validFrameCount = v) (hc : l.count = 0 ∨ l.count < v)
    (hw : ((writtenVideo s.writer).length : Int) = l.count) :
    CapInv v (videoIteration env s l) := by
  have hle : ((writtenVideo s.writer).length : Int) ≤ max v 1 := by
    rw [hw]
    exact count_le_cap hc
  unfold videoIteration
  split
  · exact catchException_cap _ hv hle
  · exact exitLoop_cap _ hv hle
  · simp only
    split
    · exact exitLoop_cap _ hv hle
    · exact processSample_cap env _ _ hv hc hw

theorem loopIteration_cap {v : Int} (env : RunEnv) (s : Impl) (l : RunLocals)
    (hv : s.validFrameCount = v) (hc : l.count = 0 ∨ l.count < v)
    (hw : ((writtenVideo s.writer).length : Int) = l.count) :
    CapInv v (loopIteration env s l) := by
  have hle : ((writtenVideo s.writer).length : Int) ≤ max v 1 := by
    rw [hw]
    exact count_le_cap hc
  unfold loopIteration
  split
  · split
    · exact exitLoop_cap _ hv hle
    · split
      · exact exitLoop_cap _ hv hle
      · exact catchException_cap _ hv hle
      · simp only
        split
        · rename_i hf
          split
          · exact catchException_cap _ hv hle
          · exact exitLoop_cap _ hv hle
          · refine ⟨hv, hc, ?_⟩
            show ((writtenVideo (s.writer.accept _)).length : Int) = l.count
            rw [writtenVideo_accept_audio hf]
            exact hw
        · exact videoIteration_cap env _ _ hv hc hw
  · exact videoIteration_cap env _ _ hv hc hw

theorem threadStep_cap {v : Int} (env : RunEnv) {s : Impl} (h : CapInv v s) :
    CapInv v (s.threadStep env) := by
  obtain ⟨hv, ht⟩ := h
  unfold Impl.threadStep
  split
  · rename_i hth
    rw [hth] at ht
    refine ⟨hv, ?_⟩
    rw [hth]
    exact ht
  · rename_i hth
    rw [hth] at ht
    refine ⟨hv, ?_⟩
    rw [hth]
    exact ht
  · rename_i hth
    rw [hth] at ht
    simp only at ht
    have hle : ((writtenVideo s.writer).length : Int) ≤ max v 1 := by
      rw [ht]
      exact le_trans (by norm_num) (le_max_right v 1)
    split
    · exact CapInv.of_left hv rfl hle
    · split
      · exact CapInv.of_left hv rfl hle
      · refine ⟨hv, Or.inl rfl, ?_⟩
        show ((writtenVideo s.writer).length : Int) = 0
        rw [ht]
        rfl
  · rename_i l hth
    rw [hth] at ht
    exact loopIteration_cap env s l hv ht.1 ht.2

theorem exec_cap {v : Int} (env : RunEnv) (schedule : List Action) {s : Impl}
    (h : CapInv v s) : CapInv v (s.exec env schedule) := by
  induction schedule generalizing s with
  | nil => exact h
  | cons a rest ih =>
    show CapInv v (Impl.exec env (Impl.act env s a) rest)
    apply ih
    cases a with
    | step => exact threadStep_cap env h
    | cancel =>
      obtain ⟨hv, ht⟩ := h
      exact ⟨hv, ht⟩

theorem CapInv.written_le {v : Int} {s : Impl} (h : CapInv v s) :
    ((writtenVideo s.writer).length : Int) ≤ max v 1 := by
  obtain ⟨-, ht⟩ := h
  split at ht
  · rw [ht]
    exact le_trans (by norm_num) (le_max_right v 1)
  · rw [ht.2]
    exact count_le_cap ht.1
  · exact ht

/-- A controller that has come out of a successful `init` and `start` satisfies the
cap invariant. -/
theorem started_cap (e : InitEnv) (a : InitArgs) (s0 : Impl)
    (h : (Impl.init e a s0).1 = true) :
    CapInv (Impl.init e a s0).2.validFrameCount (started e a s0) := by
  have hw := (init_true_state e a s0 h).choose_spec.2.2.2.2.2.2.2.2.2.2.2.2.2
  unfold started
  rw [start_after_init e a s0 h]
  refine ⟨rfl, ?_⟩
  show writtenVideo (Impl.init e a s0).2.writer = []
  rw [hw]
  rfl

end CPUPanoramaLocalDiskTask

namespace CudaPanoramaLocalDiskTask

/-- With a cap that is not positive `decode()` counts at most one pushed sample, and
`encode()` at most one video frame. -/
theorem decodeCount_le_one {v : Int} {base : List Int} {s : Impl} (h : RunInv v base s)
    (hv : v ≤ 0) : s.decodeCount ≤ 1 ∧ s.encodeCount ≤ 1 := by
  have hd : s.decodeCount ≤ 1 := by
    have h0 := h.decodeNonneg
    have hdec := h.decode
    unfold DecodeInv at hdec
    split at hdec
    · omega
    · omega
    · omega
    · omega
    · omega
  refine ⟨hd, ?_⟩
  have hflow := h.flow
  have h1 : 0 ≤ videoCount s.procFrameBuffer.items := by
    unfold videoCount
    exact Int.natCast_nonneg _
  have h2 : 0 ≤ inFlight s.procThread := by
    unfold inFlight
    split <;> norm_num
  have h3 : (0 : Int) ≤ (s.decodeFramesBuffer.items.length : Int) := Int.natCast_nonneg _
  omega

end CudaPanoramaLocalDiskTask

/-! ## Exact double values -/

theorem log_of_bounds {q : ℚ} {e : ℤ} (hlo : (2 : ℚ) ^ e ≤ q) (hhi : q < (2 : ℚ) ^ (e + 1)) :
    Int.log 2 q = e := by
  have hpos : 0 < q := lt_of_lt_of_le (two_zpow_pos e) hlo
  have h1 : e ≤ Int.log 2 q :=
    (Int.zpow_le_iff_le_log (b := 2) (by norm_num) hpos (x := e)).mp (by simpa using hlo)
  have h2 : Int.log 2 q < e + 1 :=
    (Int.lt_zpow_iff_log_lt (b := 2) (by norm_num) hpos (x := e + 1)).mp (by simpa using hhi)
  omega

/-- A rational with a 53-bit significand is a double. -/
theorem roundDouble_exact {q : ℚ} (e m : ℤ) (hlo : (2 : ℚ) ^ e ≤ q)
    (hhi : q < (2 : ℚ) ^ (e + 1)) (hq : q = (m : ℚ) * 2 ^ (e - 52)) : roundDouble q = q := by
  have hpos : 0 < q := lt_of_lt_of_le (two_zpow_pos e) hlo
  rw [roundDouble_of_nonneg hpos.le]
  exact roundMagnitude_exact e m q (log_of_bounds hlo hhi) hq

/-! ## Double arithmetic: the rounding error -/

theorem roundHalfEven_abs (q : ℚ) : |(roundHalfEven q : ℚ) - q| ≤ 1 / 2 := by
  have h1 : ((⌊q⌋ : ℤ) : ℚ) ≤ q := Int.floor_le q
  have h2 : q < ((⌊q⌋ : ℤ) : ℚ) + 1 := Int.lt_floor_add_one q
  unfold roundHalfEven
  rw [abs_le]
  split_ifs with ha hb hc
  · constructor <;> linarith
  · push_cast
    constructor <;> linarith
  · constructor <;> linarith
  · push_cast
    constructor <;> linarith

/-- Rounding to 53 bits changes a positive value by at most the fraction `2 ^ -53` of
it. -/
theorem roundMagnitude_err {q : ℚ} (hq : 0 < q) : |roundMagnitude q - q| ≤ q / 2 ^ 53 := by
  unfold roundMagnitude
  have hw := two_zpow_pos (Int.log 2 q - 52)
  have h1 : (2 : ℚ) ^ Int.log 2 q ≤ q := by
    have := Int.zpow_log_le_self (b := 2) (r := q) (by norm_num) hq
    simpa using this
  have hsplit := zpow_split52 (Int.log 2 q)
  have hr := roundHalfEven_abs (q / 2 ^ (Int.log 2 q - 52))
  have heq : (roundHalfEven (q / 2 ^ (Int.log 2 q - 52)) : ℚ) * 2 ^ (Int.log 2 q - 52) - q
      = ((roundHalfEven (q / 2 ^ (Int.log 2 q - 52)) : ℚ) - q / 2 ^ (Int.log 2 q - 52))
        * 2 ^ (Int.log 2 q - 52) := by
    field_simp
  rw [heq, abs_mul, abs_of_pos hw]
  have h2 := mul_le_mul_of_nonneg_right hr hw.le
  have h3 : (1 : ℚ) / 2 * 2 ^ (Int.log 2 q - 52) ≤ q / 2 ^ 53 := by
    rw [le_div_iff₀ (by norm_num)]
    rw [hsplit] at h1
    push_cast at h1
    nlinarith
  exact le_trans h2 h3

theorem roundDouble_zero : roundDouble 0 = 0 := by
  rw [roundDouble_of_nonneg (le_refl 0), roundMagnitude_zero]

theorem roundDouble_err {q : ℚ} (hq : 0 ≤ q) : |roundDouble q - q| ≤ q / 2 ^ 53 := by
  rcases eq_or_lt_of_le hq with h0 | hpos
  · rw [← h0, roundDouble_zero]
    simp
  · rw [roundDouble_of_nonneg hq]
    exact roundMagnitude_err hpos

/-- A natural number below `2 ^ 53` times a power of two is a double. -/
theorem roundDouble_dyadic (m : ℕ) (j : ℤ) (hm0 : 0 < m) (hm : m < 2 ^ 53) :
    roundDouble ((m : ℚ) * 2 ^ j) = (m : ℚ) * 2 ^ j := by
  have hL1 : 2 ^ Nat.log 2 m ≤ m := Nat.pow_log_le_self 2 (by omega)
  have hL2 : m < 2 ^ (Nat.log 2 m + 1) := Nat.lt_pow_succ_log_self (by norm_num) m
  have hL : Nat.log 2 m ≤ 52 := by
    have := Nat.log_lt_of_lt_pow (by omega) hm
    omega
  have hj := two_zpow_pos j
  have c1 : ((2 : ℚ) ^ Nat.log 2 m) ≤ (m : ℚ) := by exact_mod_cast hL1
  have c2 : (m : ℚ) < (2 : ℚ) ^ (Nat.log 2 m + 1) := by exact_mod_cast hL2
  apply roundDouble_exact ((Nat.log 2 m : ℤ) + j) ((m * 2 ^ (52 - Nat.log 2 m) : ℕ) : ℤ)
  · rw [zpow_add₀ (by norm_num : (2 : ℚ) ≠ 0), zpow_natCast]
    exact mul_le_mul_of_nonneg_right c1 hj.le
  · have : (Nat.log 2 m : ℤ) + j + 1 = ((Nat.log 2 m + 1 : ℕ) : ℤ) + j := by
      push_cast
      ring
    rw [this, zpow_add₀ (by norm_num : (2 : ℚ) ≠ 0), zpow_natCast]
    exact mul_lt_mul_of_pos_right c2 hj
  · have hexp : ((2 : ℚ) ^ (52 - Nat.log 2 m)) = (2 : ℚ) ^ (((52 : ℤ) - (Nat.log 2 m : ℤ))) := by
      rw [← zpow_natCast]
      congr 1
      omega
    push_cast
    rw [hexp, mul_assoc, ← zpow_add₀ (by norm_num : (2 : ℚ) ≠ 0)]
    congr 2
    ring

/-! ## The update step and the stored value in closed form -/

/-- The value of `validFrameCount / 100.0 + 0.5` in double arithmetic lies within
`2 ^ -26` of the exact one. -/
theorem stepValue_err {v : Int} (hv0 : 0 < v) (hv : v < 2147483648) :
    |roundDouble (roundDouble ((v : ℚ) / 100) + 1 / 2) - ((v : ℚ) / 100 + 1 / 2)|
      ≤ 1 / 2 ^ 26 := by
  have hvq0 : (0 : ℚ) < (v : ℚ) := by exact_mod_cast hv0
  have hvq : (v : ℚ) < 2147483648 := by exact_mod_cast hv
  have hy0 : (0 : ℚ) ≤ (v : ℚ) / 100 := by positivity
  have hy1 : (v : ℚ) / 100 ≤ 2 ^ 25 := by
    rw [div_le_iff₀ (by norm_num)]
    norm_num
    linarith
  have e1 := roundDouble_err hy0
  have e1b : |roundDouble ((v : ℚ) / 100) - (v : ℚ) / 100| ≤ 1 / 2 ^ 28 := by
    refine le_trans e1 ?_
    rw [div_le_iff₀ (by norm_num)]
    norm_num
    norm_num at hy1
    linarith
  have hd1 := roundDouble_nonneg hy0
  have hz0 : (0 : ℚ) ≤ roundDouble ((v : ℚ) / 100) + 1 / 2 := by linarith
  have hz1 : roundDouble ((v : ℚ) / 100) + 1 / 2 ≤ 2 ^ 26 := by
    have := (abs_le.mp e1b).2
    norm_num at this hy1 ⊢
    linarith
  have e2 := roundDouble_err hz0
  have e2b : |roundDouble (roundDouble ((v : ℚ) / 100) + 1 / 2)
      - (roundDouble ((v : ℚ) / 100) + 1 / 2)| ≤ 1 / 2 ^ 27 := by
    refine le_trans e2 ?_
    rw [div_le_iff₀ (by norm_num)]
    norm_num
    norm_num at hz1
    linarith
  rw [abs_le] at e1b e2b ⊢
  norm_num at e1b e2b ⊢
  constructor <;> linarith

/-- The update step in closed form: `validFrameCount / 100` rounded half up, at
least 1. -/
theorem progressStep_closed {v : Int} (hv0 : 0 < v) (hv : v < 2147483648) :
    progressStep v = max 1 ((v + 50) / 100) := by
  have hvq0 : (0 : ℚ) < (v : ℚ) := by exact_mod_cast hv0
  have hy0 : (0 : ℚ) ≤ (v : ℚ) / 100 := by positivity
  have hd1 := roundDouble_nonneg hy0
  have hz0 : (0 : ℚ) ≤ roundDouble ((v : ℚ) / 100) + 1 / 2 := by linarith
  have hd2 := roundDouble_nonneg hz0
  have hdecomp : v + 50 = 100 * ((v + 50) / 100) + (v + 50) % 100 :=
    (Int.ediv_add_emod (v + 50) 100).symm
  have hr0 : 0 ≤ (v + 50) % 100 := Int.emod_nonneg _ (by norm_num)
  have hr1 : (v + 50) % 100 < 100 := Int.emod_lt_of_pos _ (by norm_num)
  have hk0 : 0 ≤ (v + 50) / 100 := by omega
  have hexact : (v : ℚ) / 100 + 1 / 2
      = (((v + 50) / 100 : Int) : ℚ) + (((v + 50) % 100 : Int) : ℚ) / 100 := by
    have h : ((v + 50 : Int) : ℚ)
        = ((100 * ((v + 50) / 100) + (v + 50) % 100 : Int) : ℚ) := by
      exact_mod_cast congrArg (fun z : Int => (z : ℚ)) hdecomp
    push_cast at h
    linarith
  have hfloor : ⌊roundDouble (roundDouble ((v : ℚ) / 100) + 1 / 2)⌋ = (v + 50) / 100 := by
    rcases eq_or_lt_of_le hr0 with hzero | hpos
    · -- the exact value is an integer: every operation is exact
      have hv' : v = 100 * ((v + 50) / 100) - 50 := by omega
      have hkpos : 1 ≤ (v + 50) / 100 := by omega
      have hk53 : (v + 50) / 100 < 2 ^ 53 := by
        have : (v + 50) / 100 ≤ v + 50 := by omega
        norm_num
        omega
      obtain ⟨k, hk⟩ := Int.eq_ofNat_of_zero_le hk0
      rw [hk] at hv' hkpos hk53 ⊢
      have hkn : 1 ≤ k := by exact_mod_cast hkpos
      have hkn53 : k < 2 ^ 53 := by exact_mod_cast hk53
      have hy : (v : ℚ) / 100 = ((2 * k - 1 : ℕ) : ℚ) * 2 ^ (-1 : ℤ) := by
        have hvq : (v : ℚ) = 100 * (k : ℚ) - 50 := by
          have := congrArg (fun z : Int => (z : ℚ)) hv'
          push_cast at this
          exact this
        rw [hvq, Nat.cast_sub (by omega)]
        push_cast
        rw [zpow_neg, zpow_one]
        ring
      have h1 : roundDouble ((v : ℚ) / 100) = (v : ℚ) / 100 := by
        rw [hy]
        exact roundDouble_dyadic (2 * k - 1) (-1) (by omega) (by omega)
      have hz : (v : ℚ) / 100 + 1 / 2 = ((k : ℕ) : ℚ) * 2 ^ (0 : ℤ) := by
        rw [hexact, ← hzero, hk]
        simp
      rw [h1, hz, roundDouble_dyadic k 0 (by omega) hkn53]
      simp
    · -- the exact value is at least 1/100 away from the integers
      have herr := stepValue_err hv0 hv
      rw [abs_le] at herr
      have hrq0 : (1 : ℚ) ≤ (((v + 50) % 100 : Int) : ℚ) := by
        exact_mod_cast (by omega : (1 : Int) ≤ (v + 50) % 100)
      have hrq1 : (((v + 50) % 100 : Int) : ℚ) ≤ 99 := by
        exact_mod_cast (by omega : (v + 50) % 100 ≤ (99 : Int))
      rw [Int.floor_eq_iff]
      norm_num at herr
      constructor <;> linarith
  unfold progressStep
  simp only [gt_iff_lt, hv0, if_true]
  rw [truncToInt_of_nonneg hd2, hfloor]
  split_ifs with h
  · rw [max_eq_left (by omega)]
  · rw [max_eq_right (by omega)]

theorem progressStep_of_nonpos {v : Int} (hv : v ≤ 0) : progressStep v = 1 := by
  unfold progressStep
  simp only [gt_iff_lt, not_lt.mpr hv, if_false]
  rfl

/-- The value of `double(count) / total * 100` in double arithmetic lies within
`201 * 2 ^ -53` of the exact one when `count <= total`. -/
theorem percentValue_err {c d : Int} (hc : 0 ≤ c) (hd : 0 < d) (hcd : c ≤ d) :
    |roundDouble (roundDouble ((c : ℚ) / (d : ℚ)) * 100) - 100 * (c : ℚ) / (d : ℚ)|
      ≤ 201 / 2 ^ 53 := by
  have hdq : (0 : ℚ) < (d : ℚ) := by exact_mod_cast hd
  have hcq : (0 : ℚ) ≤ (c : ℚ) := by exact_mod_cast hc
  have hx0 : (0 : ℚ) ≤ (c : ℚ) / (d : ℚ) := by positivity
  have hx1 : (c : ℚ) / (d : ℚ) ≤ 1 := by
    rw [div_le_one hdq]
    exact_mod_cast hcd
  have e1 := roundDouble_err hx0
  have e1b : |roundDouble ((c : ℚ) / (d : ℚ)) - (c : ℚ) / (d : ℚ)| ≤ 1 / 2 ^ 53 := by
    refine le_trans e1 ?_
    exact div_le_div_of_nonneg_right hx1 (by norm_num)
  have hd1 := roundDouble_nonneg hx0
  have hy0 : (0 : ℚ) ≤ roundDouble ((c : ℚ) / (d : ℚ)) * 100 := by positivity
  have hy1 : roundDouble ((c : ℚ) / (d : ℚ)) * 100 ≤ 101 := by
    have := (abs_le.mp e1b).2
    norm_num at this
    linarith
  have e2 := roundDouble_err hy0
  have e2b : |roundDouble (roundDouble ((c : ℚ) / (d : ℚ)) * 100)
      - roundDouble ((c : ℚ) / (d : ℚ)) * 100| ≤ 101 / 2 ^ 53 := by
    refine le_trans e2 ?_
    exact div_le_div_of_nonneg_right hy1 (by norm_num)
  have hN : 100 * (c : ℚ) / (d : ℚ) = (c : ℚ) / (d : ℚ) * 100 := by ring
  rw [hN]
  rw [abs_le] at e1b e2b ⊢
  norm_num at e1b e2b ⊢
  constructor <;> linarith

/-- The stored value in closed form: the exact percentage rounded down, or one less;
one less only when the exact percentage is an integer. -/
theorem progressValue_closed {c v : Int} (hc : 0 ≤ c)
    (hcd : c ≤ (if v > 0 then v else 100 : Int)) (hv : v < 2147483648) :
    100 * c / (if v > 0 then v else 100 : Int) - 1 ≤ progressValue c v ∧
      progressValue c v ≤ 100 * c / (if v > 0 then v else 100 : Int) ∧
      (¬ (if v > 0 then v else 100 : Int) ∣ 100 * c →
        progressValue c v = 100 * c / (if v > 0 then v else 100 : Int)) := by
  rw [progressValue_eq_floor v hc]
  have hd : (0 : Int) < (if v > 0 then v else 100 : Int) := by
    split_ifs <;> omega
  have hd31 : (if v > 0 then v else 100 : Int) < 2147483648 := by
    split_ifs <;> omega
  generalize (if v > 0 then v else 100 : Int) = d at hcd hd hd31 ⊢
  have herr := percentValue_err hc hd hcd
  rw [abs_le] at herr
  have hdq : (0 : ℚ) < (d : ℚ) := by exact_mod_cast hd
  have hdq31 : (d : ℚ) < 2147483648 := by exact_mod_cast hd31
  have hdecomp : 100 * c = d * (100 * c / d) + 100 * c % d := (Int.ediv_add_emod (100 * c) d).symm
  have hr0 : 0 ≤ 100 * c % d := Int.emod_nonneg _ (by omega)
  have hr1 : 100 * c % d < d := Int.emod_lt_of_pos _ hd
  have hN : 100 * (c : ℚ) / (d : ℚ)
      = ((100 * c / d : Int) : ℚ) + ((100 * c % d : Int) : ℚ) / (d : ℚ) := by
    have h : ((100 * c : Int) : ℚ) = ((d * (100 * c / d) + 100 * c % d : Int) : ℚ) :=
      congrArg (fun z : Int => (z : ℚ)) hdecomp
    push_cast at h
    rw [h]
    field_simp
    ring
  have hrq0 : (0 : ℚ) ≤ ((100 * c % d : Int) : ℚ) / (d : ℚ) := by
    have : (0 : ℚ) ≤ ((100 * c % d : Int) : ℚ) := by exact_mod_cast hr0
    positivity
  have hrq1 : ((100 * c % d : Int) : ℚ) / (d : ℚ) ≤ 1 - 1 / (d : ℚ) := by
    have h : ((100 * c % d : Int) : ℚ) ≤ (d : ℚ) - 1 := by
      exact_mod_cast (by omega : 100 * c % d ≤ d - 1)
    rw [div_le_iff₀ hdq]
    have : (1 - 1 / (d : ℚ)) * (d : ℚ) = (d : ℚ) - 1 := by field_simp
    rw [this]
    exact h
  have hsmall : (201 : ℚ) / 2 ^ 53 < 1 / (d : ℚ) := by
    rw [div_lt_div_iff₀ (by norm_num) hdq]
    norm_num
    linarith
  have hone : (1 : ℚ) / (d : ℚ) ≤ 1 := by
    rw [div_le_one hdq]
    exact_mod_cast (by omega : (1 : Int) ≤ d)
  have hupper : ⌊roundDouble (roundDouble ((c : ℚ) / (d : ℚ)) * 100)⌋ ≤ 100 * c / d := by
    have : ⌊roundDouble (roundDouble ((c : ℚ) / (d : ℚ)) * 100)⌋ < 100 * c / d + 1 := by
      rw [Int.floor_lt]
      push_cast
      linarith [herr.2]
    omega
  refine ⟨?_, hupper, ?_⟩
  · rw [Int.le_floor]
    push_cast
    linarith [herr.1]
  · intro hndvd
    have hr2 : 1 ≤ 100 * c % d := by
      rcases eq_or_lt_of_le hr0 with h0 | hpos
      · exact absurd (Int.dvd_of_emod_eq_zero h0.symm) hndvd
      · omega
    have hrq2 : 1 / (d : ℚ) ≤ ((100 * c % d : Int) : ℚ) / (d : ℚ) := by
      have : (1 : ℚ) ≤ ((100 * c % d : Int) : ℚ) := by exact_mod_cast hr2
      exact div_le_div_of_nonneg_right this hdq.le
    have hlower : 100 * c / d ≤ ⌊roundDouble (roundDouble ((c : ℚ) / (d : ℚ)) * 100)⌋ := by
      rw [Int.le_floor]
      linarith [herr.1]
    omega

/-! ## The tiled preview: the layout without overflow -/

theorem wrapInt32_of_range {x : Int} (h1 : -2147483648 ≤ x) (h2 : x < 2147483648) :
    wrapInt32 x = x := by
  unfold wrapInt32
  omega

namespace ShowTiledImages

theorem showHeightValue_nonneg {origWidth origHeight : Int} (hw : 0 < origWidth)
    (hh : 0 < origHeight) : 0 ≤ showHeightValue origWidth origHeight 480 := by
  unfold showHeightValue
  apply roundDouble_nonneg
  have h1 : (0 : ℚ) ≤ roundDouble ((origHeight : ℚ) * ((480 : Int) : ℚ)) := by
    apply roundDouble_nonneg
    have : (0 : ℚ) < (origHeight : ℚ) := by exact_mod_cast hh
    positivity
  have h2 : (0 : ℚ) ≤ roundDouble (roundDouble ((origHeight : ℚ) * ((480 : Int) : ℚ)) /
      (origWidth : ℚ)) := by
    apply roundDouble_nonneg
    have : (0 : ℚ) < (origWidth : ℚ) := by exact_mod_cast hw
    positivity
  linarith

/-- The tile at grid position `i` for the tile height `sh`. -/
theorem tile_eq (sh : Int) (i : Nat) :
    ({ x := wrapInt32 (Int.tmod (i : Int) (Int.tdiv screenWidth 480) * 480),
       y := wrapInt32 (Int.tdiv (i : Int) (Int.tdiv screenWidth 480) * sh),
       width := 480, height := sh } : Rect) =
    { x := wrapInt32 (((i : Int) % 4) * 480), y := wrapInt32 (((i : Int) / 4) * sh),
      width := 480, height := sh } := by
  have h4 : Int.tdiv screenWidth 480 = 4 := by decide
  rw [h4, Int.tmod_eq_emod (Int.natCast_nonneg i) (by norm_num),
    Int.tdiv_eq_ediv (Int.natCast_nonneg i) (by norm_num)]

/-- The members that `init` assigns when no `int` computation overflows. -/
theorem init_layout (s : ShowTiledImages) (width height numImages : Int)
    (hw : 0 < width) (hh : 0 < height) (hn : 1 ≤ numImages)
    (hnum : numImages * 480 + 1919 < 2147483648)
    (hrows : (numImages * 480 + 1919) / 1920 * truncToInt (showHeightValue width height 480)
      < 2147483648) :
    0 ≤ truncToInt (showHeightValue width height 480) ∧
    (s.init width height numImages).2.showHeight
      = truncToInt (showHeightValue width height 480) ∧
    (s.init width height numImages).2.tileWidth
      = (if numImages ≤ 4 then numImages * 480 else 1920) ∧
    (s.init width height numImages).2.tileHeight
      = (numImages * 480 + 1919) / 1920 * truncToInt (showHeightValue width height 480) ∧
    (s.init width height numImages).2.locations
      = (List.range numImages.toNat).map (fun (i : Nat) =>
          ({ x := ((i : Int) % 4) * 480,
             y := ((i : Int) / 4) * truncToInt (showHeightValue width height 480),
             width := 480,
             height := truncToInt (showHeightValue width height 480) } : Rect)) := by
  have hsh0 : 0 ≤ truncToInt (showHeightValue width height 480) := by
    rw [truncToInt_of_nonneg (showHeightValue_nonneg hw hh)]
    exact Int.floor_nonneg.mpr (showHeightValue_nonneg hw hh)
  generalize hshdef : truncToInt (showHeightValue width height 480) = sh at hrows hsh0 ⊢
  have hrows1 : 1 ≤ (numImages * 480 + 1919) / 1920 := by omega
  have hrowsle : (numImages * 480 + 1919) / 1920 ≤ numImages := by omega
  have hshle : sh ≤ (numImages * 480 + 1919) / 1920 * sh := by
    have := mul_le_mul_of_nonneg_right hrows1 hsh0
    linarith
  have hwsh : wrapInt32 sh = sh := wrapInt32_of_range (by omega) (by omega)
  have hwn : wrapInt32 (numImages * 480) = numImages * 480 :=
    wrapInt32_of_range (by omega) (by omega)
  have hw1 : wrapInt32 (numImages * 480 + screenWidth) = numImages * 480 + 1920 := by
    have : screenWidth = 1920 := rfl
    rw [this]
    exact wrapInt32_of_range (by omega) (by omega)
  have hw2 : wrapInt32 (numImages * 480 + 1920 - 1) = numImages * 480 + 1919 := by
    have : numImages * 480 + 1920 - 1 = numImages * 480 + 1919 := by ring
    rw [this]
    exact wrapInt32_of_range (by omega) (by omega)
  have hdiv : Int.tdiv (numImages * 480 + 1919) screenWidth = (numImages * 480 + 1919) / 1920 := by
    have : screenWidth = 1920 := rfl
    rw [this]
    exact Int.tdiv_eq_ediv (by omega) (by norm_num)
  have hwt : wrapInt32 ((numImages * 480 + 1919) / 1920 * sh)
      = (numImages * 480 + 1919) / 1920 * sh := by
    apply wrapInt32_of_range _ hrows
    have : 0 ≤ (numImages * 480 + 1919) / 1920 * sh := mul_nonneg (by omega) hsh0
    omega
  refine ⟨hsh0, ?_, ?_, ?_, ?_⟩
  · show wrapInt32 (truncToInt (showHeightValue width height 480)) = sh
    rw [hshdef, hwsh]
  · show (if wrapInt32 (numImages * 480) ≤ screenWidth then wrapInt32 (numImages * 480)
        else screenWidth) = _
    rw [hwn]
    have : screenWidth = 1920 := rfl
    rw [this]
    split_ifs <;> omega
  · show wrapInt32 (Int.tdiv (wrapInt32 (wrapInt32 (wrapInt32 (numImages * 480) + screenWidth)
        - 1)) screenWidth * wrapInt32 (truncToInt (showHeightValue width height 480))) = _
    rw [hshdef, hwsh, hwn, hw1, hw2, hdiv, hwt]
  · show (List.range numImages.toNat).map (fun (i : Nat) =>
        ({ x := wrapInt32 (Int.tmod (i : Int) (Int.tdiv screenWidth 480) * 480),
           y := wrapInt32 (Int.tdiv (i : Int) (Int.tdiv screenWidth 480) *
             wrapInt32 (truncToInt (showHeightValue width height 480))),
           width := 480,
           height := wrapInt32 (truncToInt (showHeightValue width height 480)) } : Rect)) = _
    rw [hshdef, hwsh]
    apply List.map_congr_left
    intro i hi
    rw [List.mem_range] at hi
    rw [tile_eq sh i]
    have hi2 : (i : Int) < numImages := by omega
    have hx : wrapInt32 (((i : Int) % 4) * 480) = ((i : Int) % 4) * 480 :=
      wrapInt32_of_range (by omega) (by omega)
    have hy : wrapInt32 (((i : Int) / 4) * sh) = ((i : Int) / 4) * sh := by
      have h1 : (i : Int) / 4 ≤ (numImages * 480 + 1919) / 1920 := by omega
      have h2 := mul_le_mul_of_nonneg_right h1 hsh0
      have h3 : 0 ≤ ((i : Int) / 4) * sh := mul_nonneg (by omega) hsh0
      exact wrapInt32_of_range (by omega) (by omega)
    rw [hx, hy]

/-- The members `tileWidth` and `tileHeight` as `init` computes them. -/
theorem init_tile_size (s : ShowTiledImages) (width height numImages : Int) :
    (s.init width height numImages).2.tileWidth
      = (if wrapInt32 (numImages * 480) ≤ 1920 then wrapInt32 (numImages * 480) else 1920) ∧
    (s.init width height numImages).2.tileHeight
      = wrapInt32 (Int.tdiv (wrapInt32 (wrapInt32 (wrapInt32 (numImages * 480) + 1920) - 1)) 1920
          * wrapInt32 (truncToInt (showHeightValue width height 480))) ∧
    (s.init width height numImages).2.showHeight
      = wrapInt32 (truncToInt (showHeightValue width height 480)) :=
  ⟨rfl, rfl, rfl⟩

/-- The first tile sits at the origin. -/
theorem init_first_tile (s : ShowTiledImages) (width height numImages : Int)
    (hn : 0 < numImages.toNat) :
    ({ x := 0, y := 0, width := 480,
       height := wrapInt32 (truncToInt (showHeightValue width height 480)) } : Rect)
      ∈ (s.init width height numImages).2.locations := by
  have hx : wrapInt32 (Int.tmod ((0 : Nat) : Int) (Int.tdiv screenWidth 480) * 480) = 0 := by
    decide
  have hy : wrapInt32 (Int.tdiv ((0 : Nat) : Int) (Int.tdiv screenWidth 480) *
      wrapInt32 (truncToInt (showHeightValue width height 480))) = 0 := by
    have h0 : Int.tdiv ((0 : Nat) : Int) (Int.tdiv screenWidth 480) = 0 := by decide
    rw [h0, zero_mul]
    decide
  refine List.mem_map.mpr ⟨0, List.mem_range.mpr hn, ?_⟩
  simp only [hx, hy]

end ShowTiledImages

namespace ShowTiledImages

/-- The tile height for a 2560 x 1440 source: `1440 * 480.0 / 2560 + 0.5` is 270.5. -/
theorem showHeight_sample : truncToInt (showHeightValue 2560 1440 480) = 270 := by
  unfold showHeightValue
  have h1 : roundDouble (((1440 : Int) : ℚ) * ((480 : Int) : ℚ)) = 691200 := by
    have : (((1440 : Int) : ℚ) * ((480 : Int) : ℚ)) = 691200 := by norm_num
    rw [this]
    exact roundDouble_exact 19 (691200 * 2 ^ 33) (by norm_num) (by norm_num) (by norm_num)
  have h2 : roundDouble ((691200 : ℚ) / ((2560 : Int) : ℚ)) = 270 := by
    have : ((691200 : ℚ) / ((2560 : Int) : ℚ)) = 270 := by norm_num
    rw [this]
    exact roundDouble_exact 8 (270 * 2 ^ 44) (by norm_num) (by norm_num) (by norm_num)
  have h3 : roundDouble ((270 : ℚ) + 1 / 2) = 541 / 2 := by
    have : ((270 : ℚ) + 1 / 2) = 541 / 2 := by norm_num
    rw [this]
    exact roundDouble_exact 8 (541 * 2 ^ 43) (by norm_num) (by norm_num) (by norm_num)
  rw [h1, h2, h3, truncToInt_of_nonneg (by norm_num), Int.floor_eq_iff]
  constructor <;> norm_num

/-- The tile height for a 1 x 2236963 source: `2236963 * 480.0 / 1 + 0.5`. -/
theorem showHeight_tall : truncToInt (showHeightValue 1 2236963 480) = 1073742240 := by
  unfold showHeightValue
  have h1 : roundDouble (((2236963 : Int) : ℚ) * ((480 : Int) : ℚ)) = 1073742240 := by
    have : (((2236963 : Int) : ℚ) * ((480 : Int) : ℚ)) = 1073742240 := by norm_num
    rw [this]
    exact roundDouble_exact 30 (1073742240 * 2 ^ 22) (by norm_num) (by norm_num) (by norm_num)
  have h2 : roundDouble ((1073742240 : ℚ) / ((1 : Int) : ℚ)) = 1073742240 := by
    have : ((1073742240 : ℚ) / ((1 : Int) : ℚ)) = 1073742240 := by norm_num
    rw [this]
    exact roundDouble_exact 30 (1073742240 * 2 ^ 22) (by norm_num) (by norm_num) (by norm_num)
  have h3 : roundDouble ((1073742240 : ℚ) + 1 / 2) = 2147484481 / 2 := by
    have : ((1073742240 : ℚ) + 1 / 2) = 2147484481 / 2 := by norm_num
    rw [this]
    exact roundDouble_exact 30 (2147484481 * 2 ^ 21) (by norm_num) (by norm_num) (by norm_num)
  rw [h1, h2, h3, truncToInt_of_nonneg (by norm_num), Int.floor_eq_iff]
  constructor <;> norm_num

end ShowTiledImages

/-! ## C21: the blend overload of a sample -/

/-- C21: blend-path selection in the CPU loop. For a video sample with frames
`l.frames`, the blend with override masks is chosen exactly when `useCustomMasks` is
set (which after a successful `init` means that a custom-mask file was named, its
contours were loaded for all sources and converted) and some source `i` has a custom
mask for the time stamp of its own frame; the override list then has one entry per
source, telling for source `i` whether its custom mask (`true`) or its baseline
unique mask (`false`) is used; in every other case the baseline blend is chosen.
Processing a sample calls the blender once, after the reprojection has returned, with
the chosen overload, and makes no other call on it; in the sample run the second
sample, where source 1 has a custom mask, goes through the override blend. -/
theorem C21_blend_path_selection
    (env : CPUPanoramaLocalDiskTask.RunEnv) (s : CPUPanoramaLocalDiskTask.Impl)
    (l : CPUPanoramaLocalDiskTask.RunLocals)
    (e : CPUPanoramaLocalDiskTask.InitEnv) (a : InitArgs) (s0 : CPUPanoramaLocalDiskTask.Impl) :
    ((∃ uses, CPUPanoramaLocalDiskTask.chooseBlend env s l.frames =
          CPUPanoramaLocalDiskTask.BlendCall.custom uses) ↔
      s.useCustomMasks ≠ 0 ∧
        ∃ i : Nat, i < s.numVideos.toNat ∧ env.getMask i (l.frames i).timeStamp = true) ∧
    (∀ uses, CPUPanoramaLocalDiskTask.chooseBlend env s l.frames =
          CPUPanoramaLocalDiskTask.BlendCall.custom uses →
      uses.length = s.numVideos.toNat ∧
        ∀ i : Nat, i < s.numVideos.toNat →
          uses[i]? = some (env.getMask i (l.frames i).timeStamp)) ∧
    (CPUPanoramaLocalDiskTask.chooseBlend env s l.frames =
          CPUPanoramaLocalDiskTask.BlendCall.baseline ↔
      ¬ (s.useCustomMasks ≠ 0 ∧
        ∃ i : Nat, i < s.numVideos.toNat ∧ env.getMask i (l.frames i).timeStamp = true)) ∧
    (CPUPanoramaLocalDiskTask.processSample env s l).blendLog =
      (if env.reproject l.count.toNat then
        s.blendLog ++ [CPUPanoramaLocalDiskTask.chooseBlend env s l.frames]
      else s.blendLog) ∧
    ((CPUPanoramaLocalDiskTask.Impl.init e a s0).1 = true →
      ((CPUPanoramaLocalDiskTask.started e a s0).useCustomMasks ≠ 0 ↔
        a.customMaskFile.length ≠ 0) ∧
      (a.customMaskFile.length ≠ 0 →
        e.loadIntervaledContours = some a.srcVideoFiles.length ∧
          e.cvtContoursToMasks = true)) ∧
    ((CPUPanoramaLocalDiskTask.started
        (CPUPanoramaLocalDiskTask.customMaskInitEnv ⟨shortReaders, -1, 2⟩) customMaskArgs
        CPUPanoramaLocalDiskTask.Impl.new).runSteps
        CPUPanoramaLocalDiskTask.customMaskRunEnv 3).blendLog =
      [CPUPanoramaLocalDiskTask.BlendCall.baseline,
       CPUPanoramaLocalDiskTask.BlendCall.custom [false, true]] := by
  refine ⟨CPUPanoramaLocalDiskTask.chooseBlend_custom_iff env s l.frames,
    CPUPanoramaLocalDiskTask.chooseBlend_custom_masks env s l.frames, ?_,
    CPUPanoramaLocalDiskTask.processSample_blendLog env s l, ?_, by decide!⟩
  · rw [← CPUPanoramaLocalDiskTask.chooseBlend_custom_iff env s l.frames]
    constructor
    · rintro h ⟨uses, hu⟩
      rw [h] at hu
      exact absurd hu (by simp)
    · intro h
      rcases CPUPanoramaLocalDiskTask.chooseBlend_cases env s l.frames with hb | hc
      · exact hb
      · exact absurd hc h
  · intro hinit
    have hst := CPUPanoramaLocalDiskTask.start_after_init e a s0 hinit
    have hu := CPUPanoramaLocalDiskTask.init_useCustomMasks e a s0 hinit
    unfold CPUPanoramaLocalDiskTask.started
    rw [hst]
    exact hu

/-- An instance of C21: with the custom-mask file named and its contours loaded for
both sources, the controller comes out of `init` and `start` with `useCustomMasks`
set. -/
theorem C21_blend_path_witness :
    (CPUPanoramaLocalDiskTask.started
        (CPUPanoramaLocalDiskTask.customMaskInitEnv ⟨shortReaders, -1, 2⟩) customMaskArgs
        CPUPanoramaLocalDiskTask.Impl.new).useCustomMasks ≠ 0 :=
  ((C21_blend_path_selection CPUPanoramaLocalDiskTask.customMaskRunEnv
      CPUPanoramaLocalDiskTask.Impl.new ⟨0, 1, fun _ => default⟩
      (CPUPanoramaLocalDiskTask.customMaskInitEnv ⟨shortReaders, -1, 2⟩) customMaskArgs
      CPUPanoramaLocalDiskTask.Impl.new).2.2.2.2.1 (by decide)).1.mpr (by decide)

/-! ## C22: the update step and the stored value -/

/-- C22, as stated, fails on the stored value: for the frame count 29 and the cap 100
the code stores 28, not `floor(100 * 29 / 100) = 29`, because `29 / 100.0 * 100` is
just below 29 in double arithmetic. The CPU run over thirty samples with cap 100 shows
it: after the 29th video frame is written the progress is 28. -/
theorem C22_progress_value_counterexample :
    progressValue 29 100 = 28 ∧ (100 * 29 / 100 : Int) = 29 ∧
    Int.tmod 29 (progressStep 100) = 0 ∧
    (CPUPanoramaLocalDiskTask.writtenVideo
      ((CPUPanoramaLocalDiskTask.started
        (CPUPanoramaLocalDiskTask.sampleInitEnv ⟨longReaders, -1, 100⟩) sampleArgs
        CPUPanoramaLocalDiskTask.Impl.new).runSteps
        CPUPanoramaLocalDiskTask.sampleRunEnv 30).writer).length = 29 ∧
    ((CPUPanoramaLocalDiskTask.started
        (CPUPanoramaLocalDiskTask.sampleInitEnv ⟨longReaders, -1, 100⟩) sampleArgs
        CPUPanoramaLocalDiskTask.Impl.new).runSteps
        CPUPanoramaLocalDiskTask.sampleRunEnv 30).getProgress = 28 := by
  refine ⟨by decide!, by decide, by decide!, by decide!, by decide!⟩

/-- C22 (amended): for a frame cap `v` (an `int`) the update step is
`max(1, floor((v + 50) / 100))` when `v > 0` and 1 when `v <= 0`, and the CPU loop and
the GPU encode stage both set it up so. Both store the progress exactly when the
frame count `c` is a multiple of the step, and both store the same value: the
truncation of `double(c) / v * 100` (divisor 100 when `v <= 0`). For `c` up to the
divisor this value is the exact percentage rounded down or one less, and one less
only when the exact percentage is an integer; for the one frame counted when
`v <= 0` it is 1. -/
theorem C22_progress_step_and_value (v c step : Int)
    (s : CPUPanoramaLocalDiskTask.Impl) (g : CudaPanoramaLocalDiskTask.Impl)
    (env : CPUPanoramaLocalDiskTask.RunEnv) (envg : CudaPanoramaLocalDiskTask.RunEnv)
    (hv : v < 2147483648) (hc : 0 ≤ c) (hcd : c ≤ (if v > 0 then v else 100 : Int))
    (hs : s.validFrameCount = v) (hg : g.validFrameCount = v) (hgc : g.encodeCount = c) :
    progressStep v = (if v > 0 then max 1 ((v + 50) / 100) else 1) ∧
    (s.thread = some CPUPanoramaLocalDiskTask.ThreadState.spawned →
      s.initSuccess = true → s.finish = false →
        (s.threadStep env).thread = some (CPUPanoramaLocalDiskTask.ThreadState.running
          ⟨0, progressStep v, fun _ => default⟩)) ∧
    (g.encodeThread = some CudaPanoramaLocalDiskTask.EncodePc.spawned →
        (g.encodeStep envg).encodeThread
          = some (CudaPanoramaLocalDiskTask.EncodePc.loop (progressStep v))) ∧
    (s.updateProgress c step).storeLog
      = (if step ∣ c then s.storeLog ++ [progressValue c v] else s.storeLog) ∧
    (g.updateProgress step).storeLog
      = (if step ∣ c then g.storeLog ++ [progressValue c v] else g.storeLog) ∧
    100 * c / (if v > 0 then v else 100 : Int) - 1 ≤ progressValue c v ∧
    progressValue c v ≤ 100 * c / (if v > 0 then v else 100 : Int) ∧
    (¬ (if v > 0 then v else 100 : Int) ∣ 100 * c →
      progressValue c v = 100 * c / (if v > 0 then v else 100 : Int)) ∧
    (v ≤ 0 → progressValue 1 v = 1) := by
  obtain ⟨b1, b2, b3⟩ := progressValue_closed hc hcd hv
  refine ⟨?_, ?_, ?_, ?_, ?_, b1, b2, b3, ?_⟩
  · split_ifs with h
    · exact progressStep_closed h hv
    · exact progressStep_of_nonpos (by omega)
  · intro hth hi hf
    unfold CPUPanoramaLocalDiskTask.Impl.threadStep
    rw [hth]
    simp only [hi, hf, Bool.not_true, Bool.false_eq_true, if_false, hs]
  · intro hth
    unfold CudaPanoramaLocalDiskTask.Impl.encodeStep
    rw [hth]
    simp only [hg]
  · unfold CPUPanoramaLocalDiskTask.Impl.updateProgress
    rw [hs]
    by_cases hd : step ∣ c
    · rw [if_pos hd, if_pos (Int.dvd_iff_tmod_eq_zero.mp hd)]
      rfl
    · rw [if_neg hd, if_neg (fun h => hd (Int.dvd_iff_tmod_eq_zero.mpr h))]
  · unfold CudaPanoramaLocalDiskTask.Impl.updateProgress
    rw [hg, hgc]
    by_cases hd : step ∣ c
    · rw [if_pos hd, if_pos (Int.dvd_iff_tmod_eq_zero.mp hd)]
      rfl
    · rw [if_neg hd, if_neg (fun h => hd (Int.dvd_iff_tmod_eq_zero.mpr h))]
  · intro hv0
    have h : progressValue 1 v = progressValue 1 0 := by
      unfold progressValue
      rw [if_neg (by omega), if_neg (by omega)]
    rw [h]
    decide!

/-- An instance of C22: the cap 250 gives the step 3; at the frame count 33 the
exact percentage 13.2 is not an integer and the stored value is 13; at the frame
count 29 of the cap 100 the bounds leave 28 and 29, and the code stores 28. -/
theorem C22_progress_step_witness :
    progressStep 250 = 3 ∧ progressValue 33 250 = 13 ∧
    (28 ≤ progressValue 29 100 ∧ progressValue 29 100 ≤ 29) :=
  have h := C22_progress_step_and_value 250 33 3
    { CPUPanoramaLocalDiskTask.Impl.new with validFrameCount := 250 }
    { CudaPanoramaLocalDiskTask.Impl.new with validFrameCount := 250, encodeCount := 33 }
    CPUPanoramaLocalDiskTask.sampleRunEnv CudaPanoramaLocalDiskTask.sampleRunEnv
    (by decide) (by decide) (by decide) rfl rfl rfl
  have h2 := C22_progress_step_and_value 100 29 1
    { CPUPanoramaLocalDiskTask.Impl.new with validFrameCount := 100 }
    { CudaPanoramaLocalDiskTask.Impl.new with validFrameCount := 100, encodeCount := 29 }
    CPUPanoramaLocalDiskTask.sampleRunEnv CudaPanoramaLocalDiskTask.sampleRunEnv
    (by decide) (by decide) (by decide) rfl rfl rfl
  ⟨h.1.trans (by decide), (h.2.2.2.2.2.2.2.1 (by decide)).trans (by decide),
    le_trans (by decide) h2.2.2.2.2.2.1, le_trans h2.2.2.2.2.2.2.1 (by decide)⟩

/-! ## C23: `prepare` validates the masks -/

/-- C23: `ExposureColorCorrect::prepare` returns `true` exactly when the mask list is
not empty and every mask has data, has type `CV_8UC1` and has the rows and columns of
the first mask. After a `prepare` that returned `false`, whatever the object held
before, `correctExposure`, `correctExposureAndWhiteBalance` and `correctColorExposure`
return `false` for every image list; `clear()` has the same effect. -/
theorem C23_prepare_validates_masks (s : ExposureColorCorrect) (masks images : List Mat) :
    ((s.prepare masks).1 = true ↔
      ∃ m0 rest, masks = m0 :: rest ∧
        ∀ m ∈ masks, m.hasData = true ∧ m.type = CV_8UC1 ∧ m.rows = m0.rows ∧
          m.cols = m0.cols) ∧
    ((s.prepare masks).1 = false →
      (s.prepare masks).2.correctExposure images = CorrectOutcome.returned false ∧
      (s.prepare masks).2.correctExposureAndWhiteBalance images =
        CorrectOutcome.returned false ∧
      (s.prepare masks).2.correctColorExposure images = CorrectOutcome.returned false) ∧
    (s.clear.correctExposure images = CorrectOutcome.returned false ∧
      s.clear.correctExposureAndWhiteBalance images = CorrectOutcome.returned false ∧
      s.clear.correctColorExposure images = CorrectOutcome.returned false) := by
  refine ⟨?_, ?_, ⟨rfl, rfl, rfl⟩⟩
  · cases masks with
    | nil =>
      constructor
      · intro h
        exact absurd h (by simp [ExposureColorCorrect.prepare])
      · rintro ⟨m0, rest, h, _⟩
        exact absurd h (by simp)
    | cons m0 rest =>
      have hp : (s.prepare (m0 :: rest)).1 =
          ExposureColorCorrect.checkMasks
            { s with prepareSuccess := 0, numImages := ((m0 :: rest).length : Int),
                     rows := m0.rows, cols := m0.cols } (m0 :: rest) := by
        unfold ExposureColorCorrect.prepare
        simp only
        split
        · rename_i hc
          exact hc.symm
        · rename_i hc
          simp only [Bool.not_eq_true] at hc
          exact hc.symm
      rw [hp, checkMasks_iff]
      constructor
      · intro h
        refine ⟨m0, rest, rfl, fun m hm => ?_⟩
        exact (rejectsMask_false_iff _ m).mp (h m hm)
      · rintro ⟨m1, rest1, heq, h⟩ m hm
        injection heq with h1 h2
        subst h1
        exact (rejectsMask_false_iff _ m).mpr (h m hm)
  · intro h
    have hflag := prepare_false_flag s masks h
    unfold ExposureColorCorrect.correctExposure
      ExposureColorCorrect.correctExposureAndWhiteBalance
      ExposureColorCorrect.correctColorExposure
    rw [if_pos hflag]
    exact ⟨rfl, rfl, rfl⟩

/-- An instance of C23: a second mask of another size makes `prepare` fail, also on
an object prepared before, and the three functions then return `false`. -/
theorem C23_prepare_witness :
    ((ExposureColorCorrect.cleared.prepare [ExposureColorCorrect.sampleMask]).2.prepare
        [ExposureColorCorrect.sampleMask, ⟨true, CV_8UC1, 4, 8⟩]).1 = false ∧
    ((ExposureColorCorrect.cleared.prepare [ExposureColorCorrect.sampleMask]).2.prepare
        [ExposureColorCorrect.sampleMask, ⟨true, CV_8UC1, 4, 8⟩]).2.correctExposure
        [ExposureColorCorrect.sampleImage, ExposureColorCorrect.sampleImage] =
      CorrectOutcome.returned false :=
  ⟨by decide,
   ((C23_prepare_validates_masks
      (ExposureColorCorrect.cleared.prepare [ExposureColorCorrect.sampleMask]).2
      [ExposureColorCorrect.sampleMask, ⟨true, CV_8UC1, 4, 8⟩]
      [ExposureColorCorrect.sampleImage, ExposureColorCorrect.sampleImage]).2.1
      (by decide)).1⟩

/-! ## C24: a cap that is not positive -/

/-- C24: when `validFrameCount <= 0` after a successful `init`, the test
`count >= validFrameCount` holds after the first frame. In the CPU loop the step that
follows a written video frame leaves the loop, and under every schedule and every
behaviour of the collaborators the destination holds at most one video frame. In the
GPU topology `decode()` counts at most one pushed sample and `encode()` at most one
video frame, under every schedule. -/
theorem C24_nonpositive_cap_single_frame
    (e : CPUPanoramaLocalDiskTask.InitEnv) (eg : CudaPanoramaLocalDiskTask.InitEnv)
    (a : InitArgs) (s0 : CPUPanoramaLocalDiskTask.Impl) (g0 : CudaPanoramaLocalDiskTask.Impl)
    (env : CPUPanoramaLocalDiskTask.RunEnv) (envg : CudaPanoramaLocalDiskTask.RunEnv)
    (schedule : List CPUPanoramaLocalDiskTask.Action)
    (scheduleg : List CudaPanoramaLocalDiskTask.Action)
    (hinit : (CPUPanoramaLocalDiskTask.Impl.init e a s0).1 = true)
    (hcap : (CPUPanoramaLocalDiskTask.Impl.init e a s0).2.validFrameCount ≤ 0)
    (hcapg : (CudaPanoramaLocalDiskTask.Impl.init eg a g0).2.validFrameCount ≤ 0) :
    (∀ (s : CPUPanoramaLocalDiskTask.Impl) (l : CPUPanoramaLocalDiskTask.RunLocals),
      s.validFrameCount ≤ 0 → 0 ≤ l.count →
        (CPUPanoramaLocalDiskTask.afterVideoWrite s l).runReturned = true) ∧
    (CPUPanoramaLocalDiskTask.writtenVideo
        ((CPUPanoramaLocalDiskTask.started e a s0).exec env schedule).writer).length ≤ 1 ∧
    ((CudaPanoramaLocalDiskTask.started eg a g0).exec envg scheduleg).decodeCount ≤ 1 ∧
    ((CudaPanoramaLocalDiskTask.started eg a g0).exec envg scheduleg).encodeCount ≤ 1 := by
  refine ⟨?_, ?_, ?_⟩
  · intro s l hv hc
    obtain ⟨-, -, -, -, -, u6⟩ :=
      CPUPanoramaLocalDiskTask.updateProgress_count_fields s (l.count + 1) l.step
    unfold CPUPanoramaLocalDiskTask.afterVideoWrite
    simp only
    rw [if_pos (by rw [u6]; omega)]
    rfl
  · have h := (CPUPanoramaLocalDiskTask.exec_cap env schedule
      (CPUPanoramaLocalDiskTask.started_cap e a s0 hinit)).written_le
    rw [max_eq_right (le_trans hcap (by norm_num))] at h
    exact_mod_cast h
  · have h := CudaPanoramaLocalDiskTask.exec_inv_gpu envg scheduleg
      (CudaPanoramaLocalDiskTask.start_inv_gpu eg a g0)
    exact CudaPanoramaLocalDiskTask.decodeCount_le_one h hcapg

/-- An instance of C24: two sources of two video frames each and no cap. The CPU run
ends with one video frame written, the GPU run with one sample counted by `decode()`,
although a second complete sample is there. -/
theorem C24_nonpositive_cap_witness :
    CPUPanoramaLocalDiskTask.completeSamples (-1) shortReaders = 2 ∧
    (CPUPanoramaLocalDiskTask.writtenVideo
        ((CPUPanoramaLocalDiskTask.started
            (CPUPanoramaLocalDiskTask.sampleInitEnv ⟨shortReaders, -1, 0⟩) sampleArgs
            CPUPanoramaLocalDiskTask.Impl.new).exec CPUPanoramaLocalDiskTask.sampleRunEnv
          (List.replicate 5 CPUPanoramaLocalDiskTask.Action.step)).writer).length ≤ 1 ∧
    ((CudaPanoramaLocalDiskTask.started
          (CudaPanoramaLocalDiskTask.sampleInitEnv ⟨shortReaders, -1, 0⟩) sampleArgs
          CudaPanoramaLocalDiskTask.Impl.new).exec CudaPanoramaLocalDiskTask.sampleRunEnv
        (CudaPanoramaLocalDiskTask.roundRobin 8)).decodeCount ≤ 1 ∧
    ((CudaPanoramaLocalDiskTask.started
          (CudaPanoramaLocalDiskTask.sampleInitEnv ⟨shortReaders, -1, 0⟩) sampleArgs
          CudaPanoramaLocalDiskTask.Impl.new).exec CudaPanoramaLocalDiskTask.sampleRunEnv
        (CudaPanoramaLocalDiskTask.roundRobin 8)).decodeCount = 1 :=
  have h := C24_nonpositive_cap_single_frame
    (CPUPanoramaLocalDiskTask.sampleInitEnv ⟨shortReaders, -1, 0⟩)
    (CudaPanoramaLocalDiskTask.sampleInitEnv ⟨shortReaders, -1, 0⟩) sampleArgs
    CPUPanoramaLocalDiskTask.Impl.new CudaPanoramaLocalDiskTask.Impl.new
    CPUPanoramaLocalDiskTask.sampleRunEnv CudaPanoramaLocalDiskTask.sampleRunEnv
    (List.replicate 5 CPUPanoramaLocalDiskTask.Action.step)
    (CudaPanoramaLocalDiskTask.roundRobin 8) (by decide) (by decide) (by decide)
  ⟨by decide, h.2.1, h.2.2.1, by decide⟩

/-! ## C25: the index of the output time stamp -/

/-- C25: in `proc()` the time stamp of the output frame is read at index `audioIndex`
when `audioIndex >= 0` and at index 0 otherwise. Every sample that `decode()` hands
over carries `numVideos` time stamps, so the access is in bounds exactly when
`audioIndex < numVideos`. `init()` does not reject an `audioIndex >= numVideos`: it
only skips the audio frame pool, succeeds when its other collaborators do and stores
the index unchanged; `proc()` does not test it either, so for such a value and a
sample that passed the render and the overlay the access finds no entry (the
embedding ends the process there). -/
theorem C25_timestamp_index_unchecked
    (e : CudaPanoramaLocalDiskTask.InitEnv) (a : InitArgs) (s0 : CudaPanoramaLocalDiskTask.Impl)
    (p : PreparedSrc) (env : CudaPanoramaLocalDiskTask.RunEnv)
    (s : CudaPanoramaLocalDiskTask.Impl) (v : CudaPanoramaLocalDiskTask.StampedPinnedMemoryVector)
    (hn : 1 ≤ s.numVideos) :
    CudaPanoramaLocalDiskTask.timeStampIndex s.audioIndex
        = (if s.audioIndex ≥ 0 then s.audioIndex else 0) ∧
    (s.decodeThread = some CudaPanoramaLocalDiskTask.DecodePc.loop →
      s.decodeStep.decodeThread = some (CudaPanoramaLocalDiskTask.DecodePc.pushVideo v) →
        v.timeStamps.length = s.numVideos.toNat) ∧
    (v.timeStamps.length = s.numVideos.toNat →
      ((v.timeStamps[(CudaPanoramaLocalDiskTask.timeStampIndex s.audioIndex).toNat]?).isSome
          = true ↔ s.audioIndex < s.numVideos)) ∧
    (¬ (a.srcVideoFiles.isEmpty ∨ a.srcVideoFiles.length ≠ a.offsets.length) →
      e.prepareSrcVideos = some p → (a.srcVideoFiles.length : Int) ≤ p.audioIndex →
      e.srcFramesMemoryPoolInit = true → e.renderPrepare = true →
      e.renderNumImages = (a.srcVideoFiles.length : Int) →
      e.dstFramesMemoryPoolInit = true → e.logoFilterInit = true → e.writerOpen = true →
        (CudaPanoramaLocalDiskTask.Impl.init e a s0).1 = true ∧
        (CudaPanoramaLocalDiskTask.Impl.init e a s0).2.audioIndex = p.audioIndex ∧
        (CudaPanoramaLocalDiskTask.Impl.init e a s0).2.numVideos
          = (a.srcVideoFiles.length : Int)) ∧
    (v.timeStamps.length = s.numVideos.toNat → s.numVideos ≤ s.audioIndex →
      env.render s.procCount.toNat = CallResult.ok →
      (env.addLogo = true → env.logoFilterAddLogo s.procCount.toNat = CallResult.ok) →
        v.timeStamps[(CudaPanoramaLocalDiskTask.timeStampIndex s.audioIndex).toNat]? = none ∧
        CudaPanoramaLocalDiskTask.procSample env s v = s.abort) :=
  ⟨rfl,
   fun hloop h => CudaPanoramaLocalDiskTask.decodeStep_sample_length s v hloop h,
   fun hlen => CudaPanoramaLocalDiskTask.timeStamp_in_bounds _ _ _ hn hlen,
   fun hargs hp hk hsrc hren hnum hdst hlogo hopen =>
     CudaPanoramaLocalDiskTask.init_accepts_audioIndex e a s0 p hargs hp hk hsrc hren hnum
       hdst hlogo hopen,
   fun hlen hk hrender hlogo =>
     CudaPanoramaLocalDiskTask.procSample_out_of_range env s v hn hlen hk hrender hlogo⟩

/-- An instance of C25: two sources and the audio index 2. `init` and `start` succeed,
and the first sample that reaches `proc()` ends in the access `timeStamps[2]` on a
vector of two entries. -/
theorem C25_timestamp_index_witness :
    (CudaPanoramaLocalDiskTask.Impl.init CudaPanoramaLocalDiskTask.largeAudioIndexEnv
        sampleArgs CudaPanoramaLocalDiskTask.Impl.new).1 = true ∧
    (CudaPanoramaLocalDiskTask.started CudaPanoramaLocalDiskTask.largeAudioIndexEnv
        sampleArgs CudaPanoramaLocalDiskTask.Impl.new).audioIndex = 2 ∧
    ((CudaPanoramaLocalDiskTask.started CudaPanoramaLocalDiskTask.largeAudioIndexEnv
        sampleArgs CudaPanoramaLocalDiskTask.Impl.new).exec
        CudaPanoramaLocalDiskTask.sampleRunEnv
        (CudaPanoramaLocalDiskTask.roundRobin 3)).aborted = true ∧
    (⟨[10, 10]⟩ : CudaPanoramaLocalDiskTask.StampedPinnedMemoryVector).timeStamps[
        (CudaPanoramaLocalDiskTask.timeStampIndex 2).toNat]? = none :=
  ⟨by decide, by decide, by decide,
   ((C25_timestamp_index_unchecked CudaPanoramaLocalDiskTask.largeAudioIndexEnv sampleArgs
      CudaPanoramaLocalDiskTask.Impl.new ⟨shortReaders, 2, 2⟩
      CudaPanoramaLocalDiskTask.sampleRunEnv
      (CudaPanoramaLocalDiskTask.started CudaPanoramaLocalDiskTask.largeAudioIndexEnv
        sampleArgs CudaPanoramaLocalDiskTask.Impl.new)
      ⟨[10, 10]⟩ (by decide)).2.2.2.2 (by decide) (by decide) (by decide) (by decide)).1⟩

/-! ## C26: the image list is indexed without a length test -/

/-- C26, as stated, fails: after a successful `prepare` with two masks, a list of one
image without data is shorter than two, and each of the three functions returns
`false` at index 0 instead of reaching an access out of bounds. -/
theorem C26_short_list_counterexample :
    (ExposureColorCorrect.cleared.prepare
        [ExposureColorCorrect.sampleMask, ExposureColorCorrect.sampleMask]).1 = true ∧
    [ExposureColorCorrect.emptyImage].length < 2 ∧
    (ExposureColorCorrect.cleared.prepare
        [ExposureColorCorrect.sampleMask, ExposureColorCorrect.sampleMask]).2.correctExposure
        [ExposureColorCorrect.emptyImage] = CorrectOutcome.returned false ∧
    (ExposureColorCorrect.cleared.prepare
        [ExposureColorCorrect.sampleMask,
         ExposureColorCorrect.sampleMask]).2.correctExposureAndWhiteBalance
        [ExposureColorCorrect.emptyImage] = CorrectOutcome.returned false ∧
    (ExposureColorCorrect.cleared.prepare
        [ExposureColorCorrect.sampleMask,
         ExposureColorCorrect.sampleMask]).2.correctColorExposure
        [ExposureColorCorrect.emptyImage] = CorrectOutcome.returned false := by
  decide

/-- C26 (amended): after a successful `prepare` with `n` masks the three functions
index `images[0..n-1]` without a test of the length of the list. For a list of length
at least `n` every access is in bounds and the function returns. For a list shorter
than `n` whose images all pass the per-image test the function reaches the access
`images[length]`, which is out of bounds; if one of its images fails the test the
function returns `false` before that. -/
theorem C26_unchecked_image_list (s : ExposureColorCorrect) (masks images : List Mat)
    (hprep : (s.prepare masks).1 = true) :
    (masks.length ≤ images.length →
      ∃ b1 b2 b3,
        (s.prepare masks).2.correctExposure images = CorrectOutcome.returned b1 ∧
        (s.prepare masks).2.correctExposureAndWhiteBalance images =
          CorrectOutcome.returned b2 ∧
        (s.prepare masks).2.correctColorExposure images = CorrectOutcome.returned b3) ∧
    (images.length < masks.length →
      (∀ im ∈ images, (s.prepare masks).2.rejectsImage im = false) →
        (s.prepare masks).2.correctExposure images =
          CorrectOutcome.outOfRange images.length ∧
        (s.prepare masks).2.correctExposureAndWhiteBalance images =
          CorrectOutcome.outOfRange images.length ∧
        (s.prepare masks).2.correctColorExposure images =
          CorrectOutcome.outOfRange images.length) ∧
    (images.length < masks.length →
      (∃ im ∈ images, (s.prepare masks).2.rejectsImage im = true) →
        (s.prepare masks).2.correctExposure images = CorrectOutcome.returned false ∧
        (s.prepare masks).2.correctExposureAndWhiteBalance images =
          CorrectOutcome.returned false ∧
        (s.prepare masks).2.correctColorExposure images =
          CorrectOutcome.returned false) := by
  obtain ⟨hflag, hnum, _, _⟩ := prepare_true_state s masks hprep
  have hne : ¬ ((s.prepare masks).2.prepareSuccess = 0) := by
    rw [hflag]
    decide
  have hn : (s.prepare masks).2.numImages.toNat = masks.length := by
    rw [hnum]
    exact Int.toNat_natCast _
  unfold ExposureColorCorrect.correctExposure
    ExposureColorCorrect.correctExposureAndWhiteBalance
    ExposureColorCorrect.correctColorExposure
  simp only [if_neg hne, hn, List.range_eq_range']
  refine ⟨fun hlen => ?_, fun hlen hpass => ?_, fun hlen hrej => ?_⟩
  · obtain ⟨b, hb⟩ := checkImages_in_bounds (s.prepare masks).2 images masks.length 0
      (by omega)
    exact ⟨b, b, b, hb, hb, hb⟩
  · have h := checkImages_out_of_range (s.prepare masks).2 images hpass masks.length 0
      (Nat.zero_le _) (by omega)
    exact ⟨h, h, h⟩
  · obtain ⟨im, hmem, hr⟩ := hrej
    obtain ⟨j, hj, hget⟩ := List.getElem_of_mem hmem
    have h := checkImages_rejected (s.prepare masks).2 images masks.length 0
      ⟨j, im, Nat.zero_le _, by omega, by rw [List.getElem?_eq_getElem hj, hget], hr⟩
    exact ⟨h, h, h⟩

/-- An instance of C26: two masks and one good image end in the access `images[1]`. -/
theorem C26_unchecked_image_list_witness :
    (ExposureColorCorrect.cleared.prepare
        [ExposureColorCorrect.sampleMask, ExposureColorCorrect.sampleMask]).2.correctExposure
        [ExposureColorCorrect.sampleImage] = CorrectOutcome.outOfRange 1 :=
  ((C26_unchecked_image_list ExposureColorCorrect.cleared
      [ExposureColorCorrect.sampleMask, ExposureColorCorrect.sampleMask]
      [ExposureColorCorrect.sampleImage] (by decide)).2.1 (by decide) (by decide)).1

/-! ## C27: the white-balance anchor -/

/-- C27: the anchor of `correctExposureAndWhiteBalance` is chosen by comparing each
`diff[i]` against a running minimum that is an `int`. For `diff = [0.9, 0.5]` the
anchor stays at image 0 although image 1 has the smaller value; for `[2.5, 0.5]` it
moves to image 1; for `[2.5, 1.5, 1.2]` it moves to image 1 and stays there although
image 2 has the least value. In the loop image `i` becomes the anchor exactly when
`diff[i]` is strictly below the truncated running minimum, which then becomes the
truncation of `diff[i]`. For every list `d0 :: rest` the result is the anchor that
this loop leaves: it is image 0 exactly when no later entry is below the truncation
of `d0`; otherwise it is an image `k + 1` whose entry is below the truncation of
`d0` and after which no entry is below the truncation of that entry. In particular,
whenever the entries are non-negative and `diff[0] < 1` the anchor is image 0. -/
theorem C27_anchor_uses_truncated_minimum :
    ExposureColorCorrect.chooseAnchor [9 / 10, 1 / 2] = 0 ∧ (1 / 2 : ℚ) < 9 / 10 ∧
    ExposureColorCorrect.chooseAnchor [5 / 2, 1 / 2] = 1 ∧
    (ExposureColorCorrect.chooseAnchor [5 / 2, 3 / 2, 6 / 5] = 1 ∧ (6 / 5 : ℚ) < 3 / 2) ∧
    (∀ (d : ℚ) (rest : List ℚ) (i anchorIndex minDiff : Int),
      ExposureColorCorrect.anchorLoop (d :: rest) i (anchorIndex, minDiff) =
        ExposureColorCorrect.anchorLoop rest (i + 1)
          (if d < (minDiff : ℚ) then (i, truncToInt d) else (anchorIndex, minDiff))) ∧
    (∀ (d0 : ℚ) (rest : List ℚ),
      ExposureColorCorrect.chooseAnchor (d0 :: rest)
        = (ExposureColorCorrect.anchorLoop (d0 :: rest) 0 (0, truncToInt d0)).1 ∧
      (ExposureColorCorrect.chooseAnchor (d0 :: rest) = 0 ↔
        ∀ d ∈ rest, ¬ d < ((truncToInt d0 : Int) : ℚ)) ∧
      (ExposureColorCorrect.chooseAnchor (d0 :: rest) ≠ 0 →
        ∃ (k : Nat) (x : ℚ), ExposureColorCorrect.chooseAnchor (d0 :: rest) = (k : Int) + 1 ∧
          rest[k]? = some x ∧ x < ((truncToInt d0 : Int) : ℚ) ∧
          ∀ (j : Nat) (y : ℚ), k < j → rest[j]? = some y →
            ¬ y < ((truncToInt x : Int) : ℚ))) ∧
    (∀ diff : List ℚ, (∀ d ∈ diff, 0 ≤ d) → diff.headD 0 < 1 →
      ExposureColorCorrect.chooseAnchor diff = 0) := by
  have hgen : ∀ diff : List ℚ, (∀ d ∈ diff, 0 ≤ d) → diff.headD 0 < 1 →
      ExposureColorCorrect.chooseAnchor diff = 0 := by
    intro diff hnn hlt
    unfold ExposureColorCorrect.chooseAnchor
    have h0 : (0 : ℚ) ≤ diff.headD 0 := by
      cases diff with
      | nil => simp
      | cons d rest => exact hnn d (List.mem_cons_self d rest)
    have ht : truncToInt (diff.headD 0) = 0 := by
      rw [truncToInt_of_nonneg h0, Int.floor_eq_iff]
      constructor
      · simpa using h0
      · simpa using hlt
    rw [ht, anchorLoop_zero diff hnn]
  have hspec : ∀ (d0 : ℚ) (rest : List ℚ),
      (ExposureColorCorrect.chooseAnchor (d0 :: rest) = 0 ∧
        ∀ d ∈ rest, ¬ d < ((truncToInt d0 : Int) : ℚ)) ∨
      (∃ (k : Nat) (x : ℚ), ExposureColorCorrect.chooseAnchor (d0 :: rest) = (k : Int) + 1 ∧
        rest[k]? = some x ∧ x < ((truncToInt d0 : Int) : ℚ) ∧
        ∀ (j : Nat) (y : ℚ), k < j → rest[j]? = some y →
          ¬ y < ((truncToInt x : Int) : ℚ)) := by
    intro d0 rest
    rw [chooseAnchor_cons]
    rcases anchorLoop_spec rest 1 0 (truncToInt d0) with ⟨heq, hno⟩ | ⟨j, x, hx, heq, hlt, hlater⟩
    · left
      rw [heq]
      exact ⟨rfl, hno⟩
    · right
      refine ⟨j, x, ?_, hx, hlt, hlater⟩
      rw [heq]
      show (1 : Int) + (j : Int) = (j : Int) + 1
      ring
  have hval : ∀ (d0 : ℚ) (rest : List ℚ) (t : Int) (k : Int), truncToInt d0 = t →
      (ExposureColorCorrect.anchorLoop rest 1 (0, t)).1 = k →
      ExposureColorCorrect.chooseAnchor (d0 :: rest) = k := by
    intro d0 rest t k ht hk
    rw [chooseAnchor_cons, ht, hk]
  have ht52 : truncToInt (5 / 2 : ℚ) = 2 := by
    rw [truncToInt_of_nonneg (by norm_num), Int.floor_eq_iff]
    constructor <;> norm_num
  have ht32 : truncToInt (3 / 2 : ℚ) = 1 := by
    rw [truncToInt_of_nonneg (by norm_num), Int.floor_eq_iff]
    constructor <;> norm_num
  refine ⟨?_, by norm_num, ?_, ⟨?_, by norm_num⟩, ?_, ?_, hgen⟩
  · apply hgen
    · intro d hd
      simp only [List.mem_cons, List.mem_singleton, List.not_mem_nil, or_false] at hd
      rcases hd with rfl | rfl <;> norm_num
    · norm_num
  · apply hval _ _ 2 1 ht52
    unfold ExposureColorCorrect.anchorLoop
    rw [if_pos (by norm_num)]
    rfl
  · apply hval _ _ 2 1 ht52
    unfold ExposureColorCorrect.anchorLoop
    rw [if_pos (by norm_num), ht32]
    unfold ExposureColorCorrect.anchorLoop
    rw [if_neg (by norm_num)]
    rfl
  · intro d rest i anchorIndex minDiff
    conv_lhs => unfold ExposureColorCorrect.anchorLoop
    simp only [gt_iff_lt]
    split <;> rfl
  · intro d0 rest
    refine ⟨rfl, ?_, ?_⟩
    · constructor
      · intro h0
        rcases hspec d0 rest with ⟨_, hno⟩ | ⟨k, x, hk, _⟩
        · exact hno
        · rw [h0] at hk
          omega
      · intro hno
        rcases hspec d0 rest with ⟨h0, _⟩ | ⟨k, x, _, hx, hlt, _⟩
        · exact h0
        · exact absurd hlt (hno x (List.getElem?_mem hx))
    · intro hne
      rcases hspec d0 rest with ⟨h0, _⟩ | h
      · exact absurd h0 hne
      · exact h

/-- An instance of C27: for `diff = [0.9, 0.5, 0.3]` the anchor is image 0, and for
`diff = [2.5, 0.5]`, where 0.5 is below the truncation 2 of 2.5, it is not. -/
theorem C27_anchor_witness :
    ExposureColorCorrect.chooseAnchor [9 / 10, 1 / 2, 3 / 10] = 0 ∧
    ExposureColorCorrect.chooseAnchor [5 / 2, 1 / 2] ≠ 0 :=
  ⟨C27_anchor_uses_truncated_minimum.2.2.2.2.2.2 [9 / 10, 1 / 2, 3 / 10]
    (by
      intro d hd
      simp only [List.mem_cons, List.mem_singleton, List.not_mem_nil, or_false] at hd
      rcases hd with rfl | rfl | rfl <;> norm_num)
    (by norm_num),
   fun h => ((C27_anchor_uses_truncated_minimum.2.2.2.2.2.1 (5 / 2) [1 / 2]).2.1.mp h)
    (1 / 2) (List.mem_singleton.mpr rfl) (by
      have ht : truncToInt (5 / 2 : ℚ) = 2 := by
        rw [truncToInt_of_nonneg (by norm_num), Int.floor_eq_iff]
        constructor <;> norm_num
      rw [ht]
      norm_num)⟩

/-! ## C28: the seam setters of `BlendConfig` -/

/-- C28: `setSeamSkip` sets `seamMode` to `SEAM_SKIP`, `setSeamDistanceTransform` sets
it to `SEAM_DISTANCE_TRANSFORM`, and `setSeamGraphCut` assigns the four graph-cut
parameters and nothing else, so that after `setSeamSkip()` followed by
`setSeamGraphCut(...)` the seam mode is still `SEAM_SKIP`, which is not
`SEAM_GRAPH_CUT`. -/
theorem C28_seam_graph_cut_keeps_mode (c : BlendConfig) (pad scale refine : Int) (ratio : ℚ) :
    c.setSeamSkip = { c with seamMode := BlendConfig.SEAM_SKIP } ∧
    c.setSeamDistanceTransform = { c with seamMode := BlendConfig.SEAM_DISTANCE_TRANSFORM } ∧
    c.setSeamGraphCut pad scale refine ratio =
      { seamMode := c.seamMode, blendMode := c.blendMode,
        radiusForLinear := c.radiusForLinear,
        maxLevelsForMultiBand := c.maxLevelsForMultiBand,
        minLengthForMultiBand := c.minLengthForMultiBand,
        padForGraphCut := pad, scaleForGraphCut := scale, refineForGraphCut := refine,
        ratioForGraphCut := ratio } ∧
    (c.setSeamSkip.setSeamGraphCut pad scale refine ratio).seamMode = BlendConfig.SEAM_SKIP ∧
    (BlendConfig.new.setSeamSkip.setSeamGraphCut pad scale refine ratio).seamMode ≠
      BlendConfig.SEAM_GRAPH_CUT :=
  ⟨rfl, rfl, rfl, rfl, by
    show BlendConfig.SEAM_SKIP ≠ BlendConfig.SEAM_GRAPH_CUT
    decide⟩

/-! ## C29: the layout of the tiled preview -/

/-- C29, as stated, fails for inputs on which an `int` computation of `init`
overflows. With 4473925 images `numImages * showWidth` exceeds the `int` range and
`tileWidth` comes out negative, so tile 0 does not end inside it; with five images of
a 1 x 2236963 source `rows * showHeight` exceeds the range and `tileHeight` comes out
negative, so tile 0 does not end inside it either. -/
theorem C29_tiles_overflow_counterexample :
    (1 ≤ (4473925 : Int) ∧
      ∃ r ∈ (ShowTiledImages.new.init 480 480 4473925).2.locations,
        ¬ r.inside (ShowTiledImages.new.init 480 480 4473925).2.tileWidth
          (ShowTiledImages.new.init 480 480 4473925).2.tileHeight) ∧
    (∃ r ∈ (ShowTiledImages.new.init 1 2236963 5).2.locations,
        ¬ r.inside (ShowTiledImages.new.init 1 2236963 5).2.tileWidth
          (ShowTiledImages.new.init 1 2236963 5).2.tileHeight) := by
  refine ⟨⟨by norm_num, ?_⟩, ?_⟩
  · refine ⟨_, ShowTiledImages.init_first_tile ShowTiledImages.new 480 480 4473925
      (by decide), ?_⟩
    intro h
    have h2 := h.2.1
    rw [(ShowTiledImages.init_tile_size ShowTiledImages.new 480 480 4473925).1] at h2
    exact absurd h2 (by decide)
  · refine ⟨_, ShowTiledImages.init_first_tile ShowTiledImages.new 1 2236963 5
      (by decide), ?_⟩
    intro h
    have h4 := h.2.2.2
    rw [(ShowTiledImages.init_tile_size ShowTiledImages.new 1 2236963 5).2.1,
      ShowTiledImages.showHeight_tall] at h4
    exact absurd h4 (by decide)

/-- C29 (amended): `init` lays the tiles out inside the tile image whenever its `int`
computations do not overflow. For `numImages >= 1` and positive source width and
height with `480 * numImages + 1919` and `rows * showHeight` inside the `int` range
(`rows` the number of tile rows, `showHeight` the value computed at line 17), there
is one rectangle per image, every rectangle is 480 wide and `showHeight` high and
satisfies `0 <= x`, `x + 480 <= tileWidth`, `0 <= y` and `y + showHeight <=
tileHeight`, and when `showHeight > 0` two rectangles with different indices do not
overlap. -/
theorem C29_tiles_inside_without_overflow (s : ShowTiledImages) (width height numImages : Int)
    (hw : 0 < width) (hh : 0 < height) (hn : 1 ≤ numImages)
    (hnum : numImages * 480 + 1919 < 2147483648)
    (hrows : (numImages * 480 + 1919) / 1920 *
      truncToInt (ShowTiledImages.showHeightValue width height 480) < 2147483648) :
    (s.init width height numImages).2.locations.length = numImages.toNat ∧
    (∀ r ∈ (s.init width height numImages).2.locations,
      r.width = 480 ∧ r.height = (s.init width height numImages).2.showHeight ∧
        0 ≤ r.x ∧ r.x + 480 ≤ (s.init width height numImages).2.tileWidth ∧
        0 ≤ r.y ∧
        r.y + (s.init width height numImages).2.showHeight
          ≤ (s.init width height numImages).2.tileHeight ∧
        r.inside (s.init width height numImages).2.tileWidth
          (s.init width height numImages).2.tileHeight) ∧
    (0 < (s.init width height numImages).2.showHeight →
      ∀ (i j : Nat) (a b : Rect),
        (s.init width height numImages).2.locations[i]? = some a →
        (s.init width height numImages).2.locations[j]? = some b →
        i ≠ j → ¬ a.overlaps b) := by
  obtain ⟨hsh0, e1, e2, e3, e4⟩ :=
    ShowTiledImages.init_layout s width height numImages hw hh hn hnum hrows
  rw [e1, e2, e3, e4]
  generalize truncToInt (ShowTiledImages.showHeightValue width height 480) = sh at hrows hsh0 ⊢
  refine ⟨by simp, ?_, ?_⟩
  · intro r hr
    obtain ⟨i, hi, rfl⟩ := List.mem_map.mp hr
    rw [List.mem_range] at hi
    have hi2 : (i : Int) < numImages := by omega
    have hx0 : 0 ≤ ((i : Int) % 4) * 480 := by omega
    have hx1 : ((i : Int) % 4) * 480 + 480 ≤ (if numImages ≤ 4 then numImages * 480 else 1920) := by
      split_ifs <;> omega
    have hy0 : 0 ≤ ((i : Int) / 4) * sh := mul_nonneg (by omega) hsh0
    have hy1 : ((i : Int) / 4) * sh + sh ≤ (numImages * 480 + 1919) / 1920 * sh := by
      have h1 : (i : Int) / 4 + 1 ≤ (numImages * 480 + 1919) / 1920 := by omega
      have h2 := mul_le_mul_of_nonneg_right h1 hsh0
      have h3 : ((i : Int) / 4 + 1) * sh = ((i : Int) / 4) * sh + sh := by ring
      rw [h3] at h2
      exact h2
    exact ⟨rfl, rfl, hx0, hx1, hy0, hy1, hx0, hx1, hy0, hy1⟩
  · intro hpos i j a b ha hb hij hov
    rw [List.getElem?_map] at ha hb
    have hi : i < numImages.toNat := by
      by_contra hge
      rw [List.getElem?_eq_none (by simpa using hge)] at ha
      exact absurd ha (by simp)
    have hj : j < numImages.toNat := by
      by_contra hge
      rw [List.getElem?_eq_none (by simpa using hge)] at hb
      exact absurd hb (by simp)
    rw [List.getElem?_range hi] at ha
    rw [List.getElem?_range hj] at hb
    simp only [Option.map_some', Option.some.injEq] at ha hb
    subst ha
    subst hb
    obtain ⟨h1, h2, h3, h4⟩ := hov
    simp only at h1 h2 h3 h4
    by_cases hmod : (i : Int) % 4 = (j : Int) % 4
    · have hdiv : (i : Int) / 4 ≠ (j : Int) / 4 := by omega
      rcases lt_or_gt_of_ne hdiv with hlt | hgt
      · have h5 : (i : Int) / 4 + 1 ≤ (j : Int) / 4 := by omega
        have h6 := mul_le_mul_of_nonneg_right h5 hsh0
        have h7 : ((i : Int) / 4 + 1) * sh = ((i : Int) / 4) * sh + sh := by ring
        rw [h7] at h6
        omega
      · have h5 : (j : Int) / 4 + 1 ≤ (i : Int) / 4 := by omega
        have h6 := mul_le_mul_of_nonneg_right h5 hsh0
        have h7 : ((j : Int) / 4 + 1) * sh = ((j : Int) / 4) * sh + sh := by ring
        rw [h7] at h6
        omega
    · omega

/-- An instance of C29: the call `init(2560, 1440, 2)` of the driver gives two tiles
inside a tile image that is 960 wide. -/
theorem C29_tiles_inside_witness :
    (ShowTiledImages.new.init 2560 1440 2).2.tileWidth = 960 ∧
    (ShowTiledImages.new.init 2560 1440 2).2.locations.length = 2 ∧
    (∀ r ∈ (ShowTiledImages.new.init 2560 1440 2).2.locations,
      r.inside (ShowTiledImages.new.init 2560 1440 2).2.tileWidth
        (ShowTiledImages.new.init 2560 1440 2).2.tileHeight) :=
  have h := C29_tiles_inside_without_overflow ShowTiledImages.new 2560 1440 2
    (by decide) (by decide) (by decide) (by decide)
    (by rw [ShowTiledImages.showHeight_sample]; decide)
  ⟨by decide, h.1, fun r hr => (h.2.1 r hr).2.2.2.2.2.2⟩

/-! ## C30: the encoder presets of the live-stream driver -/

/-- C30: the driver replaces every preset by `"veryfast"`: for every string, each of
the nine recognised names included, the condition of the `if` holds, so the stream
and the file preset handed to the task are `"veryfast"`. -/
theorem C30_preset_is_always_veryfast (preset : String) :
    streamEncodePreset preset = "veryfast" ∧ fileEncodePreset preset = "veryfast" ∧
    (∀ name ∈ presetNames,
      streamEncodePreset name = "veryfast" ∧ fileEncodePreset name = "veryfast") := by
  have hcond : ∀ p : String,
      p ≠ "ultrafast" ∨ p ≠ "superfast" ∨ p ≠ "veryfast" ∨ p ≠ "faster" ∨ p ≠ "fast" ∨
        p ≠ "medium" ∨ p ≠ "slow" ∨ p ≠ "slower" ∨ p ≠ "veryslow" := by
    intro p
    by_cases h : p = "ultrafast"
    · right
      left
      rw [h]
      decide
    · left
      exact h
  have hs : ∀ p : String, streamEncodePreset p = "veryfast" := by
    intro p
    unfold streamEncodePreset
    rw [if_pos (hcond p)]
  have hf : ∀ p : String, fileEncodePreset p = "veryfast" := by
    intro p
    unfold fileEncodePreset
    rw [if_pos (hcond p)]
  exact ⟨hs preset, hf preset, fun name _ => ⟨hs name, hf name⟩⟩

/-- An instance of C30: the recognised presets `medium` and `slow` are replaced. -/
theorem C30_preset_witness :
    streamEncodePreset "medium" = "veryfast" ∧ fileEncodePreset "slow" = "veryfast" :=
  ⟨(C30_preset_is_always_veryfast "medium").1,
   ((C30_preset_is_always_veryfast "medium").2.2 "slow" (by decide)).2⟩

end PanoSticher
